import Mathlib

/-!
# safe_print: a shallow embedding of the format engine of `src/safe_print.h`

The definitions below follow the non-debug build of the header
(`SAFE_PRINT_DEBUG` undefined, default integer conversion, default `FILE` sink).

Conventions of the embedding

* A C string is the list of its characters; the terminating NUL is implicit
  at the end of the list, and a NUL inside the list terminates the string
  there, as it does in C.
* `sp_s32` values are integers kept in range with `wrapS32` (two's complement
  wrap-around on overflow and on narrowing conversions), `sp_u64` and
  `size_t` values are naturals reduced with `wrapU64`.
* A scratch buffer filled from its end is the list of the characters written
  so far; its capacity appears only where the source tests it.
* The sink is a `FILE` that accepts characters until an optional capacity is
  reached and fails afterwards.
* `safe_print_convert_double_to_string` is the customisation point
  `SAFE_PRINT_USE_OWN_FLOAT_CONVERSION` of the header: the engine takes it as
  an argument `cvt`.
* The variadic capture loop of `safe_print_implementation` is represented by
  its result, the list of captured arguments (`context.args`).
-/

namespace SafePrint

/-! ## Machine integers -/

/-- The value of an integer stored in an `sp_s32`. -/
def wrapS32 (x : Int) : Int := (x + 2147483648) % 4294967296 - 2147483648

/-- The value of an integer converted to `sp_u64` (or `size_t`). -/
def wrapU64 (x : Int) : Nat := (x % 18446744073709551616).toNat

/-! ## Constants and data model -/

/-- The terminator of a C string. -/
def NUL : Char := Char.ofNat 0

def SP_ERROR_TOO_MANY_ARGUMENTS : Int := -1
def SP_ERROR_POSITIONAL_ARG_OUT_OF_RANGE : Int := -2
def SP_ERROR_UNKNOWN_FORMAT_SPECIFIER : Int := -3
def SP_ERROR_MISSING_BRACE : Int := -4

/-- The constant `sp_true`. -/
def sp_true : Int := 1

/-- An entry of `context.args`: the tag (`SAFE_PRINT_I32` ... `SAFE_PRINT_PTR`)
together with the member of the union that the capture loop stored. -/
inductive SafePrintFormatArg where
  | SAFE_PRINT_I32 (s32 : Int)
  | SAFE_PRINT_U32 (u32 : Nat)
  | SAFE_PRINT_I64 (s64 : Int)
  | SAFE_PRINT_U64 (u64 : Nat)
  | SAFE_PRINT_R64 (r64 : Nat)
  | SAFE_PRINT_STR (str : List Char)
  | SAFE_PRINT_PTR (ptr : Nat)
  deriving DecidableEq, Repr

/-- The alignment enum `SP_FI_ALIGN_*`. -/
inductive SafePrintAlignment where
  | SP_FI_ALIGN_DEFAULT
  | SP_FI_ALIGN_LEFT
  | SP_FI_ALIGN_RIGHT
  deriving DecidableEq, Repr

/-- The case enum `SP_FI_*_CASE`. -/
inductive SafePrintCharCase where
  | SP_FI_DEFAULT_CASE
  | SP_FI_LOWER_CASE
  | SP_FI_UPPER_CASE
  deriving DecidableEq, Repr

structure SafePrintFormatInfo where
  arg_index : Int
  min : Int
  max : Int
  precision : Int
  base : Int
  alignment : SafePrintAlignment
  scientific : Bool
  sign : Bool
  char_case : SafePrintCharCase
  fill : Char
  deriving DecidableEq, Repr

/-- A string reference: `data` holds the characters from the pointer to the
end of the object it points into, `length` is the `int` length field. -/
structure SafePrintStringRef where
  data : List Char
  length : Int
  deriving DecidableEq, Repr

/-- The sink behind `SafePrintFileType`: the characters it has received and,
when present, the total number of characters it accepts before writes fail. -/
structure SafePrintFileType where
  content : List Char
  capacity : Option Nat
  deriving DecidableEq, Repr

/-- An empty sink that accepts every write. -/
def SafePrintStdOut : SafePrintFileType := ⟨[], none⟩

structure SafePrintContext where
  fmt_start : List Char
  fmt : List Char
  file : SafePrintFileType
  written : Int
  error : Int
  current_index : Int
  args : List SafePrintFormatArg
  deriving DecidableEq, Repr

/-- The field `arg_count`, the number of captured arguments. -/
def SafePrintContext.arg_count (context : SafePrintContext) : Int := context.args.length

/-! ## Small helpers -/

/-- Length of the C string stored in `str`, as an `sp_s64`. -/
def safe_print_cstring_length : List Char → Int
  | [] => 0
  | c :: str => if c = NUL then 0 else safe_print_cstring_length str + 1

def safe_print_to_lower (c : Char) : Char :=
  if 'A' ≤ c ∧ c ≤ 'Z' then Char.ofNat (c.toNat + 32) else c

def safe_print_to_upper (c : Char) : Char :=
  if 'a' ≤ c ∧ c ≤ 'z' then Char.ofNat (c.toNat - 32) else c

/-- Equality of a token's text with a keyword of the given length. -/
def safe_print_compare_string (token : List Char) (str : List Char) : Bool :=
  decide (token = str)

/-! ## Integer conversion -/

/-- The table `SafePrintCharacterLookup`. -/
def SafePrintCharacterLookup : List Char :=
  "0123456789abcdefghijklmnopqrstuvwxyz".toList

/-- The table `SafePrintCharacterLookupUppercase`. -/
def SafePrintCharacterLookupUppercase : List Char :=
  "0123456789ABCDEFGHIJKLMNOPQRSTUVWXYZ".toList

/-- Reading `lookup[rem]`; entry 36 is the terminator of the table. -/
def safe_print_lookup (lookup : List Char) (rem : Nat) : Char := lookup.getD rem NUL

/-- The loop `do { ... } while (number && written < size)` shared by the two
integer conversions. The first argument is `size - written - 1`, the number of
further iterations the buffer bound still allows after the current one; the
last argument is the part of the buffer already filled. -/
def safe_print_convert_digits (lookup : List Char) (base : Nat) :
    Nat → Nat → List Char → List Char
  | 0, number, buffer => safe_print_lookup lookup (number % base) :: buffer
  | room + 1, number, buffer =>
    if number / base = 0 then safe_print_lookup lookup (number % base) :: buffer
    else safe_print_convert_digits lookup base room (number / base)
      (safe_print_lookup lookup (number % base) :: buffer)

def safe_print_convert_signed_to_string (size : Nat) (signed_number : Int) (base : Int)
    (uppercase : Bool) (keep_sign : Bool) : SafePrintStringRef :=
  let is_negative : Bool := decide (signed_number < 0)
  let number : Nat := if signed_number < 0 then wrapU64 (-signed_number) else wrapU64 signed_number
  let lookup := if uppercase then SafePrintCharacterLookupUppercase else SafePrintCharacterLookup
  let digits := safe_print_convert_digits lookup (wrapU64 base) (size - 1) number []
  if is_negative || keep_sign then
    ⟨(if is_negative then '-' else '+') :: digits, (digits.length : Int) + 1⟩
  else
    ⟨digits, digits.length⟩

def safe_print_convert_unsigned_to_string (size : Nat) (number : Nat) (base : Int)
    (uppercase : Bool) : SafePrintStringRef :=
  let lookup := if uppercase then SafePrintCharacterLookupUppercase else SafePrintCharacterLookup
  let digits := safe_print_convert_digits lookup (wrapU64 base) (size - 1) number []
  ⟨digits, digits.length⟩

/-- The macro `SAFE_PRINT_BASE`. -/
def SAFE_PRINT_BASE (value : Int) : Int := if value ≠ 0 then value else 10

/-! ## The sink -/

/-- How many of `n` characters the sink still accepts. -/
def SafePrintFileType.accepts (file : SafePrintFileType) (n : Nat) : Nat :=
  match file.capacity with
  | none => n
  | some capacity => Nat.min n (capacity - file.content.length)

def safe_print_output_character (context : SafePrintContext) (c : Char) : SafePrintContext :=
  if context.file.accepts 1 = 0 then
    { context with error := sp_true }
  else
    { context with
      file := { context.file with content := context.file.content ++ [c] }
      written := wrapS32 (context.written + 1) }

/-- The call `fwrite(str, 1, length, file)`: the characters the sink takes and
the sink afterwards. No more characters are taken than `str` holds. -/
def SafePrintFileType.fwrite (file : SafePrintFileType) (str : List Char) (length : Nat) :
    List Char × SafePrintFileType :=
  (str.take (file.accepts length),
    { file with content := file.content ++ str.take (file.accepts length) })

def safe_print_output_string (context : SafePrintContext) (str : List Char) (length : Nat) :
    SafePrintContext :=
  let written : Nat := (context.file.fwrite str length).1.length
  let context1 : SafePrintContext :=
    { context with
      file := (context.file.fwrite str length).2
      written := wrapS32 (context.written + written) }
  if written ≠ length then { context1 with error := sp_true } else context1

/-! ## Rendering -/

/-- The loop `while (space) { safe_print_output_character(context, fill); space -= 1; }`. -/
def safe_print_output_fill (fill : Char) : Nat → SafePrintContext → SafePrintContext
  | 0, context => context
  | space + 1, context => safe_print_output_fill fill space (safe_print_output_character context fill)

def safe_print_apply_format_info (context : SafePrintContext) (str : SafePrintStringRef)
    (info : SafePrintFormatInfo) (default_fill : Char) : SafePrintContext :=
  let space : Int := if str.length < info.min then wrapS32 (info.min - str.length) else 0
  let length : Int := if info.max ≠ 0 ∧ str.length > info.max then info.max else str.length
  let align := if info.alignment = .SP_FI_ALIGN_DEFAULT then .SP_FI_ALIGN_RIGHT else info.alignment
  let fill := if info.fill ≠ NUL then info.fill else default_fill
  let context1 :=
    if align = .SP_FI_ALIGN_RIGHT then
      safe_print_output_fill fill (space % 4294967296).toNat context
    else context
  let context2 := safe_print_output_string context1 str.data (wrapU64 length)
  if align = .SP_FI_ALIGN_LEFT then
    safe_print_output_fill fill (space % 4294967296).toNat context2
  else context2

/-- The loops `for (i = 0; i < str.length; i += 1) safe_print_output_character(context, f(str.data[i]))`. -/
def safe_print_output_mapped (f : Char → Char) : List Char → SafePrintContext → SafePrintContext
  | [], context => context
  | c :: str, context => safe_print_output_mapped f str (safe_print_output_character context (f c))

def safe_print_apply_format_info_to_string (context : SafePrintContext) (str : SafePrintStringRef)
    (info : SafePrintFormatInfo) (default_fill : Char) : SafePrintContext :=
  let space : Int := if str.length < info.min then wrapS32 (info.min - str.length) else 0
  let length : Int := if info.max ≠ 0 ∧ str.length > info.max then info.max else str.length
  let align := if info.alignment = .SP_FI_ALIGN_DEFAULT then .SP_FI_ALIGN_LEFT else info.alignment
  let fill := if info.fill ≠ NUL then info.fill else default_fill
  let context1 :=
    if align = .SP_FI_ALIGN_RIGHT then
      safe_print_output_fill fill (space % 4294967296).toNat context
    else context
  let context2 :=
    if info.char_case = .SP_FI_UPPER_CASE then
      safe_print_output_mapped safe_print_to_upper (str.data.take length.toNat) context1
    else if info.char_case = .SP_FI_LOWER_CASE then
      safe_print_output_mapped safe_print_to_lower (str.data.take length.toNat) context1
    else
      safe_print_output_string context1 str.data (wrapU64 length)
  if align = .SP_FI_ALIGN_LEFT then
    safe_print_output_fill fill (space % 4294967296).toNat context2
  else context2

/-- The signature of `safe_print_convert_double_to_string` without its buffer:
size, the bit pattern of the number, precision, scientific, hex, uppercase,
keep_sign. -/
abbrev SafePrintDoubleConversion :=
  Nat → Nat → Int → Bool → Bool → Bool → Bool → SafePrintStringRef

/-- Rendering of the argument selected by `info.arg_index`. The 32-bit kinds
read their member as stored; the pointer case reads `arg->s32`, the low 32
bits of the stored pointer on a little-endian target. An index outside the
captured arguments leaves the context unchanged (the parser never hands one
over). -/
def safe_print_format_arg (cvt : SafePrintDoubleConversion) (context : SafePrintContext)
    (info : SafePrintFormatInfo) : SafePrintContext :=
  if info.arg_index < 0 then context else
  match context.args.get? info.arg_index.toNat with
  | none => context
  | some (.SAFE_PRINT_I32 s32) =>
    safe_print_apply_format_info context
      (safe_print_convert_signed_to_string 128 s32 (SAFE_PRINT_BASE info.base)
        (decide (info.char_case = .SP_FI_UPPER_CASE)) info.sign) info '0'
  | some (.SAFE_PRINT_U32 u32) =>
    safe_print_apply_format_info context
      (safe_print_convert_unsigned_to_string 128 u32 (SAFE_PRINT_BASE info.base)
        (decide (info.char_case = .SP_FI_UPPER_CASE))) info '0'
  | some (.SAFE_PRINT_I64 s64) =>
    safe_print_apply_format_info context
      (safe_print_convert_signed_to_string 128 s64 (SAFE_PRINT_BASE info.base)
        (decide (info.char_case = .SP_FI_UPPER_CASE)) info.sign) info '0'
  | some (.SAFE_PRINT_U64 u64) =>
    safe_print_apply_format_info context
      (safe_print_convert_unsigned_to_string 128 u64 (SAFE_PRINT_BASE info.base)
        (decide (info.char_case = .SP_FI_UPPER_CASE))) info '0'
  | some (.SAFE_PRINT_R64 r64) =>
    safe_print_apply_format_info context
      (cvt 512 r64 (if info.precision ≠ 0 then info.precision else 6) info.scientific
        (decide (info.base = 16)) (decide (info.char_case = .SP_FI_UPPER_CASE)) info.sign) info '0'
  | some (.SAFE_PRINT_STR str) =>
    safe_print_apply_format_info_to_string context
      ⟨str, wrapS32 (safe_print_cstring_length str)⟩ info ' '
  | some (.SAFE_PRINT_PTR ptr) =>
    safe_print_apply_format_info context
      (safe_print_convert_signed_to_string 128 (wrapS32 ptr) 16 true false) info '0'

/-! ## Tokenizer -/

def safe_print_is_digit (c : Char) : Bool := decide ('0' ≤ c) && decide (c ≤ '9')

def safe_print_is_letter (c : Char) : Bool :=
  (decide ('a' ≤ c) && decide (c ≤ 'z')) || (decide ('A' ≤ c) && decide (c ≤ 'Z'))

def safe_print_report_error (context : SafePrintContext) (kind : Int) : SafePrintContext :=
  { context with error := wrapS32 (kind % 4294967296) }

/-- The token kinds `SP_FT_*`. -/
inductive SafePrintTokenKind where
  | SP_FT_UNKOWN
  | SP_FT_END_OF_INPUT
  | SP_FT_NUMBER
  | SP_FT_STRING
  | SP_FT_KEYWORD_MIN
  | SP_FT_KEYWORD_MAX
  | SP_FT_KEYWORD_LEFT
  | SP_FT_KEYWORD_RIGHT
  | SP_FT_KEYWORD_FILL
  | SP_FT_KEYWORD_PREC
  | SP_FT_KEYWORD_BASE
  | SP_FT_KEYWORD_SCI
  | SP_FT_KEYWORD_SIGN
  | SP_FT_KEYWORD_UPPER
  | SP_FT_KEYWORD_LOWER
  | SP_FT_BASE_BIN
  | SP_FT_BASE_OCT
  | SP_FT_BASE_DEC
  | SP_FT_BASE_HEX
  | SP_FT_SEPERATOR
  | SP_FT_OPENING_PAREN
  | SP_FT_CLOSING_PAREN
  | SP_FT_OPENING_BRACE
  | SP_FT_CLOSING_BRACE
  deriving DecidableEq, Repr

/-- A token. The union of the source holds either `number` or `string`: a token
made of letters has `string` set (and `is_string` true), every other token has
`number` set, to zero unless it is a numeric literal. -/
structure SafePrintFormatToken where
  kind : SafePrintTokenKind
  number : Int
  string : List Char
  is_string : Bool
  deriving DecidableEq, Repr

/-- The loop over the digits of a numeric literal:
`token.number *= 10; token.number += context->fmt[0] - '0'; context->fmt += 1`. -/
def safe_print_next_token_number : List Char → Int → Int × List Char
  | [], number => (number, [])
  | c :: fmt, number =>
    if safe_print_is_digit c then
      safe_print_next_token_number fmt (wrapS32 (wrapS32 (number * 10) + ((c.toNat : Int) - 48)))
    else (number, c :: fmt)

/-- The loop over a run of letters: the run and the text after it. -/
def safe_print_next_token_letters : List Char → List Char × List Char
  | [] => ([], [])
  | c :: fmt =>
    if safe_print_is_letter c then
      ((c :: (safe_print_next_token_letters fmt).1), (safe_print_next_token_letters fmt).2)
    else ([], c :: fmt)

/-- The `switch (str[0])` that classifies a run of letters. -/
def safe_print_next_token_keyword (str : List Char) : SafePrintTokenKind :=
  match str.headD NUL with
  | 'm' =>
    if str = ['m', 'i', 'n'] then .SP_FT_KEYWORD_MIN
    else if str = ['m', 'a', 'x'] then .SP_FT_KEYWORD_MAX
    else .SP_FT_STRING
  | 'f' =>
    if safe_print_compare_string str ['f', 'i', 'l', 'l'] then .SP_FT_KEYWORD_FILL
    else .SP_FT_STRING
  | 'p' =>
    if safe_print_compare_string str ['p', 'r', 'e', 'c', 'i', 's', 'i', 'o', 'n'] then
      .SP_FT_KEYWORD_PREC
    else .SP_FT_STRING
  | 'b' =>
    if str = ['b', 'i', 'n'] then .SP_FT_BASE_BIN
    else if str = ['b', 'a', 's', 'e'] then .SP_FT_KEYWORD_BASE
    else .SP_FT_STRING
  | 'o' => if str = ['o', 'c', 't'] then .SP_FT_BASE_OCT else .SP_FT_STRING
  | 'd' => if str = ['d', 'e', 'c'] then .SP_FT_BASE_DEC else .SP_FT_STRING
  | 'h' => if str = ['h', 'e', 'x'] then .SP_FT_BASE_HEX else .SP_FT_STRING
  | 'l' =>
    if str = ['l', 'e', 'f', 't'] then .SP_FT_KEYWORD_LEFT
    else if safe_print_compare_string str ['l', 'o', 'w', 'e', 'r'] then .SP_FT_KEYWORD_LOWER
    else .SP_FT_STRING
  | 'u' =>
    if safe_print_compare_string str ['u', 'p', 'p', 'e', 'r'] then .SP_FT_KEYWORD_UPPER
    else .SP_FT_STRING
  | 'r' =>
    if safe_print_compare_string str ['r', 'i', 'g', 'h', 't'] then .SP_FT_KEYWORD_RIGHT
    else .SP_FT_STRING
  | 's' =>
    if str = ['s', 'c', 'i'] then .SP_FT_KEYWORD_SCI
    else if str = ['s', 'i', 'g', 'n'] then .SP_FT_KEYWORD_SIGN
    else .SP_FT_STRING
  | _ => .SP_FT_STRING

/-- The body of `safe_print_next_token` on the cursor: the token and the
advanced cursor. The loop `while (context->fmt[0])` ends at the terminator,
where the token kind is `SP_FT_UNKOWN`; the `case 0` of the switch is never
entered. -/
def safe_print_next_token_at : List Char → SafePrintFormatToken × List Char
  | [] => (⟨.SP_FT_UNKOWN, 0, [], false⟩, [])
  | c :: fmt =>
    if c = NUL then (⟨.SP_FT_UNKOWN, 0, [], false⟩, c :: fmt)
    else if c = '{' then (⟨.SP_FT_OPENING_BRACE, 0, [], false⟩, fmt)
    else if c = '}' then (⟨.SP_FT_CLOSING_BRACE, 0, [], false⟩, fmt)
    else if c = '(' then (⟨.SP_FT_OPENING_PAREN, 0, [], false⟩, fmt)
    else if c = ')' then (⟨.SP_FT_CLOSING_PAREN, 0, [], false⟩, fmt)
    else if c = ' ' ∨ c = '\n' ∨ c = '\r' ∨ c = '\t' then safe_print_next_token_at fmt
    else if safe_print_is_digit c then
      (⟨.SP_FT_NUMBER, (safe_print_next_token_number (c :: fmt) 0).1, [], false⟩,
        (safe_print_next_token_number (c :: fmt) 0).2)
    else if c = ':' then (⟨.SP_FT_SEPERATOR, 0, [], false⟩, fmt)
    else if !safe_print_is_letter c then (⟨.SP_FT_UNKOWN, 0, [], false⟩, fmt)
    else
      (⟨safe_print_next_token_keyword (safe_print_next_token_letters (c :: fmt)).1, 0,
          (safe_print_next_token_letters (c :: fmt)).1, true⟩,
        (safe_print_next_token_letters (c :: fmt)).2)

def safe_print_next_token (context : SafePrintContext) : SafePrintFormatToken × SafePrintContext :=
  ((safe_print_next_token_at context.fmt).1,
    { context with fmt := (safe_print_next_token_at context.fmt).2 })

def safe_print_consume_next_token (context : SafePrintContext) (kind : SafePrintTokenKind) :
    SafePrintFormatToken × SafePrintContext :=
  let token := (safe_print_next_token context).1
  let context1 := (safe_print_next_token context).2
  if token.kind ≠ kind then
    (token, safe_print_report_error context1 SP_ERROR_UNKNOWN_FORMAT_SPECIFIER)
  else (token, context1)

/-- The result of `safe_print_parse_format_function`: the returned flag, the
token stored through `out` (when it was stored) and the context. -/
def safe_print_parse_format_function (context : SafePrintContext) :
    Bool × Option SafePrintFormatToken × SafePrintContext :=
  let opening := (safe_print_next_token context).1
  let context1 := (safe_print_next_token context).2
  if opening.kind ≠ .SP_FT_OPENING_PAREN then
    (false, none, safe_print_report_error context1 SP_ERROR_UNKNOWN_FORMAT_SPECIFIER)
  else
    let out := (safe_print_next_token context1).1
    let context2 := (safe_print_next_token context1).2
    let closing := (safe_print_next_token context2).1
    let context3 := (safe_print_next_token context2).2
    if closing.kind ≠ .SP_FT_CLOSING_PAREN then
      (false, some out, safe_print_report_error context3 SP_ERROR_UNKNOWN_FORMAT_SPECIFIER)
    else (true, some out, context3)

/-! ## Directive parser -/

/-- How a run of the embedding ends: with a result, or at a point where the
C source leaves the behaviour open (the cursor was moved past the terminator
of the template; `token.number` was read from a token whose union holds
`token.string`), or because a loop ran out of the iterations it was given. -/
inductive SafePrintOutcome (α : Type) where
  | done (result : α)
  | past_terminator
  | union_member
  | out_of_fuel
  deriving DecidableEq, Repr

/-- The status `SP_PFS_*` returned by `safe_print_parse_format_specifier`;
`SP_PFS_OK` carries the value stored through `out`. -/
inductive SafePrintParseStatus where
  | SP_PFS_OK (out : SafePrintFormatInfo)
  | SP_PFS_ERROR
  | SP_PFS_ESCAPED_BRACE
  deriving DecidableEq, Repr

/-- A fresh `SafePrintFormatInfo info = {0}; info.arg_index = -1;`. -/
def SafePrintFormatInfo.initial : SafePrintFormatInfo :=
  { arg_index := -1, min := 0, max := 0, precision := 0, base := 0,
    alignment := .SP_FI_ALIGN_DEFAULT, scientific := false, sign := false,
    char_case := .SP_FI_DEFAULT_CASE, fill := NUL }

/-- One pass through the `switch (token.kind)` of the parser loop. The result
`none` stands for `return SP_PFS_ERROR`. -/
def safe_print_parse_format_option (token : SafePrintFormatToken) (context : SafePrintContext)
    (info : SafePrintFormatInfo) :
    SafePrintOutcome (Option SafePrintFormatInfo × SafePrintContext) :=
  match token.kind with
  | .SP_FT_NUMBER =>
    if token.number < 0 ∨ token.number > context.arg_count then
      .done (none, safe_print_report_error context SP_ERROR_POSITIONAL_ARG_OUT_OF_RANGE)
    else .done (some { info with arg_index := token.number - 1 }, context)
  | .SP_FT_KEYWORD_MIN =>
    match safe_print_parse_format_function context with
    | (true, some token1, context1) =>
      if token1.kind ≠ .SP_FT_NUMBER then
        .done (none, safe_print_report_error context1 SP_ERROR_UNKNOWN_FORMAT_SPECIFIER)
      else .done (some { info with min := token1.number }, context1)
    | (_, _, context1) => .done (none, context1)
  | .SP_FT_KEYWORD_MAX =>
    let context1 := (safe_print_consume_next_token context .SP_FT_OPENING_PAREN).2
    let token1 := (safe_print_consume_next_token context1 .SP_FT_NUMBER).1
    let context2 := (safe_print_consume_next_token context1 .SP_FT_NUMBER).2
    if token1.is_string then .union_member
    else
      .done (some { info with max := token1.number },
        (safe_print_consume_next_token context2 .SP_FT_CLOSING_PAREN).2)
  | .SP_FT_KEYWORD_FILL =>
    let context1 := (safe_print_consume_next_token context .SP_FT_OPENING_PAREN).2
    match context1.fmt with
    | [] => .past_terminator
    | c :: fmt =>
      if c = NUL then .past_terminator
      else
        .done (some { info with fill := c },
          (safe_print_consume_next_token { context1 with fmt := fmt } .SP_FT_CLOSING_PAREN).2)
  | .SP_FT_KEYWORD_PREC =>
    let context1 := (safe_print_consume_next_token context .SP_FT_OPENING_PAREN).2
    let token1 := (safe_print_consume_next_token context1 .SP_FT_NUMBER).1
    let context2 := (safe_print_consume_next_token context1 .SP_FT_NUMBER).2
    if token1.is_string then .union_member
    else
      .done (some { info with precision := token1.number },
        (safe_print_consume_next_token context2 .SP_FT_CLOSING_PAREN).2)
  | .SP_FT_KEYWORD_LEFT => .done (some { info with alignment := .SP_FI_ALIGN_LEFT }, context)
  | .SP_FT_KEYWORD_RIGHT => .done (some { info with alignment := .SP_FI_ALIGN_RIGHT }, context)
  | .SP_FT_KEYWORD_BASE =>
    let context1 := (safe_print_consume_next_token context .SP_FT_OPENING_PAREN).2
    let token1 := (safe_print_consume_next_token context1 .SP_FT_NUMBER).1
    let context2 := (safe_print_consume_next_token context1 .SP_FT_NUMBER).2
    if token1.is_string then .union_member
    else
      .done (some { info with base := token1.number },
        (safe_print_consume_next_token context2 .SP_FT_CLOSING_PAREN).2)
  | .SP_FT_KEYWORD_SCI => .done (some { info with scientific := true }, context)
  | .SP_FT_KEYWORD_SIGN => .done (some { info with sign := true }, context)
  | .SP_FT_KEYWORD_LOWER => .done (some { info with char_case := .SP_FI_LOWER_CASE }, context)
  | .SP_FT_KEYWORD_UPPER => .done (some { info with char_case := .SP_FI_UPPER_CASE }, context)
  | .SP_FT_BASE_BIN => .done (some { info with base := 2 }, context)
  | .SP_FT_BASE_OCT => .done (some { info with base := 8 }, context)
  | .SP_FT_BASE_DEC => .done (some { info with base := 10 }, context)
  | .SP_FT_BASE_HEX => .done (some { info with base := 16 }, context)
  | .SP_FT_STRING =>
    .done (none, safe_print_report_error context SP_ERROR_UNKNOWN_FORMAT_SPECIFIER)
  | .SP_FT_END_OF_INPUT =>
    .done (none, safe_print_report_error context SP_ERROR_MISSING_BRACE)
  | .SP_FT_UNKOWN =>
    .done (none, safe_print_report_error context SP_ERROR_UNKNOWN_FORMAT_SPECIFIER)
  | _ => .done (some info, context)

/-- The loop `do { token = next; switch ...; token = next; } while (token.kind == SP_FT_SEPERATOR)`.
The result is `none` for `return SP_PFS_ERROR`, otherwise the token that ended
the loop and the collected info. The first argument bounds the iterations. -/
def safe_print_parse_format_options :
    Nat → SafePrintContext → SafePrintFormatInfo →
    SafePrintOutcome (Option (SafePrintFormatToken × SafePrintFormatInfo) × SafePrintContext)
  | 0, _, _ => .out_of_fuel
  | fuel + 1, context, info =>
    match safe_print_parse_format_option (safe_print_next_token context).1
        (safe_print_next_token context).2 info with
    | .done (none, context1) => .done (none, context1)
    | .done (some info1, context1) =>
      if (safe_print_next_token context1).1.kind = .SP_FT_SEPERATOR then
        safe_print_parse_format_options fuel (safe_print_next_token context1).2 info1
      else
        .done (some ((safe_print_next_token context1).1, info1), (safe_print_next_token context1).2)
    | .past_terminator => .past_terminator
    | .union_member => .union_member
    | .out_of_fuel => .out_of_fuel

/-- The end of `safe_print_parse_format_specifier`, from the test of the
closing brace on. -/
def safe_print_parse_format_close (token : SafePrintFormatToken) (info : SafePrintFormatInfo)
    (context : SafePrintContext) : SafePrintParseStatus × SafePrintContext :=
  if token.kind ≠ .SP_FT_CLOSING_BRACE then
    (.SP_PFS_ERROR, safe_print_report_error context SP_ERROR_MISSING_BRACE)
  else if info.arg_index = -1 then
    if context.current_index = context.arg_count then
      (.SP_PFS_ERROR, safe_print_report_error context SP_ERROR_TOO_MANY_ARGUMENTS)
    else
      (.SP_PFS_OK { info with arg_index := context.current_index },
        { context with current_index := wrapS32 (context.current_index + 1) })
  else (.SP_PFS_OK info, context)

def safe_print_parse_format_specifier (context : SafePrintContext) :
    SafePrintOutcome (SafePrintParseStatus × SafePrintContext) :=
  let opening_brace := (safe_print_next_token context).1
  let context1 := (safe_print_next_token context).2
  if opening_brace.kind ≠ .SP_FT_OPENING_BRACE then
    .done (.SP_PFS_ERROR, safe_print_report_error context1 SP_ERROR_UNKNOWN_FORMAT_SPECIFIER)
  else if context1.fmt.headD NUL = '{' then
    .done (.SP_PFS_ESCAPED_BRACE, { context1 with fmt := context1.fmt.tail })
  else if context1.fmt.headD NUL ≠ '}' then
    match safe_print_parse_format_options (context1.fmt.length + 1) context1
        SafePrintFormatInfo.initial with
    | .done (none, context2) => .done (.SP_PFS_ERROR, context2)
    | .done (some (token, info), context2) =>
      .done (safe_print_parse_format_close token info context2)
    | .past_terminator => .past_terminator
    | .union_member => .union_member
    | .out_of_fuel => .out_of_fuel
  else
    .done (safe_print_parse_format_close (safe_print_next_token context1).1
      SafePrintFormatInfo.initial (safe_print_next_token context1).2)

/-! ## Driver -/

/-- What a call of `safe_print_implementation` leaves behind: the returned
`int` and the final context (with the sink in `context.file`). -/
structure SafePrintReturn where
  value : Int
  context : SafePrintContext
  deriving DecidableEq, Repr

/-- The scanning loop `while (context.fmt[0])` of `safe_print_implementation`.
The first argument bounds the iterations. -/
def safe_print_implementation_loop (cvt : SafePrintDoubleConversion) :
    Nat → SafePrintContext → SafePrintOutcome SafePrintReturn
  | 0, _ => .out_of_fuel
  | fuel + 1, context =>
    match context.fmt with
    | [] => .done ⟨context.written, context⟩
    | c :: fmt =>
      if c = NUL then .done ⟨context.written, context⟩
      else if context.error ≠ 0 then .done ⟨context.error, context⟩
      else if c = '{' then
        match safe_print_parse_format_specifier context with
        | .done (.SP_PFS_ERROR, context1) => .done ⟨SP_ERROR_UNKNOWN_FORMAT_SPECIFIER, context1⟩
        | .done (.SP_PFS_ESCAPED_BRACE, context1) =>
          safe_print_implementation_loop cvt fuel (safe_print_output_character context1 '{')
        | .done (.SP_PFS_OK info, context1) =>
          safe_print_implementation_loop cvt fuel (safe_print_format_arg cvt context1 info)
        | .past_terminator => .past_terminator
        | .union_member => .union_member
        | .out_of_fuel => .out_of_fuel
      else if c = '}' then
        if fmt.headD NUL = '}' then
          safe_print_implementation_loop cvt fuel
            { safe_print_output_character context '}' with fmt := fmt.tail }
        else
          safe_print_implementation_loop cvt fuel
            { safe_print_report_error context SP_ERROR_MISSING_BRACE with fmt := fmt }
      else
        safe_print_implementation_loop cvt fuel
          { safe_print_output_character context c with fmt := fmt }

/-- The function `safe_print_implementation(handle, fmt, ...)`, with the
captured arguments `args` in place of the variadic list. -/
def safe_print_implementation (cvt : SafePrintDoubleConversion) (handle : SafePrintFileType)
    (fmt : List Char) (args : List SafePrintFormatArg) : SafePrintOutcome SafePrintReturn :=
  safe_print_implementation_loop cvt (fmt.length + 1)
    { fmt_start := fmt, fmt := fmt, file := handle, written := 0, error := 0,
      current_index := 0, args := args }

/-! ## Vocabulary of the properties -/

/-- A double conversion that produces no text; it stands for `cvt` in closed
statements whose arguments contain no double. -/
def safe_print_convert_double_unused : SafePrintDoubleConversion :=
  fun _ _ _ _ _ _ _ => ⟨[], 0⟩

/-- A piece of a template without directives: a literal character, the escape
of an opening brace or the escape of a closing brace. -/
inductive SafePrintTemplatePiece where
  | literal (c : Char)
  | escaped_open
  | escaped_close
  deriving DecidableEq, Repr

/-- A literal piece is a character of a C string other than a brace. -/
def SafePrintTemplatePiece.plain : SafePrintTemplatePiece → Prop
  | .literal c => c ≠ NUL ∧ c ≠ '{' ∧ c ≠ '}'
  | _ => True

instance SafePrintTemplatePiece.plain_decidable (piece : SafePrintTemplatePiece) :
    Decidable piece.plain := by
  cases piece <;> unfold SafePrintTemplatePiece.plain <;> infer_instance

/-- The template text spelled by a list of pieces. -/
def escaped_template_text : List SafePrintTemplatePiece → List Char
  | [] => []
  | .literal c :: pieces => c :: escaped_template_text pieces
  | .escaped_open :: pieces => '{' :: '{' :: escaped_template_text pieces
  | .escaped_close :: pieces => '}' :: '}' :: escaped_template_text pieces

/-- The text a list of pieces stands for: every escape replaced by one brace. -/
def escaped_template_rendering : List SafePrintTemplatePiece → List Char
  | [] => []
  | .literal c :: pieces => c :: escaped_template_rendering pieces
  | .escaped_open :: pieces => '{' :: escaped_template_rendering pieces
  | .escaped_close :: pieces => '}' :: escaped_template_rendering pieces

/-- The value of an integer argument whose union member lies in the range of
its C type (`none` for the other kinds of argument). -/
def SafePrintFormatArg.integer_value : SafePrintFormatArg → Option Int
  | .SAFE_PRINT_I32 s32 => if -2147483648 ≤ s32 ∧ s32 < 2147483648 then some s32 else none
  | .SAFE_PRINT_U32 u32 => if u32 < 4294967296 then some (u32 : Int) else none
  | .SAFE_PRINT_I64 s64 =>
    if -9223372036854775808 ≤ s64 ∧ s64 < 9223372036854775808 then some s64 else none
  | .SAFE_PRINT_U64 u64 => if u64 < 18446744073709551616 then some (u64 : Int) else none
  | _ => none

/-- The standard positional text of an integer in a base up to 16: a minus
sign for a negative value, then the digits of the magnitude, most significant
first, in lowercase or in uppercase. -/
def integer_text (base : Nat) (uppercase : Bool) (v : Int) : List Char :=
  (if v < 0 then ['-'] else []) ++
    (Nat.toDigits base v.natAbs).map (if uppercase then Char.toUpper else id)

/-- The outcome of a call that consumed the template `fmt`, wrote `text` to
the empty accepting sink, returned the length of `text`, reported no error
and left the sequential counter at `index`. -/
def safe_print_success (fmt : List Char) (args : List SafePrintFormatArg) (text : List Char)
    (index : Int) : SafePrintOutcome SafePrintReturn :=
  .done ⟨text.length, ⟨fmt, [], ⟨text, none⟩, text.length, 0, index, args⟩⟩

/-- The text a string reference denotes: the first `length` characters. -/
def SafePrintStringRef.text (str : SafePrintStringRef) : List Char :=
  str.data.take str.length.toNat

/-- The value of a digit glyph: `0`-`9` are 0-9, letters of either case are
10-35. -/
def numeral_digit_value (c : Char) : Option Nat :=
  if '0' ≤ c ∧ c ≤ '9' then some (c.toNat - 48)
  else if 'a' ≤ c ∧ c ≤ 'z' then some (c.toNat - 87)
  else if 'A' ≤ c ∧ c ≤ 'Z' then some (c.toNat - 55)
  else none

/-- Reading digits of a base-`base` numeral, most significant first, onto the
value read so far; a glyph that is not a digit of the base is rejected. -/
def parse_numeral_digits (base : Nat) : List Char → Nat → Option Nat
  | [], value => some value
  | c :: text, value =>
    match numeral_digit_value c with
    | some d => if d < base then parse_numeral_digits base text (value * base + d) else none
    | none => none

/-- Parsing a base-`base` numeral with an optional leading sign and at least
one digit. -/
def parse_numeral (base : Nat) (text : List Char) : Option Int :=
  match text with
  | [] => none
  | c :: digits =>
    if c = '-' then
      if digits = [] then none
      else (parse_numeral_digits base digits 0).map (fun n => -(n : Int))
    else if c = '+' then
      if digits = [] then none
      else (parse_numeral_digits base digits 0).map (fun n => (n : Int))
    else (parse_numeral_digits base (c :: digits) 0).map (fun n => (n : Int))

/-- The part of the context that the tokenizer and the parser never touch:
`fmt_start`, the sink, the count of written characters and the arguments. -/
def SafePrintContext.frame (context context1 : SafePrintContext) : Prop :=
  context1.fmt_start = context.fmt_start ∧ context1.file = context.file ∧
    context1.written = context.written ∧ context1.args = context.args

instance SafePrintContext.frame_decidable (context context1 : SafePrintContext) :
    Decidable (context.frame context1) := by
  unfold SafePrintContext.frame; infer_instance

/-- The count of written characters agrees, as an `sp_s32`, with the number of
characters in the sink. -/
def SafePrintContext.counted (context : SafePrintContext) : Prop :=
  context.written = wrapS32 context.file.content.length

instance SafePrintContext.counted_decidable (context : SafePrintContext) :
    Decidable context.counted := by
  unfold SafePrintContext.counted; infer_instance

/-- An option of the directive grammar
(`option := INDEX | 'min' '(' INDEX ')' | ... | 'upper' | 'lower'`); a numeric
literal is kept as the run of its digits. -/
inductive SafePrintOption where
  | index (digits : List Char)
  | min (digits : List Char)
  | max (digits : List Char)
  | fill (c : Char)
  | precision (digits : List Char)
  | base (digits : List Char)
  | left
  | right
  | bin
  | oct
  | dec
  | hex
  | sci
  | sign
  | upper
  | lower
  deriving DecidableEq, Repr

/-- The value of a decimal literal, most significant digit first. -/
def literal_value : List Char → Nat → Nat
  | [], value => value
  | c :: digits, value => literal_value digits (value * 10 + (c.toNat - 48))

/-- A numeric literal of the grammar: a non-empty run of the digits `0`-`9`. -/
def literal_digits (digits : List Char) : Bool :=
  !digits.isEmpty && digits.all safe_print_is_digit

/-- The text of an option in a template. -/
def SafePrintOption.text : SafePrintOption → List Char
  | .index digits => digits
  | .min digits => ['m', 'i', 'n', '('] ++ digits ++ [')']
  | .max digits => ['m', 'a', 'x', '('] ++ digits ++ [')']
  | .fill c => ['f', 'i', 'l', 'l', '(', c, ')']
  | .precision digits => ['p', 'r', 'e', 'c', 'i', 's', 'i', 'o', 'n', '('] ++ digits ++ [')']
  | .base digits => ['b', 'a', 's', 'e', '('] ++ digits ++ [')']
  | .left => ['l', 'e', 'f', 't']
  | .right => ['r', 'i', 'g', 'h', 't']
  | .bin => ['b', 'i', 'n']
  | .oct => ['o', 'c', 't']
  | .dec => ['d', 'e', 'c']
  | .hex => ['h', 'e', 'x']
  | .sci => ['s', 'c', 'i']
  | .sign => ['s', 'i', 'g', 'n']
  | .upper => ['u', 'p', 'p', 'e', 'r']
  | .lower => ['l', 'o', 'w', 'e', 'r']

/-- The options of a directive body, separated by `:`. -/
def directive_body : List SafePrintOption → List Char
  | [] => []
  | [option] => option.text
  | option :: options => option.text ++ ':' :: directive_body options

/-- The text of the directive `{o1:o2:...:ok}`. -/
def directive_text (options : List SafePrintOption) : List Char :=
  '{' :: (directive_body options ++ ['}'])

/-- The meaning of an option as an update of a format info: `bin`, `oct`,
`dec`, `hex` set the base 2, 8, 10, 16, `left` and `right` set the alignment,
`upper` and `lower` set the case, `sci` and `sign` set their flags, `min`,
`max`, `precision` and `base` store their number, `fill` stores its
character, an index `n` stores `n - 1`. -/
def SafePrintOption.update (info : SafePrintFormatInfo) : SafePrintOption → SafePrintFormatInfo
  | .index digits => { info with arg_index := (literal_value digits 0 : Int) - 1 }
  | .min digits => { info with min := literal_value digits 0 }
  | .max digits => { info with max := literal_value digits 0 }
  | .fill c => { info with fill := c }
  | .precision digits => { info with precision := literal_value digits 0 }
  | .base digits => { info with base := literal_value digits 0 }
  | .left => { info with alignment := .SP_FI_ALIGN_LEFT }
  | .right => { info with alignment := .SP_FI_ALIGN_RIGHT }
  | .bin => { info with base := 2 }
  | .oct => { info with base := 8 }
  | .dec => { info with base := 10 }
  | .hex => { info with base := 16 }
  | .sci => { info with scientific := true }
  | .sign => { info with sign := true }
  | .upper => { info with char_case := .SP_FI_UPPER_CASE }
  | .lower => { info with char_case := .SP_FI_LOWER_CASE }

/-- What the parser stores for an option whose numeric literal may exceed the
range of `sp_s32`: as `SafePrintOption.update`, with the number reduced to an
`sp_s32`. -/
def SafePrintOption.store (info : SafePrintFormatInfo) : SafePrintOption → SafePrintFormatInfo
  | .index digits => { info with arg_index := wrapS32 (literal_value digits 0) - 1 }
  | .min digits => { info with min := wrapS32 (literal_value digits 0) }
  | .max digits => { info with max := wrapS32 (literal_value digits 0) }
  | .precision digits => { info with precision := wrapS32 (literal_value digits 0) }
  | .base digits => { info with base := wrapS32 (literal_value digits 0) }
  | .fill c => { info with fill := c }
  | .left => { info with alignment := .SP_FI_ALIGN_LEFT }
  | .right => { info with alignment := .SP_FI_ALIGN_RIGHT }
  | .bin => { info with base := 2 }
  | .oct => { info with base := 8 }
  | .dec => { info with base := 10 }
  | .hex => { info with base := 16 }
  | .sci => { info with scientific := true }
  | .sign => { info with sign := true }
  | .upper => { info with char_case := .SP_FI_UPPER_CASE }
  | .lower => { info with char_case := .SP_FI_LOWER_CASE }

/-- The condition under which an option is one the call can take: its numeric
literal is a literal of the grammar, a positional index lies within
`1..arg_count` (and within `sp_s32`), and the character of `fill` is a
character of the template, not its terminator. -/
def SafePrintOption.admissible (arg_count : Nat) : SafePrintOption → Bool
  | .index digits =>
    literal_digits digits && decide (1 ≤ literal_value digits 0) &&
      decide (literal_value digits 0 ≤ arg_count) && decide (literal_value digits 0 < 2147483648)
  | .min digits => literal_digits digits
  | .max digits => literal_digits digits
  | .fill c => decide (c ≠ NUL)
  | .precision digits => literal_digits digits
  | .base digits => literal_digits digits
  | _ => true

/-- The numeric literal of an option, if it has one, is below 2^31. -/
def SafePrintOption.small : SafePrintOption → Bool
  | .index digits => decide (literal_value digits 0 < 2147483648)
  | .min digits => decide (literal_value digits 0 < 2147483648)
  | .max digits => decide (literal_value digits 0 < 2147483648)
  | .precision digits => decide (literal_value digits 0 < 2147483648)
  | .base digits => decide (literal_value digits 0 < 2147483648)
  | _ => true

/-- The category of an option; options of one category write the same field
of the format info. -/
inductive SafePrintOptionCategory where
  | index
  | min
  | max
  | fill
  | precision
  | base
  | alignment
  | char_case
  | scientific
  | sign
  deriving DecidableEq, Repr

def SafePrintOption.category : SafePrintOption → SafePrintOptionCategory
  | .index _ => .index
  | .min _ => .min
  | .max _ => .max
  | .fill _ => .fill
  | .precision _ => .precision
  | .base _ => .base
  | .bin => .base
  | .oct => .base
  | .dec => .base
  | .hex => .base
  | .left => .alignment
  | .right => .alignment
  | .upper => .char_case
  | .lower => .char_case
  | .sci => .scientific
  | .sign => .sign

/-- A directive carries an explicit index when one of its options is a
positional index. -/
def directive_indexed (options : List SafePrintOption) : Bool :=
  options.any (fun option => decide (option.category = .index))

/-- The positional text of an integer with an explicit sign: `-` before a
negative value, `+` before any other, then the digits of the magnitude. -/
def signed_integer_text (base : Nat) (uppercase : Bool) (v : Int) : List Char :=
  (if v < 0 then '-' else '+') ::
    (Nat.toDigits base v.natAbs).map (if uppercase then Char.toUpper else id)

/-- The invariant of the sequential counter: it lies within `0..arg_count`,
and the captured arguments fit the array `args[16]` of the context. -/
def SafePrintContext.indexed (context : SafePrintContext) : Prop :=
  0 ≤ context.current_index ∧ context.current_index ≤ context.arg_count ∧
    context.args.length ≤ 16

instance SafePrintContext.indexed_decidable (context : SafePrintContext) :
    Decidable context.indexed := by
  unfold SafePrintContext.indexed; infer_instance

/-- The number of a `base(n)` option is a radix of the integer conversion:
0 (which stands for 10) or a number within 2..36. Every other option leaves
the number alone or sets one of 2, 8, 10, 16. -/
def SafePrintOption.radix_supported : SafePrintOption → Bool
  | .base digits =>
    decide (literal_value digits 0 = 0) ||
      (decide (2 ≤ literal_value digits 0) && decide (literal_value digits 0 ≤ 36))
  | _ => true

/-- The keywords of the directive grammar with their token kinds. -/
def keyword_table : List (List Char × SafePrintTokenKind) :=
  [("min".toList, .SP_FT_KEYWORD_MIN), ("max".toList, .SP_FT_KEYWORD_MAX),
    ("left".toList, .SP_FT_KEYWORD_LEFT), ("right".toList, .SP_FT_KEYWORD_RIGHT),
    ("fill".toList, .SP_FT_KEYWORD_FILL), ("precision".toList, .SP_FT_KEYWORD_PREC),
    ("base".toList, .SP_FT_KEYWORD_BASE), ("bin".toList, .SP_FT_BASE_BIN),
    ("oct".toList, .SP_FT_BASE_OCT), ("dec".toList, .SP_FT_BASE_DEC),
    ("hex".toList, .SP_FT_BASE_HEX), ("sci".toList, .SP_FT_KEYWORD_SCI),
    ("sign".toList, .SP_FT_KEYWORD_SIGN), ("upper".toList, .SP_FT_KEYWORD_UPPER),
    ("lower".toList, .SP_FT_KEYWORD_LOWER)]

/-- The token kind of a run of letters under an exact comparison with the
keywords: the kind of the keyword it spells, the generic identifier token for
every other run. -/
def keyword_kind (word : List Char) : SafePrintTokenKind :=
  (keyword_table.lookup word).getD .SP_FT_STRING

/-- The value of an integer converted to `stbsp__uint32`. -/
def wrapU32 (x : Int) : Nat := (x % 4294967296).toNat

/-- The value of an integer stored in an `stbsp__int64`. -/
def wrapS64 (x : Int) : Int :=
  (x + 9223372036854775808) % 18446744073709551616 - 9223372036854775808

/-- The loop that counts the binary digits of a number. -/
def sp_r64_bit_length_loop : Nat → Nat → Nat
  | 0, _ => 0
  | fuel + 1, x => if x = 0 then 0 else sp_r64_bit_length_loop fuel (x / 2) + 1

/-- The number of binary digits of a natural number. -/
def sp_r64_bit_length (x : Nat) : Nat := sp_r64_bit_length_loop x x

/-- The sign bit of a double. -/
def sp_r64_negative (bits : Nat) : Bool := decide (bits / 9223372036854775808 % 2 = 1)

/-- The exponent field of a double. -/
def sp_r64_exponent_field (bits : Nat) : Nat := bits / 4503599627370496 % 2048

/-- A double other than an infinity or a NaN. -/
def sp_r64_finite (bits : Nat) : Bool := decide (sp_r64_exponent_field bits ≠ 2047)

/-- The integer significand of a finite double: its magnitude is
`sp_r64_mantissa bits * 2 ^ sp_r64_exponent bits`. -/
def sp_r64_mantissa (bits : Nat) : Nat :=
  if sp_r64_exponent_field bits = 0 then bits % 4503599627370496
  else 4503599627370496 + bits % 4503599627370496

/-- The exponent of the last place of a finite double. -/
def sp_r64_exponent (bits : Nat) : Int :=
  if sp_r64_exponent_field bits = 0 then -1074 else (sp_r64_exponent_field bits : Int) - 1075

/-- The double nearest to the rational number `num / den` with the given sign
(ties to even); `none` when `den = 0` or the result is not finite. -/
def sp_r64_round (negative : Bool) (num den : Nat) : Option Nat :=
  let sign : Nat := if negative then 9223372036854775808 else 0
  if den = 0 then none
  else if num = 0 then some sign
  else
    let e0 : Int := (sp_r64_bit_length num : Int) - (sp_r64_bit_length den : Int) - 53
    let e1 : Int :=
      if (num * 2 ^ (-e0).toNat) / (den * 2 ^ e0.toNat) ≥ 9007199254740992 then e0 + 1 else e0
    let e : Int := if e1 < -1074 then -1074 else e1
    let n : Nat := num * 2 ^ (-e).toNat
    let d : Nat := den * 2 ^ e.toNat
    let q : Nat := n / d
    let r : Nat := n % d
    let q1 : Nat := if 2 * r > d ∨ (2 * r = d ∧ q % 2 = 1) then q + 1 else q
    let q2 : Nat := if q1 = 9007199254740992 then 4503599627370496 else q1
    let e2 : Int := if q1 = 9007199254740992 then e + 1 else e
    if q2 < 4503599627370496 then some (sign + q2)
    else if e2 + 1075 ≥ 2047 then none
    else some (sign + (e2 + 1075).toNat * 4503599627370496 + (q2 - 4503599627370496))

/-- The double with the sign bit flipped (`-d`). -/
def sp_r64_neg (a : Nat) : Nat := (a + 9223372036854775808) % 18446744073709551616

/-- The product `a * b` of two doubles. -/
def sp_r64_mul (a b : Nat) : Option Nat :=
  if sp_r64_finite a && sp_r64_finite b then
    sp_r64_round (sp_r64_negative a != sp_r64_negative b)
      (sp_r64_mantissa a * sp_r64_mantissa b * 2 ^ (sp_r64_exponent a + sp_r64_exponent b).toNat)
      (2 ^ (-(sp_r64_exponent a + sp_r64_exponent b)).toNat)
  else none

/-- The sum `a + b` of two doubles. An exact zero sum is `+0`, except that
`-0 + -0` is `-0`. -/
def sp_r64_add (a b : Nat) : Option Nat :=
  if sp_r64_finite a && sp_r64_finite b then
    let e : Int := min (sp_r64_exponent a) (sp_r64_exponent b)
    let x : Int := (sp_r64_mantissa a : Int) * 2 ^ (sp_r64_exponent a - e).toNat
    let y : Int := (sp_r64_mantissa b : Int) * 2 ^ (sp_r64_exponent b - e).toNat
    let s : Int := (if sp_r64_negative a then -x else x) + (if sp_r64_negative b then -y else y)
    if s = 0 then some (if sp_r64_negative a && sp_r64_negative b then 9223372036854775808 else 0)
    else sp_r64_round (decide (s < 0)) (s.natAbs * 2 ^ e.toNat) (2 ^ (-e).toNat)
  else none

/-- The difference `a - b` of two doubles. -/
def sp_r64_sub (a b : Nat) : Option Nat := sp_r64_add a (sp_r64_neg b)

/-- The conversion `(stbsp__int64)d`: the double cut to an integer towards
zero; `none` outside the range of the type. -/
def sp_r64_to_s64 (a : Nat) : Option Int :=
  if sp_r64_finite a then
    let magnitude : Nat :=
      sp_r64_mantissa a * 2 ^ (sp_r64_exponent a).toNat / 2 ^ (-sp_r64_exponent a).toNat
    let v : Int := if sp_r64_negative a then -(magnitude : Int) else magnitude
    if -9223372036854775808 ≤ v ∧ v < 9223372036854775808 then some v else none
  else none

/-- The conversion `(double)v` of an `stbsp__int64`. -/
def sp_r64_of_s64 (v : Int) : Option Nat := sp_r64_round (decide (v < 0)) v.natAbs 1

/-- The double denoted by a decimal literal `digits * 10 ^ exponent`. -/
def sp_r64_literal (negative : Bool) (digits : Nat) (exponent : Int) : Option Nat :=
  sp_r64_round negative (digits * 10 ^ exponent.toNat) (10 ^ (-exponent).toNat)

/-! ## Floating point conversion (stb_sprintf) -/

/-- The constant `STBSP__SPECIAL`. -/
def STBSP__SPECIAL : Int := 28672

/-- The table `stbsp__digitpair.pair`. -/
def stbsp__digitpair : List Char :=
  ("00010203040506070809101112131415161718192021222324" ++
    "25262728293031323334353637383940414243444546474849" ++
    "50515253545556575859606162636465666768697071727374" ++
    "75767778798081828384858687888990919293949596979899").toList

/-- The table `stbsp__powten`. -/
def stbsp__powten : List Nat :=
  [1, 10, 100, 1000, 10000, 100000, 1000000, 10000000, 100000000, 1000000000, 10000000000,
    100000000000, 1000000000000, 10000000000000, 100000000000000, 1000000000000000,
    10000000000000000, 100000000000000000, 1000000000000000000, 10000000000000000000]

/-- The constant `stbsp__tento19th`. -/
def stbsp__tento19th : Nat := 1000000000000000000

/-- An entry of one of the tables of doubles below, each written as the
decimal literal of the source: sign, digits and decimal exponent of the last
digit. -/
def stbsp__table (table : List (Bool × Nat × Int)) (index : Nat) : Option Nat :=
  match table.get? index with
  | some (negative, digits, exponent) => sp_r64_literal negative digits exponent
  | none => none

def stbsp__bot : List (Bool × Nat × Int) :=
  [(false, 1, 0), (false, 1, 1), (false, 1, 2), (false, 1, 3), (false, 1, 4), (false, 1, 5),
    (false, 1, 6), (false, 1, 7), (false, 1, 8), (false, 1, 9), (false, 1, 10), (false, 1, 11),
    (false, 1, 12), (false, 1, 13), (false, 1, 14), (false, 1, 15), (false, 1, 16),
    (false, 1, 17), (false, 1, 18), (false, 1, 19), (false, 1, 20), (false, 1, 21),
    (false, 1, 22)]

def stbsp__negbot : List (Bool × Nat × Int) :=
  [(false, 1, -1), (false, 1, -2), (false, 1, -3), (false, 1, -4), (false, 1, -5),
    (false, 1, -6), (false, 1, -7), (false, 1, -8), (false, 1, -9), (false, 1, -10),
    (false, 1, -11), (false, 1, -12), (false, 1, -13), (false, 1, -14), (false, 1, -15),
    (false, 1, -16), (false, 1, -17), (false, 1, -18), (false, 1, -19), (false, 1, -20),
    (false, 1, -21), (false, 1, -22)]

def stbsp__negboterr : List (Bool × Nat × Int) :=
  [(true, 5551115123125783, -33), (true, 20816681711721684, -35), (true, 20816681711721686, -36),
    (true, 47921736023859299, -37), (true, 81803053914031305, -38),
    (false, 45251888174113741, -39), (false, 45251888174113739, -40),
    (true, 20922560830128471, -41), (true, 62281591457779853, -42),
    (true, 36432197315497743, -43), (false, 60503030718060191, -44),
    (false, 20113352370744385, -45), (true, 30373745563400371, -46),
    (false, 11806906454401013, -48), (true, 77705399876661076, -48),
    (false, 20902213275965398, -49), (true, 71542424054621921, -50),
    (true, 71542424054621926, -51), (false, 24754073164739869, -52),
    (false, 54846728545790429, -53), (false, 92462547772103625, -54),
    (true, 48596774326570872, -55)]

def stbsp__top : List (Bool × Nat × Int) :=
  [(false, 1, 23), (false, 1, 46), (false, 1, 69), (false, 1, 92), (false, 1, 115),
    (false, 1, 138), (false, 1, 161), (false, 1, 184), (false, 1, 207), (false, 1, 230),
    (false, 1, 253), (false, 1, 276), (false, 1, 299)]

def stbsp__negtop : List (Bool × Nat × Int) :=
  [(false, 1, -23), (false, 1, -46), (false, 1, -69), (false, 1, -92), (false, 1, -115),
    (false, 1, -138), (false, 1, -161), (false, 1, -184), (false, 1, -207), (false, 1, -230),
    (false, 1, -253), (false, 1, -276), (false, 1, -299)]

def stbsp__toperr : List (Bool × Nat × Int) :=
  [(false, 8388608, 0), (false, 68601809640529717, 12), (true, 7253143638152921, 37),
    (true, 43377296974619174, 59), (true, 15559416129466825, 82), (true, 32841562489204913, 105),
    (true, 37745893248228135, 128), (true, 17356668416969134, 151),
    (true, 38893577551088374, 174), (true, 99566444326005119, 197),
    (false, 63641293062232429, 220), (true, 52069140800249813, 243),
    (true, 52504760255204387, 266)]

def stbsp__negtoperr : List (Bool × Nat × Int) :=
  [(false, 39565301985100693, -56), (true, 2299904345391321, -78),
    (false, 36506201437945798, -102), (false, 11875228833981544, -125),
    (true, 50644902316928607, -148), (true, 67156837247865426, -171),
    (true, 2812077463003139, -193), (true, 57778912386589953, -217),
    (false, 74997100559334532, -240), (true, 46439668915134491, -263),
    (true, 63691100762962136, -286), (true, 9436808465446358, -308),
    (false, 80970921678014997, -333)]

/-- The macro `stbsp__ddmulthi(oh, ol, xh, yh)`: the result is `(oh, ol)`. -/
def stbsp__ddmulthi (xh yh : Nat) : Option (Nat × Nat) := do
  let oh ← sp_r64_mul xh yh
  let ahi := xh - xh % 134217728
  let alo ← sp_r64_sub xh ahi
  let bhi := yh - yh % 134217728
  let blo ← sp_r64_sub yh bhi
  let t1 ← sp_r64_mul ahi bhi
  let t2 ← sp_r64_sub t1 oh
  let t3 ← sp_r64_mul ahi blo
  let t4 ← sp_r64_add t2 t3
  let t5 ← sp_r64_mul alo bhi
  let t6 ← sp_r64_add t4 t5
  let t7 ← sp_r64_mul alo blo
  let ol ← sp_r64_add t6 t7
  some (oh, ol)

/-- The macro `stbsp__ddtoS64(ob, xh, xl)`: the result is `ob`. -/
def stbsp__ddtoS64 (xh xl : Nat) : Option Int := do
  let ob ← sp_r64_to_s64 xh
  let vh ← sp_r64_of_s64 ob
  let ahi ← sp_r64_sub xh vh
  let t ← sp_r64_sub ahi xh
  let t1 ← sp_r64_sub ahi t
  let t2 ← sp_r64_sub xh t1
  let t3 ← sp_r64_add vh t
  let alo ← sp_r64_sub t2 t3
  let t4 ← sp_r64_add ahi alo
  let t5 ← sp_r64_add t4 xl
  let low ← sp_r64_to_s64 t5
  some (wrapS64 (ob + low))

/-- The macro `stbsp__ddrenorm(oh, ol)`: the result is `(oh, ol)`. -/
def stbsp__ddrenorm (oh ol : Nat) : Option (Nat × Nat) := do
  let s ← sp_r64_add oh ol
  let t ← sp_r64_sub s oh
  let ol1 ← sp_r64_sub ol t
  some (s, ol1)

/-- The macro `stbsp__ddmultlo(oh, ol, xh, xl, yh, yl)`: the result is `ol`. -/
def stbsp__ddmultlo (ol xh xl yh yl : Nat) : Option Nat := do
  let t1 ← sp_r64_mul xh yl
  let t2 ← sp_r64_mul xl yh
  let t3 ← sp_r64_add t1 t2
  sp_r64_add ol t3

/-- The macro `stbsp__ddmultlos(oh, ol, xh, yl)`: the result is `ol`. -/
def stbsp__ddmultlos (ol xh yl : Nat) : Option Nat := do
  let t1 ← sp_r64_mul xh yl
  sp_r64_add ol t1

/-- The function `stbsp__raise_to_power10`: the result is `(*ohi, *olo)`. -/
def stbsp__raise_to_power10 (d : Nat) (power : Int) : Option (Nat × Nat) := do
  if 0 ≤ power ∧ power ≤ 22 then
    let (ph, pl) ← stbsp__ddmulthi d (← stbsp__table stbsp__bot power.toNat)
    stbsp__ddrenorm ph pl
  else
    let e : Int := if power < 0 then wrapS32 (-power) else power
    let et0 : Int := wrapS32 (e * 713) / 16384
    let et : Int := if et0 > 13 then 13 else et0
    let eb : Int := wrapS32 (e - wrapS32 (et * 23))
    if power < 0 then
      let (ph1, pl1) ←
        if eb ≠ 0 then do
          let (ph, pl) ← stbsp__ddmulthi d (← stbsp__table stbsp__negbot (eb - 1).toNat)
          let pl ← stbsp__ddmultlos pl d (← stbsp__table stbsp__negboterr (eb - 1).toNat)
          pure (ph, pl)
        else pure (d, 0)
      let (ph2, pl2) ←
        if et ≠ 0 then do
          let (ph, pl) ← stbsp__ddrenorm ph1 pl1
          let (p2h, p2l) ← stbsp__ddmulthi ph (← stbsp__table stbsp__negtop (et - 1).toNat)
          let p2l ← stbsp__ddmultlo p2l ph pl (← stbsp__table stbsp__negtop (et - 1).toNat)
            (← stbsp__table stbsp__negtoperr (et - 1).toNat)
          pure (p2h, p2l)
        else pure (ph1, pl1)
      stbsp__ddrenorm ph2 pl2
    else
      let (ph1, pl1) ←
        if eb ≠ 0 then do
          let eb1 : Int := if eb > 22 then 22 else eb
          let e1 : Int := wrapS32 (eb - eb1)
          let (ph, pl) ← stbsp__ddmulthi d (← stbsp__table stbsp__bot eb1.toNat)
          if e1 ≠ 0 then do
            let (ph, pl) ← stbsp__ddrenorm ph pl
            let (p2h, p2l) ← stbsp__ddmulthi ph (← stbsp__table stbsp__bot e1.toNat)
            let p2l ← stbsp__ddmultlos p2l (← stbsp__table stbsp__bot e1.toNat) pl
            pure (p2h, p2l)
          else pure (ph, pl)
        else pure (d, 0)
      let (ph2, pl2) ←
        if et ≠ 0 then do
          let (ph, pl) ← stbsp__ddrenorm ph1 pl1
          let (p2h, p2l) ← stbsp__ddmulthi ph (← stbsp__table stbsp__top (et - 1).toNat)
          let p2l ← stbsp__ddmultlo p2l ph pl (← stbsp__table stbsp__top (et - 1).toNat)
            (← stbsp__table stbsp__toperr (et - 1).toNat)
          pure (p2h, p2l)
        else pure (ph1, pl1)
      stbsp__ddrenorm ph2 pl2

/-- What `stbsp__real_to_str` hands back: the digits at `*start` (up to the
end of the text that was written), `*len`, `*decimal_pos` and the returned
sign. -/
structure StbspRealString where
  start : List Char
  len : Nat
  decimal_pos : Int
  sign : Int
  deriving DecidableEq, Repr

/-- The loop `while ((bits & v) == 0) { --expo; v >>= 1; }` for denormals. -/
def stbsp__real_to_str_denormal : Nat → Nat → Nat → Int → Int
  | 0, _, _, expo => expo
  | fuel + 1, bits, v, expo =>
    if Nat.land bits v = 0 then stbsp__real_to_str_denormal fuel bits (v / 2) (expo - 1)
    else expo

/-- The loop `while ((stbsp__uint64)bits >= stbsp__powten[dg]) { ++dg; if (dg == 20) goto noround; }`;
`none` stands for the jump to `noround`. -/
def stbsp__real_to_str_count : Nat → Nat → Nat → Option Nat
  | 0, _, _ => none
  | fuel + 1, bits, dg =>
    if bits ≥ stbsp__powten.getD dg 0 then
      if dg + 1 = 20 then none else stbsp__real_to_str_count fuel bits (dg + 1)
    else some dg

/-- The rounding "in integer land": the result is `(bits, tens)`. -/
def stbsp__real_to_str_round (bits : Int) (tens : Int) (frac_digits : Nat) : Int × Int :=
  if frac_digits < 24 then
    match stbsp__real_to_str_count 20 (wrapU64 bits)
        (if wrapU64 bits ≥ stbsp__powten.getD 9 0 then 10 else 1) with
    | none => (bits, tens)
    | some dg =>
      if frac_digits < dg then
        let e : Int := wrapS32 ((dg : Int) - (frac_digits : Int))
        if wrapU32 e ≥ 24 then (bits, tens)
        else
          let r : Nat := stbsp__powten.getD e.toNat 0
          let bits1 : Int := wrapS64 ((wrapU64 bits + r / 2 : Nat) : Int)
          let tens1 : Int := if wrapU64 bits1 ≥ stbsp__powten.getD dg 0 then wrapS32 (tens + 1) else tens
          (wrapS64 ((wrapU64 bits1 / r : Nat) : Int), tens1)
      else (bits, tens)
  else (bits, tens)

/-- The loop `for (;;) { if (bits <= 0xffffffff) break; if (bits % 1000) goto donez; bits /= 1000; }`:
the value of `bits` and whether the loop was left by the jump to `donez`. -/
def stbsp__real_to_str_zeros : Nat → Int → Int × Bool
  | 0, bits => (bits, true)
  | fuel + 1, bits =>
    if bits ≤ 4294967295 then (bits, false)
    else if bits.tmod 1000 ≠ 0 then (bits, true)
    else stbsp__real_to_str_zeros fuel (bits.tdiv 1000)

/-- The loop `while ((n % 1000) == 0) n /= 1000;`; it does not end for `n = 0`. -/
def stbsp__real_to_str_zeros32 : Nat → Nat → Option Nat
  | 0, _ => none
  | fuel + 1, n => if n % 1000 = 0 then stbsp__real_to_str_zeros32 fuel (n / 1000) else some n

/-- The step "kill long trailing runs of zeros". -/
def stbsp__real_to_str_trim (bits : Int) : Option Int :=
  if bits ≠ 0 then
    match stbsp__real_to_str_zeros 7 bits with
    | (bits1, true) => some bits1
    | (bits1, false) =>
      (stbsp__real_to_str_zeros32 4 (wrapU32 bits1)).map (fun n => (n : Int))
  else some bits

/-- The loop `while (n) { out -= 2; ...pair[(n % 100) * 2]; n /= 100; e += 2; }`:
two digits are put in front of the text for every step. -/
def stbsp__real_to_str_pairs : Nat → Nat → List Char → List Char
  | 0, _, out => out
  | fuel + 1, n, out =>
    if n = 0 then out
    else
      stbsp__real_to_str_pairs fuel (n / 100)
        (stbsp__digitpair.getD (n % 100 * 2) NUL :: stbsp__digitpair.getD (n % 100 * 2 + 1) NUL ::
          out)

/-- The loop `for (;;)` that converts `bits` to text in chunks of eight
digits, from the end of the buffer towards its start. -/
def stbsp__real_to_str_chunks : Nat → Int → List Char → Option (List Char)
  | 0, _, _ => none
  | fuel + 1, bits, out =>
    let n : Nat := if bits ≥ 100000000 then wrapU32 (bits.tmod 100000000) else wrapU32 bits
    let bits1 : Int := if bits ≥ 100000000 then bits.tdiv 100000000 else 0
    let out1 := stbsp__real_to_str_pairs 5 n out
    if bits1 = 0 then
      if out1.length ≠ 0 ∧ out1.headD NUL = '0' then some out1.tail else some out1
    else if out1.length ≤ out.length + 8 then
      stbsp__real_to_str_chunks fuel bits1
        (List.replicate (out.length + 8 - out1.length) '0' ++ out1)
    else none

/-- The function `stbsp__real_to_str(&start, &len, out, &decimal_pos, value, frac_digits)`. -/
def stbsp__real_to_str (value : Nat) (frac_digits : Nat) : Option StbspRealString :=
  let bits : Nat := value % 18446744073709551616
  let expo : Int := (bits / 4503599627370496 % 2048 : Nat)
  let ng : Int := (bits / 9223372036854775808 : Nat)
  let d : Nat := if ng ≠ 0 then sp_r64_neg bits else bits
  if expo = 2047 then
    some ⟨if bits % 4503599627370496 ≠ 0 then ['N', 'a', 'N'] else ['I', 'n', 'f'], 3,
      STBSP__SPECIAL, ng⟩
  else if expo = 0 ∧ bits * 2 % 18446744073709551616 = 0 then
    some ⟨['0'], 1, 1, ng⟩
  else do
    let expo1 : Int :=
      if expo = 0 then stbsp__real_to_str_denormal 52 bits 2251799813685248 expo else expo
    let tens0 : Int := expo1 - 1023
    let tens1 : Int :=
      if tens0 < 0 then (tens0 * 617).tdiv 2048 else (tens0 * 1233).tdiv 4096 + 1
    let (ph, pl) ← stbsp__raise_to_power10 d (18 - tens1)
    let bits1 ← stbsp__ddtoS64 ph pl
    let tens2 : Int := if wrapU64 bits1 ≥ stbsp__tento19th then tens1 + 1 else tens1
    let frac_digits1 : Nat :=
      if frac_digits / 2147483648 % 2 = 1 then wrapU32 ((frac_digits % 134217728 : Nat) + 1)
      else wrapU32 (tens2 + (frac_digits : Int))
    let (bits2, tens3) := stbsp__real_to_str_round bits1 tens2 frac_digits1
    let bits3 ← stbsp__real_to_str_trim bits2
    let out ← stbsp__real_to_str_chunks 4 bits3 []
    some ⟨out, out.length, tens3, ng⟩

/-- The function `stbsp__real_to_parts(&bits, &expo, value)`: the result is
`(*bits, *expo)`. -/
def stbsp__real_to_parts (value : Nat) : Nat × Int :=
  (value % 4503599627370496, ((value / 4503599627370496 % 2048 : Nat) : Int) - 1023)

/-- The loop `while (precision) { ...lookup[(bits >> 60) & 15]; bits <<= 4; precision -= 1; }`
of the hexadecimal rendering. -/
def safe_print_convert_double_hex_digits (lookup : List Char) : Nat → Nat → List Char → List Char
  | 0, _, buffer => buffer
  | precision + 1, bits, buffer =>
    safe_print_convert_double_hex_digits lookup precision (bits * 16 % 18446744073709551616)
      (buffer ++ [safe_print_lookup lookup (bits / 1152921504606846976 % 16)])

/-- The value of `expo` that the hexadecimal rendering hands to the signed
conversion: after `stbsp__real_to_parts`, the statement
`if (expo == -1023) expo = bits ? -1022 : 0;`. -/
def safe_print_convert_double_hex_expo (number : Nat) : Int :=
  let parts := stbsp__real_to_parts (number % 18446744073709551616)
  if parts.2 = -1023 then (if parts.1 ≠ 0 then -1022 else 0) else parts.2

/-- The value of `bits` from which the hexadecimal rendering takes its
digits: after `stbsp__real_to_parts`, the statements `bits |= 1 << 52` (when
`expo` is not -1023), `bits <<= 64 - 56` and, for a precision below 15,
`bits += (8 << 56) >> (precision * 4)`. -/
def safe_print_convert_double_hex_bits (number : Nat) (precision : Int) : Nat :=
  let parts := stbsp__real_to_parts (number % 18446744073709551616)
  let bits0 : Nat := if parts.2 = -1023 then parts.1 else Nat.lor parts.1 4503599627370496
  let bits1 : Nat := bits0 * 256 % 18446744073709551616
  if precision < 15 then
    (bits1 + 576460752303423488 / 2 ^ (precision * 4).toNat) % 18446744073709551616
  else bits1

/-- The function `safe_print_convert_double_to_string` of the default float
conversion, with the text that was appended to `buffer` as its data. The
result is `none` where the source leaves the behaviour open: a negative
precision (a shift by a negative amount, a loop that counts the precision
down to zero), the read of a digit that `stbsp__real_to_str` did not write, a
text beyond the `size` of the buffer, and floating point arithmetic without a
result. -/
def safe_print_convert_double_to_string (size : Nat) (number : Nat) (precision : Int)
    (scientific hex uppercase keep_sign : Bool) : Option SafePrintStringRef := do
  let lookup := if uppercase then SafePrintCharacterLookupUppercase else SafePrintCharacterLookup
  let r ← stbsp__real_to_str number (wrapU32 precision)
  let buffer0 : List Char := if r.sign ≠ 0 then ['-'] else if keep_sign then ['+'] else []
  let buffer ←
    if r.decimal_pos = STBSP__SPECIAL then
      some (buffer0 ++ [r.start.getD 0 NUL, r.start.getD 1 NUL, r.start.getD 2 NUL])
    else if precision < 0 then none
    else if hex then
      let expo : Int := safe_print_convert_double_hex_expo number
      let bits2 : Nat := safe_print_convert_double_hex_bits number precision
      let buffer1 :=
        buffer0 ++ ['0', 'x', safe_print_lookup lookup (bits2 / 1152921504606846976 % 16), '.']
      let buffer2 := safe_print_convert_double_hex_digits lookup precision.toNat
        (bits2 * 16 % 18446744073709551616) buffer1
      let exp_str := safe_print_convert_signed_to_string 4 expo 10 uppercase true
      some (buffer2 ++ [if uppercase then 'P' else 'p'] ++ exp_str.data.take exp_str.length.toNat)
    else if scientific then
      let exp_str := safe_print_convert_signed_to_string 4 (wrapS32 (r.decimal_pos - 1)) 10 false
        true
      match r.start with
      | [] => none
      | c :: out =>
        let tmp_size : Nat := wrapU32 ((r.len : Int) - 1)
        let k : Nat := min tmp_size precision.toNat
        some (buffer0 ++ [c, '.'] ++ out.take k ++ List.replicate (precision.toNat - k) '0' ++
          [if uppercase then 'E' else 'e'] ++ exp_str.data.take exp_str.length.toNat)
    else
      let pos := r.decimal_pos
      if pos = 0 then
        let k : Nat := min precision.toNat r.len
        some (buffer0 ++ ['0', '.'] ++ r.start.take k ++
          List.replicate (precision.toNat - k) '0')
      else if pos > 0 then
        let j : Nat := min pos.toNat r.len
        let k : Nat := min precision.toNat (r.len - j)
        some (buffer0 ++ r.start.take j ++ List.replicate (pos.toNat - j) '0' ++ ['.'] ++
          (r.start.drop j).take k ++ List.replicate (precision.toNat - k) '0')
      else
        let z : Nat := min (-pos).toNat precision.toNat
        let k : Nat := min (precision.toNat - z) r.len
        some (buffer0 ++ ['0', '.'] ++ List.replicate z '0' ++ r.start.take k ++
          List.replicate (precision.toNat - z - k) '0')
  if buffer.length ≤ size then some ⟨buffer, buffer.length⟩ else none

/-- The default float conversion as a `SafePrintDoubleConversion`; where
`safe_print_convert_double_to_string` has no result the string is empty. -/
def safe_print_convert_double_default : SafePrintDoubleConversion :=
  fun size number precision scientific hex uppercase keep_sign =>
    (safe_print_convert_double_to_string size number precision scientific hex uppercase
      keep_sign).getD ⟨[], 0⟩

/-- A double conversion realises the default float conversion of the header:
wherever `safe_print_convert_double_to_string` has a result, it returns that
result. -/
def SafePrintDoubleConversion.realises_default (cvt : SafePrintDoubleConversion) : Prop :=
  ∀ (size number : Nat) (precision : Int) (scientific hex uppercase keep_sign : Bool)
    (str : SafePrintStringRef),
    safe_print_convert_double_to_string size number precision scientific hex uppercase
        keep_sign = some str →
      cvt size number precision scientific hex uppercase keep_sign = str

/-! ## Argument capture -/

/-- The types that the `_Generic` selection of `SAFE_PRINT_ARG_INDEX` has an
association for. -/
inductive SafePrintCType where
  | char
  | unsigned_char
  | short
  | unsigned_short
  | int
  | unsigned_int
  | long
  | unsigned_long
  | long_long
  | unsigned_long_long
  | float
  | double
  | char_const_pointer
  | char_pointer
  | void_const_pointer
  | void_pointer
  deriving DecidableEq, Repr

/-- Every type of `SafePrintCType`, in the order of the macro. -/
def SafePrintCType.all : List SafePrintCType :=
  [.char, .unsigned_char, .short, .unsigned_short, .int, .unsigned_int, .long, .unsigned_long,
    .long_long, .unsigned_long_long, .float, .double, .char_const_pointer, .char_pointer,
    .void_const_pointer, .void_pointer]

/-- The enum `SAFE_PRINT_CHAR = 1, SAFE_PRINT_UCHAR, ..., SAFE_PRINT_VOID_PTR`
of type indices. -/
def SAFE_PRINT_CHAR : Nat := 1

def SAFE_PRINT_UCHAR : Nat := 2

def SAFE_PRINT_SHORT : Nat := 3

def SAFE_PRINT_USHORT : Nat := 4

def SAFE_PRINT_INT : Nat := 5

def SAFE_PRINT_UINT : Nat := 6

def SAFE_PRINT_LONG : Nat := 7

def SAFE_PRINT_ULONG : Nat := 8

def SAFE_PRINT_LONGLONG : Nat := 9

def SAFE_PRINT_ULONGLONG : Nat := 10

def SAFE_PRINT_FLOAT : Nat := 11

def SAFE_PRINT_DOUBLE : Nat := 12

def SAFE_PRINT_CHAR_PTR : Nat := 13

def SAFE_PRINT_VOID_PTR : Nat := 14

/-- The macro `SAFE_PRINT_ARG_INDEX`, association by association. -/
def SAFE_PRINT_ARG_INDEX : SafePrintCType → Nat
  | .char => SAFE_PRINT_CHAR
  | .unsigned_char => SAFE_PRINT_UCHAR
  | .short => SAFE_PRINT_SHORT
  | .unsigned_short => SAFE_PRINT_USHORT
  | .int => SAFE_PRINT_INT
  | .unsigned_int => SAFE_PRINT_INT
  | .long => SAFE_PRINT_LONG
  | .unsigned_long => SAFE_PRINT_ULONG
  | .long_long => SAFE_PRINT_LONGLONG
  | .unsigned_long_long => SAFE_PRINT_ULONGLONG
  | .float => SAFE_PRINT_FLOAT
  | .double => SAFE_PRINT_DOUBLE
  | .char_const_pointer => SAFE_PRINT_CHAR_PTR
  | .char_pointer => SAFE_PRINT_CHAR_PTR
  | .void_const_pointer => SAFE_PRINT_VOID_PTR
  | .void_pointer => SAFE_PRINT_VOID_PTR

/-- The enum `SAFE_PRINT_I32 = 1, ..., SAFE_PRINT_PTR` of value categories. -/
inductive SafePrintArgKind where
  | SAFE_PRINT_I32
  | SAFE_PRINT_U32
  | SAFE_PRINT_I64
  | SAFE_PRINT_U64
  | SAFE_PRINT_R64
  | SAFE_PRINT_CHR
  | SAFE_PRINT_STR
  | SAFE_PRINT_PTR
  deriving DecidableEq, Repr

/-- The tag of a captured argument. -/
def SafePrintFormatArg.kind : SafePrintFormatArg → SafePrintArgKind
  | .SAFE_PRINT_I32 _ => .SAFE_PRINT_I32
  | .SAFE_PRINT_U32 _ => .SAFE_PRINT_U32
  | .SAFE_PRINT_I64 _ => .SAFE_PRINT_I64
  | .SAFE_PRINT_U64 _ => .SAFE_PRINT_U64
  | .SAFE_PRINT_R64 _ => .SAFE_PRINT_R64
  | .SAFE_PRINT_STR _ => .SAFE_PRINT_STR
  | .SAFE_PRINT_PTR _ => .SAFE_PRINT_PTR

/-- The array `TypeLookupTable`, entry by entry; the entry `0` is `none`. The
parameters are `sizeof(int)`, `sizeof(long)` and `sizeof(long long)`, which
the unsigned types share. -/
def TypeLookupTable (sizeof_int sizeof_long sizeof_long_long : Nat) :
    List (Option SafePrintArgKind) :=
  [none,
    some .SAFE_PRINT_I32,
    some .SAFE_PRINT_U32,
    some .SAFE_PRINT_I32,
    some .SAFE_PRINT_U32,
    some .SAFE_PRINT_I32,
    some .SAFE_PRINT_U32,
    if sizeof_long > sizeof_int then some .SAFE_PRINT_I64 else some .SAFE_PRINT_I32,
    if sizeof_long > sizeof_int then some .SAFE_PRINT_U64 else some .SAFE_PRINT_U32,
    if sizeof_long_long > sizeof_int then some .SAFE_PRINT_I64 else some .SAFE_PRINT_I32,
    if sizeof_long_long > sizeof_int then some .SAFE_PRINT_U64 else some .SAFE_PRINT_U32,
    some .SAFE_PRINT_R64,
    some .SAFE_PRINT_R64,
    some .SAFE_PRINT_STR,
    some .SAFE_PRINT_STR,
    some .SAFE_PRINT_PTR,
    some .SAFE_PRINT_PTR]

/-- The category the capture loop of `safe_print_implementation` dispatches
on for an argument of type `t`: `TypeLookupTable[arg_type]` with the
`arg_type` that `SAFE_PRINT_ARG_INDEX` put in front of the argument. -/
def safe_print_capture_kind (sizeof_int sizeof_long sizeof_long_long : Nat)
    (t : SafePrintCType) : Option SafePrintArgKind :=
  (TypeLookupTable sizeof_int sizeof_long sizeof_long_long).getD (SAFE_PRINT_ARG_INDEX t) none

/-- The value category that matches a C type: 32-bit signed for `char`,
`short` and `int`, 32-bit unsigned for their unsigned forms, the signed or
unsigned category of their width (`sizeof` times 8 bits) for `long` and
`long long`, floating point for `float` and `double`, text for character
pointers and opaque address for void pointers. -/
def matching_category (sizeof_long sizeof_long_long : Nat) :
    SafePrintCType → SafePrintArgKind
  | .char | .short | .int => .SAFE_PRINT_I32
  | .unsigned_char | .unsigned_short | .unsigned_int => .SAFE_PRINT_U32
  | .long => if sizeof_long * 8 ≤ 32 then .SAFE_PRINT_I32 else .SAFE_PRINT_I64
  | .unsigned_long => if sizeof_long * 8 ≤ 32 then .SAFE_PRINT_U32 else .SAFE_PRINT_U64
  | .long_long => if sizeof_long_long * 8 ≤ 32 then .SAFE_PRINT_I32 else .SAFE_PRINT_I64
  | .unsigned_long_long =>
    if sizeof_long_long * 8 ≤ 32 then .SAFE_PRINT_U32 else .SAFE_PRINT_U64
  | .float | .double => .SAFE_PRINT_R64
  | .char_const_pointer | .char_pointer => .SAFE_PRINT_STR
  | .void_const_pointer | .void_pointer => .SAFE_PRINT_PTR

/-! ## Reference layout of the fixed notation -/

/-- A digit string cut, or padded with zeros on the right, to exactly `q`
characters. -/
def cut_or_zero_pad (q : Nat) (digits : List Char) : List Char :=
  (digits ++ List.replicate q '0').take q

/-- The fixed-notation layout of a digit string with decimal position `p` and
`q` fraction digits: the integer part (the first `p` digits, right-padded with
zeros to exactly `p` characters, or a single `0` when `p ≤ 0`), then `.`, then
exactly `q` fraction digits (`min(-p, q)` leading zeros when `p < 0`, then the
remaining digits of the string, cut or zero-padded to `q` in total). -/
def fixed_notation_reference (digits : List Char) (p : Int) (q : Nat) : List Char :=
  let integer_part : List Char :=
    if p ≤ 0 then ['0']
    else digits.take p.toNat ++ List.replicate (p.toNat - (digits.take p.toNat).length) '0'
  let leading_zeros : Nat := if p < 0 then min (-p).toNat q else 0
  let remaining : List Char := if p ≤ 0 then digits else digits.drop p.toNat
  integer_part ++ ['.'] ++ cut_or_zero_pad q (List.replicate leading_zeros '0' ++ remaining)

/-! ## One pass of the scanning loop -/

/-- One pass of the scanning loop `while (context.fmt[0])` of
`safe_print_implementation`, the test of the loop condition followed by the
body: either the call returns (at the terminator, on a set error flag, on a
parse error) or the pass ends with the context of the next pass. -/
def safe_print_implementation_step (cvt : SafePrintDoubleConversion)
    (context : SafePrintContext) : SafePrintOutcome (SafePrintReturn ⊕ SafePrintContext) :=
  match context.fmt with
  | [] => .done (.inl ⟨context.written, context⟩)
  | c :: fmt =>
    if c = NUL then .done (.inl ⟨context.written, context⟩)
    else if context.error ≠ 0 then .done (.inl ⟨context.error, context⟩)
    else if c = '{' then
      match safe_print_parse_format_specifier context with
      | .done (.SP_PFS_ERROR, context1) =>
        .done (.inl ⟨SP_ERROR_UNKNOWN_FORMAT_SPECIFIER, context1⟩)
      | .done (.SP_PFS_ESCAPED_BRACE, context1) =>
        .done (.inr (safe_print_output_character context1 '{'))
      | .done (.SP_PFS_OK info, context1) =>
        .done (.inr (safe_print_format_arg cvt context1 info))
      | .past_terminator => .past_terminator
      | .union_member => .union_member
      | .out_of_fuel => .out_of_fuel
    else if c = '}' then
      if fmt.headD NUL = '}' then
        .done (.inr { safe_print_output_character context '}' with fmt := fmt.tail })
      else
        .done (.inr { safe_print_report_error context SP_ERROR_MISSING_BRACE with fmt := fmt })
    else
      .done (.inr { safe_print_output_character context c with fmt := fmt })

/-! # Properties -/

/-! ## Machine integers -/

theorem wrapS32_add_wrapS32 (x y : Int) : wrapS32 (wrapS32 x + y) = wrapS32 (x + y) := by
  unfold wrapS32
  omega

theorem wrapS32_wrapS32 (x : Int) : wrapS32 (wrapS32 x) = wrapS32 x := by
  unfold wrapS32
  omega

theorem wrapS32_of_range (x : Int) (h0 : -2147483648 ≤ x) (h1 : x < 2147483648) :
    wrapS32 x = x := by
  unfold wrapS32
  omega

theorem NUL_ne_opening_brace : ¬ ('{' = NUL) := by decide

theorem NUL_ne_closing_brace : ¬ ('}' = NUL) := by decide

/-! ## Templates without directives -/

/-- The scanning loop on a template made of literal characters and brace
escapes, started in any error-free state with an accepting sink: it ends at
the terminator, has appended the rendering to the sink and has counted it. -/
theorem safe_print_implementation_loop_escaped (cvt : SafePrintDoubleConversion)
    (pieces : List SafePrintTemplatePiece) (h : ∀ p ∈ pieces, p.plain) :
    ∀ (fuel : Nat) (fs out : List Char) (w ci : Int) (args : List SafePrintFormatArg),
      (escaped_template_text pieces).length < fuel →
      safe_print_implementation_loop cvt fuel
        ⟨fs, escaped_template_text pieces, ⟨out, none⟩, wrapS32 w, 0, ci, args⟩ =
      .done ⟨wrapS32 (w + (escaped_template_rendering pieces).length),
        ⟨fs, [], ⟨out ++ escaped_template_rendering pieces, none⟩,
          wrapS32 (w + (escaped_template_rendering pieces).length), 0, ci, args⟩⟩ := by
  induction pieces with
  | nil =>
    intro fuel fs out w ci args hf
    cases fuel with
    | zero => simp at hf
    | succ fuel =>
      simp [safe_print_implementation_loop, escaped_template_text, escaped_template_rendering]
  | cons p ps ih =>
    intro fuel fs out w ci args hf
    have ih := ih (fun p hp => h p (List.mem_cons_of_mem _ hp))
    cases fuel with
    | zero => simp at hf
    | succ fuel =>
      cases p with
      | literal c =>
        have hc := h (.literal c) (by simp)
        simp only [SafePrintTemplatePiece.plain] at hc
        simp only [escaped_template_text, List.length_cons] at hf
        simp [safe_print_implementation_loop, escaped_template_text, escaped_template_rendering, hc,
          safe_print_output_character, SafePrintFileType.accepts, wrapS32_add_wrapS32]
        rw [ih fuel fs (out ++ [c]) (w + 1) ci args (by omega)]
        simp [add_assoc, add_comm]
      | escaped_open =>
        simp only [escaped_template_text, List.length_cons] at hf
        simp [safe_print_implementation_loop, escaped_template_text, escaped_template_rendering,
          safe_print_output_character, SafePrintFileType.accepts, wrapS32_add_wrapS32,
          safe_print_parse_format_specifier, safe_print_next_token, safe_print_next_token_at,
          NUL_ne_opening_brace, NUL_ne_closing_brace]
        rw [ih fuel fs (out ++ ['{']) (w + 1) ci args (by omega)]
        simp [add_assoc, add_comm]
      | escaped_close =>
        simp only [escaped_template_text, List.length_cons] at hf
        simp [safe_print_implementation_loop, escaped_template_text, escaped_template_rendering,
          safe_print_output_character, SafePrintFileType.accepts, wrapS32_add_wrapS32,
          NUL_ne_opening_brace, NUL_ne_closing_brace]
        rw [ih fuel fs (out ++ ['}']) (w + 1) ci args (by omega)]
        simp [add_assoc, add_comm]

theorem safe_print_lookup_lower (r : Nat) (h : r < 16) :
    safe_print_lookup SafePrintCharacterLookup r = Nat.digitChar r := by
  interval_cases r <;> rfl

theorem safe_print_lookup_upper (r : Nat) (h : r < 16) :
    safe_print_lookup SafePrintCharacterLookupUppercase r = (Nat.digitChar r).toUpper := by
  interval_cases r <;> rfl

theorem safe_print_convert_digits_eq_toDigitsCore (lookup : List Char) (f : Char → Char) (b : Nat) (hb : 2 ≤ b)
    (hl : ∀ r, r < b → safe_print_lookup lookup r = f (Nat.digitChar r)) :
    ∀ (room fuel n : Nat) (buffer : List Char), n < b ^ (room + 1) → n < fuel →
      safe_print_convert_digits lookup b room n (buffer.map f) =
        (Nat.toDigitsCore b fuel n buffer).map f := by
  intro room
  induction room with
  | zero =>
    intro fuel n buffer hn hf
    cases fuel with
    | zero => omega
    | succ fuel =>
      have hdiv : n / b = 0 := Nat.div_eq_of_lt (by simpa using hn)
      simp [safe_print_convert_digits, Nat.toDigitsCore, hdiv, hl (n % b) (Nat.mod_lt _ (by omega))]
  | succ room ih =>
    intro fuel n buffer hn hf
    cases fuel with
    | zero => omega
    | succ fuel =>
      by_cases hdiv : n / b = 0
      · simp [safe_print_convert_digits, Nat.toDigitsCore, hdiv, hl (n % b) (Nat.mod_lt _ (by omega))]
      · have hpos : 0 < n / b := Nat.pos_of_ne_zero hdiv
        have h1 : n / b < b ^ (room + 1) := by
          apply Nat.div_lt_of_lt_mul
          calc n < b ^ (room + 1 + 1) := hn
            _ = b * b ^ (room + 1) := by ring
        have h2 : n / b < fuel := by
          have : n / b < n := Nat.div_lt_self (by
            rcases Nat.eq_zero_or_pos n with h0 | h0
            · subst h0; simp at hdiv
            · exact h0) (by omega)
          omega
        have := ih fuel (n / b) (Nat.digitChar (n % b) :: buffer) h1 h2
        simp only [List.map_cons] at this
        simp [safe_print_convert_digits, Nat.toDigitsCore, hdiv, hl (n % b) (Nat.mod_lt _ (by omega)), this]

theorem safe_print_convert_digits_eq_toDigits (lookup : List Char) (f : Char → Char) (b : Nat) (hb : 2 ≤ b)
    (hl : ∀ r, r < b → safe_print_lookup lookup r = f (Nat.digitChar r)) (n : Nat)
    (hn : n < 18446744073709551616) :
    safe_print_convert_digits lookup b 127 n [] = (Nat.toDigits b n).map f := by
  have h := safe_print_convert_digits_eq_toDigitsCore lookup f b hb hl 127 (n + 1) n [] (by
    calc n < 2 ^ 64 := hn
      _ ≤ 2 ^ 128 := by norm_num
      _ ≤ b ^ (127 + 1) := Nat.pow_le_pow_left hb _) (Nat.lt_succ_self n)
  simpa [Nat.toDigits] using h

/-! ## Output to an accepting sink -/

theorem safe_print_output_character_accepting (fs fmt out : List Char) (w e ci : Int)
    (args : List SafePrintFormatArg) (c : Char) :
    safe_print_output_character ⟨fs, fmt, ⟨out, none⟩, wrapS32 w, e, ci, args⟩ c =
      ⟨fs, fmt, ⟨out ++ [c], none⟩, wrapS32 (w + 1), e, ci, args⟩ := by
  simp [safe_print_output_character, SafePrintFileType.accepts, wrapS32_add_wrapS32]

theorem safe_print_output_fill_accepting (fill : Char) :
    ∀ (space : Nat) (fs fmt out : List Char) (w e ci : Int) (args : List SafePrintFormatArg),
      safe_print_output_fill fill space ⟨fs, fmt, ⟨out, none⟩, wrapS32 w, e, ci, args⟩ =
        ⟨fs, fmt, ⟨out ++ List.replicate space fill, none⟩, wrapS32 (w + space), e, ci, args⟩ := by
  intro space
  induction space with
  | zero => intro fs fmt out w e ci args; simp [safe_print_output_fill]
  | succ space ih =>
    intro fs fmt out w e ci args
    rw [safe_print_output_fill, safe_print_output_character_accepting, ih]
    simp only [List.replicate_succ, List.append_assoc, List.singleton_append, Nat.cast_add, Nat.cast_one]
    congr 2
    omega

theorem safe_print_output_mapped_accepting (f : Char → Char) :
    ∀ (str fs fmt out : List Char) (w e ci : Int) (args : List SafePrintFormatArg),
      safe_print_output_mapped f str ⟨fs, fmt, ⟨out, none⟩, wrapS32 w, e, ci, args⟩ =
        ⟨fs, fmt, ⟨out ++ str.map f, none⟩, wrapS32 (w + str.length), e, ci, args⟩ := by
  intro str
  induction str with
  | nil => intro fs fmt out w e ci args; simp [safe_print_output_mapped]
  | cons c str ih =>
    intro fs fmt out w e ci args
    rw [safe_print_output_mapped, safe_print_output_character_accepting, ih]
    simp only [List.map_cons, List.append_assoc, List.singleton_append, List.length_cons,
      Nat.cast_add, Nat.cast_one]
    congr 2
    omega

theorem safe_print_output_string_accepting (fs fmt out : List Char) (w e ci : Int)
    (args : List SafePrintFormatArg) (str : List Char) (length : Nat) (h : length ≤ str.length) :
    safe_print_output_string ⟨fs, fmt, ⟨out, none⟩, wrapS32 w, e, ci, args⟩ str length =
      ⟨fs, fmt, ⟨out ++ str.take length, none⟩, wrapS32 (w + length), e, ci, args⟩ := by
  simp [safe_print_output_string, SafePrintFileType.fwrite, SafePrintFileType.accepts,
    wrapS32_add_wrapS32, h]

theorem wrapU64_of_range (x : Int) (h0 : 0 ≤ x) (h1 : x < 18446744073709551616) :
    wrapU64 x = x.toNat := by
  unfold wrapU64
  rw [Int.emod_eq_of_lt h0 h1]

/-- The number of fill characters that the width post-processing computes. -/
theorem safe_print_space_eq (length min : Int) (h0 : 0 ≤ length) (hmin : min < 2147483648) :
    ((if length < min then wrapS32 (min - length) else 0) % 4294967296).toNat =
      (min - length).toNat := by
  split
  · rw [wrapS32_of_range _ (by omega) (by omega), Int.emod_eq_of_lt (by omega) (by omega)]
  · have : (min - length).toNat = 0 := by omega
    simp [this]

/-- The number of characters of the string that the width post-processing keeps. -/
theorem safe_print_length_eq (length max : Int) (h0 : 0 ≤ length) (h2 : length < 2147483648)
    (hmax : 0 ≤ max) :
    wrapU64 (if max ≠ 0 ∧ length > max then max else length) =
      (if max ≠ 0 ∧ length > max then max.toNat else length.toNat) := by
  split
  · rename_i h
    exact wrapU64_of_range _ hmax (by omega)
  · exact wrapU64_of_range _ h0 (by omega)

/-- The padding and the body that the width post-processing of numbers writes
to an accepting sink, for a string of non-negative length within its data. -/
theorem safe_print_apply_format_info_accepting (fs fmt out : List Char) (w e ci : Int)
    (args : List SafePrintFormatArg) (str : SafePrintStringRef) (info : SafePrintFormatInfo)
    (default_fill : Char) (h0 : 0 ≤ str.length) (h1 : str.length ≤ str.data.length)
    (h2 : str.length < 2147483648) (hmin : info.min < 2147483648) (hmax : 0 ≤ info.max) :
    safe_print_apply_format_info ⟨fs, fmt, ⟨out, none⟩, wrapS32 w, e, ci, args⟩ str info
        default_fill =
      ⟨fs, fmt,
        ⟨out ++
          ((if info.alignment = .SP_FI_ALIGN_LEFT then [] else
              List.replicate (info.min - str.length).toNat
                (if info.fill ≠ NUL then info.fill else default_fill)) ++
            str.data.take (if info.max ≠ 0 ∧ str.length > info.max then info.max.toNat
              else str.length.toNat) ++
            (if info.alignment = .SP_FI_ALIGN_LEFT then
              List.replicate (info.min - str.length).toNat
                (if info.fill ≠ NUL then info.fill else default_fill) else [])), none⟩,
        wrapS32 (w + (info.min - str.length).toNat +
          (if info.max ≠ 0 ∧ str.length > info.max then info.max.toNat else str.length.toNat)),
        e, ci, args⟩ := by
  have hk : (if info.max ≠ 0 ∧ str.length > info.max then info.max.toNat else str.length.toNat) ≤
      str.data.length := by
    split <;> omega
  unfold safe_print_apply_format_info
  simp only [safe_print_space_eq _ _ h0 hmin, safe_print_length_eq _ _ h0 h2 hmax]
  cases halign : info.alignment
  · simp [safe_print_output_fill_accepting, safe_print_output_string_accepting, hk]
  · simp [safe_print_output_fill_accepting, safe_print_output_string_accepting, hk]
    congr 1
    omega
  · simp [safe_print_output_fill_accepting, safe_print_output_string_accepting, hk]

theorem safe_print_length_toNat_eq (length max : Int) :
    (if max ≠ 0 ∧ length > max then max else length).toNat =
      (if max ≠ 0 ∧ length > max then max.toNat else length.toNat) := by
  split <;> rfl

/-- The padding and the body that the width post-processing of text writes to
an accepting sink, for a string of non-negative length within its data. -/
theorem safe_print_apply_format_info_to_string_accepting (fs fmt out : List Char) (w e ci : Int)
    (args : List SafePrintFormatArg) (str : SafePrintStringRef) (info : SafePrintFormatInfo)
    (default_fill : Char) (h0 : 0 ≤ str.length) (h1 : str.length ≤ str.data.length)
    (h2 : str.length < 2147483648) (hmin : info.min < 2147483648) (hmax : 0 ≤ info.max) :
    safe_print_apply_format_info_to_string ⟨fs, fmt, ⟨out, none⟩, wrapS32 w, e, ci, args⟩ str info
        default_fill =
      ⟨fs, fmt,
        ⟨out ++
          ((if info.alignment = .SP_FI_ALIGN_RIGHT then
              List.replicate (info.min - str.length).toNat
                (if info.fill ≠ NUL then info.fill else default_fill) else []) ++
            (str.data.take (if info.max ≠ 0 ∧ str.length > info.max then info.max.toNat
              else str.length.toNat)).map
              (if info.char_case = .SP_FI_UPPER_CASE then safe_print_to_upper
                else if info.char_case = .SP_FI_LOWER_CASE then safe_print_to_lower else id) ++
            (if info.alignment = .SP_FI_ALIGN_RIGHT then [] else
              List.replicate (info.min - str.length).toNat
                (if info.fill ≠ NUL then info.fill else default_fill))), none⟩,
        wrapS32 (w + (info.min - str.length).toNat +
          (if info.max ≠ 0 ∧ str.length > info.max then info.max.toNat else str.length.toNat)),
        e, ci, args⟩ := by
  have hk : (if info.max ≠ 0 ∧ str.length > info.max then info.max.toNat else str.length.toNat) ≤
      str.data.length := by
    split <;> omega
  unfold safe_print_apply_format_info_to_string
  simp only [safe_print_space_eq _ _ h0 hmin, safe_print_length_eq _ _ h0 h2 hmax,
    safe_print_length_toNat_eq]
  cases halign : info.alignment <;> cases hcase : info.char_case <;>
    simp [safe_print_output_fill_accepting, safe_print_output_string_accepting,
      safe_print_output_mapped_accepting, hk] <;>
    (congr 1; omega)

theorem safe_print_convert_unsigned_to_string_eq (n base : Nat) (uppercase : Bool)
    (hn : n < 18446744073709551616) (hb : 2 ≤ base) (hb16 : base ≤ 16) :
    safe_print_convert_unsigned_to_string 128 n base uppercase =
      ⟨integer_text base uppercase n, (integer_text base uppercase n).length⟩ := by
  have hbase : wrapU64 (base : Int) = base := by
    rw [wrapU64_of_range _ (by omega) (by omega)]; simp
  have hneg : ¬ ((n : Int) < 0) := by omega
  unfold safe_print_convert_unsigned_to_string integer_text
  simp only [hbase, hneg, if_false, List.nil_append, Int.natAbs_ofNat]
  cases uppercase
  · have h := safe_print_convert_digits_eq_toDigits SafePrintCharacterLookup id base hb
      (fun r hr => by simpa using safe_print_lookup_lower r (by omega)) n hn
    simp [h]
  · have h := safe_print_convert_digits_eq_toDigits SafePrintCharacterLookupUppercase
      Char.toUpper base hb (fun r hr => safe_print_lookup_upper r (by omega)) n hn
    simp [h]

theorem safe_print_convert_signed_to_string_eq (v : Int) (base : Nat) (uppercase : Bool)
    (h0 : -9223372036854775808 ≤ v) (h1 : v < 9223372036854775808) (hb : 2 ≤ base)
    (hb16 : base ≤ 16) :
    safe_print_convert_signed_to_string 128 v base uppercase false =
      ⟨integer_text base uppercase v, (integer_text base uppercase v).length⟩ := by
  have hbase : wrapU64 (base : Int) = base := by
    rw [wrapU64_of_range _ (by omega) (by omega)]; simp
  have hnum : (if v < 0 then wrapU64 (-v) else wrapU64 v) = v.natAbs := by
    split
    · rw [wrapU64_of_range _ (by omega) (by omega)]; omega
    · rw [wrapU64_of_range _ (by omega) (by omega)]; omega
  have hlt : v.natAbs < 18446744073709551616 := by omega
  unfold safe_print_convert_signed_to_string integer_text
  simp only [hbase, hnum]
  cases uppercase
  · have h := safe_print_convert_digits_eq_toDigits SafePrintCharacterLookup id base hb
      (fun r hr => by simpa using safe_print_lookup_lower r (by omega)) v.natAbs hlt
    by_cases hv : v < 0 <;> simp [h, hv]
  · have h := safe_print_convert_digits_eq_toDigits SafePrintCharacterLookupUppercase
      Char.toUpper base hb (fun r hr => safe_print_lookup_upper r (by omega)) v.natAbs hlt
    by_cases hv : v < 0 <;> simp [h, hv]

/-- Rendering of an integer argument without the `sign` option, in a base up
to 16: the width post-processing applied to its standard positional text. -/
theorem safe_print_format_arg_integer (cvt : SafePrintDoubleConversion)
    (context : SafePrintContext) (info : SafePrintFormatInfo) (arg : SafePrintFormatArg)
    (v : Int) (base : Nat) (hidx : 0 ≤ info.arg_index)
    (hget : context.args.get? info.arg_index.toNat = some arg)
    (hv : arg.integer_value = some v) (hsign : info.sign = false)
    (hbase : SAFE_PRINT_BASE info.base = base) (hb : 2 ≤ base) (hb16 : base ≤ 16) :
    safe_print_format_arg cvt context info =
      safe_print_apply_format_info context
        ⟨integer_text base (decide (info.char_case = .SP_FI_UPPER_CASE)) v,
          (integer_text base (decide (info.char_case = .SP_FI_UPPER_CASE)) v).length⟩ info '0' := by
  have hnot : ¬ info.arg_index < 0 := by omega
  unfold safe_print_format_arg
  rw [if_neg hnot, hget]
  cases arg with
  | SAFE_PRINT_I32 s32 =>
    simp only [SafePrintFormatArg.integer_value] at hv
    split at hv
    · rename_i hr
      cases hv
      simp only [hbase, hsign]
      rw [safe_print_convert_signed_to_string_eq v base _ (by omega) (by omega) hb hb16]
    · cases hv
  | SAFE_PRINT_U32 u32 =>
    simp only [SafePrintFormatArg.integer_value] at hv
    split at hv
    · rename_i hr
      cases hv
      simp only [hbase]
      rw [safe_print_convert_unsigned_to_string_eq u32 base _ (by omega) hb hb16]
    · cases hv
  | SAFE_PRINT_I64 s64 =>
    simp only [SafePrintFormatArg.integer_value] at hv
    split at hv
    · rename_i hr
      cases hv
      simp only [hbase, hsign]
      rw [safe_print_convert_signed_to_string_eq v base _ (by omega) (by omega) hb hb16]
    · cases hv
  | SAFE_PRINT_U64 u64 =>
    simp only [SafePrintFormatArg.integer_value] at hv
    split at hv
    · rename_i hr
      cases hv
      simp only [hbase]
      rw [safe_print_convert_unsigned_to_string_eq u64 base _ (by omega) hb hb16]
    · cases hv
  | SAFE_PRINT_R64 r64 => simp [SafePrintFormatArg.integer_value] at hv
  | SAFE_PRINT_STR str => simp [SafePrintFormatArg.integer_value] at hv
  | SAFE_PRINT_PTR ptr => simp [SafePrintFormatArg.integer_value] at hv

/-- A template that is one directive: when the parser accepts it and the
rendering leaves the cursor at the terminator, the call returns the count
kept by the rendering. -/
theorem safe_print_implementation_single_directive (cvt : SafePrintDoubleConversion)
    (handle : SafePrintFileType) (fmt : List Char) (args : List SafePrintFormatArg)
    (info : SafePrintFormatInfo) (context1 : SafePrintContext)
    (hparse : safe_print_parse_format_specifier
      ⟨'{' :: fmt, '{' :: fmt, handle, 0, 0, 0, args⟩ = .done (.SP_PFS_OK info, context1))
    (hfmt : (safe_print_format_arg cvt context1 info).fmt = []) :
    safe_print_implementation cvt handle ('{' :: fmt) args =
      .done ⟨(safe_print_format_arg cvt context1 info).written,
        safe_print_format_arg cvt context1 info⟩ := by
  unfold safe_print_implementation
  simp only [List.length_cons]
  rw [safe_print_implementation_loop]
  simp only [NUL_ne_opening_brace, if_false, hparse, ne_eq, not_true_eq_false, if_true]
  rw [safe_print_implementation_loop, hfmt]

theorem integer_text_length_lt (base : Nat) (uppercase : Bool) (v : Int) (hb : 2 ≤ base)
    (hv : v.natAbs < 18446744073709551616) :
    ((integer_text base uppercase v).length : Int) < 2147483648 := by
  have hpow : (2 : Nat) ^ 64 = 18446744073709551616 := by norm_num
  have h := Nat.toDigitsCore_length base hb (v.natAbs + 1) v.natAbs 64
    (lt_of_lt_of_le (hpow ▸ hv) (Nat.pow_le_pow_left hb _)) (by norm_num)
  have h2 : (Nat.toDigits base v.natAbs).length ≤ 64 := h
  unfold integer_text
  split <;> simp <;> omega

theorem integer_value_natAbs_lt (arg : SafePrintFormatArg) (v : Int)
    (hv : arg.integer_value = some v) : v.natAbs < 18446744073709551616 := by
  cases arg <;> simp only [SafePrintFormatArg.integer_value] at hv
  all_goals first
    | (split at hv
       · cases hv; omega
       · cases hv)
    | cases hv

/-- Rendering of an integer argument (no `sign` option, base up to 16) to an
accepting sink: fill characters and standard positional text. -/
theorem safe_print_format_arg_integer_accepting (cvt : SafePrintDoubleConversion)
    (fs fmt out : List Char) (w e ci : Int) (args : List SafePrintFormatArg)
    (info : SafePrintFormatInfo) (arg : SafePrintFormatArg)
    (v : Int) (base : Nat) (hidx : 0 ≤ info.arg_index)
    (hget : args.get? info.arg_index.toNat = some arg)
    (hv : arg.integer_value = some v) (hsign : info.sign = false)
    (hbase : SAFE_PRINT_BASE info.base = base) (hb : 2 ≤ base) (hb16 : base ≤ 16)
    (hmin : info.min < 2147483648) (hmax : info.max = 0) :
    safe_print_format_arg cvt ⟨fs, fmt, ⟨out, none⟩, wrapS32 w, e, ci, args⟩ info =
      ⟨fs, fmt,
        ⟨out ++
          ((if info.alignment = .SP_FI_ALIGN_LEFT then [] else
              List.replicate (info.min -
                  (integer_text base (decide (info.char_case = .SP_FI_UPPER_CASE)) v).length).toNat
                (if info.fill ≠ NUL then info.fill else '0')) ++
            integer_text base (decide (info.char_case = .SP_FI_UPPER_CASE)) v ++
            (if info.alignment = .SP_FI_ALIGN_LEFT then
              List.replicate (info.min -
                  (integer_text base (decide (info.char_case = .SP_FI_UPPER_CASE)) v).length).toNat
                (if info.fill ≠ NUL then info.fill else '0') else [])), none⟩,
        wrapS32 (w + (info.min -
            (integer_text base (decide (info.char_case = .SP_FI_UPPER_CASE)) v).length).toNat +
          (integer_text base (decide (info.char_case = .SP_FI_UPPER_CASE)) v).length),
        e, ci, args⟩ := by
  rw [safe_print_format_arg_integer cvt _ info arg v base hidx hget hv hsign hbase hb hb16]
  have h2 := integer_text_length_lt base (decide (info.char_case = .SP_FI_UPPER_CASE)) v hb
    (integer_value_natAbs_lt arg v hv)
  rw [safe_print_apply_format_info_accepting fs fmt out w e ci args
    ⟨integer_text base (decide (info.char_case = .SP_FI_UPPER_CASE)) v,
      (integer_text base (decide (info.char_case = .SP_FI_UPPER_CASE)) v).length⟩ info '0'
    (Int.natCast_nonneg _) (le_refl _) h2 hmin (by omega)]
  simp [hmax]

/-- A template that is one directive without width options, applied to one
integer argument: the call writes the standard positional text. -/
theorem safe_print_implementation_integer_directive (cvt : SafePrintDoubleConversion)
    (fmt : List Char) (arg : SafePrintFormatArg) (v : Int) (info : SafePrintFormatInfo)
    (base : Nat)
    (hparse : safe_print_parse_format_specifier
      ⟨'{' :: fmt, '{' :: fmt, SafePrintStdOut, 0, 0, 0, [arg]⟩ =
        .done (.SP_PFS_OK info, ⟨'{' :: fmt, [], SafePrintStdOut, 0, 0, 1, [arg]⟩))
    (hidx : info.arg_index = 0) (hv : arg.integer_value = some v) (hsign : info.sign = false)
    (hbase : SAFE_PRINT_BASE info.base = base) (hb : 2 ≤ base) (hb16 : base ≤ 16)
    (hmin : info.min = 0) (hmax : info.max = 0) :
    safe_print_implementation cvt SafePrintStdOut ('{' :: fmt) [arg] =
      safe_print_success ('{' :: fmt) [arg]
        (integer_text base (decide (info.char_case = .SP_FI_UPPER_CASE)) v) 1 := by
  have h0 : (0 : Int) = wrapS32 0 := by decide
  have hfa := safe_print_format_arg_integer_accepting cvt ('{' :: fmt) [] [] 0 0 1 [arg] info arg
    v base (by omega) (by simp [hidx]) hv hsign hbase hb hb16 (by omega) hmax
  rw [← h0] at hfa
  have hfa' : safe_print_format_arg cvt ⟨'{' :: fmt, [], SafePrintStdOut, 0, 0, 1, [arg]⟩ info =
      ⟨'{' :: fmt, [], ⟨integer_text base (decide (info.char_case = .SP_FI_UPPER_CASE)) v, none⟩,
        (integer_text base (decide (info.char_case = .SP_FI_UPPER_CASE)) v).length, 0, 1, [arg]⟩ := by
    have h2 := integer_text_length_lt base (decide (info.char_case = .SP_FI_UPPER_CASE)) v hb
      (integer_value_natAbs_lt arg v hv)
    rw [SafePrintStdOut, hfa]
    simp [hmin, wrapS32_of_range _ (Int.natCast_nonneg _) h2]
  rw [safe_print_implementation_single_directive cvt SafePrintStdOut fmt [arg] info _ hparse
    (by rw [hfa']), hfa']
  rfl

theorem numeral_digit_value_lookup_lower (r : Nat) (h : r < 36) :
    numeral_digit_value (safe_print_lookup SafePrintCharacterLookup r) = some r := by
  interval_cases r <;> rfl

theorem numeral_digit_value_lookup_upper (r : Nat) (h : r < 36) :
    numeral_digit_value (safe_print_lookup SafePrintCharacterLookupUppercase r) = some r := by
  interval_cases r <;> rfl

theorem safe_print_lookup_lower_not_sign (r : Nat) (h : r < 36) :
    safe_print_lookup SafePrintCharacterLookup r ≠ '-' ∧
      safe_print_lookup SafePrintCharacterLookup r ≠ '+' := by
  interval_cases r <;> decide

theorem safe_print_lookup_upper_not_sign (r : Nat) (h : r < 36) :
    safe_print_lookup SafePrintCharacterLookupUppercase r ≠ '-' ∧
      safe_print_lookup SafePrintCharacterLookupUppercase r ≠ '+' := by
  interval_cases r <;> decide

/-- Reading back what the conversion loop wrote: the digits in front of the
buffer carry the number. -/
theorem parse_numeral_digits_convert (lookup : List Char) (b : Nat) (hb : 2 ≤ b)
    (hl : ∀ r, r < b → numeral_digit_value (safe_print_lookup lookup r) = some r) :
    ∀ (room n : Nat) (buffer : List Char), n < b ^ (room + 1) →
      parse_numeral_digits b (safe_print_convert_digits lookup b room n buffer) 0 =
        parse_numeral_digits b buffer n := by
  intro room
  induction room with
  | zero =>
    intro n buffer hn
    have hlt : n < b := by simpa using hn
    simp [safe_print_convert_digits, parse_numeral_digits, hl n hlt, hlt, Nat.mod_eq_of_lt hlt]
  | succ room ih =>
    intro n buffer hn
    have hmod : n % b < b := Nat.mod_lt n (by omega)
    by_cases hdiv : n / b = 0
    · have hlt : n < b := (Nat.div_eq_zero_iff (by omega)).mp hdiv
      simp [safe_print_convert_digits, parse_numeral_digits, hl n hlt, hlt, hdiv,
        Nat.mod_eq_of_lt hlt]
    · have h1 : n / b < b ^ (room + 1) := by
        apply Nat.div_lt_of_lt_mul
        calc n < b ^ (room + 1 + 1) := hn
          _ = b * b ^ (room + 1) := by ring
      rw [safe_print_convert_digits, if_neg hdiv, ih (n / b) _ h1]
      simp [parse_numeral_digits, hl _ hmod, hmod, Nat.div_add_mod']

/-- The conversion loop writes at least one digit, and the first one is an
entry of the table below the base. -/
theorem safe_print_convert_digits_head (lookup : List Char) (b : Nat) (hb : 2 ≤ b) :
    ∀ (room n : Nat) (buffer : List Char),
      ∃ r tail, r < b ∧
        safe_print_convert_digits lookup b room n buffer = safe_print_lookup lookup r :: tail := by
  intro room
  induction room with
  | zero =>
    intro n buffer
    exact ⟨n % b, buffer, Nat.mod_lt n (by omega), rfl⟩
  | succ room ih =>
    intro n buffer
    by_cases hdiv : n / b = 0
    · exact ⟨n % b, buffer, Nat.mod_lt n (by omega), by simp [safe_print_convert_digits, hdiv]⟩
    · rw [safe_print_convert_digits, if_neg hdiv]
      exact ih _ _

/-- Reading back the digits of a number below 2^64 written into a buffer of
128 characters, in any base from 2 to 36, with either table. -/
theorem parse_numeral_convert_digits (b : Nat) (uppercase : Bool) (hb : 2 ≤ b) (hb36 : b ≤ 36)
    (n : Nat) (hn : n < 18446744073709551616) :
    ∃ d tail,
      safe_print_convert_digits
        (if uppercase then SafePrintCharacterLookupUppercase else SafePrintCharacterLookup)
        b 127 n [] = d :: tail ∧ d ≠ '-' ∧ d ≠ '+' ∧
      parse_numeral_digits b (d :: tail) 0 = some n := by
  have hpow : (2 : Nat) ^ 128 = 340282366920938463463374607431768211456 := by norm_num
  have hlt : n < b ^ (127 + 1) :=
    lt_of_lt_of_le (by rw [hpow]; omega) (Nat.pow_le_pow_left hb 128)
  cases uppercase
  · obtain ⟨r, tail, hr, hd⟩ := safe_print_convert_digits_head SafePrintCharacterLookup b hb 127 n []
    have hp := parse_numeral_digits_convert SafePrintCharacterLookup b hb
      (fun r hr => numeral_digit_value_lookup_lower r (by omega)) 127 n [] hlt
    have hs := safe_print_lookup_lower_not_sign r (by omega)
    refine ⟨_, tail, by simpa using hd, hs.1, hs.2, ?_⟩
    rw [← hd, hp]
    rfl
  · obtain ⟨r, tail, hr, hd⟩ :=
      safe_print_convert_digits_head SafePrintCharacterLookupUppercase b hb 127 n []
    have hp := parse_numeral_digits_convert SafePrintCharacterLookupUppercase b hb
      (fun r hr => numeral_digit_value_lookup_upper r (by omega)) 127 n [] hlt
    have hs := safe_print_lookup_upper_not_sign r (by omega)
    refine ⟨_, tail, by simpa using hd, hs.1, hs.2, ?_⟩
    rw [← hd, hp]
    rfl

theorem parse_numeral_convert_unsigned (b : Nat) (uppercase : Bool) (hb : 2 ≤ b) (hb36 : b ≤ 36)
    (n : Nat) (hn : n < 18446744073709551616) :
    parse_numeral b (safe_print_convert_unsigned_to_string 128 n b uppercase).text =
      some (n : Int) := by
  have hbase : wrapU64 (b : Int) = b := by
    rw [wrapU64_of_range _ (by omega) (by omega)]; simp
  obtain ⟨d, tail, hd, h1, h2, hp⟩ := parse_numeral_convert_digits b uppercase hb hb36 n hn
  simp only [safe_print_convert_unsigned_to_string, SafePrintStringRef.text, hbase,
    Nat.add_one_sub_one, Int.toNat_ofNat, List.take_length, hd]
  simp [parse_numeral, h1, h2, hp]

theorem parse_numeral_convert_signed (b : Nat) (uppercase keep_sign : Bool) (hb : 2 ≤ b)
    (hb36 : b ≤ 36) (v : Int) (h0 : -9223372036854775808 ≤ v) (h1 : v < 9223372036854775808) :
    parse_numeral b (safe_print_convert_signed_to_string 128 v b uppercase keep_sign).text =
      some v := by
  have hbase : wrapU64 (b : Int) = b := by
    rw [wrapU64_of_range _ (by omega) (by omega)]; simp
  have hnum : (if v < 0 then wrapU64 (-v) else wrapU64 v) = v.natAbs := by
    split
    · rw [wrapU64_of_range _ (by omega) (by omega)]; omega
    · rw [wrapU64_of_range _ (by omega) (by omega)]; omega
  obtain ⟨d, tail, hd, hs1, hs2, hp⟩ :=
    parse_numeral_convert_digits b uppercase hb hb36 v.natAbs (by omega)
  simp only [safe_print_convert_signed_to_string, SafePrintStringRef.text, hbase, hnum,
    Nat.add_one_sub_one, hd]
  have ht : ∀ c : Char, List.take ((tail.length : Int) + 1 + 1).toNat (c :: d :: tail) =
      c :: d :: tail := by
    intro c
    apply List.take_of_length_le
    simp only [List.length_cons]
    omega
  by_cases hv : v < 0
  · simp [hv, parse_numeral, hp, ht]
    rw [abs_of_neg hv, neg_neg]
  · have : (v.natAbs : Int) = v := by omega
    cases keep_sign
    · simp [hv, parse_numeral, hs1, hs2, hp, this]
    · simp [hv, parse_numeral, hp, this, ht]

theorem escaped_template_text_literal (fmt : List Char) :
    escaped_template_text (fmt.map SafePrintTemplatePiece.literal) = fmt := by
  induction fmt with
  | nil => rfl
  | cons c fmt ih => simp [escaped_template_text, ih]

theorem escaped_template_rendering_literal (fmt : List Char) :
    escaped_template_rendering (fmt.map SafePrintTemplatePiece.literal) = fmt := by
  induction fmt with
  | nil => rfl
  | cons c fmt ih => simp [escaped_template_rendering, ih]

/-- A template without braces is written as it stands; the value returned is
its length as an `sp_s32`. -/
theorem safe_print_implementation_literal (cvt : SafePrintDoubleConversion) (fmt : List Char)
    (args : List SafePrintFormatArg) (h : ∀ c ∈ fmt, c ≠ NUL ∧ c ≠ '{' ∧ c ≠ '}') :
    safe_print_implementation cvt SafePrintStdOut fmt args =
      .done ⟨wrapS32 fmt.length, ⟨fmt, [], ⟨fmt, none⟩, wrapS32 fmt.length, 0, 0, args⟩⟩ := by
  have hp : ∀ p ∈ fmt.map SafePrintTemplatePiece.literal, p.plain := by
    intro p hp
    obtain ⟨c, hc, rfl⟩ := List.mem_map.mp hp
    exact h c hc
  have hloop := safe_print_implementation_loop_escaped cvt (fmt.map .literal) hp
    (fmt.length + 1) fmt [] 0 0 args
    (by rw [escaped_template_text_literal]; exact Nat.lt_succ_self _)
  rw [escaped_template_text_literal, escaped_template_rendering_literal] at hloop
  have h0 : wrapS32 0 = 0 := by decide
  rw [h0] at hloop
  simpa [safe_print_implementation, SafePrintStdOut] using hloop

/-! ## Numeric literals in a template -/

theorem safe_print_is_digit_digitChar (r : Nat) (h : r < 10) :
    safe_print_is_digit (Nat.digitChar r) = true ∧ ((Nat.digitChar r).toNat : Int) - 48 = r := by
  interval_cases r <;> decide

/-- The digit loop of the tokenizer reads what `Nat.toDigitsCore` writes. -/
theorem safe_print_next_token_number_toDigitsCore (rest : List Char) :
    ∀ (fuel n : Nat) (ds : List Char), n < fuel → n < 2147483648 →
      safe_print_next_token_number (Nat.toDigitsCore 10 fuel n ds ++ rest) 0 =
        safe_print_next_token_number (ds ++ rest) n := by
  intro fuel
  induction fuel with
  | zero => intro n ds h; omega
  | succ fuel ih =>
    intro n ds hf hn
    have hd := safe_print_is_digit_digitChar (n % 10) (Nat.mod_lt n (by norm_num))
    by_cases hdiv : n / 10 = 0
    · have hlt : n < 10 := (Nat.div_eq_zero_iff (by norm_num)).mp hdiv
      have hw : wrapS32 (wrapS32 (0 * 10) + (((Nat.digitChar (n % 10)).toNat : Int) - 48)) = n := by
        rw [hd.2, Nat.mod_eq_of_lt hlt]
        have h0 : wrapS32 (0 * 10) = 0 := by decide
        rw [h0, zero_add, wrapS32_of_range _ (by omega) (by omega)]
      simp only [Nat.toDigitsCore, hdiv, if_true, List.cons_append, safe_print_next_token_number,
        hd.1, hw]
    · have h2 : n / 10 < fuel := by omega
      have hw : wrapS32 (wrapS32 (((n / 10 : Nat) : Int) * 10) +
          (((Nat.digitChar (n % 10)).toNat : Int) - 48)) = n := by
        have hin : wrapS32 (((n / 10 : Nat) : Int) * 10) = ((n / 10 : Nat) : Int) * 10 :=
          wrapS32_of_range _ (by omega) (by omega)
        rw [hin, hd.2, wrapS32_of_range _ (by omega) (by omega)]
        omega
      rw [Nat.toDigitsCore]
      simp only [hdiv, if_false]
      rw [ih (n / 10) _ h2 (by omega)]
      simp only [List.cons_append, safe_print_next_token_number, hd.1, if_true, hw]
      rfl

/-- The first character written by `Nat.toDigitsCore` is a decimal digit. -/
theorem toDigitsCore_head_digit :
    ∀ (fuel n : Nat) (ds : List Char), 0 < fuel →
      ∃ d tail, Nat.toDigitsCore 10 fuel n ds = d :: tail ∧ safe_print_is_digit d = true := by
  intro fuel
  induction fuel with
  | zero => intro n ds h; omega
  | succ fuel ih =>
    intro n ds _
    have hd := safe_print_is_digit_digitChar (n % 10) (Nat.mod_lt n (by norm_num))
    by_cases hdiv : n / 10 = 0
    · exact ⟨_, ds, by simp [Nat.toDigitsCore, hdiv], hd.1⟩
    · rw [Nat.toDigitsCore]
      simp only [hdiv, if_false]
      cases fuel with
      | zero => exact ⟨_, ds, rfl, hd.1⟩
      | succ fuel => exact ih _ _ (Nat.succ_pos _)

/-- In front of a character that is not a digit, the tokenizer reads the
decimal text of a number below 2^31 as the numeric literal of that value. -/
theorem safe_print_next_token_at_toDigits (n : Nat) (c : Char) (rest : List Char)
    (hn : n < 2147483648) (hc : safe_print_is_digit c = false) :
    safe_print_next_token_at (Nat.toDigits 10 n ++ c :: rest) =
      (⟨.SP_FT_NUMBER, n, [], false⟩, c :: rest) := by
  have hnum : safe_print_next_token_number (Nat.toDigits 10 n ++ c :: rest) 0 =
      ((n : Int), c :: rest) := by
    rw [Nat.toDigits, safe_print_next_token_number_toDigitsCore (c :: rest) (n + 1) n []
      (Nat.lt_succ_self n) hn]
    simp [safe_print_next_token_number, hc]
  obtain ⟨d, tail, hd, hdig⟩ := toDigitsCore_head_digit (n + 1) n [] (Nat.succ_pos _)
  have hd' : Nat.toDigits 10 n = d :: tail := hd
  rw [hd'] at hnum ⊢
  have h1 : d ≠ NUL := by rintro rfl; revert hdig; decide
  have h2 : d ≠ '{' := by rintro rfl; revert hdig; decide
  have h3 : d ≠ '}' := by rintro rfl; revert hdig; decide
  have h4 : d ≠ '(' := by rintro rfl; revert hdig; decide
  have h5 : d ≠ ')' := by rintro rfl; revert hdig; decide
  have h6 : d ≠ ' ' := by rintro rfl; revert hdig; decide
  have h7 : d ≠ '\n' := by rintro rfl; revert hdig; decide
  have h8 : d ≠ '\r' := by rintro rfl; revert hdig; decide
  have h9 : d ≠ '\t' := by rintro rfl; revert hdig; decide
  simp only [List.cons_append] at hnum ⊢
  simp [safe_print_next_token_at, h1, h2, h3, h4, h5, h6, h7, h8, h9, hdig, hnum]

/-- The directive `{n}` with `1 ≤ n ≤ arg_count`: the parser stores `n - 1`
as the argument index and leaves the sequential counter alone. -/
theorem safe_print_parse_format_specifier_positional (fs rest : List Char)
    (file : SafePrintFileType) (w e ci : Int) (args : List SafePrintFormatArg) (n : Nat)
    (h1 : 1 ≤ n) (hn : n ≤ args.length) (h31 : n < 2147483648) :
    safe_print_parse_format_specifier
        ⟨fs, '{' :: (Nat.toDigits 10 n ++ '}' :: rest), file, w, e, ci, args⟩ =
      .done (.SP_PFS_OK { SafePrintFormatInfo.initial with arg_index := (n : Int) - 1 },
        ⟨fs, rest, file, w, e, ci, args⟩) := by
  have htok := safe_print_next_token_at_toDigits n '}' rest h31 (by decide)
  obtain ⟨d, tail, hd, hdig⟩ := toDigitsCore_head_digit (n + 1) n [] (Nat.succ_pos _)
  have hd' : Nat.toDigits 10 n = d :: tail := hd
  have h2 : d ≠ '{' := by rintro rfl; revert hdig; decide
  have h3 : d ≠ '}' := by rintro rfl; revert hdig; decide
  have hhead : (Nat.toDigits 10 n ++ '}' :: rest).headD NUL = d := by rw [hd']; rfl
  have hidx : ¬ ((n : Int) - 1 = -1) := by omega
  unfold safe_print_parse_format_specifier
  simp only [safe_print_next_token, safe_print_next_token_at, NUL_ne_opening_brace, if_false,
    if_true, ne_eq, not_true_eq_false, hhead, h2, h3, not_false_eq_true]
  rw [safe_print_parse_format_options]
  simp [safe_print_next_token, htok, safe_print_parse_format_option,
    SafePrintContext.arg_count, Nat.not_lt.mpr hn, safe_print_next_token_at,
    (show ¬ ((n : Int) < 0) by omega),
    NUL_ne_closing_brace, NUL_ne_opening_brace,
    safe_print_parse_format_close, hidx]

theorem safe_print_cstring_length_eq (str : List Char) (h : ∀ c ∈ str, c ≠ NUL) :
    safe_print_cstring_length str = str.length := by
  induction str with
  | nil => rfl
  | cons c str ih =>
    have hc : c ≠ NUL := h c (by simp)
    simp [safe_print_cstring_length, hc, ih (fun c hc => h c (List.mem_cons_of_mem _ hc))]

/-- Rendering of a text argument to an accepting sink, given the value of its
`int` length field. -/
theorem safe_print_format_arg_text_accepting (cvt : SafePrintDoubleConversion)
    (fs fmt out : List Char) (w e ci : Int) (args : List SafePrintFormatArg)
    (info : SafePrintFormatInfo) (str : List Char) (length : Int) (hidx : 0 ≤ info.arg_index)
    (hget : args.get? info.arg_index.toNat = some (.SAFE_PRINT_STR str))
    (hlength : wrapS32 (safe_print_cstring_length str) = length)
    (h0 : 0 ≤ length) (h1 : length ≤ str.length)
    (hmin : info.min < 2147483648) (hmax : 0 ≤ info.max) :
    safe_print_format_arg cvt ⟨fs, fmt, ⟨out, none⟩, wrapS32 w, e, ci, args⟩ info =
      ⟨fs, fmt,
        ⟨out ++
          ((if info.alignment = .SP_FI_ALIGN_RIGHT then
              List.replicate (info.min - length).toNat
                (if info.fill ≠ NUL then info.fill else ' ') else []) ++
            (str.take (if info.max ≠ 0 ∧ length > info.max then info.max.toNat
              else length.toNat)).map
              (if info.char_case = .SP_FI_UPPER_CASE then safe_print_to_upper
                else if info.char_case = .SP_FI_LOWER_CASE then safe_print_to_lower else id) ++
            (if info.alignment = .SP_FI_ALIGN_RIGHT then [] else
              List.replicate (info.min - length).toNat
                (if info.fill ≠ NUL then info.fill else ' '))), none⟩,
        wrapS32 (w + (info.min - length).toNat +
          (if info.max ≠ 0 ∧ length > info.max then info.max.toNat else length.toNat)),
        e, ci, args⟩ := by
  have hnot : ¬ info.arg_index < 0 := by omega
  have h2 : length < 2147483648 := by
    rw [← hlength]
    unfold wrapS32
    omega
  unfold safe_print_format_arg
  rw [if_neg hnot, hget]
  simp only [hlength]
  exact safe_print_apply_format_info_to_string_accepting fs fmt out w e ci args ⟨str, length⟩ info
    ' ' h0 h1 h2 hmin hmax

/-! ## What the parser leaves alone -/

theorem SafePrintContext.frame_refl (context : SafePrintContext) : context.frame context :=
  ⟨rfl, rfl, rfl, rfl⟩

theorem SafePrintContext.frame_trans {a b c : SafePrintContext} (h1 : a.frame b)
    (h2 : b.frame c) : a.frame c :=
  ⟨h2.1.trans h1.1, h2.2.1.trans h1.2.1, h2.2.2.1.trans h1.2.2.1, h2.2.2.2.trans h1.2.2.2⟩

theorem safe_print_report_error_frame (context : SafePrintContext) (kind : Int) :
    context.frame (safe_print_report_error context kind) :=
  ⟨rfl, rfl, rfl, rfl⟩

theorem safe_print_next_token_frame (context : SafePrintContext) :
    context.frame (safe_print_next_token context).2 :=
  ⟨rfl, rfl, rfl, rfl⟩

theorem safe_print_consume_next_token_frame (context : SafePrintContext)
    (kind : SafePrintTokenKind) : context.frame (safe_print_consume_next_token context kind).2 := by
  simp only [safe_print_consume_next_token]
  split
  · exact ⟨rfl, rfl, rfl, rfl⟩
  · exact ⟨rfl, rfl, rfl, rfl⟩

theorem safe_print_parse_format_function_frame (context : SafePrintContext) :
    context.frame (safe_print_parse_format_function context).2.2 := by
  simp only [safe_print_parse_format_function]
  split
  · exact ⟨rfl, rfl, rfl, rfl⟩
  · split
    · exact ⟨rfl, rfl, rfl, rfl⟩
    · exact ⟨rfl, rfl, rfl, rfl⟩

theorem safe_print_report_error_error (context : SafePrintContext) :
    (safe_print_report_error context SP_ERROR_TOO_MANY_ARGUMENTS).error = -1 ∧
    (safe_print_report_error context SP_ERROR_POSITIONAL_ARG_OUT_OF_RANGE).error = -2 ∧
    (safe_print_report_error context SP_ERROR_UNKNOWN_FORMAT_SPECIFIER).error = -3 ∧
    (safe_print_report_error context SP_ERROR_MISSING_BRACE).error = -4 :=
  ⟨rfl, rfl, rfl, rfl⟩

theorem safe_print_parse_format_function_error (context : SafePrintContext)
    (h : (safe_print_parse_format_function context).1 = false) :
    (safe_print_parse_format_function context).2.2.error ≠ 0 := by
  simp only [safe_print_parse_format_function] at h ⊢
  split
  · simp [(safe_print_report_error_error _).2.2.1]
  · split
    · simp [(safe_print_report_error_error _).2.2.1]
    · rename_i h1 h2
      simp [h1, h2] at h

theorem safe_print_report_error_ne_zero (context : SafePrintContext) :
    (safe_print_report_error context SP_ERROR_TOO_MANY_ARGUMENTS).error ≠ 0 ∧
    (safe_print_report_error context SP_ERROR_POSITIONAL_ARG_OUT_OF_RANGE).error ≠ 0 ∧
    (safe_print_report_error context SP_ERROR_UNKNOWN_FORMAT_SPECIFIER).error ≠ 0 ∧
    (safe_print_report_error context SP_ERROR_MISSING_BRACE).error ≠ 0 := by
  obtain ⟨h1, h2, h3, h4⟩ := safe_print_report_error_error context
  rw [h1, h2, h3, h4]
  decide

/-- One pass through the switch of the parser only moves the cursor and sets
the error field; when it returns an error, the error field is not zero. -/
theorem safe_print_parse_format_option_frame (token : SafePrintFormatToken)
    (context : SafePrintContext) (info : SafePrintFormatInfo)
    (result : Option SafePrintFormatInfo) (context1 : SafePrintContext)
    (h : safe_print_parse_format_option token context info = .done (result, context1)) :
    context.frame context1 ∧ (result = none → context1.error ≠ 0) := by
  unfold safe_print_parse_format_option at h
  split at h
  case h_1 =>
    split at h
    · cases h
      exact ⟨safe_print_report_error_frame _ _, fun _ => (safe_print_report_error_ne_zero _).2.1⟩
    · cases h
      exact ⟨SafePrintContext.frame_refl _, fun h => by cases h⟩
  case h_2 =>
    have hframe := safe_print_parse_format_function_frame context
    have herr := safe_print_parse_format_function_error context
    split at h
    · rename_i token1 context2 heq
      rw [heq] at hframe
      split at h
      · cases h
        exact ⟨SafePrintContext.frame_trans hframe (safe_print_report_error_frame _ _),
          fun _ => (safe_print_report_error_ne_zero _).2.2.1⟩
      · cases h
        exact ⟨hframe, fun h => by cases h⟩
    · rename_i flag out context2 hne heq
      rw [heq] at hframe herr
      cases h
      refine ⟨hframe, fun _ => herr ?_⟩
      cases flag with
      | false => rfl
      | true =>
        cases out with
        | none =>
          exfalso
          simp only [safe_print_parse_format_function] at heq
          split at heq
          · cases heq
          · split at heq <;> cases heq
        | some token1 =>
          exact (hne token1 rfl rfl).elim
  case h_3 =>
    simp only at h
    split at h
    · cases h
    · cases h
      exact ⟨SafePrintContext.frame_trans (safe_print_consume_next_token_frame _ _)
        (SafePrintContext.frame_trans (safe_print_consume_next_token_frame _ _)
          (safe_print_consume_next_token_frame _ _)), fun h => by cases h⟩
  case h_4 =>
    simp only at h
    have hframe := safe_print_consume_next_token_frame context .SP_FT_OPENING_PAREN
    split at h
    · cases h
    · split at h
      · cases h
      · cases h
        exact ⟨SafePrintContext.frame_trans hframe
          (SafePrintContext.frame_trans ⟨rfl, rfl, rfl, rfl⟩
            (safe_print_consume_next_token_frame _ _)), fun h => by cases h⟩
  case h_5 =>
    simp only at h
    split at h
    · cases h
    · cases h
      exact ⟨SafePrintContext.frame_trans (safe_print_consume_next_token_frame _ _)
        (SafePrintContext.frame_trans (safe_print_consume_next_token_frame _ _)
          (safe_print_consume_next_token_frame _ _)), fun h => by cases h⟩
  case h_8 =>
    simp only at h
    split at h
    · cases h
    · cases h
      exact ⟨SafePrintContext.frame_trans (safe_print_consume_next_token_frame _ _)
        (SafePrintContext.frame_trans (safe_print_consume_next_token_frame _ _)
          (safe_print_consume_next_token_frame _ _)), fun h => by cases h⟩
  all_goals first
    | (cases h; exact ⟨safe_print_report_error_frame _ _,
        fun _ => (safe_print_report_error_ne_zero _).2.2.1⟩)
    | (cases h; exact ⟨safe_print_report_error_frame _ _,
        fun _ => (safe_print_report_error_ne_zero _).2.2.2⟩)
    | (cases h; exact ⟨SafePrintContext.frame_refl _, fun h => Option.noConfusion h⟩)

theorem safe_print_parse_format_options_frame :
    ∀ (fuel : Nat) (context : SafePrintContext) (info : SafePrintFormatInfo)
      (result : Option (SafePrintFormatToken × SafePrintFormatInfo))
      (context1 : SafePrintContext),
      safe_print_parse_format_options fuel context info = .done (result, context1) →
      context.frame context1 ∧ (result = none → context1.error ≠ 0) := by
  intro fuel
  induction fuel with
  | zero =>
    intro context info result context1 h
    simp [safe_print_parse_format_options] at h
  | succ fuel ih =>
    intro context info result context1 h
    rw [safe_print_parse_format_options] at h
    split at h
    · rename_i context2 heq
      cases h
      have := safe_print_parse_format_option_frame _ _ _ _ _ heq
      exact ⟨SafePrintContext.frame_trans (safe_print_next_token_frame _) this.1,
        fun _ => this.2 rfl⟩
    · rename_i info1 context2 heq
      have hopt := safe_print_parse_format_option_frame _ _ _ _ _ heq
      have h1 := SafePrintContext.frame_trans (safe_print_next_token_frame context) hopt.1
      have h2 := SafePrintContext.frame_trans h1 (safe_print_next_token_frame context2)
      split at h
      · have := ih _ _ _ _ h
        exact ⟨SafePrintContext.frame_trans h2 this.1, this.2⟩
      · cases h
        exact ⟨h2, fun h => Option.noConfusion h⟩
    · cases h
    · cases h
    · cases h

theorem safe_print_parse_format_close_frame (token : SafePrintFormatToken)
    (info : SafePrintFormatInfo) (context : SafePrintContext) :
    context.frame (safe_print_parse_format_close token info context).2 ∧
      ((safe_print_parse_format_close token info context).1 = .SP_PFS_ERROR →
        (safe_print_parse_format_close token info context).2.error ≠ 0) := by
  unfold safe_print_parse_format_close
  split
  · exact ⟨safe_print_report_error_frame _ _, fun _ => (safe_print_report_error_ne_zero _).2.2.2⟩
  · split
    · split
      · exact ⟨safe_print_report_error_frame _ _, fun _ => (safe_print_report_error_ne_zero _).1⟩
      · exact ⟨⟨rfl, rfl, rfl, rfl⟩, fun h => SafePrintParseStatus.noConfusion h⟩
    · exact ⟨SafePrintContext.frame_refl _, fun h => SafePrintParseStatus.noConfusion h⟩

/-- The parser only moves the cursor, sets the error field and advances the
sequential counter; when it returns `SP_PFS_ERROR` the error field is not
zero. -/
theorem safe_print_parse_format_specifier_frame (context : SafePrintContext)
    (status : SafePrintParseStatus) (context1 : SafePrintContext)
    (h : safe_print_parse_format_specifier context = .done (status, context1)) :
    context.frame context1 ∧ (status = .SP_PFS_ERROR → context1.error ≠ 0) := by
  simp only [safe_print_parse_format_specifier] at h
  split at h
  · cases h
    exact ⟨SafePrintContext.frame_trans (safe_print_next_token_frame _)
      (safe_print_report_error_frame _ _), fun _ => (safe_print_report_error_ne_zero _).2.2.1⟩
  · split at h
    · cases h
      exact ⟨⟨rfl, rfl, rfl, rfl⟩, fun h => SafePrintParseStatus.noConfusion h⟩
    · split at h
      · split at h
        · rename_i context2 heq
          cases h
          have := safe_print_parse_format_options_frame _ _ _ _ _ heq
          exact ⟨SafePrintContext.frame_trans (safe_print_next_token_frame _) this.1,
            fun _ => this.2 rfl⟩
        · rename_i token info context2 heq
          have hopts := safe_print_parse_format_options_frame _ _ _ _ _ heq
          have hclose := safe_print_parse_format_close_frame token info context2
          simp only [SafePrintOutcome.done.injEq] at h
          rw [h] at hclose
          exact ⟨SafePrintContext.frame_trans (safe_print_next_token_frame _)
            (SafePrintContext.frame_trans hopts.1 hclose.1), hclose.2⟩
        · cases h
        · cases h
        · cases h
      · have hclose := safe_print_parse_format_close_frame
          (safe_print_next_token (safe_print_next_token context).2).1 SafePrintFormatInfo.initial
          (safe_print_next_token (safe_print_next_token context).2).2
        simp only [SafePrintOutcome.done.injEq] at h
        rw [h] at hclose
        exact ⟨SafePrintContext.frame_trans (safe_print_next_token_frame _)
          (SafePrintContext.frame_trans (safe_print_next_token_frame _) hclose.1), hclose.2⟩

/-! ## The count of written characters -/

theorem safe_print_output_character_counted (context : SafePrintContext) (c : Char)
    (h : context.counted) : (safe_print_output_character context c).counted := by
  unfold SafePrintContext.counted at h ⊢
  unfold safe_print_output_character
  split
  · exact h
  · simp only [List.length_append, List.length_singleton, Nat.cast_add, Nat.cast_one]
    rw [h, wrapS32_add_wrapS32]

theorem safe_print_output_string_counted (context : SafePrintContext) (str : List Char)
    (length : Nat) (h : context.counted) : (safe_print_output_string context str length).counted := by
  unfold SafePrintContext.counted at h ⊢
  simp only [safe_print_output_string, SafePrintFileType.fwrite]
  split
  · simp only [List.length_append, Nat.cast_add]
    rw [h, wrapS32_add_wrapS32]
  · simp only [List.length_append, Nat.cast_add]
    rw [h, wrapS32_add_wrapS32]

theorem safe_print_output_fill_counted (fill : Char) :
    ∀ (space : Nat) (context : SafePrintContext), context.counted →
      (safe_print_output_fill fill space context).counted := by
  intro space
  induction space with
  | zero => intro context h; exact h
  | succ space ih =>
    intro context h
    rw [safe_print_output_fill]
    exact ih _ (safe_print_output_character_counted context fill h)

theorem safe_print_output_mapped_counted (f : Char → Char) :
    ∀ (str : List Char) (context : SafePrintContext), context.counted →
      (safe_print_output_mapped f str context).counted := by
  intro str
  induction str with
  | nil => intro context h; exact h
  | cons c str ih =>
    intro context h
    rw [safe_print_output_mapped]
    exact ih _ (safe_print_output_character_counted context (f c) h)

theorem safe_print_output_fill_if_counted (p : Prop) [Decidable p] (fill : Char) (space : Nat)
    (context : SafePrintContext) (h : context.counted) :
    (if p then safe_print_output_fill fill space context else context).counted := by
  split
  · exact safe_print_output_fill_counted _ _ _ h
  · exact h

theorem safe_print_apply_format_info_counted (context : SafePrintContext)
    (str : SafePrintStringRef) (info : SafePrintFormatInfo) (default_fill : Char)
    (h : context.counted) : (safe_print_apply_format_info context str info default_fill).counted := by
  simp only [safe_print_apply_format_info]
  exact safe_print_output_fill_if_counted _ _ _ _ (safe_print_output_string_counted _ _ _
    (safe_print_output_fill_if_counted _ _ _ _ h))

theorem safe_print_apply_format_info_to_string_counted (context : SafePrintContext)
    (str : SafePrintStringRef) (info : SafePrintFormatInfo) (default_fill : Char)
    (h : context.counted) :
    (safe_print_apply_format_info_to_string context str info default_fill).counted := by
  simp only [safe_print_apply_format_info_to_string]
  apply safe_print_output_fill_if_counted
  split
  · exact safe_print_output_mapped_counted _ _ _ (safe_print_output_fill_if_counted _ _ _ _ h)
  · split
    · exact safe_print_output_mapped_counted _ _ _ (safe_print_output_fill_if_counted _ _ _ _ h)
    · exact safe_print_output_string_counted _ _ _ (safe_print_output_fill_if_counted _ _ _ _ h)

theorem safe_print_format_arg_counted (cvt : SafePrintDoubleConversion)
    (context : SafePrintContext) (info : SafePrintFormatInfo) (h : context.counted) :
    (safe_print_format_arg cvt context info).counted := by
  unfold safe_print_format_arg
  split
  · exact h
  · split
    · exact h
    all_goals first
      | exact safe_print_apply_format_info_counted _ _ _ _ h
      | exact safe_print_apply_format_info_to_string_counted _ _ _ _ h

theorem SafePrintContext.counted_of_frame {context context1 : SafePrintContext}
    (hf : context.frame context1) (h : context.counted) : context1.counted := by
  unfold SafePrintContext.counted at h ⊢
  rw [hf.2.2.1, hf.2.1, h]

/-- Along the scanning loop the count agrees with the sink, and a call that
ends with the error field at zero returns the count. -/
theorem safe_print_implementation_loop_counted (cvt : SafePrintDoubleConversion) :
    ∀ (fuel : Nat) (context : SafePrintContext) (result : SafePrintReturn),
      context.counted → safe_print_implementation_loop cvt fuel context = .done result →
      result.context.counted ∧ (result.context.error = 0 → result.value = result.context.written) := by
  intro fuel
  induction fuel with
  | zero =>
    intro context result _ h
    simp [safe_print_implementation_loop] at h
  | succ fuel ih =>
    intro context result hc h
    rw [safe_print_implementation_loop] at h
    split at h
    · cases h
      exact ⟨hc, fun _ => rfl⟩
    · rename_i c fmt hfmt
      split at h
      · cases h
        exact ⟨hc, fun _ => rfl⟩
      · split at h
        · rename_i herr
          cases h
          exact ⟨hc, fun h0 => absurd h0 herr⟩
        · split at h
          · split at h
            · rename_i context1 heq
              cases h
              have := safe_print_parse_format_specifier_frame _ _ _ heq
              exact ⟨SafePrintContext.counted_of_frame this.1 hc,
                fun h0 => absurd h0 (this.2 rfl)⟩
            · rename_i context1 heq
              have := safe_print_parse_format_specifier_frame _ _ _ heq
              exact ih _ _ (safe_print_output_character_counted _ _
                (SafePrintContext.counted_of_frame this.1 hc)) h
            · rename_i info context1 heq
              have := safe_print_parse_format_specifier_frame _ _ _ heq
              exact ih _ _ (safe_print_format_arg_counted cvt _ _
                (SafePrintContext.counted_of_frame this.1 hc)) h
            · cases h
            · cases h
            · cases h
          · split at h
            · split at h
              · refine ih _ _ ?_ h
                exact safe_print_output_character_counted context '}' hc
              · refine ih _ _ ?_ h
                exact hc
            · refine ih _ _ ?_ h
              exact safe_print_output_character_counted context c hc

/-! ## Steps of the scanning loop -/

theorem safe_print_implementation_loop_directive (cvt : SafePrintDoubleConversion) (fuel : Nat)
    (context : SafePrintContext) (rest : List Char) (info : SafePrintFormatInfo)
    (context1 : SafePrintContext) (hfmt : context.fmt = '{' :: rest) (herr : context.error = 0)
    (hparse : safe_print_parse_format_specifier context = .done (.SP_PFS_OK info, context1)) :
    safe_print_implementation_loop cvt (fuel + 1) context =
      safe_print_implementation_loop cvt fuel (safe_print_format_arg cvt context1 info) := by
  rw [safe_print_implementation_loop, hfmt]
  simp only [NUL_ne_opening_brace, if_false, herr, ne_eq, not_true_eq_false, if_true, hparse]

theorem safe_print_implementation_loop_character (cvt : SafePrintDoubleConversion) (fuel : Nat)
    (fs rest out : List Char) (w ci : Int) (args : List SafePrintFormatArg) (c : Char)
    (hc : c ≠ NUL ∧ c ≠ '{' ∧ c ≠ '}') :
    safe_print_implementation_loop cvt (fuel + 1)
        ⟨fs, c :: rest, ⟨out, none⟩, wrapS32 w, 0, ci, args⟩ =
      safe_print_implementation_loop cvt fuel
        ⟨fs, rest, ⟨out ++ [c], none⟩, wrapS32 (w + 1), 0, ci, args⟩ := by
  rw [safe_print_implementation_loop]
  simp only [hc.1, hc.2.1, hc.2.2, if_false, ne_eq, not_true_eq_false,
    safe_print_output_character_accepting]

theorem safe_print_implementation_loop_end (cvt : SafePrintDoubleConversion) (fuel : Nat)
    (context : SafePrintContext) (hfmt : context.fmt = []) :
    safe_print_implementation_loop cvt (fuel + 1) context = .done ⟨context.written, context⟩ := by
  rw [safe_print_implementation_loop, hfmt]

theorem safe_print_next_token_at_min (rest : List Char) :
    safe_print_next_token_at ('m' :: 'i' :: 'n' :: '(' :: rest) =
      (⟨.SP_FT_KEYWORD_MIN, 0, ['m', 'i', 'n'], true⟩, '(' :: rest) := rfl

theorem safe_print_next_token_at_max (rest : List Char) :
    safe_print_next_token_at ('m' :: 'a' :: 'x' :: '(' :: rest) =
      (⟨.SP_FT_KEYWORD_MAX, 0, ['m', 'a', 'x'], true⟩, '(' :: rest) := rfl

theorem safe_print_next_token_at_fill (rest : List Char) :
    safe_print_next_token_at ('f' :: 'i' :: 'l' :: 'l' :: '(' :: rest) =
      (⟨.SP_FT_KEYWORD_FILL, 0, ['f', 'i', 'l', 'l'], true⟩, '(' :: rest) := rfl

theorem safe_print_next_token_at_left (rest : List Char) :
    safe_print_next_token_at ('l' :: 'e' :: 'f' :: 't' :: '}' :: rest) =
      (⟨.SP_FT_KEYWORD_LEFT, 0, ['l', 'e', 'f', 't'], true⟩, '}' :: rest) := rfl

theorem safe_print_next_token_at_right (rest : List Char) :
    safe_print_next_token_at ('r' :: 'i' :: 'g' :: 'h' :: 't' :: '}' :: rest) =
      (⟨.SP_FT_KEYWORD_RIGHT, 0, ['r', 'i', 'g', 'h', 't'], true⟩, '}' :: rest) := rfl

theorem safe_print_next_token_at_structural (rest : List Char) :
    safe_print_next_token_at ('(' :: rest) = (⟨.SP_FT_OPENING_PAREN, 0, [], false⟩, rest) ∧
    safe_print_next_token_at (')' :: rest) = (⟨.SP_FT_CLOSING_PAREN, 0, [], false⟩, rest) ∧
    safe_print_next_token_at ('{' :: rest) = (⟨.SP_FT_OPENING_BRACE, 0, [], false⟩, rest) ∧
    safe_print_next_token_at ('}' :: rest) = (⟨.SP_FT_CLOSING_BRACE, 0, [], false⟩, rest) ∧
    safe_print_next_token_at (':' :: rest) = (⟨.SP_FT_SEPERATOR, 0, [], false⟩, rest) :=
  ⟨rfl, rfl, rfl, rfl, rfl⟩

/-! ## Parsing single options -/

/-- The option `min(m)` followed by a separator: the loop stores `m` and goes
on with the next option. -/
theorem safe_print_parse_format_options_min_separator (fuel : Nat) (fs rest : List Char)
    (file : SafePrintFileType) (w e ci : Int) (args : List SafePrintFormatArg)
    (info : SafePrintFormatInfo) (m : Nat) (hm : m < 2147483648) :
    safe_print_parse_format_options (fuel + 1)
        ⟨fs, 'm' :: 'i' :: 'n' :: '(' :: (Nat.toDigits 10 m ++ ')' :: ':' :: rest), file, w, e, ci,
          args⟩ info =
      safe_print_parse_format_options fuel ⟨fs, rest, file, w, e, ci, args⟩
        { info with min := m } := by
  have htok := safe_print_next_token_at_toDigits m ')' (':' :: rest) hm (by decide)
  rw [safe_print_parse_format_options]
  simp [safe_print_next_token, safe_print_next_token_at_min, safe_print_parse_format_option,
    safe_print_parse_format_function, (safe_print_next_token_at_structural _).1, htok,
    (safe_print_next_token_at_structural _).2.1, (safe_print_next_token_at_structural _).2.2.2.2]

/-- The option `min(m)` followed by the closing brace: the loop stores `m` and
ends at the brace. -/
theorem safe_print_parse_format_options_min_close (fuel : Nat) (fs rest : List Char)
    (file : SafePrintFileType) (w e ci : Int) (args : List SafePrintFormatArg)
    (info : SafePrintFormatInfo) (m : Nat) (hm : m < 2147483648) :
    safe_print_parse_format_options (fuel + 1)
        ⟨fs, 'm' :: 'i' :: 'n' :: '(' :: (Nat.toDigits 10 m ++ ')' :: '}' :: rest), file, w, e, ci,
          args⟩ info =
      .done (some (⟨.SP_FT_CLOSING_BRACE, 0, [], false⟩, { info with min := m }),
        ⟨fs, rest, file, w, e, ci, args⟩) := by
  have htok := safe_print_next_token_at_toDigits m ')' ('}' :: rest) hm (by decide)
  rw [safe_print_parse_format_options]
  simp [safe_print_next_token, safe_print_next_token_at_min, safe_print_parse_format_option,
    safe_print_parse_format_function, (safe_print_next_token_at_structural _).1, htok,
    (safe_print_next_token_at_structural _).2.1, (safe_print_next_token_at_structural _).2.2.2.1]

/-- The option `max(m)` followed by the closing brace. -/
theorem safe_print_parse_format_options_max_close (fuel : Nat) (fs rest : List Char)
    (file : SafePrintFileType) (w e ci : Int) (args : List SafePrintFormatArg)
    (info : SafePrintFormatInfo) (m : Nat) (hm : m < 2147483648) :
    safe_print_parse_format_options (fuel + 1)
        ⟨fs, 'm' :: 'a' :: 'x' :: '(' :: (Nat.toDigits 10 m ++ ')' :: '}' :: rest), file, w, e, ci,
          args⟩ info =
      .done (some (⟨.SP_FT_CLOSING_BRACE, 0, [], false⟩, { info with max := m }),
        ⟨fs, rest, file, w, e, ci, args⟩) := by
  have htok := safe_print_next_token_at_toDigits m ')' ('}' :: rest) hm (by decide)
  rw [safe_print_parse_format_options]
  simp [safe_print_next_token, safe_print_next_token_at_max, safe_print_parse_format_option,
    safe_print_consume_next_token, (safe_print_next_token_at_structural _).1, htok,
    (safe_print_next_token_at_structural _).2.1, (safe_print_next_token_at_structural _).2.2.2.1]

/-- The option `fill(c)` followed by a separator: the loop stores the raw
character `c` and goes on with the next option. -/
theorem safe_print_parse_format_options_fill_separator (fuel : Nat) (fs rest : List Char)
    (file : SafePrintFileType) (w e ci : Int) (args : List SafePrintFormatArg)
    (info : SafePrintFormatInfo) (c : Char) (hc : c ≠ NUL) :
    safe_print_parse_format_options (fuel + 1)
        ⟨fs, 'f' :: 'i' :: 'l' :: 'l' :: '(' :: c :: ')' :: ':' :: rest, file, w, e, ci, args⟩ info =
      safe_print_parse_format_options fuel ⟨fs, rest, file, w, e, ci, args⟩
        { info with fill := c } := by
  rw [safe_print_parse_format_options]
  simp [safe_print_next_token, safe_print_next_token_at_fill, safe_print_parse_format_option,
    safe_print_consume_next_token, (safe_print_next_token_at_structural _).1, hc,
    (safe_print_next_token_at_structural _).2.1, (safe_print_next_token_at_structural _).2.2.2.2]

/-- The options `left` and `right` followed by the closing brace. -/
theorem safe_print_parse_format_options_align_close (fuel : Nat) (fs rest : List Char)
    (file : SafePrintFileType) (w e ci : Int) (args : List SafePrintFormatArg)
    (info : SafePrintFormatInfo) :
    safe_print_parse_format_options (fuel + 1)
        ⟨fs, 'l' :: 'e' :: 'f' :: 't' :: '}' :: rest, file, w, e, ci, args⟩ info =
      .done (some (⟨.SP_FT_CLOSING_BRACE, 0, [], false⟩,
        { info with alignment := .SP_FI_ALIGN_LEFT }), ⟨fs, rest, file, w, e, ci, args⟩) ∧
    safe_print_parse_format_options (fuel + 1)
        ⟨fs, 'r' :: 'i' :: 'g' :: 'h' :: 't' :: '}' :: rest, file, w, e, ci, args⟩ info =
      .done (some (⟨.SP_FT_CLOSING_BRACE, 0, [], false⟩,
        { info with alignment := .SP_FI_ALIGN_RIGHT }), ⟨fs, rest, file, w, e, ci, args⟩) := by
  constructor
  · rw [safe_print_parse_format_options]
    simp [safe_print_next_token, safe_print_next_token_at_left, safe_print_parse_format_option,
      (safe_print_next_token_at_structural _).2.2.2.1]
  · rw [safe_print_parse_format_options]
    simp [safe_print_next_token, safe_print_next_token_at_right, safe_print_parse_format_option,
      (safe_print_next_token_at_structural _).2.2.2.1]

/-- The parser on a directive whose body does not start with a brace: the
option loop, then the test of the closing brace. -/
theorem safe_print_parse_format_specifier_body (fs body : List Char) (file : SafePrintFileType)
    (w e ci : Int) (args : List SafePrintFormatArg) (x : Char) (hx1 : x ≠ '{') (hx2 : x ≠ '}') :
    safe_print_parse_format_specifier ⟨fs, '{' :: x :: body, file, w, e, ci, args⟩ =
      match safe_print_parse_format_options (body.length + 1 + 1)
          ⟨fs, x :: body, file, w, e, ci, args⟩ SafePrintFormatInfo.initial with
      | .done (none, context2) => .done (.SP_PFS_ERROR, context2)
      | .done (some (token, info), context2) =>
        .done (safe_print_parse_format_close token info context2)
      | .past_terminator => .past_terminator
      | .union_member => .union_member
      | .out_of_fuel => .out_of_fuel := by
  simp [safe_print_parse_format_specifier, safe_print_next_token,
    (safe_print_next_token_at_structural _).2.2.1, hx1, hx2]

/-- The directives `{min(m)}` and `{max(m)}` for a single argument: the width
bound is stored and the directive is bound to the first argument. -/
theorem safe_print_parse_format_specifier_width (fs rest : List Char) (file : SafePrintFileType)
    (w e : Int) (arg : SafePrintFormatArg) (m : Nat) (hm : m < 2147483648) :
    safe_print_parse_format_specifier
        ⟨fs, '{' :: 'm' :: 'i' :: 'n' :: '(' :: (Nat.toDigits 10 m ++ ')' :: '}' :: rest), file, w,
          e, 0, [arg]⟩ =
      .done (.SP_PFS_OK ⟨0, m, 0, 0, 0, .SP_FI_ALIGN_DEFAULT, false, false, .SP_FI_DEFAULT_CASE,
        NUL⟩, ⟨fs, rest, file, w, e, 1, [arg]⟩) ∧
    safe_print_parse_format_specifier
        ⟨fs, '{' :: 'm' :: 'a' :: 'x' :: '(' :: (Nat.toDigits 10 m ++ ')' :: '}' :: rest), file, w,
          e, 0, [arg]⟩ =
      .done (.SP_PFS_OK ⟨0, 0, m, 0, 0, .SP_FI_ALIGN_DEFAULT, false, false, .SP_FI_DEFAULT_CASE,
        NUL⟩, ⟨fs, rest, file, w, e, 1, [arg]⟩) := by
  have hw : wrapS32 1 = 1 := by decide
  constructor
  · rw [safe_print_parse_format_specifier_body _ _ _ _ _ _ _ _ (by decide) (by decide),
      safe_print_parse_format_options_min_close _ _ _ _ _ _ _ _ _ _ hm]
    simp [safe_print_parse_format_close, SafePrintFormatInfo.initial, SafePrintContext.arg_count,
      hw]
  · rw [safe_print_parse_format_specifier_body _ _ _ _ _ _ _ _ (by decide) (by decide),
      safe_print_parse_format_options_max_close _ _ _ _ _ _ _ _ _ _ hm]
    simp [safe_print_parse_format_close, SafePrintFormatInfo.initial, SafePrintContext.arg_count,
      hw]

/-- The directives `{min(m):fill(c):left}` and `{min(m):fill(c):right}` for a
single argument. -/
theorem safe_print_parse_format_specifier_min_fill_align (fs rest : List Char)
    (file : SafePrintFileType) (w e : Int) (arg : SafePrintFormatArg) (m : Nat) (c : Char)
    (hm : m < 2147483648) (hc : c ≠ NUL) :
    safe_print_parse_format_specifier
        ⟨fs, '{' :: 'm' :: 'i' :: 'n' :: '(' :: (Nat.toDigits 10 m ++
          ')' :: ':' :: 'f' :: 'i' :: 'l' :: 'l' :: '(' :: c :: ')' :: ':' ::
          'l' :: 'e' :: 'f' :: 't' :: '}' :: rest), file, w, e, 0, [arg]⟩ =
      .done (.SP_PFS_OK ⟨0, m, 0, 0, 0, .SP_FI_ALIGN_LEFT, false, false, .SP_FI_DEFAULT_CASE, c⟩,
        ⟨fs, rest, file, w, e, 1, [arg]⟩) ∧
    safe_print_parse_format_specifier
        ⟨fs, '{' :: 'm' :: 'i' :: 'n' :: '(' :: (Nat.toDigits 10 m ++
          ')' :: ':' :: 'f' :: 'i' :: 'l' :: 'l' :: '(' :: c :: ')' :: ':' ::
          'r' :: 'i' :: 'g' :: 'h' :: 't' :: '}' :: rest), file, w, e, 0, [arg]⟩ =
      .done (.SP_PFS_OK ⟨0, m, 0, 0, 0, .SP_FI_ALIGN_RIGHT, false, false, .SP_FI_DEFAULT_CASE, c⟩,
        ⟨fs, rest, file, w, e, 1, [arg]⟩) := by
  have hw : wrapS32 1 = 1 := by decide
  constructor
  · rw [safe_print_parse_format_specifier_body _ _ _ _ _ _ _ _ (by decide) (by decide),
      safe_print_parse_format_options_min_separator _ _ _ _ _ _ _ _ _ _ hm]
    simp only [List.length_cons, List.length_append]
    rw [safe_print_parse_format_options_fill_separator _ _ _ _ _ _ _ _ _ _ hc,
      (safe_print_parse_format_options_align_close _ _ _ _ _ _ _ _ _).1]
    simp [safe_print_parse_format_close, SafePrintFormatInfo.initial, SafePrintContext.arg_count,
      hw]
  · rw [safe_print_parse_format_specifier_body _ _ _ _ _ _ _ _ (by decide) (by decide),
      safe_print_parse_format_options_min_separator _ _ _ _ _ _ _ _ _ _ hm]
    simp only [List.length_cons, List.length_append]
    rw [safe_print_parse_format_options_fill_separator _ _ _ _ _ _ _ _ _ _ hc,
      (safe_print_parse_format_options_align_close _ _ _ _ _ _ _ _ _).2]
    simp [safe_print_parse_format_close, SafePrintFormatInfo.initial, SafePrintContext.arg_count,
      hw]

/-- The call for the template `{n}` and text arguments, in terms of the `int`
length field that the renderer computes for the `n`-th text. -/
theorem safe_print_implementation_positional_text (cvt : SafePrintDoubleConversion)
    (texts : List (List Char)) (n : Nat) (str : List Char) (length : Int)
    (h1 : 1 ≤ n) (hn : n ≤ texts.length) (h31 : n < 2147483648)
    (hget : texts.get? (n - 1) = some str)
    (hlength : wrapS32 (safe_print_cstring_length str) = length)
    (h0 : 0 ≤ length) (hle : length ≤ str.length) :
    safe_print_implementation cvt SafePrintStdOut ('{' :: (Nat.toDigits 10 n ++ ['}']))
        (texts.map .SAFE_PRINT_STR) =
      .done ⟨wrapS32 length, ⟨'{' :: (Nat.toDigits 10 n ++ ['}']), [],
        ⟨str.take length.toNat, none⟩, wrapS32 length, 0, 0, texts.map .SAFE_PRINT_STR⟩⟩ := by
  have hparse := safe_print_parse_format_specifier_positional
    ('{' :: (Nat.toDigits 10 n ++ ['}'])) [] SafePrintStdOut 0 0 0 (texts.map .SAFE_PRINT_STR) n h1
    (by simpa using hn) h31
  have hidx : ((n : Int) - 1).toNat = n - 1 := by omega
  have hfa := safe_print_format_arg_text_accepting cvt ('{' :: (Nat.toDigits 10 n ++ ['}'])) [] []
    0 0 0 (texts.map .SAFE_PRINT_STR)
    { SafePrintFormatInfo.initial with arg_index := (n : Int) - 1 } str length
    (by show (0 : Int) ≤ (n : Int) - 1; omega)
    (by
      show (texts.map SafePrintFormatArg.SAFE_PRINT_STR).get? ((n : Int) - 1).toNat = _
      rw [hidx, List.get?_eq_getElem?, List.getElem?_map, ← List.get?_eq_getElem?, hget]
      rfl)
    hlength h0 hle (by show (0 : Int) < 2147483648; decide) (le_refl _)
  have hw0 : wrapS32 0 = 0 := by decide
  rw [hw0] at hfa
  have hfa' : safe_print_format_arg cvt
      ⟨'{' :: (Nat.toDigits 10 n ++ ['}']), [], SafePrintStdOut, 0, 0, 0,
        texts.map .SAFE_PRINT_STR⟩
      { SafePrintFormatInfo.initial with arg_index := (n : Int) - 1 } =
      ⟨'{' :: (Nat.toDigits 10 n ++ ['}']), [], ⟨str.take length.toNat, none⟩, wrapS32 length, 0, 0,
        texts.map .SAFE_PRINT_STR⟩ := by
    rw [SafePrintStdOut, hfa]
    have hpad : ((0 : Int) - length).toNat = 0 := by omega
    simp [SafePrintFormatInfo.initial, hpad, h0]
  rw [safe_print_implementation_single_directive cvt SafePrintStdOut _ _ _ _ hparse
    (by rw [hfa']), hfa']

/-- The template `{2} {1}` with the texts `a` and `b`, step by step. -/
theorem safe_print_implementation_two_positional (cvt : SafePrintDoubleConversion) :
    safe_print_implementation cvt SafePrintStdOut ['{', '2', '}', ' ', '{', '1', '}']
        [.SAFE_PRINT_STR ['a'], .SAFE_PRINT_STR ['b']] =
      safe_print_success ['{', '2', '}', ' ', '{', '1', '}']
        [.SAFE_PRINT_STR ['a'], .SAFE_PRINT_STR ['b']] ['b', ' ', 'a'] 0 := by
  have hw0 : wrapS32 0 = 0 := by decide
  have hp2 := safe_print_parse_format_specifier_positional
    ['{', '2', '}', ' ', '{', '1', '}'] [' ', '{', '1', '}'] SafePrintStdOut 0 0 0
    [.SAFE_PRINT_STR ['a'], .SAFE_PRINT_STR ['b']] 2 (by decide) (by decide) (by decide)
  have hf2 := safe_print_format_arg_text_accepting cvt ['{', '2', '}', ' ', '{', '1', '}']
    [' ', '{', '1', '}'] [] 0 0 0 [.SAFE_PRINT_STR ['a'], .SAFE_PRINT_STR ['b']]
    ⟨1, 0, 0, 0, 0, .SP_FI_ALIGN_DEFAULT, false, false, .SP_FI_DEFAULT_CASE, NUL⟩ ['b'] 1
    (by decide) rfl (by decide) (by decide) (by decide) (by decide) (by decide)
  have hp1 := safe_print_parse_format_specifier_positional
    ['{', '2', '}', ' ', '{', '1', '}'] [] ⟨['b', ' '], none⟩ (wrapS32 2) 0 0
    [.SAFE_PRINT_STR ['a'], .SAFE_PRINT_STR ['b']] 1 (by decide) (by decide) (by decide)
  have hf1 := safe_print_format_arg_text_accepting cvt ['{', '2', '}', ' ', '{', '1', '}']
    [] ['b', ' '] 2 0 0 [.SAFE_PRINT_STR ['a'], .SAFE_PRINT_STR ['b']]
    ⟨0, 0, 0, 0, 0, .SP_FI_ALIGN_DEFAULT, false, false, .SP_FI_DEFAULT_CASE, NUL⟩ ['a'] 1
    (by decide) rfl (by decide) (by decide) (by decide) (by decide) (by decide)
  have hd2 : Nat.toDigits 10 2 = ['2'] := by decide
  have hd1 : Nat.toDigits 10 1 = ['1'] := by decide
  rw [hd2] at hp2
  rw [hd1] at hp1
  simp only [List.cons_append, List.nil_append, SafePrintFormatInfo.initial, Nat.cast_ofNat,
    Nat.cast_one, Int.reduceSub] at hp2 hp1
  simp only [hw0, reduceCtorEq, if_false, if_true, ne_eq, not_true_eq_false, List.nil_append,
    List.append_nil, Int.reduceSub, Int.toNat_ofNat, List.take, List.map, id, Int.reduceToNat,
    List.replicate, zero_add, Nat.cast_ofNat, Nat.cast_zero, add_zero, Int.reduceAdd,
    false_and, List.singleton_append, List.cons_append, not_false_eq_true,
    Int.toNat_zero, Nat.cast_one, and_false] at hf2 hf1
  unfold safe_print_implementation
  rw [safe_print_implementation_loop_directive _ _ _ _ _ _ rfl rfl hp2, SafePrintStdOut, hf2]
  simp only [List.length_cons, List.length_nil]
  rw [safe_print_implementation_loop_character _ _ _ _ _ _ _ _ _ (by decide)]
  simp only [Int.reduceAdd, List.singleton_append, List.cons_append, List.nil_append]
  rw [safe_print_implementation_loop_directive _ _ _ _ _ _ rfl rfl hp1, hf1,
    safe_print_implementation_loop_end _ _ _ rfl]
  decide

theorem safe_print_cstring_length_replicate (n : Nat) (c : Char) (hc : c ≠ NUL) :
    safe_print_cstring_length (List.replicate n c) = n := by
  rw [safe_print_cstring_length_eq _ (fun d hd => by rw [List.eq_of_mem_replicate hd]; exact hc),
    List.length_replicate]

/-- The directive `{max(...)}` for a single argument, for any digits that the
tokenizer reads as the number `v`. -/
theorem safe_print_parse_format_specifier_max_literal (fs rest ds : List Char)
    (file : SafePrintFileType) (w e : Int) (arg : SafePrintFormatArg) (v : Int)
    (htok : safe_print_next_token_at (ds ++ ')' :: '}' :: rest) =
      (⟨.SP_FT_NUMBER, v, [], false⟩, ')' :: '}' :: rest)) :
    safe_print_parse_format_specifier
        ⟨fs, '{' :: 'm' :: 'a' :: 'x' :: '(' :: (ds ++ ')' :: '}' :: rest), file, w, e, 0, [arg]⟩ =
      .done (.SP_PFS_OK ⟨0, 0, v, 0, 0, .SP_FI_ALIGN_DEFAULT, false, false, .SP_FI_DEFAULT_CASE,
        NUL⟩, ⟨fs, rest, file, w, e, 1, [arg]⟩) := by
  have hw : wrapS32 1 = 1 := by decide
  rw [safe_print_parse_format_specifier_body _ _ _ _ _ _ _ _ (by decide) (by decide),
    safe_print_parse_format_options]
  simp [safe_print_next_token, safe_print_next_token_at_max, safe_print_parse_format_option,
    safe_print_consume_next_token, (safe_print_next_token_at_structural _).1, htok,
    (safe_print_next_token_at_structural _).2.1, (safe_print_next_token_at_structural _).2.2.2.1,
    safe_print_parse_format_close, SafePrintFormatInfo.initial, SafePrintContext.arg_count, hw]

/-- The call for the template `{max(...)}` and one text argument shorter than
2^31 characters, for any digits that the tokenizer reads as a number `v ≥ 0`. -/
theorem safe_print_implementation_max_text (cvt : SafePrintDoubleConversion) (ds str : List Char)
    (v : Int) (hv : 0 ≤ v)
    (htok : safe_print_next_token_at (ds ++ [')', '}']) =
      (⟨.SP_FT_NUMBER, v, [], false⟩, [')', '}']))
    (hnul : ∀ c ∈ str, c ≠ NUL) (hlen : str.length < 2147483648) :
    safe_print_implementation cvt SafePrintStdOut
        ('{' :: 'm' :: 'a' :: 'x' :: '(' :: (ds ++ [')', '}'])) [.SAFE_PRINT_STR str] =
      safe_print_success ('{' :: 'm' :: 'a' :: 'x' :: '(' :: (ds ++ [')', '}']))
        [.SAFE_PRINT_STR str]
        (str.take (if v ≠ 0 ∧ (str.length : Int) > v then v.toNat else str.length)) 1 := by
  have hparse := safe_print_parse_format_specifier_max_literal
    ('{' :: 'm' :: 'a' :: 'x' :: '(' :: (ds ++ [')', '}'])) [] ds SafePrintStdOut 0 0
    (.SAFE_PRINT_STR str) v htok
  have hlength : wrapS32 (safe_print_cstring_length str) = (str.length : Int) := by
    rw [safe_print_cstring_length_eq _ hnul, wrapS32_of_range _ (by omega) (by omega)]
  have hfa := safe_print_format_arg_text_accepting cvt
    ('{' :: 'm' :: 'a' :: 'x' :: '(' :: (ds ++ [')', '}'])) [] [] 0 0 1 [.SAFE_PRINT_STR str]
    ⟨0, 0, v, 0, 0, .SP_FI_ALIGN_DEFAULT, false, false, .SP_FI_DEFAULT_CASE, NUL⟩ str
    str.length (le_refl _) rfl hlength (by omega) (le_refl _)
    (by show (0 : Int) < 2147483648; decide) hv
  have hw0 : wrapS32 0 = 0 := by decide
  rw [hw0] at hfa
  have hk : (if v ≠ 0 ∧ (str.length : Int) > v then v.toNat else (str.length : Int).toNat) =
      (if v ≠ 0 ∧ (str.length : Int) > v then v.toNat else str.length) := by
    split <;> simp
  have hklt : ((if v ≠ 0 ∧ (str.length : Int) > v then v.toNat else str.length : Nat) : Int) <
      2147483648 := by
    split <;> omega
  have hfa' : safe_print_format_arg cvt
      ⟨'{' :: 'm' :: 'a' :: 'x' :: '(' :: (ds ++ [')', '}']), [], SafePrintStdOut, 0, 0, 1,
        [.SAFE_PRINT_STR str]⟩
      ⟨0, 0, v, 0, 0, .SP_FI_ALIGN_DEFAULT, false, false, .SP_FI_DEFAULT_CASE, NUL⟩ =
      ⟨'{' :: 'm' :: 'a' :: 'x' :: '(' :: (ds ++ [')', '}']), [],
        ⟨str.take (if v ≠ 0 ∧ (str.length : Int) > v then v.toNat else str.length), none⟩,
        ((if v ≠ 0 ∧ (str.length : Int) > v then v.toNat else str.length : Nat) : Int), 0, 1,
        [.SAFE_PRINT_STR str]⟩ := by
    rw [SafePrintStdOut, hfa, hk]
    have hpad : ((0 : Int) - (str.length : Int)).toNat = 0 := by omega
    simp only [hpad, reduceCtorEq, if_false, List.replicate, List.nil_append, List.append_nil,
      List.map_id', id, Nat.cast_zero, add_zero, zero_add, ne_eq, not_true_eq_false]
    rw [wrapS32_of_range _ (Int.natCast_nonneg _) hklt]
    simp
  rw [safe_print_implementation_single_directive cvt SafePrintStdOut _ _ _ _ hparse
    (by rw [hfa']), hfa']
  simp only [safe_print_success]
  have hlen2 : (str.take (if v ≠ 0 ∧ (str.length : Int) > v then v.toNat else str.length)).length =
      (if v ≠ 0 ∧ (str.length : Int) > v then v.toNat else str.length) := by
    rw [List.length_take]
    split <;> omega
  rw [hlen2]

/-- The directives `{min(...):fill(c):left}` and `{min(...):fill(c):right}`
for a single argument, for any digits that the tokenizer reads as the number
`v`. -/
theorem safe_print_parse_format_specifier_min_fill_literal (fs rest ds kw : List Char)
    (file : SafePrintFileType) (w e : Int) (arg : SafePrintFormatArg) (v : Int) (c : Char)
    (align : SafePrintAlignment) (hc : c ≠ NUL)
    (hkw : ∀ (fuel : Nat) (info : SafePrintFormatInfo),
      safe_print_parse_format_options (fuel + 1) ⟨fs, kw ++ '}' :: rest, file, w, e, 0, [arg]⟩ info =
        .done (some (⟨.SP_FT_CLOSING_BRACE, 0, [], false⟩, { info with alignment := align }),
          ⟨fs, rest, file, w, e, 0, [arg]⟩))
    (htok : safe_print_next_token_at (ds ++ ')' :: ':' :: 'f' :: 'i' :: 'l' :: 'l' :: '(' :: c ::
        ')' :: ':' :: (kw ++ '}' :: rest)) =
      (⟨.SP_FT_NUMBER, v, [], false⟩, ')' :: ':' :: 'f' :: 'i' :: 'l' :: 'l' :: '(' :: c :: ')' ::
        ':' :: (kw ++ '}' :: rest))) :
    safe_print_parse_format_specifier
        ⟨fs, '{' :: 'm' :: 'i' :: 'n' :: '(' :: (ds ++ ')' :: ':' :: 'f' :: 'i' :: 'l' :: 'l' ::
          '(' :: c :: ')' :: ':' :: (kw ++ '}' :: rest)), file, w, e, 0, [arg]⟩ =
      .done (.SP_PFS_OK ⟨0, v, 0, 0, 0, align, false, false, .SP_FI_DEFAULT_CASE, c⟩,
        ⟨fs, rest, file, w, e, 1, [arg]⟩) := by
  have hw : wrapS32 1 = 1 := by decide
  have hmin : ∀ (fuel : Nat) (info : SafePrintFormatInfo),
      safe_print_parse_format_options (fuel + 1)
        ⟨fs, 'm' :: 'i' :: 'n' :: '(' :: (ds ++ ')' :: ':' :: 'f' :: 'i' :: 'l' :: 'l' ::
          '(' :: c :: ')' :: ':' :: (kw ++ '}' :: rest)), file, w, e, 0, [arg]⟩ info =
      safe_print_parse_format_options fuel
        ⟨fs, 'f' :: 'i' :: 'l' :: 'l' :: '(' :: c :: ')' :: ':' :: (kw ++ '}' :: rest), file, w, e,
          0, [arg]⟩ { info with min := v } := by
    intro fuel info
    rw [safe_print_parse_format_options]
    simp [safe_print_next_token, safe_print_next_token_at_min, safe_print_parse_format_option,
      safe_print_parse_format_function, (safe_print_next_token_at_structural _).1, htok,
      (safe_print_next_token_at_structural _).2.1, (safe_print_next_token_at_structural _).2.2.2.2]
  rw [safe_print_parse_format_specifier_body _ _ _ _ _ _ _ _ (by decide) (by decide), hmin]
  simp only [List.length_cons, List.length_append]
  rw [safe_print_parse_format_options_fill_separator _ _ _ _ _ _ _ _ _ _ hc, hkw]
  simp [safe_print_parse_format_close, SafePrintFormatInfo.initial, SafePrintContext.arg_count,
    hw]

/-- The call for a template `{min(...):fill(c):left}` or
`{min(...):fill(c):right}` and one integer argument, for any digits that the
tokenizer reads as a number `v` below 2^31: the decimal text of the argument
with `v - L` fill characters after it (left) or before it (right). -/
theorem safe_print_implementation_min_fill (cvt : SafePrintDoubleConversion)
    (ds kw : List Char) (v x : Int) (c : Char) (align : SafePrintAlignment)
    (arg : SafePrintFormatArg) (hv : v < 2147483648) (hc : c ≠ NUL)
    (hx : arg.integer_value = some x) (halign : align ≠ .SP_FI_ALIGN_DEFAULT)
    (hkw : ∀ (fuel : Nat) (info : SafePrintFormatInfo),
      safe_print_parse_format_options (fuel + 1)
        ⟨'{' :: 'm' :: 'i' :: 'n' :: '(' :: (ds ++ ')' :: ':' :: 'f' :: 'i' :: 'l' :: 'l' :: '(' ::
          c :: ')' :: ':' :: (kw ++ ['}'])), kw ++ ['}'], SafePrintStdOut, 0, 0, 0, [arg]⟩ info =
        .done (some (⟨.SP_FT_CLOSING_BRACE, 0, [], false⟩, { info with alignment := align }),
          ⟨'{' :: 'm' :: 'i' :: 'n' :: '(' :: (ds ++ ')' :: ':' :: 'f' :: 'i' :: 'l' :: 'l' :: '(' ::
            c :: ')' :: ':' :: (kw ++ ['}'])), [], SafePrintStdOut, 0, 0, 0, [arg]⟩))
    (htok : safe_print_next_token_at (ds ++ ')' :: ':' :: 'f' :: 'i' :: 'l' :: 'l' :: '(' :: c ::
        ')' :: ':' :: (kw ++ ['}'])) =
      (⟨.SP_FT_NUMBER, v, [], false⟩, ')' :: ':' :: 'f' :: 'i' :: 'l' :: 'l' :: '(' :: c :: ')' ::
        ':' :: (kw ++ ['}']))) :
    safe_print_implementation cvt SafePrintStdOut
        ('{' :: 'm' :: 'i' :: 'n' :: '(' :: (ds ++ ')' :: ':' :: 'f' :: 'i' :: 'l' :: 'l' :: '(' ::
          c :: ')' :: ':' :: (kw ++ ['}']))) [arg] =
      safe_print_success
        ('{' :: 'm' :: 'i' :: 'n' :: '(' :: (ds ++ ')' :: ':' :: 'f' :: 'i' :: 'l' :: 'l' :: '(' ::
          c :: ')' :: ':' :: (kw ++ ['}']))) [arg]
        (if align = .SP_FI_ALIGN_LEFT then
          integer_text 10 false x ++
            List.replicate (v - (integer_text 10 false x).length).toNat c
        else
          List.replicate (v - (integer_text 10 false x).length).toNat c ++
            integer_text 10 false x) 1 := by
  have hparse := safe_print_parse_format_specifier_min_fill_literal
    ('{' :: 'm' :: 'i' :: 'n' :: '(' :: (ds ++ ')' :: ':' :: 'f' :: 'i' :: 'l' :: 'l' :: '(' ::
      c :: ')' :: ':' :: (kw ++ ['}']))) [] ds kw SafePrintStdOut 0 0 arg v c align hc hkw htok
  have hfa := safe_print_format_arg_integer_accepting cvt
    ('{' :: 'm' :: 'i' :: 'n' :: '(' :: (ds ++ ')' :: ':' :: 'f' :: 'i' :: 'l' :: 'l' :: '(' ::
      c :: ')' :: ':' :: (kw ++ ['}']))) [] [] 0 0 1 [arg]
    ⟨0, v, 0, 0, 0, align, false, false, .SP_FI_DEFAULT_CASE, c⟩ arg x 10 (le_refl _) rfl hx rfl
    rfl (by decide) (by decide) hv rfl
  have hw0 : wrapS32 0 = 0 := by decide
  have hL := integer_text_length_lt 10 false x (by decide) (integer_value_natAbs_lt arg x hx)
  have hd : decide (SafePrintCharCase.SP_FI_DEFAULT_CASE = SafePrintCharCase.SP_FI_UPPER_CASE) =
      false := by decide
  simp only [hw0, hd, hc, ne_eq, not_false_eq_true, if_true, zero_add, List.nil_append] at hfa
  have htotal : wrapS32 (((v - ((integer_text 10 false x).length : Int)).toNat : Int) +
      ((integer_text 10 false x).length : Int)) =
      ((v - ((integer_text 10 false x).length : Int)).toNat : Int) +
        ((integer_text 10 false x).length : Int) :=
    wrapS32_of_range _ (by omega) (by omega)
  rw [htotal] at hfa
  rw [safe_print_implementation_single_directive cvt SafePrintStdOut _ _ _ _ hparse
    (by rw [SafePrintStdOut, hfa]), SafePrintStdOut, hfa]
  cases align with
  | SP_FI_ALIGN_DEFAULT => exact absurd rfl halign
  | SP_FI_ALIGN_LEFT => simp [safe_print_success, add_comm]
  | SP_FI_ALIGN_RIGHT => simp [safe_print_success]

/-- The scanning loop on literal characters and brace escapes that are
followed by more template text: one iteration per piece, after which the loop
stands at the text that follows, with the rendering appended and counted. -/
theorem safe_print_implementation_loop_escaped_prefix (cvt : SafePrintDoubleConversion)
    (pieces : List SafePrintTemplatePiece) (h : ∀ p ∈ pieces, p.plain) (rest : List Char) :
    ∀ (fuel : Nat) (fs out : List Char) (w ci : Int) (args : List SafePrintFormatArg),
      safe_print_implementation_loop cvt (fuel + pieces.length)
        ⟨fs, escaped_template_text pieces ++ rest, ⟨out, none⟩, wrapS32 w, 0, ci, args⟩ =
      safe_print_implementation_loop cvt fuel
        ⟨fs, rest, ⟨out ++ escaped_template_rendering pieces, none⟩,
          wrapS32 (w + (escaped_template_rendering pieces).length), 0, ci, args⟩ := by
  induction pieces with
  | nil =>
    intro fuel fs out w ci args
    simp [escaped_template_text, escaped_template_rendering]
  | cons p ps ih =>
    intro fuel fs out w ci args
    have ih := ih (fun p hp => h p (List.mem_cons_of_mem _ hp))
    rw [List.length_cons, ← Nat.add_assoc]
    cases p with
    | literal c =>
      have hc := h (.literal c) (by simp)
      simp only [SafePrintTemplatePiece.plain] at hc
      simp [safe_print_implementation_loop, escaped_template_text, escaped_template_rendering, hc,
        safe_print_output_character, SafePrintFileType.accepts, wrapS32_add_wrapS32]
      rw [ih fuel fs (out ++ [c]) (w + 1) ci args]
      simp [add_assoc, add_comm]
    | escaped_open =>
      simp [safe_print_implementation_loop, escaped_template_text, escaped_template_rendering,
        safe_print_output_character, SafePrintFileType.accepts, wrapS32_add_wrapS32,
        safe_print_parse_format_specifier, safe_print_next_token, safe_print_next_token_at,
        NUL_ne_opening_brace, NUL_ne_closing_brace]
      rw [ih fuel fs (out ++ ['{']) (w + 1) ci args]
      simp [add_assoc, add_comm]
    | escaped_close =>
      simp [safe_print_implementation_loop, escaped_template_text, escaped_template_rendering,
        safe_print_output_character, SafePrintFileType.accepts, wrapS32_add_wrapS32,
        NUL_ne_opening_brace, NUL_ne_closing_brace]
      rw [ih fuel fs (out ++ ['}']) (w + 1) ci args]
      simp [add_assoc, add_comm]

theorem escaped_template_text_length (pieces : List SafePrintTemplatePiece) :
    pieces.length ≤ (escaped_template_text pieces).length := by
  induction pieces with
  | nil => simp [escaped_template_text]
  | cons p ps ih => cases p <;> simp [escaped_template_text] <;> omega

/-- The scanning loop at a directive that fails to parse. -/
theorem safe_print_implementation_loop_parse_error (cvt : SafePrintDoubleConversion) (fuel : Nat)
    (context context1 : SafePrintContext) (hfmt : context.fmt.headD NUL = '{')
    (herr : context.error = 0)
    (hparse : safe_print_parse_format_specifier context = .done (.SP_PFS_ERROR, context1)) :
    safe_print_implementation_loop cvt (fuel + 1) context =
      .done ⟨SP_ERROR_UNKNOWN_FORMAT_SPECIFIER, context1⟩ := by
  rw [safe_print_implementation_loop]
  cases hf : context.fmt with
  | nil => rw [hf] at hfmt; exact absurd hfmt (by decide)
  | cons c rest =>
    rw [hf] at hfmt
    simp only [List.headD_cons] at hfmt
    subst hfmt
    simp only [NUL_ne_opening_brace, if_false, herr, ne_eq, not_true_eq_false, if_true, hparse]

theorem wrapS32_mul_ten_add (v d : Int) :
    wrapS32 (wrapS32 (wrapS32 v * 10) + d) = wrapS32 (v * 10 + d) := by
  unfold wrapS32
  omega

theorem safe_print_is_digit_toNat (c : Char) (h : safe_print_is_digit c = true) :
    48 ≤ c.toNat ∧ c.toNat ≤ 57 := by
  simp only [safe_print_is_digit, Bool.and_eq_true, decide_eq_true_eq] at h
  exact ⟨h.1, h.2⟩

/-- The digit loop of the tokenizer on a run of digits in front of a character
that is not a digit: the accumulated number is the value of the literal as an
`sp_s32`. -/
theorem safe_print_next_token_number_literal (c : Char) (rest : List Char)
    (hc : safe_print_is_digit c = false) :
    ∀ (digits : List Char) (value : Nat), digits.all safe_print_is_digit = true →
      safe_print_next_token_number (digits ++ c :: rest) (wrapS32 value) =
        (wrapS32 (literal_value digits value), c :: rest) := by
  intro digits
  induction digits with
  | nil =>
    intro value _
    simp [safe_print_next_token_number, hc, literal_value]
  | cons d digits ih =>
    intro value h
    simp only [List.all_cons, Bool.and_eq_true] at h
    have hd := safe_print_is_digit_toNat d h.1
    rw [List.cons_append, safe_print_next_token_number]
    simp only [h.1, if_true, literal_value]
    rw [wrapS32_mul_ten_add, ← ih (value * 10 + (d.toNat - 48)) h.2]
    congr 2
    push_cast
    omega

/-- In front of a character that is not a digit, the tokenizer reads a numeric
literal of the grammar as a number token whose value is the value of the
literal as an `sp_s32`. -/
theorem safe_print_next_token_at_literal (digits : List Char) (c : Char) (rest : List Char)
    (hdigits : literal_digits digits = true) (hc : safe_print_is_digit c = false) :
    safe_print_next_token_at (digits ++ c :: rest) =
      (⟨.SP_FT_NUMBER, wrapS32 (literal_value digits 0), [], false⟩, c :: rest) := by
  cases digits with
  | nil => simp [literal_digits] at hdigits
  | cons d tail =>
    simp only [literal_digits, List.isEmpty_cons, Bool.not_false, Bool.true_and] at hdigits
    have hnum := safe_print_next_token_number_literal c rest hc (d :: tail) 0 hdigits
    have h0 : wrapS32 ((0 : Nat) : Int) = 0 := by decide
    rw [h0] at hnum
    simp only [List.all_cons, Bool.and_eq_true] at hdigits
    have hdig := hdigits.1
    have h1 : d ≠ NUL := by rintro rfl; revert hdig; decide
    have h2 : d ≠ '{' := by rintro rfl; revert hdig; decide
    have h3 : d ≠ '}' := by rintro rfl; revert hdig; decide
    have h4 : d ≠ '(' := by rintro rfl; revert hdig; decide
    have h5 : d ≠ ')' := by rintro rfl; revert hdig; decide
    have h6 : d ≠ ' ' := by rintro rfl; revert hdig; decide
    have h7 : d ≠ '\n' := by rintro rfl; revert hdig; decide
    have h8 : d ≠ '\r' := by rintro rfl; revert hdig; decide
    have h9 : d ≠ '\t' := by rintro rfl; revert hdig; decide
    simp only [List.cons_append] at hnum ⊢
    simp [safe_print_next_token_at, h1, h2, h3, h4, h5, h6, h7, h8, h9, hdig, hnum]

/-- A numeric literal starts with a digit, which is neither brace. -/
theorem literal_digits_head (digits : List Char) (rest : List Char)
    (hdigits : literal_digits digits = true) :
    (digits ++ rest).headD NUL ≠ '{' ∧ (digits ++ rest).headD NUL ≠ '}' := by
  cases digits with
  | nil => simp [literal_digits] at hdigits
  | cons d tail =>
    simp only [literal_digits, List.isEmpty_cons, Bool.not_false, Bool.true_and, List.all_cons,
      Bool.and_eq_true] at hdigits
    have hdig := hdigits.1
    constructor
    · simp only [List.cons_append, List.headD_cons]; rintro rfl; revert hdig; decide
    · simp only [List.cons_append, List.headD_cons]; rintro rfl; revert hdig; decide

/-- In front of a character that is not a letter, the tokenizer reads each
keyword of the grammar as the token of its kind. -/
theorem safe_print_next_token_at_keyword (c : Char) (rest : List Char)
    (hc : safe_print_is_letter c = false) :
    safe_print_next_token_at ('m' :: 'i' :: 'n' :: c :: rest) =
      (⟨.SP_FT_KEYWORD_MIN, 0, ['m', 'i', 'n'], true⟩, c :: rest) ∧
    safe_print_next_token_at ('m' :: 'a' :: 'x' :: c :: rest) =
      (⟨.SP_FT_KEYWORD_MAX, 0, ['m', 'a', 'x'], true⟩, c :: rest) ∧
    safe_print_next_token_at ('f' :: 'i' :: 'l' :: 'l' :: c :: rest) =
      (⟨.SP_FT_KEYWORD_FILL, 0, ['f', 'i', 'l', 'l'], true⟩, c :: rest) ∧
    safe_print_next_token_at ('p' :: 'r' :: 'e' :: 'c' :: 'i' :: 's' :: 'i' :: 'o' :: 'n' ::
        c :: rest) =
      (⟨.SP_FT_KEYWORD_PREC, 0, ['p', 'r', 'e', 'c', 'i', 's', 'i', 'o', 'n'], true⟩, c :: rest) ∧
    safe_print_next_token_at ('b' :: 'a' :: 's' :: 'e' :: c :: rest) =
      (⟨.SP_FT_KEYWORD_BASE, 0, ['b', 'a', 's', 'e'], true⟩, c :: rest) ∧
    safe_print_next_token_at ('l' :: 'e' :: 'f' :: 't' :: c :: rest) =
      (⟨.SP_FT_KEYWORD_LEFT, 0, ['l', 'e', 'f', 't'], true⟩, c :: rest) ∧
    safe_print_next_token_at ('r' :: 'i' :: 'g' :: 'h' :: 't' :: c :: rest) =
      (⟨.SP_FT_KEYWORD_RIGHT, 0, ['r', 'i', 'g', 'h', 't'], true⟩, c :: rest) ∧
    safe_print_next_token_at ('b' :: 'i' :: 'n' :: c :: rest) =
      (⟨.SP_FT_BASE_BIN, 0, ['b', 'i', 'n'], true⟩, c :: rest) ∧
    safe_print_next_token_at ('o' :: 'c' :: 't' :: c :: rest) =
      (⟨.SP_FT_BASE_OCT, 0, ['o', 'c', 't'], true⟩, c :: rest) ∧
    safe_print_next_token_at ('d' :: 'e' :: 'c' :: c :: rest) =
      (⟨.SP_FT_BASE_DEC, 0, ['d', 'e', 'c'], true⟩, c :: rest) ∧
    safe_print_next_token_at ('h' :: 'e' :: 'x' :: c :: rest) =
      (⟨.SP_FT_BASE_HEX, 0, ['h', 'e', 'x'], true⟩, c :: rest) ∧
    safe_print_next_token_at ('s' :: 'c' :: 'i' :: c :: rest) =
      (⟨.SP_FT_KEYWORD_SCI, 0, ['s', 'c', 'i'], true⟩, c :: rest) ∧
    safe_print_next_token_at ('s' :: 'i' :: 'g' :: 'n' :: c :: rest) =
      (⟨.SP_FT_KEYWORD_SIGN, 0, ['s', 'i', 'g', 'n'], true⟩, c :: rest) ∧
    safe_print_next_token_at ('u' :: 'p' :: 'p' :: 'e' :: 'r' :: c :: rest) =
      (⟨.SP_FT_KEYWORD_UPPER, 0, ['u', 'p', 'p', 'e', 'r'], true⟩, c :: rest) ∧
    safe_print_next_token_at ('l' :: 'o' :: 'w' :: 'e' :: 'r' :: c :: rest) =
      (⟨.SP_FT_KEYWORD_LOWER, 0, ['l', 'o', 'w', 'e', 'r'], true⟩, c :: rest) := by
  have hl : ∀ word : List Char, word.all safe_print_is_letter = true →
      safe_print_next_token_letters (word ++ c :: rest) = (word, c :: rest) := by
    intro word
    induction word with
    | nil => intro _; simp [safe_print_next_token_letters, hc]
    | cons x word ih =>
      intro h
      simp only [List.all_cons, Bool.and_eq_true] at h
      simp [safe_print_next_token_letters, h.1, ih h.2]
  refine ⟨?_, ?_, ?_, ?_, ?_, ?_, ?_, ?_, ?_, ?_, ?_, ?_, ?_, ?_, ?_⟩
  · have h := hl ['m', 'i', 'n'] (by decide)
    simp only [List.cons_append, List.nil_append] at h
    rw [safe_print_next_token_at, h]; rfl
  · have h := hl ['m', 'a', 'x'] (by decide)
    simp only [List.cons_append, List.nil_append] at h
    rw [safe_print_next_token_at, h]; rfl
  · have h := hl ['f', 'i', 'l', 'l'] (by decide)
    simp only [List.cons_append, List.nil_append] at h
    rw [safe_print_next_token_at, h]; rfl
  · have h := hl ['p', 'r', 'e', 'c', 'i', 's', 'i', 'o', 'n'] (by decide)
    simp only [List.cons_append, List.nil_append] at h
    rw [safe_print_next_token_at, h]; rfl
  · have h := hl ['b', 'a', 's', 'e'] (by decide)
    simp only [List.cons_append, List.nil_append] at h
    rw [safe_print_next_token_at, h]; rfl
  · have h := hl ['l', 'e', 'f', 't'] (by decide)
    simp only [List.cons_append, List.nil_append] at h
    rw [safe_print_next_token_at, h]; rfl
  · have h := hl ['r', 'i', 'g', 'h', 't'] (by decide)
    simp only [List.cons_append, List.nil_append] at h
    rw [safe_print_next_token_at, h]; rfl
  · have h := hl ['b', 'i', 'n'] (by decide)
    simp only [List.cons_append, List.nil_append] at h
    rw [safe_print_next_token_at, h]; rfl
  · have h := hl ['o', 'c', 't'] (by decide)
    simp only [List.cons_append, List.nil_append] at h
    rw [safe_print_next_token_at, h]; rfl
  · have h := hl ['d', 'e', 'c'] (by decide)
    simp only [List.cons_append, List.nil_append] at h
    rw [safe_print_next_token_at, h]; rfl
  · have h := hl ['h', 'e', 'x'] (by decide)
    simp only [List.cons_append, List.nil_append] at h
    rw [safe_print_next_token_at, h]; rfl
  · have h := hl ['s', 'c', 'i'] (by decide)
    simp only [List.cons_append, List.nil_append] at h
    rw [safe_print_next_token_at, h]; rfl
  · have h := hl ['s', 'i', 'g', 'n'] (by decide)
    simp only [List.cons_append, List.nil_append] at h
    rw [safe_print_next_token_at, h]; rfl
  · have h := hl ['u', 'p', 'p', 'e', 'r'] (by decide)
    simp only [List.cons_append, List.nil_append] at h
    rw [safe_print_next_token_at, h]; rfl
  · have h := hl ['l', 'o', 'w', 'e', 'r'] (by decide)
    simp only [List.cons_append, List.nil_append] at h
    rw [safe_print_next_token_at, h]; rfl

set_option maxHeartbeats 1600000 in
/-- One pass through the switch of the parser on an admissible option of the
grammar that is followed by a separator or by the closing brace: the option
is stored, the cursor stands behind the option and nothing else changes. -/
theorem safe_print_parse_format_option_admissible (option : SafePrintOption) (fs rest : List Char)
    (file : SafePrintFileType) (w e ci : Int) (args : List SafePrintFormatArg)
    (info : SafePrintFormatInfo) (c : Char) (hc : c = ':' ∨ c = '}')
    (h : option.admissible args.length = true) :
    safe_print_parse_format_option
        (safe_print_next_token ⟨fs, option.text ++ c :: rest, file, w, e, ci, args⟩).1
        (safe_print_next_token ⟨fs, option.text ++ c :: rest, file, w, e, ci, args⟩).2 info =
      .done (some (option.store info), ⟨fs, c :: rest, file, w, e, ci, args⟩) := by
  have hletter : safe_print_is_letter c = false := by
    rcases hc with rfl | rfl <;> decide
  have hdigit : safe_print_is_digit c = false := by
    rcases hc with rfl | rfl <;> decide
  have hkw := safe_print_next_token_at_keyword c rest hletter
  have hparen : safe_print_is_letter '(' = false := by decide
  cases option with
  | index digits =>
    simp only [SafePrintOption.admissible, Bool.and_eq_true, decide_eq_true_eq] at h
    obtain ⟨⟨⟨hd, h1⟩, h2⟩, h3⟩ := h
    have htok := safe_print_next_token_at_literal digits c rest hd hdigit
    have hw : wrapS32 ((literal_value digits 0 : Nat) : Int) = literal_value digits 0 :=
      wrapS32_of_range _ (by omega) (by omega)
    simp only [SafePrintOption.text, safe_print_next_token, htok, safe_print_parse_format_option,
      SafePrintContext.arg_count]
    split
    · rename_i hbad
      rw [hw] at hbad
      omega
    · rfl
  | min digits =>
    simp only [SafePrintOption.admissible] at h
    have htok := safe_print_next_token_at_literal digits ')' (c :: rest) h (by decide)
    simp only [SafePrintOption.text, safe_print_next_token, List.cons_append, List.nil_append,
      List.append_assoc, (safe_print_next_token_at_keyword '(' _ hparen).1,
      safe_print_parse_format_option, safe_print_parse_format_function,
      (safe_print_next_token_at_structural _).1, htok, (safe_print_next_token_at_structural _).2.1]
    simp only [ne_eq, not_true_eq_false, if_false, not_false_eq_true, htok,
      (safe_print_next_token_at_structural _).2.1, Bool.false_eq_true]
    rfl
  | max digits =>
    simp only [SafePrintOption.admissible] at h
    have htok := safe_print_next_token_at_literal digits ')' (c :: rest) h (by decide)
    simp only [SafePrintOption.text, safe_print_next_token, List.cons_append, List.nil_append,
      List.append_assoc, (safe_print_next_token_at_keyword '(' _ hparen).2.1,
      safe_print_parse_format_option, safe_print_consume_next_token,
      (safe_print_next_token_at_structural _).1, htok, (safe_print_next_token_at_structural _).2.1]
    simp only [ne_eq, not_true_eq_false, if_false, not_false_eq_true, htok,
      (safe_print_next_token_at_structural _).2.1, Bool.false_eq_true]
    rfl
  | fill x =>
    simp only [SafePrintOption.admissible, decide_eq_true_eq] at h
    simp only [SafePrintOption.text, safe_print_next_token, List.cons_append, List.nil_append,
      List.append_assoc, (safe_print_next_token_at_keyword '(' _ hparen).2.2.1,
      safe_print_parse_format_option, safe_print_consume_next_token,
      (safe_print_next_token_at_structural _).1, (safe_print_next_token_at_structural _).2.1]
    simp only [ne_eq, not_true_eq_false, if_false, h, not_false_eq_true]
    rfl
  | precision digits =>
    simp only [SafePrintOption.admissible] at h
    have htok := safe_print_next_token_at_literal digits ')' (c :: rest) h (by decide)
    simp only [SafePrintOption.text, safe_print_next_token, List.cons_append, List.nil_append,
      List.append_assoc, (safe_print_next_token_at_keyword '(' _ hparen).2.2.2.1,
      safe_print_parse_format_option, safe_print_consume_next_token,
      (safe_print_next_token_at_structural _).1, htok, (safe_print_next_token_at_structural _).2.1]
    simp only [ne_eq, not_true_eq_false, if_false, not_false_eq_true, htok,
      (safe_print_next_token_at_structural _).2.1, Bool.false_eq_true]
    rfl
  | base digits =>
    simp only [SafePrintOption.admissible] at h
    have htok := safe_print_next_token_at_literal digits ')' (c :: rest) h (by decide)
    simp only [SafePrintOption.text, safe_print_next_token, List.cons_append, List.nil_append,
      List.append_assoc, (safe_print_next_token_at_keyword '(' _ hparen).2.2.2.2.1,
      safe_print_parse_format_option, safe_print_consume_next_token,
      (safe_print_next_token_at_structural _).1, htok, (safe_print_next_token_at_structural _).2.1]
    simp only [ne_eq, not_true_eq_false, if_false, not_false_eq_true, htok,
      (safe_print_next_token_at_structural _).2.1, Bool.false_eq_true]
    rfl
  | left =>
    simp only [SafePrintOption.text, safe_print_next_token, List.cons_append, List.nil_append,
      hkw.2.2.2.2.2.1, safe_print_parse_format_option]
    rfl
  | right =>
    simp only [SafePrintOption.text, safe_print_next_token, List.cons_append, List.nil_append,
      hkw.2.2.2.2.2.2.1, safe_print_parse_format_option]
    rfl
  | bin =>
    simp only [SafePrintOption.text, safe_print_next_token, List.cons_append, List.nil_append,
      hkw.2.2.2.2.2.2.2.1, safe_print_parse_format_option]
    rfl
  | oct =>
    simp only [SafePrintOption.text, safe_print_next_token, List.cons_append, List.nil_append,
      hkw.2.2.2.2.2.2.2.2.1, safe_print_parse_format_option]
    rfl
  | dec =>
    simp only [SafePrintOption.text, safe_print_next_token, List.cons_append, List.nil_append,
      hkw.2.2.2.2.2.2.2.2.2.1, safe_print_parse_format_option]
    rfl
  | hex =>
    simp only [SafePrintOption.text, safe_print_next_token, List.cons_append, List.nil_append,
      hkw.2.2.2.2.2.2.2.2.2.2.1, safe_print_parse_format_option]
    rfl
  | sci =>
    simp only [SafePrintOption.text, safe_print_next_token, List.cons_append, List.nil_append,
      hkw.2.2.2.2.2.2.2.2.2.2.2.1, safe_print_parse_format_option]
    rfl
  | sign =>
    simp only [SafePrintOption.text, safe_print_next_token, List.cons_append, List.nil_append,
      hkw.2.2.2.2.2.2.2.2.2.2.2.2.1, safe_print_parse_format_option]
    rfl
  | upper =>
    simp only [SafePrintOption.text, safe_print_next_token, List.cons_append, List.nil_append,
      hkw.2.2.2.2.2.2.2.2.2.2.2.2.2.1, safe_print_parse_format_option]
    rfl
  | lower =>
    simp only [SafePrintOption.text, safe_print_next_token, List.cons_append, List.nil_append,
      hkw.2.2.2.2.2.2.2.2.2.2.2.2.2.2, safe_print_parse_format_option]
    rfl

/-- The option loop of the parser on the body of a directive made of
admissible options: every option is stored in turn, and the loop ends with
the closing brace as its last token and the cursor behind the directive. -/
theorem safe_print_parse_format_options_directive :
    ∀ (options : List SafePrintOption) (fuel : Nat) (fs rest : List Char)
      (file : SafePrintFileType) (w e ci : Int) (args : List SafePrintFormatArg)
      (info : SafePrintFormatInfo),
      options ≠ [] → options.length ≤ fuel →
      (∀ option ∈ options, option.admissible args.length = true) →
      safe_print_parse_format_options fuel
          ⟨fs, directive_body options ++ '}' :: rest, file, w, e, ci, args⟩ info =
        .done (some (⟨.SP_FT_CLOSING_BRACE, 0, [], false⟩,
          options.foldl SafePrintOption.store info), ⟨fs, rest, file, w, e, ci, args⟩) := by
  intro options
  induction options with
  | nil => intro _ _ _ _ _ _ _ _ _ h; exact absurd rfl h
  | cons option options ih =>
    intro fuel fs rest file w e ci args info _ hfuel hadm
    have hopt := hadm option (List.mem_cons_self _ _)
    cases fuel with
    | zero => simp at hfuel
    | succ fuel =>
      cases options with
      | nil =>
        rw [safe_print_parse_format_options, directive_body,
          safe_print_parse_format_option_admissible option fs rest file w e ci args info '}'
            (Or.inr rfl) hopt]
        simp [safe_print_next_token, (safe_print_next_token_at_structural _).2.2.2.1]
      | cons option1 options =>
        have hbody : directive_body (option :: option1 :: options) ++ '}' :: rest =
            option.text ++ ':' :: (directive_body (option1 :: options) ++ '}' :: rest) := by
          simp [directive_body]
        rw [safe_print_parse_format_options, hbody,
          safe_print_parse_format_option_admissible option fs _ file w e ci args info ':'
            (Or.inl rfl) hopt]
        simp only [safe_print_next_token, (safe_print_next_token_at_structural _).2.2.2.2,
          if_true]
        rw [ih fuel fs rest file w e ci args (option.store info) (by simp)
          (by simpa using hfuel) (fun o ho => hadm o (List.mem_cons_of_mem _ ho))]
        rfl

/-- The text of an admissible option starts with a digit or a letter. -/
theorem SafePrintOption.text_head (option : SafePrintOption) (arg_count : Nat)
    (h : option.admissible arg_count = true) :
    ∃ (x : Char) (tail : List Char), option.text = x :: tail ∧ x ≠ '{' ∧ x ≠ '}' := by
  have hlit : ∀ digits : List Char, literal_digits digits = true →
      ∃ (x : Char) (tail : List Char), digits = x :: tail ∧ x ≠ '{' ∧ x ≠ '}' := by
    intro digits hd
    cases digits with
    | nil => simp [literal_digits] at hd
    | cons d tail =>
      have := literal_digits_head (d :: tail) [] hd
      simp only [List.append_nil, List.headD_cons] at this
      exact ⟨d, tail, rfl, this.1, this.2⟩
  cases option with
  | index digits =>
    simp only [SafePrintOption.admissible, Bool.and_eq_true] at h
    exact hlit digits h.1.1.1
  | min digits => exact ⟨'m', _, rfl, by decide, by decide⟩
  | max digits => exact ⟨'m', _, rfl, by decide, by decide⟩
  | fill c => exact ⟨'f', _, rfl, by decide, by decide⟩
  | precision digits => exact ⟨'p', _, rfl, by decide, by decide⟩
  | base digits => exact ⟨'b', _, rfl, by decide, by decide⟩
  | left => exact ⟨'l', _, rfl, by decide, by decide⟩
  | right => exact ⟨'r', _, rfl, by decide, by decide⟩
  | bin => exact ⟨'b', _, rfl, by decide, by decide⟩
  | oct => exact ⟨'o', _, rfl, by decide, by decide⟩
  | dec => exact ⟨'d', _, rfl, by decide, by decide⟩
  | hex => exact ⟨'h', _, rfl, by decide, by decide⟩
  | sci => exact ⟨'s', _, rfl, by decide, by decide⟩
  | sign => exact ⟨'s', _, rfl, by decide, by decide⟩
  | upper => exact ⟨'u', _, rfl, by decide, by decide⟩
  | lower => exact ⟨'l', _, rfl, by decide, by decide⟩

/-- A directive body has at least one character per option. -/
theorem directive_body_length (arg_count : Nat) :
    ∀ options : List SafePrintOption,
      (∀ option ∈ options, option.admissible arg_count = true) →
      options.length ≤ (directive_body options).length := by
  intro options
  induction options with
  | nil => intro _; simp [directive_body]
  | cons option options ih =>
    intro h
    obtain ⟨x, tail, htext, _, _⟩ := SafePrintOption.text_head option arg_count
      (h option (List.mem_cons_self _ _))
    have ih := ih (fun o ho => h o (List.mem_cons_of_mem _ ho))
    cases options with
    | nil => simp [directive_body, htext]
    | cons option1 options =>
      simp only [directive_body, List.length_append, List.length_cons, htext] at ih ⊢
      omega

/-- The parser on the directive `{o1:o2:...:ok}` made of admissible options,
followed by any text: the options are stored in turn on the initial format
info, and the parser finishes as `safe_print_parse_format_close` says, with
the cursor behind the directive. -/
theorem safe_print_parse_format_specifier_directive (options : List SafePrintOption)
    (fs rest : List Char) (file : SafePrintFileType) (w e ci : Int)
    (args : List SafePrintFormatArg) (hne : options ≠ [])
    (hadm : ∀ option ∈ options, option.admissible args.length = true) :
    safe_print_parse_format_specifier
        ⟨fs, directive_text options ++ rest, file, w, e, ci, args⟩ =
      .done (safe_print_parse_format_close ⟨.SP_FT_CLOSING_BRACE, 0, [], false⟩
        (options.foldl SafePrintOption.store SafePrintFormatInfo.initial)
        ⟨fs, rest, file, w, e, ci, args⟩) := by
  have hlen := directive_body_length args.length options hadm
  cases options with
  | nil => exact absurd rfl hne
  | cons option options =>
    obtain ⟨x, tail, htext, hx1, hx2⟩ := SafePrintOption.text_head option args.length
      (hadm option (List.mem_cons_self _ _))
    have hbody : ∃ body, directive_body (option :: options) ++ '}' :: rest = x :: body := by
      cases options with
      | nil => exact ⟨tail ++ '}' :: rest, by simp [directive_body, htext]⟩
      | cons option1 options =>
        exact ⟨tail ++ ':' :: (directive_body (option1 :: options) ++ '}' :: rest),
          by simp [directive_body, htext]⟩
    obtain ⟨body, hbody⟩ := hbody
    have htextd : directive_text (option :: options) ++ rest = '{' :: x :: body := by
      simp [directive_text, ← hbody]
    have hfuel : (option :: options).length ≤ body.length + 1 + 1 := by
      have : (directive_body (option :: options) ++ '}' :: rest).length = body.length + 1 := by
        rw [hbody, List.length_cons]
      rw [List.length_append] at this
      omega
    rw [htextd, safe_print_parse_format_specifier_body _ _ _ _ _ _ _ _ hx1 hx2, ← hbody,
      safe_print_parse_format_options_directive (option :: options) _ fs rest file w e ci args
        SafePrintFormatInfo.initial hne hfuel hadm]

/-- For an option whose numeric literal is below 2^31 the parser stores what
the option means. -/
theorem SafePrintOption.store_eq_update (option : SafePrintOption) (info : SafePrintFormatInfo)
    (h : option.small = true) : option.store info = option.update info := by
  have hw : ∀ digits : List Char, literal_value digits 0 < 2147483648 →
      wrapS32 ((literal_value digits 0 : Nat) : Int) = literal_value digits 0 :=
    fun digits hd => wrapS32_of_range _ (by omega) (by omega)
  cases option with
  | index digits =>
    simp only [SafePrintOption.small, decide_eq_true_eq] at h
    show ({ info with arg_index := wrapS32 (literal_value digits 0) - 1 } : SafePrintFormatInfo) = _
    rw [hw _ h]; rfl
  | min digits =>
    simp only [SafePrintOption.small, decide_eq_true_eq] at h
    show ({ info with min := wrapS32 (literal_value digits 0) } : SafePrintFormatInfo) = _
    rw [hw _ h]; rfl
  | max digits =>
    simp only [SafePrintOption.small, decide_eq_true_eq] at h
    show ({ info with max := wrapS32 (literal_value digits 0) } : SafePrintFormatInfo) = _
    rw [hw _ h]; rfl
  | precision digits =>
    simp only [SafePrintOption.small, decide_eq_true_eq] at h
    show ({ info with precision := wrapS32 (literal_value digits 0) } : SafePrintFormatInfo) = _
    rw [hw _ h]; rfl
  | base digits =>
    simp only [SafePrintOption.small, decide_eq_true_eq] at h
    show ({ info with base := wrapS32 (literal_value digits 0) } : SafePrintFormatInfo) = _
    rw [hw _ h]; rfl
  | fill c => rfl
  | left => rfl
  | right => rfl
  | bin => rfl
  | oct => rfl
  | dec => rfl
  | hex => rfl
  | sci => rfl
  | sign => rfl
  | upper => rfl
  | lower => rfl

theorem SafePrintOption.foldl_store_eq_update :
    ∀ (options : List SafePrintOption) (info : SafePrintFormatInfo),
      (∀ option ∈ options, option.small = true) →
      options.foldl SafePrintOption.store info = options.foldl SafePrintOption.update info := by
  intro options
  induction options with
  | nil => intro _ _; simp only [List.foldl_nil]
  | cons option options ih =>
    intro info h
    simp only [List.foldl_cons]
    rw [SafePrintOption.store_eq_update option info (h option (List.mem_cons_self _ _))]
    exact ih _ (fun o ho => h o (List.mem_cons_of_mem _ ho))

/-- The argument index after the options of a directive: it is still the
initial -1 exactly when no option is a positional index. -/
theorem SafePrintOption.foldl_update_arg_index (arg_count : Nat) :
    ∀ (options : List SafePrintOption) (info : SafePrintFormatInfo),
      (∀ option ∈ options, option.admissible arg_count = true) →
      (info.arg_index = -1 ∨ 0 ≤ info.arg_index) →
      ((options.foldl SafePrintOption.update info).arg_index = -1 ↔
        (info.arg_index = -1 ∧ directive_indexed options = false)) := by
  intro options
  induction options with
  | nil => intro info _ _; simp [directive_indexed]
  | cons option options ih =>
    intro info hadm hinfo
    have hopt := hadm option (List.mem_cons_self _ _)
    have ih := ih (option.update info) (fun o ho => hadm o (List.mem_cons_of_mem _ ho))
    simp only [List.foldl_cons]
    cases option with
    | index digits =>
      simp only [SafePrintOption.admissible, Bool.and_eq_true, decide_eq_true_eq] at hopt
      have h0 : (0 : Int) ≤ (literal_value digits 0 : Int) - 1 := by omega
      have := ih (Or.inr h0)
      rw [this]
      simp only [SafePrintOption.update, directive_indexed, List.any_cons,
        SafePrintOption.category, decide_True, Bool.true_or]
      constructor
      · rintro ⟨h, _⟩; omega
      · rintro ⟨_, h⟩; cases h
    | _ =>
      have := ih hinfo
      rw [this]
      simp [SafePrintOption.update, directive_indexed, SafePrintOption.category]

/-- An option overwrites what an earlier option of its category stored. -/
theorem SafePrintOption.store_store (a b : SafePrintOption) (info : SafePrintFormatInfo)
    (h : a.category = b.category) : b.store (a.store info) = b.store info := by
  cases a <;> cases b <;>
    first
    | (simp only [SafePrintOption.category, reduceCtorEq] at h; done)
    | rw [SafePrintOption.store, SafePrintOption.store, SafePrintOption.store]
    | rfl

/-- The argument index stored by a single admissible option on the initial
format info is -1 exactly when the option is not a positional index. -/
theorem SafePrintOption.store_initial_arg_index (option : SafePrintOption) (arg_count : Nat)
    (h : option.admissible arg_count = true) :
    ((option.store SafePrintFormatInfo.initial).arg_index = -1 ↔
      ¬ option.category = .index) := by
  cases option with
  | index digits =>
    simp only [SafePrintOption.admissible, Bool.and_eq_true, decide_eq_true_eq] at h
    have hw : wrapS32 ((literal_value digits 0 : Nat) : Int) = literal_value digits 0 :=
      wrapS32_of_range _ (by omega) (by omega)
    simp only [SafePrintOption.store, SafePrintOption.category, hw, not_true_eq_false, iff_false]
    omega
  | _ => simp [SafePrintOption.store, SafePrintOption.update, SafePrintOption.category,
      SafePrintFormatInfo.initial]

theorem safe_print_convert_signed_to_string_sign_eq (v : Int) (base : Nat) (uppercase : Bool)
    (h0 : -9223372036854775808 ≤ v) (h1 : v < 9223372036854775808) (hb : 2 ≤ base)
    (hb16 : base ≤ 16) :
    safe_print_convert_signed_to_string 128 v base uppercase true =
      ⟨signed_integer_text base uppercase v, (signed_integer_text base uppercase v).length⟩ := by
  have hbase : wrapU64 (base : Int) = base := by
    rw [wrapU64_of_range _ (by omega) (by omega)]; simp
  have hnum : (if v < 0 then wrapU64 (-v) else wrapU64 v) = v.natAbs := by
    split
    · rw [wrapU64_of_range _ (by omega) (by omega)]; omega
    · rw [wrapU64_of_range _ (by omega) (by omega)]; omega
  have hlt : v.natAbs < 18446744073709551616 := by omega
  unfold safe_print_convert_signed_to_string signed_integer_text
  simp only [hbase, hnum]
  cases uppercase
  · have h := safe_print_convert_digits_eq_toDigits SafePrintCharacterLookup id base hb
      (fun r hr => by simpa using safe_print_lookup_lower r (by omega)) v.natAbs hlt
    by_cases hv : v < 0 <;> simp [h, hv]
  · have h := safe_print_convert_digits_eq_toDigits SafePrintCharacterLookupUppercase
      Char.toUpper base hb (fun r hr => safe_print_lookup_upper r (by omega)) v.natAbs hlt
    by_cases hv : v < 0 <;> simp [h, hv]

theorem signed_integer_text_length_lt (base : Nat) (uppercase : Bool) (v : Int) (hb : 2 ≤ base)
    (hv : v.natAbs < 18446744073709551616) :
    ((signed_integer_text base uppercase v).length : Int) < 2147483648 := by
  have hpow : (2 : Nat) ^ 64 = 18446744073709551616 := by norm_num
  have h := Nat.toDigitsCore_length base hb (v.natAbs + 1) v.natAbs 64
    (lt_of_lt_of_le (hpow ▸ hv) (Nat.pow_le_pow_left hb _)) (by norm_num)
  have h2 : (Nat.toDigits base v.natAbs).length ≤ 64 := h
  unfold signed_integer_text
  simp
  omega

/-- The width post-processing of numbers without width options, applied to a
text shorter than 2^31 characters: the text is appended to an accepting sink
and counted. -/
theorem safe_print_apply_format_info_plain (fs fmt out : List Char) (w e ci : Int)
    (args : List SafePrintFormatArg) (text : List Char) (info : SafePrintFormatInfo)
    (default_fill : Char) (hlen : (text.length : Int) < 2147483648) (hmin : info.min = 0)
    (hmax : info.max = 0) :
    safe_print_apply_format_info ⟨fs, fmt, ⟨out, none⟩, wrapS32 w, e, ci, args⟩
        ⟨text, text.length⟩ info default_fill =
      ⟨fs, fmt, ⟨out ++ text, none⟩, wrapS32 (w + text.length), e, ci, args⟩ := by
  rw [safe_print_apply_format_info_accepting fs fmt out w e ci args ⟨text, text.length⟩ info
    default_fill (Int.natCast_nonneg _) (le_refl _) hlen (by omega) (by omega)]
  simp [hmin, hmax]

/-- The parser on the template `{sign}` with one argument. -/
theorem safe_print_parse_format_specifier_sign (arg : SafePrintFormatArg) :
    safe_print_parse_format_specifier
        ⟨['{', 's', 'i', 'g', 'n', '}'], ['{', 's', 'i', 'g', 'n', '}'], SafePrintStdOut, 0, 0, 0,
          [arg]⟩ =
      .done (.SP_PFS_OK ⟨0, 0, 0, 0, 0, .SP_FI_ALIGN_DEFAULT, false, true, .SP_FI_DEFAULT_CASE,
          NUL⟩,
        ⟨['{', 's', 'i', 'g', 'n', '}'], [], SafePrintStdOut, 0, 0, 1, [arg]⟩) := by
  have h := safe_print_parse_format_specifier_directive [.sign] ['{', 's', 'i', 'g', 'n', '}'] []
    SafePrintStdOut 0 0 0 [arg] (by simp) (by simp [SafePrintOption.admissible])
  simp only [directive_text, directive_body, SafePrintOption.text, List.cons_append,
    List.nil_append, List.append_nil] at h
  rw [h]
  rfl

/-- The call for the template `{sign}` and one argument whose rendering is the
width post-processing of a text with its length. -/
theorem safe_print_implementation_sign (cvt : SafePrintDoubleConversion)
    (arg : SafePrintFormatArg) (text : List Char) (hlen : (text.length : Int) < 2147483648)
    (hfa : ∀ context : SafePrintContext, context.args = [arg] →
      safe_print_format_arg cvt context
          ⟨0, 0, 0, 0, 0, .SP_FI_ALIGN_DEFAULT, false, true, .SP_FI_DEFAULT_CASE, NUL⟩ =
        safe_print_apply_format_info context ⟨text, text.length⟩
          ⟨0, 0, 0, 0, 0, .SP_FI_ALIGN_DEFAULT, false, true, .SP_FI_DEFAULT_CASE, NUL⟩ '0') :
    safe_print_implementation cvt SafePrintStdOut ['{', 's', 'i', 'g', 'n', '}'] [arg] =
      safe_print_success ['{', 's', 'i', 'g', 'n', '}'] [arg] text 1 := by
  have h0 : (0 : Int) = wrapS32 0 := by decide
  have hrender : safe_print_format_arg cvt
        ⟨['{', 's', 'i', 'g', 'n', '}'], [], SafePrintStdOut, 0, 0, 1, [arg]⟩
        ⟨0, 0, 0, 0, 0, .SP_FI_ALIGN_DEFAULT, false, true, .SP_FI_DEFAULT_CASE, NUL⟩ =
      ⟨['{', 's', 'i', 'g', 'n', '}'], [], ⟨text, none⟩, text.length, 0, 1, [arg]⟩ := by
    rw [hfa _ rfl, SafePrintStdOut]
    have := safe_print_apply_format_info_plain ['{', 's', 'i', 'g', 'n', '}'] [] [] 0 0 1 [arg]
      text ⟨0, 0, 0, 0, 0, .SP_FI_ALIGN_DEFAULT, false, true, .SP_FI_DEFAULT_CASE, NUL⟩ '0'
      hlen rfl rfl
    rw [← h0] at this
    rw [this]
    simp [wrapS32_of_range _ (Int.natCast_nonneg _) hlen]
  rw [safe_print_implementation_single_directive cvt SafePrintStdOut _ [arg] _ _
    (safe_print_parse_format_specifier_sign arg) (by rw [hrender]), hrender]
  rfl

theorem safe_print_to_upper_eq (c : Char) : safe_print_to_upper c = c.toUpper := by
  unfold safe_print_to_upper Char.toUpper
  have h : ('a' ≤ c ∧ c ≤ 'z') ↔ (c.toNat ≥ 97 ∧ c.toNat ≤ 122) := by
    constructor
    · rintro ⟨h1, h2⟩; exact ⟨h1, h2⟩
    · rintro ⟨h1, h2⟩; exact ⟨h1, h2⟩
  simp only [h]

theorem safe_print_to_lower_eq (c : Char) : safe_print_to_lower c = c.toLower := by
  unfold safe_print_to_lower Char.toLower
  have h : ('A' ≤ c ∧ c ≤ 'Z') ↔ (c.toNat ≥ 65 ∧ c.toNat ≤ 90) := by
    constructor
    · rintro ⟨h1, h2⟩; exact ⟨h1, h2⟩
    · rintro ⟨h1, h2⟩; exact ⟨h1, h2⟩
  simp only [h]

/-- A template that is one directive without width options, applied to one
text argument, in terms of the `int` length field that the renderer computes
for the text: the call writes that many characters of the text, folded to the
case of the directive. -/
theorem safe_print_implementation_text_directive (cvt : SafePrintDoubleConversion)
    (fmt str : List Char) (info : SafePrintFormatInfo) (length : Nat)
    (hparse : safe_print_parse_format_specifier
      ⟨'{' :: fmt, '{' :: fmt, SafePrintStdOut, 0, 0, 0, [.SAFE_PRINT_STR str]⟩ =
        .done (.SP_PFS_OK info, ⟨'{' :: fmt, [], SafePrintStdOut, 0, 0, 1, [.SAFE_PRINT_STR str]⟩))
    (hidx : info.arg_index = 0) (hmin : info.min = 0) (hmax : info.max = 0)
    (hlength : wrapS32 (safe_print_cstring_length str) = (length : Int))
    (hle : length ≤ str.length) :
    safe_print_implementation cvt SafePrintStdOut ('{' :: fmt) [.SAFE_PRINT_STR str] =
      safe_print_success ('{' :: fmt) [.SAFE_PRINT_STR str]
        ((str.take length).map (if info.char_case = .SP_FI_UPPER_CASE then Char.toUpper
          else if info.char_case = .SP_FI_LOWER_CASE then Char.toLower else id)) 1 := by
  have hlt : (length : Int) < 2147483648 := by
    rw [← hlength]
    unfold wrapS32
    omega
  have hfa := safe_print_format_arg_text_accepting cvt ('{' :: fmt) [] [] 0 0 1
    [.SAFE_PRINT_STR str] info str length (by omega) (by simp [hidx]) hlength (by omega)
    (by exact_mod_cast hle) (by omega) (by omega)
  have hw0 : wrapS32 0 = 0 := by decide
  rw [hw0] at hfa
  have hup : safe_print_to_upper = Char.toUpper := funext safe_print_to_upper_eq
  have hlow : safe_print_to_lower = Char.toLower := funext safe_print_to_lower_eq
  have hfa' : safe_print_format_arg cvt
      ⟨'{' :: fmt, [], SafePrintStdOut, 0, 0, 1, [.SAFE_PRINT_STR str]⟩ info =
      ⟨'{' :: fmt, [],
        ⟨(str.take length).map (if info.char_case = .SP_FI_UPPER_CASE then Char.toUpper
          else if info.char_case = .SP_FI_LOWER_CASE then Char.toLower else id), none⟩,
        (length : Int), 0, 1, [.SAFE_PRINT_STR str]⟩ := by
    rw [SafePrintStdOut, hfa]
    have hpad : ((0 : Int) - (length : Int)).toNat = 0 := by omega
    simp only [hmin, hmax, hpad, ne_eq, not_true_eq_false, false_and, if_false, List.replicate,
      List.nil_append, List.append_nil, Int.toNat_ofNat, hup, hlow, ite_self, zero_add,
      Nat.cast_zero]
    rw [wrapS32_of_range _ (Int.natCast_nonneg _) (by omega)]
  rw [safe_print_implementation_single_directive cvt SafePrintStdOut _ _ _ _ hparse
    (by rw [hfa']), hfa']
  simp [safe_print_success, hle]

/-- Number of characters an accepting sink receives from `safe_print_output_character`. -/
theorem safe_print_output_character_length (context : SafePrintContext) (c : Char)
    (h : context.file.capacity = none) :
    (safe_print_output_character context c).file.capacity = none ∧
    (safe_print_output_character context c).file.content.length =
      context.file.content.length + 1 := by
  simp [safe_print_output_character, SafePrintFileType.accepts, h]

theorem safe_print_output_fill_length (fill : Char) :
    ∀ (space : Nat) (context : SafePrintContext), context.file.capacity = none →
      (safe_print_output_fill fill space context).file.capacity = none ∧
      (safe_print_output_fill fill space context).file.content.length =
        context.file.content.length + space := by
  intro space
  induction space with
  | zero => intro context h; exact ⟨h, rfl⟩
  | succ space ih =>
    intro context h
    have h1 := safe_print_output_character_length context fill h
    have h2 := ih _ h1.1
    rw [safe_print_output_fill]
    exact ⟨h2.1, by rw [h2.2, h1.2]; omega⟩

theorem safe_print_output_fill_if_length (p : Prop) [Decidable p] (fill : Char) (space : Nat)
    (context : SafePrintContext) (h : context.file.capacity = none) :
    (if p then safe_print_output_fill fill space context else context).file.capacity = none ∧
    (if p then safe_print_output_fill fill space context else context).file.content.length =
      context.file.content.length + (if p then space else 0) := by
  split
  · exact safe_print_output_fill_length fill space context h
  · exact ⟨h, rfl⟩

/-- The parser on a directive that consists of a numeric literal; `v` is the
value of the literal as an `sp_s32`. A value below 0 or above the number of
arguments fails with `SP_ERROR_POSITIONAL_ARG_OUT_OF_RANGE` recorded, the
value 0 leaves the index at -1 and the directive ends like `{}`, any other
value is accepted and stored less one. -/
theorem safe_print_parse_format_specifier_index_literal (digits fs rest : List Char)
    (file : SafePrintFileType) (w e ci : Int) (args : List SafePrintFormatArg) (v : Int)
    (hdigits : literal_digits digits = true) (hv : wrapS32 (literal_value digits 0) = v) :
    safe_print_parse_format_specifier
        ⟨fs, '{' :: (digits ++ '}' :: rest), file, w, e, ci, args⟩ =
      if v < 0 ∨ (args.length : Int) < v then
        .done (.SP_PFS_ERROR,
          ⟨fs, '}' :: rest, file, w, SP_ERROR_POSITIONAL_ARG_OUT_OF_RANGE, ci, args⟩)
      else if v = 0 then
        safe_print_parse_format_specifier ⟨fs, '{' :: '}' :: rest, file, w, e, ci, args⟩
      else
        .done (.SP_PFS_OK { SafePrintFormatInfo.initial with arg_index := v - 1 },
          ⟨fs, rest, file, w, e, ci, args⟩) := by
  have htok := safe_print_next_token_at_literal digits '}' rest hdigits (by decide)
  rw [hv] at htok
  obtain ⟨d, tail, hd⟩ : ∃ d tail, digits = d :: tail := by
    cases digits with
    | nil => simp [literal_digits] at hdigits
    | cons d tail => exact ⟨d, tail, rfl⟩
  have hhead := literal_digits_head digits ('}' :: rest) hdigits
  rw [hd] at hhead
  simp only [List.cons_append, List.headD_cons] at hhead
  have hbody : digits ++ '}' :: rest = d :: (tail ++ '}' :: rest) := by rw [hd]; rfl
  have hempty : safe_print_parse_format_specifier ⟨fs, '{' :: '}' :: rest, file, w, e, ci, args⟩ =
      .done (safe_print_parse_format_close ⟨.SP_FT_CLOSING_BRACE, 0, [], false⟩
        SafePrintFormatInfo.initial ⟨fs, rest, file, w, e, ci, args⟩) := by
    simp [safe_print_parse_format_specifier, safe_print_next_token, safe_print_next_token_at,
      NUL_ne_closing_brace, NUL_ne_opening_brace]
  rw [hempty, hbody, safe_print_parse_format_specifier_body _ _ _ _ _ _ _ _ hhead.1 hhead.2,
    ← hbody, safe_print_parse_format_options]
  simp only [safe_print_next_token, htok, safe_print_parse_format_option,
    SafePrintContext.arg_count]
  by_cases hbad : v < 0 ∨ (args.length : Int) < v
  · have hbad1 : v < 0 ∨ v > (args.length : Int) := hbad
    simp only [hbad, hbad1, if_true]
    rfl
  · have hbad1 : ¬ (v < 0 ∨ v > (args.length : Int)) := hbad
    simp only [hbad, hbad1, if_false]
    have hclose : safe_print_next_token_at ('}' :: rest) =
        (⟨.SP_FT_CLOSING_BRACE, 0, [], false⟩, rest) := by
      simp [safe_print_next_token_at, NUL_ne_closing_brace]
    simp only [hclose, reduceCtorEq, if_false]
    by_cases h0 : v = 0
    · simp only [h0, if_true]
      rfl
    · simp only [h0, if_false]
      have hne : ¬ (v - 1 = -1) := by omega
      simp [safe_print_parse_format_close, hne]

theorem safe_print_consume_next_token_current_index (context : SafePrintContext)
    (kind : SafePrintTokenKind) :
    (safe_print_consume_next_token context kind).2.current_index = context.current_index := by
  simp only [safe_print_consume_next_token]
  split <;> rfl

theorem safe_print_parse_format_function_current_index (context : SafePrintContext) :
    (safe_print_parse_format_function context).2.2.current_index = context.current_index := by
  simp only [safe_print_parse_format_function]
  split
  · rfl
  · split <;> rfl

/-- One pass through the switch of the parser leaves the sequential counter
alone, and the argument index it stores is either the one it found or a
number from -1 to `arg_count - 1`. -/
theorem safe_print_parse_format_option_index (token : SafePrintFormatToken)
    (context : SafePrintContext) (info : SafePrintFormatInfo)
    (result : Option SafePrintFormatInfo) (context1 : SafePrintContext)
    (h : safe_print_parse_format_option token context info = .done (result, context1)) :
    context1.current_index = context.current_index ∧
      ∀ info1, result = some info1 →
        info1.arg_index = info.arg_index ∨
          (-1 ≤ info1.arg_index ∧ info1.arg_index < context.arg_count) := by
  unfold safe_print_parse_format_option at h
  split at h
  case h_1 =>
    split at h
    · cases h
      exact ⟨rfl, fun _ h => by cases h⟩
    · rename_i hrange
      cases h
      refine ⟨rfl, fun info1 h => ?_⟩
      cases h
      right
      simp only [not_or, not_lt, gt_iff_lt] at hrange
      constructor
      · show -1 ≤ token.number - 1
        omega
      · show token.number - 1 < context.arg_count
        omega
  case h_2 =>
    have hci := safe_print_parse_format_function_current_index context
    split at h
    · rename_i token1 context2 heq
      rw [heq] at hci
      split at h
      · cases h
        exact ⟨hci, fun _ h => by cases h⟩
      · cases h
        exact ⟨hci, fun info1 h => by cases h; exact Or.inl rfl⟩
    · rename_i flag out context2 hne heq
      rw [heq] at hci
      cases h
      exact ⟨hci, fun _ h => by cases h⟩
  case h_3 =>
    simp only at h
    split at h
    · cases h
    · cases h
      refine ⟨?_, fun info1 h => by cases h; exact Or.inl rfl⟩
      rw [safe_print_consume_next_token_current_index, safe_print_consume_next_token_current_index,
        safe_print_consume_next_token_current_index]
  case h_4 =>
    simp only at h
    have hci := safe_print_consume_next_token_current_index context .SP_FT_OPENING_PAREN
    split at h
    · cases h
    · split at h
      · cases h
      · cases h
        refine ⟨?_, fun info1 h => by cases h; exact Or.inl rfl⟩
        rw [safe_print_consume_next_token_current_index]
        exact hci
  case h_5 =>
    simp only at h
    split at h
    · cases h
    · cases h
      refine ⟨?_, fun info1 h => by cases h; exact Or.inl rfl⟩
      rw [safe_print_consume_next_token_current_index, safe_print_consume_next_token_current_index,
        safe_print_consume_next_token_current_index]
  case h_8 =>
    simp only at h
    split at h
    · cases h
    · cases h
      refine ⟨?_, fun info1 h => by cases h; exact Or.inl rfl⟩
      rw [safe_print_consume_next_token_current_index, safe_print_consume_next_token_current_index,
        safe_print_consume_next_token_current_index]
  all_goals
    cases h
    exact ⟨rfl, fun info1 h => by cases h <;> exact Or.inl rfl⟩

/-- The option loop of the parser leaves the sequential counter alone, and
the argument index it collects lies between -1 and `arg_count - 1` when the
index it started from does. -/
theorem safe_print_parse_format_options_index :
    ∀ (fuel : Nat) (context : SafePrintContext) (info : SafePrintFormatInfo)
      (result : Option (SafePrintFormatToken × SafePrintFormatInfo))
      (context1 : SafePrintContext),
      safe_print_parse_format_options fuel context info = .done (result, context1) →
      -1 ≤ info.arg_index → info.arg_index < context.arg_count →
      context1.current_index = context.current_index ∧
        ∀ token info1, result = some (token, info1) →
          -1 ≤ info1.arg_index ∧ info1.arg_index < context.arg_count := by
  intro fuel
  induction fuel with
  | zero =>
    intro context info result context1 h
    simp [safe_print_parse_format_options] at h
  | succ fuel ih =>
    intro context info result context1 h hlo hhi
    rw [safe_print_parse_format_options] at h
    split at h
    · rename_i context2 heq
      cases h
      have := safe_print_parse_format_option_index _ _ _ _ _ heq
      exact ⟨this.1, fun _ _ h => by cases h⟩
    · rename_i info1 context2 heq
      have hopt := safe_print_parse_format_option_index _ _ _ _ _ heq
      have hframe := (safe_print_parse_format_option_frame _ _ _ _ _ heq).1
      have hci : context2.current_index = context.current_index := hopt.1
      have hargs : context2.arg_count = context.arg_count := by
        unfold SafePrintContext.arg_count
        rw [hframe.2.2.2]
        rfl
      have hinfo1 : -1 ≤ info1.arg_index ∧ info1.arg_index < context.arg_count := by
        rcases hopt.2 info1 rfl with h1 | h1
        · rw [h1]; exact ⟨hlo, hhi⟩
        · exact h1
      split at h
      · have := ih _ _ _ _ h hinfo1.1 (by rw [← hargs] at hinfo1; exact hinfo1.2)
        refine ⟨this.1.trans hci, fun token info2 hres => ?_⟩
        have := this.2 token info2 hres
        rw [← hargs]
        exact this
      · cases h
        refine ⟨hci, fun token info2 hres => ?_⟩
        cases hres
        exact hinfo1
    · cases h
    · cases h
    · cases h

/-- The end of the parser keeps the sequential counter within `0..arg_count`
and returns an argument index within `0..arg_count - 1`. -/
theorem safe_print_parse_format_close_index (token : SafePrintFormatToken)
    (info : SafePrintFormatInfo) (context : SafePrintContext) (hc : context.indexed)
    (hlo : -1 ≤ info.arg_index) (hhi : info.arg_index < context.arg_count) :
    (safe_print_parse_format_close token info context).2.indexed ∧
      ∀ info1, (safe_print_parse_format_close token info context).1 = .SP_PFS_OK info1 →
        0 ≤ info1.arg_index ∧ info1.arg_index < context.arg_count := by
  obtain ⟨h0, h1, h16⟩ := hc
  unfold safe_print_parse_format_close
  split
  · exact ⟨⟨h0, h1, h16⟩, fun _ h => by cases h⟩
  · split
    · split
      · exact ⟨⟨h0, h1, h16⟩, fun _ h => by cases h⟩
      · rename_i hne
        have hlt : context.current_index < context.arg_count := lt_of_le_of_ne h1 hne
        have hcount : context.arg_count ≤ 16 := by
          unfold SafePrintContext.arg_count
          exact_mod_cast h16
        have hw : wrapS32 (context.current_index + 1) = context.current_index + 1 :=
          wrapS32_of_range _ (by omega) (by omega)
        refine ⟨⟨?_, ?_, h16⟩, fun info1 h => ?_⟩
        · show 0 ≤ wrapS32 (context.current_index + 1)
          rw [hw]; omega
        · show wrapS32 (context.current_index + 1) ≤ context.arg_count
          rw [hw]; omega
        · cases h
          exact ⟨h0, hlt⟩
    · rename_i hne
      refine ⟨⟨h0, h1, h16⟩, fun info1 h => ?_⟩
      cases h
      exact ⟨by omega, hhi⟩

/-- The parser keeps the sequential counter within `0..arg_count`, and an
argument index it returns with `SP_PFS_OK` lies within `0..arg_count - 1`. -/
theorem safe_print_parse_format_specifier_index (context : SafePrintContext)
    (status : SafePrintParseStatus) (context1 : SafePrintContext) (hc : context.indexed)
    (h : safe_print_parse_format_specifier context = .done (status, context1)) :
    context1.indexed ∧
      ∀ info, status = .SP_PFS_OK info → 0 ≤ info.arg_index ∧ info.arg_index < context1.arg_count := by
  have hargs := (safe_print_parse_format_specifier_frame context status context1 h).1.2.2.2
  have hcount : context1.arg_count = context.arg_count := by
    unfold SafePrintContext.arg_count; rw [hargs]
  have hinit : (-1 : Int) ≤ SafePrintFormatInfo.initial.arg_index := le_refl _
  have hinit2 : SafePrintFormatInfo.initial.arg_index < context.arg_count := by
    show (-1 : Int) < context.arg_count
    unfold SafePrintContext.arg_count
    omega
  have key : (context1.current_index = context.current_index ∧
      ∀ info, status = .SP_PFS_OK info → 0 ≤ info.arg_index ∧ info.arg_index < context.arg_count) ∨
    (context1.indexed ∧
      ∀ info, status = .SP_PFS_OK info →
        0 ≤ info.arg_index ∧ info.arg_index < context.arg_count) := by
    simp only [safe_print_parse_format_specifier] at h
    split at h
    · cases h
      exact Or.inl ⟨rfl, fun _ h => by cases h⟩
    · split at h
      · cases h
        exact Or.inl ⟨rfl, fun _ h => by cases h⟩
      · split at h
        · split at h
          · rename_i context2 heq
            cases h
            have := safe_print_parse_format_options_index _ _ _ _ _ heq hinit hinit2
            exact Or.inl ⟨this.1, fun _ h => by cases h⟩
          · rename_i token info context2 heq
            have hopts := safe_print_parse_format_options_index _ _ _ _ _ heq hinit hinit2
            have hargs2 := (safe_print_parse_format_options_frame _ _ _ _ _ heq).1.2.2.2
            have hcount2 : context2.arg_count = context.arg_count := by
              unfold SafePrintContext.arg_count; rw [hargs2]; rfl
            have hc2 : context2.indexed := by
              refine ⟨?_, ?_, ?_⟩
              · rw [hopts.1]; exact hc.1
              · rw [hopts.1, hcount2]; exact hc.2.1
              · rw [hargs2]; exact hc.2.2
            have hinfo := hopts.2 token info rfl
            have hclose := safe_print_parse_format_close_index token info context2 hc2 hinfo.1
              (by rw [hcount2]; exact hinfo.2)
            simp only [SafePrintOutcome.done.injEq] at h
            rw [h, hcount2] at hclose
            exact Or.inr hclose
          · cases h
          · cases h
          · cases h
        · have hclose := safe_print_parse_format_close_index
            (safe_print_next_token (safe_print_next_token context).2).1 SafePrintFormatInfo.initial
            (safe_print_next_token (safe_print_next_token context).2).2 hc hinit hinit2
          simp only [SafePrintOutcome.done.injEq] at h
          rw [h] at hclose
          exact Or.inr hclose
  rw [hcount]
  rcases key with ⟨hci, hinfo⟩ | hboth
  · refine ⟨⟨?_, ?_, ?_⟩, hinfo⟩
    · rw [hci]; exact hc.1
    · rw [hci, hcount]; exact hc.2.1
    · rw [hargs]; exact hc.2.2
  · exact hboth

theorem safe_print_output_character_indexed (P : Int → List SafePrintFormatArg → Prop)
    (context : SafePrintContext) (c : Char) (h : P context.current_index context.args) :
    P (safe_print_output_character context c).current_index
      (safe_print_output_character context c).args := by
  unfold safe_print_output_character
  split <;> exact h

theorem safe_print_output_string_indexed (P : Int → List SafePrintFormatArg → Prop)
    (context : SafePrintContext) (str : List Char) (length : Nat)
    (h : P context.current_index context.args) :
    P (safe_print_output_string context str length).current_index
      (safe_print_output_string context str length).args := by
  simp only [safe_print_output_string]
  split <;> exact h

theorem safe_print_output_fill_indexed (P : Int → List SafePrintFormatArg → Prop) (fill : Char) :
    ∀ (space : Nat) (context : SafePrintContext), P context.current_index context.args →
      P (safe_print_output_fill fill space context).current_index
        (safe_print_output_fill fill space context).args := by
  intro space
  induction space with
  | zero => intro context h; exact h
  | succ space ih =>
    intro context h
    rw [safe_print_output_fill]
    exact ih _ (safe_print_output_character_indexed P context fill h)

theorem safe_print_output_mapped_indexed (P : Int → List SafePrintFormatArg → Prop)
    (f : Char → Char) :
    ∀ (str : List Char) (context : SafePrintContext), P context.current_index context.args →
      P (safe_print_output_mapped f str context).current_index
        (safe_print_output_mapped f str context).args := by
  intro str
  induction str with
  | nil => intro context h; exact h
  | cons c str ih =>
    intro context h
    rw [safe_print_output_mapped]
    exact ih _ (safe_print_output_character_indexed P context (f c) h)

theorem safe_print_output_fill_if_indexed (P : Int → List SafePrintFormatArg → Prop) (p : Prop)
    [Decidable p] (fill : Char) (space : Nat) (context : SafePrintContext)
    (h : P context.current_index context.args) :
    P (if p then safe_print_output_fill fill space context else context).current_index
      (if p then safe_print_output_fill fill space context else context).args := by
  split
  · exact safe_print_output_fill_indexed P _ _ _ h
  · exact h

theorem safe_print_apply_format_info_indexed (P : Int → List SafePrintFormatArg → Prop)
    (context : SafePrintContext) (str : SafePrintStringRef) (info : SafePrintFormatInfo)
    (default_fill : Char) (h : P context.current_index context.args) :
    P (safe_print_apply_format_info context str info default_fill).current_index
      (safe_print_apply_format_info context str info default_fill).args := by
  simp only [safe_print_apply_format_info]
  exact safe_print_output_fill_if_indexed P _ _ _ _ (safe_print_output_string_indexed P _ _ _
    (safe_print_output_fill_if_indexed P _ _ _ _ h))

theorem safe_print_apply_format_info_to_string_indexed
    (P : Int → List SafePrintFormatArg → Prop) (context : SafePrintContext)
    (str : SafePrintStringRef) (info : SafePrintFormatInfo) (default_fill : Char)
    (h : P context.current_index context.args) :
    P (safe_print_apply_format_info_to_string context str info default_fill).current_index
      (safe_print_apply_format_info_to_string context str info default_fill).args := by
  simp only [safe_print_apply_format_info_to_string]
  apply safe_print_output_fill_if_indexed P
  split
  · exact safe_print_output_mapped_indexed P _ _ _ (safe_print_output_fill_if_indexed P _ _ _ _ h)
  · split
    · exact safe_print_output_mapped_indexed P _ _ _
        (safe_print_output_fill_if_indexed P _ _ _ _ h)
    · exact safe_print_output_string_indexed P _ _ _
        (safe_print_output_fill_if_indexed P _ _ _ _ h)

/-- Rendering an argument changes neither the sequential counter nor the
captured arguments. -/
theorem safe_print_format_arg_indexed (P : Int → List SafePrintFormatArg → Prop)
    (cvt : SafePrintDoubleConversion) (context : SafePrintContext) (info : SafePrintFormatInfo)
    (h : P context.current_index context.args) :
    P (safe_print_format_arg cvt context info).current_index
      (safe_print_format_arg cvt context info).args := by
  unfold safe_print_format_arg
  split
  · exact h
  · split
    · exact h
    all_goals first
      | exact safe_print_apply_format_info_indexed P _ _ _ _ h
      | exact safe_print_apply_format_info_to_string_indexed P _ _ _ _ h

theorem SafePrintContext.indexed_of_eq {context context1 : SafePrintContext}
    (h : context1.current_index = context.current_index ∧ context1.args = context.args)
    (hc : context.indexed) : context1.indexed := by
  unfold SafePrintContext.indexed SafePrintContext.arg_count at hc ⊢
  rw [h.1, h.2]
  exact hc

/-- Along the scanning loop the sequential counter stays within
`0..arg_count`. -/
theorem safe_print_implementation_loop_indexed (cvt : SafePrintDoubleConversion) :
    ∀ (fuel : Nat) (context : SafePrintContext) (result : SafePrintReturn),
      context.indexed → safe_print_implementation_loop cvt fuel context = .done result →
      result.context.indexed := by
  intro fuel
  induction fuel with
  | zero =>
    intro context result _ h
    simp [safe_print_implementation_loop] at h
  | succ fuel ih =>
    intro context result hc h
    have hchar : ∀ (context : SafePrintContext) (c : Char), context.indexed →
        (safe_print_output_character context c).indexed := fun context c hc =>
      SafePrintContext.indexed_of_eq (safe_print_output_character_indexed
        (fun index args => index = context.current_index ∧ args = context.args) context c
        ⟨rfl, rfl⟩) hc
    rw [safe_print_implementation_loop] at h
    split at h
    · cases h
      exact hc
    · rename_i c fmt hfmt
      split at h
      · cases h
        exact hc
      · split at h
        · cases h
          exact hc
        · split at h
          · split at h
            · rename_i context1 heq
              cases h
              exact (safe_print_parse_format_specifier_index _ _ _ hc heq).1
            · rename_i context1 heq
              have := (safe_print_parse_format_specifier_index _ _ _ hc heq).1
              exact ih _ _ (hchar _ _ this) h
            · rename_i info context1 heq
              have := (safe_print_parse_format_specifier_index _ _ _ hc heq).1
              refine ih _ _ ?_ h
              exact SafePrintContext.indexed_of_eq (safe_print_format_arg_indexed
                (fun index args => index = context1.current_index ∧ args = context1.args) cvt
                context1 info ⟨rfl, rfl⟩) this
            · cases h
            · cases h
            · cases h
          · split at h
            · split at h
              · refine ih _ _ ?_ h
                exact hchar context '}' hc
              · refine ih _ _ ?_ h
                exact hc
            · refine ih _ _ ?_ h
              exact hchar context c hc

/-- Storing an option whose radix is supported keeps the base at 0 or within
2..36. -/
theorem SafePrintOption.store_base_range (option : SafePrintOption) (info : SafePrintFormatInfo)
    (hopt : option.radix_supported = true)
    (h : info.base = 0 ∨ (2 ≤ info.base ∧ info.base ≤ 36)) :
    (option.store info).base = 0 ∨ (2 ≤ (option.store info).base ∧ (option.store info).base ≤ 36) := by
  cases option with
  | base digits =>
    simp only [SafePrintOption.radix_supported, Bool.or_eq_true, Bool.and_eq_true,
      decide_eq_true_eq] at hopt
    have hw : wrapS32 (literal_value digits 0) = literal_value digits 0 :=
      wrapS32_of_range _ (by omega) (by omega)
    show wrapS32 (literal_value digits 0) = 0 ∨
      (2 ≤ wrapS32 (literal_value digits 0) ∧ wrapS32 (literal_value digits 0) ≤ 36)
    rw [hw]
    omega
  | bin => rw [SafePrintOption.store]; right; show (2 : Int) ≤ 2 ∧ (2 : Int) ≤ 36; decide
  | oct => rw [SafePrintOption.store]; right; show (2 : Int) ≤ 8 ∧ (8 : Int) ≤ 36; decide
  | dec => rw [SafePrintOption.store]; right; show (2 : Int) ≤ 10 ∧ (10 : Int) ≤ 36; decide
  | hex => rw [SafePrintOption.store]; right; show (2 : Int) ≤ 16 ∧ (16 : Int) ≤ 36; decide
  | index digits => rw [SafePrintOption.store]; exact h
  | min digits => rw [SafePrintOption.store]; exact h
  | max digits => rw [SafePrintOption.store]; exact h
  | fill c => rw [SafePrintOption.store]; exact h
  | precision digits => rw [SafePrintOption.store]; exact h
  | left => rw [SafePrintOption.store]; exact h
  | right => rw [SafePrintOption.store]; exact h
  | sci => rw [SafePrintOption.store]; exact h
  | sign => rw [SafePrintOption.store]; exact h
  | upper => rw [SafePrintOption.store]; exact h
  | lower => rw [SafePrintOption.store]; exact h

theorem SafePrintOption.foldl_store_base_range :
    ∀ (options : List SafePrintOption) (info : SafePrintFormatInfo),
      (∀ option ∈ options, option.radix_supported = true) →
      (info.base = 0 ∨ (2 ≤ info.base ∧ info.base ≤ 36)) →
      (options.foldl SafePrintOption.store info).base = 0 ∨
        (2 ≤ (options.foldl SafePrintOption.store info).base ∧
          (options.foldl SafePrintOption.store info).base ≤ 36) := by
  intro options
  induction options with
  | nil => intro info _ h; exact h
  | cons option options ih =>
    intro info hopt h
    rw [List.foldl_cons]
    exact ih _ (fun o ho => hopt o (List.mem_cons_of_mem _ ho))
      (SafePrintOption.store_base_range option info (hopt option (List.mem_cons_self _ _)) h)

/-- The end of the parser returns the base it was given. -/
theorem safe_print_parse_format_close_base (token : SafePrintFormatToken)
    (info : SafePrintFormatInfo) (context : SafePrintContext) (info1 : SafePrintFormatInfo)
    (h : (safe_print_parse_format_close token info context).1 = .SP_PFS_OK info1) :
    info1.base = info.base := by
  unfold safe_print_parse_format_close at h
  split at h
  · cases h
  · split at h
    · split at h
      · cases h
      · cases h; rfl
    · cases h; rfl

theorem keyword_table_keys :
    keyword_table.map Prod.fst =
      [['m', 'i', 'n'], ['m', 'a', 'x'], ['l', 'e', 'f', 't'], ['r', 'i', 'g', 'h', 't'],
        ['f', 'i', 'l', 'l'], ['p', 'r', 'e', 'c', 'i', 's', 'i', 'o', 'n'],
        ['b', 'a', 's', 'e'], ['b', 'i', 'n'], ['o', 'c', 't'], ['d', 'e', 'c'],
        ['h', 'e', 'x'], ['s', 'c', 'i'], ['s', 'i', 'g', 'n'], ['u', 'p', 'p', 'e', 'r'],
        ['l', 'o', 'w', 'e', 'r']] := by
  decide

/-- The `switch (str[0])` of the tokenizer classifies a run of letters by an
exact comparison with the keywords. -/
theorem safe_print_next_token_keyword_eq (word : List Char) :
    safe_print_next_token_keyword word = keyword_kind word := by
  by_cases hmem : word ∈ keyword_table.map Prod.fst
  · rw [keyword_table_keys] at hmem
    simp only [List.mem_cons, List.mem_singleton, List.not_mem_nil, or_false] at hmem
    rcases hmem with h | h | h | h | h | h | h | h | h | h | h | h | h | h | h <;>
      (rw [h]; decide)
  · have hnone : keyword_table.lookup word = none := by
      rw [List.lookup_eq_none_iff]
      intro p hp
      simp only [bne_iff_ne, ne_eq]
      intro hbeq
      apply hmem
      rw [hbeq]
      exact List.mem_map_of_mem _ hp
    rw [keyword_table_keys] at hmem
    simp only [List.mem_cons, List.mem_singleton, List.not_mem_nil, or_false, not_or] at hmem
    obtain ⟨h1, h2, h3, h4, h5, h6, h7, h8, h9, h10, h11, h12, h13, h14, h15⟩ := hmem
    unfold keyword_kind
    rw [hnone]
    unfold safe_print_next_token_keyword
    simp only [safe_print_compare_string, h1, h2, h3, h4, h5, h6, h7, h8, h9, h10, h11, h12,
      h13, h14, h15, if_false, decide_False, Option.getD_none]
    split <;> rfl

/-- The letter loop of the tokenizer on a run of letters in front of a text
that does not go on with a letter. -/
theorem safe_print_next_token_letters_run (rest : List Char)
    (hrest : safe_print_is_letter (rest.headD NUL) = false) :
    ∀ word : List Char, word.all safe_print_is_letter = true →
      safe_print_next_token_letters (word ++ rest) = (word, rest) := by
  intro word
  induction word with
  | nil =>
    intro _
    cases rest with
    | nil => simp [safe_print_next_token_letters]
    | cons c rest =>
      simp only [List.headD_cons] at hrest
      simp [safe_print_next_token_letters, hrest]
  | cons x word ih =>
    intro h
    simp only [List.all_cons, Bool.and_eq_true] at h
    simp [safe_print_next_token_letters, h.1, ih h.2]

/-- The tokenizer reads a run of letters as one token, classified by an exact
comparison with the keywords. -/
theorem safe_print_next_token_at_word (word rest : List Char) (hne : word ≠ [])
    (hword : word.all safe_print_is_letter = true)
    (hrest : safe_print_is_letter (rest.headD NUL) = false) :
    safe_print_next_token_at (word ++ rest) = (⟨keyword_kind word, 0, word, true⟩, rest) := by
  cases word with
  | nil => exact absurd rfl hne
  | cons x tail =>
    have hrun := safe_print_next_token_letters_run rest hrest (x :: tail) hword
    simp only [List.all_cons, Bool.and_eq_true] at hword
    have hx := hword.1
    have h1 : x ≠ NUL := by rintro rfl; revert hx; decide
    have h2 : x ≠ '{' := by rintro rfl; revert hx; decide
    have h3 : x ≠ '}' := by rintro rfl; revert hx; decide
    have h4 : x ≠ '(' := by rintro rfl; revert hx; decide
    have h5 : x ≠ ')' := by rintro rfl; revert hx; decide
    have h6 : x ≠ ' ' := by rintro rfl; revert hx; decide
    have h7 : x ≠ '\n' := by rintro rfl; revert hx; decide
    have h8 : x ≠ '\r' := by rintro rfl; revert hx; decide
    have h9 : x ≠ '\t' := by rintro rfl; revert hx; decide
    have h10 : x ≠ ':' := by rintro rfl; revert hx; decide
    have h11 : safe_print_is_digit x = false := by
      simp only [safe_print_is_letter, Bool.or_eq_true, Bool.and_eq_true,
        decide_eq_true_eq] at hx
      simp only [safe_print_is_digit, Bool.and_eq_false_iff, decide_eq_false_iff_not, not_le]
      have hle : ∀ a b : Char, a ≤ b ↔ a.toNat ≤ b.toNat := fun a b => Iff.rfl
      have hlt : ∀ a b : Char, a < b ↔ a.toNat < b.toNat := fun a b => Iff.rfl
      rw [hle, hle, hle, hle] at hx
      rw [hlt, hlt]
      have e1 : ('a' : Char).toNat = 97 := rfl
      have e2 : ('z' : Char).toNat = 122 := rfl
      have e3 : ('A' : Char).toNat = 65 := rfl
      have e4 : ('Z' : Char).toNat = 90 := rfl
      have e5 : ('0' : Char).toNat = 48 := rfl
      have e6 : ('9' : Char).toNat = 57 := rfl
      rw [e1, e2, e3, e4] at hx
      rw [e5, e6]
      omega
    simp only [List.cons_append] at hrun ⊢
    rw [safe_print_next_token_at]
    simp only [h1, h2, h3, h4, h5, h6, h7, h8, h9, h10, h11, hx, if_false, or_self,
      Bool.not_true, Bool.false_eq_true, hrun, safe_print_next_token_keyword_eq]

/-- No keyword of the grammar contains an uppercase letter. -/
theorem keyword_kind_upper (word : List Char) (h : word.any Char.isUpper = true) :
    keyword_kind word = .SP_FT_STRING := by
  by_cases hmem : word ∈ keyword_table.map Prod.fst
  · exfalso
    rw [keyword_table_keys] at hmem
    simp only [List.mem_cons, List.mem_singleton, List.not_mem_nil, or_false] at hmem
    rcases hmem with h1 | h1 | h1 | h1 | h1 | h1 | h1 | h1 | h1 | h1 | h1 | h1 | h1 | h1 | h1 <;>
      (rw [h1] at h; revert h; decide)
  · have hnone : keyword_table.lookup word = none := by
      rw [List.lookup_eq_none_iff]
      intro p hp
      simp only [bne_iff_ne, ne_eq]
      intro hbeq
      apply hmem
      rw [hbeq]
      exact List.mem_map_of_mem _ hp
    unfold keyword_kind
    rw [hnone]
    rfl

/-- The classification of a run of letters never yields the end-of-input
token. -/
theorem safe_print_next_token_keyword_ne_end (str : List Char) :
    safe_print_next_token_keyword str ≠ .SP_FT_END_OF_INPUT := by
  rw [safe_print_next_token_keyword_eq]
  by_cases hmem : str ∈ keyword_table.map Prod.fst
  · rw [keyword_table_keys] at hmem
    simp only [List.mem_cons, List.mem_singleton, List.not_mem_nil, or_false] at hmem
    rcases hmem with h | h | h | h | h | h | h | h | h | h | h | h | h | h | h <;>
      (rw [h]; decide)
  · have hnone : keyword_table.lookup str = none := by
      rw [List.lookup_eq_none_iff]
      intro p hp
      simp only [bne_iff_ne, ne_eq]
      intro hbeq
      apply hmem
      rw [hbeq]
      exact List.mem_map_of_mem _ hp
    unfold keyword_kind
    rw [hnone]
    decide

/-- The tokenizer never returns the end-of-input token. -/
theorem safe_print_next_token_at_ne_end :
    ∀ fmt : List Char, (safe_print_next_token_at fmt).1.kind ≠ .SP_FT_END_OF_INPUT := by
  intro fmt
  induction fmt with
  | nil => decide
  | cons c fmt ih =>
    rw [safe_print_next_token_at]
    split_ifs
    all_goals first
      | exact ih
      | exact safe_print_next_token_keyword_ne_end _
      | (simp only [ne_eq, reduceCtorEq, not_false_eq_true])

/-- The digit loop writes at most `k` digits for a number below `base ^ k`. -/
theorem safe_print_convert_digits_length_le (lookup : List Char) (base : Nat) (hb : 2 ≤ base) :
    ∀ (room number : Nat) (buffer : List Char) (k : Nat), 1 ≤ k → number < base ^ k →
      (safe_print_convert_digits lookup base room number buffer).length ≤ buffer.length + k := by
  intro room
  induction room with
  | zero =>
    intro number buffer k hk _
    simp only [safe_print_convert_digits, List.length_cons]
    omega
  | succ room ih =>
    intro number buffer k hk hlt
    rw [safe_print_convert_digits]
    split
    · simp only [List.length_cons]; omega
    · rename_i hq
      obtain ⟨j, rfl⟩ : ∃ j, k = j + 1 := ⟨k - 1, by omega⟩
      have hj : 1 ≤ j := by
        rcases Nat.eq_zero_or_pos j with h0 | h0
        · exfalso
          rw [h0] at hlt
          simp only [zero_add, pow_one] at hlt
          exact hq (Nat.div_eq_of_lt hlt)
        · exact h0
      have hdiv : number / base < base ^ j := by
        rw [Nat.div_lt_iff_lt_mul (by omega)]
        rw [pow_succ] at hlt
        exact hlt
      have := ih (number / base) (safe_print_lookup lookup (number % base) :: buffer) j hj hdiv
      simp only [List.length_cons] at this
      omega

/-- Every character the digit loop writes is an entry of the digit table when
the base does not exceed the size of the table. -/
theorem safe_print_convert_digits_mem (lookup : List Char) (base : Nat) (hb : 0 < base)
    (hsize : base ≤ lookup.length) :
    ∀ (room number : Nat) (buffer : List Char),
      ∀ c ∈ safe_print_convert_digits lookup base room number buffer, c ∈ lookup ∨ c ∈ buffer := by
  have hentry : ∀ number : Nat, safe_print_lookup lookup (number % base) ∈ lookup := by
    intro number
    have hlt : number % base < lookup.length := lt_of_lt_of_le (Nat.mod_lt _ hb) hsize
    unfold safe_print_lookup
    rw [List.getD_eq_getElem _ _ hlt]
    exact List.getElem_mem _
  intro room
  induction room with
  | zero =>
    intro number buffer c hc
    simp only [safe_print_convert_digits, List.mem_cons] at hc
    rcases hc with rfl | hc
    · exact Or.inl (hentry number)
    · exact Or.inr hc
  | succ room ih =>
    intro number buffer c hc
    rw [safe_print_convert_digits] at hc
    split at hc
    · simp only [List.mem_cons] at hc
      rcases hc with rfl | hc
      · exact Or.inl (hentry number)
      · exact Or.inr hc
    · rcases ih _ _ c hc with h | h
      · exact Or.inl h
      · simp only [List.mem_cons] at h
        rcases h with rfl | h
        · exact Or.inl (hentry number)
        · exact Or.inr h

/-- The default float conversion on 3.5 and -3.5 with the precision 6, fixed
notation and `keep_sign`: the digits `3500` at the decimal position 1 are laid
out as `+3.500000` and `-3.500000`. -/
theorem safe_print_convert_double_to_string_sign :
    stbsp__real_to_str 4615063718147915776 6 = some ⟨['3', '5', '0', '0'], 4, 1, 0⟩ ∧
    stbsp__real_to_str 13838435755002691584 6 = some ⟨['3', '5', '0', '0'], 4, 1, 1⟩ ∧
    safe_print_convert_double_to_string 512 4615063718147915776 6 false false false true =
      some ⟨['+', '3', '.', '5', '0', '0', '0', '0', '0'], 9⟩ ∧
    safe_print_convert_double_to_string 512 13838435755002691584 6 false false false true =
      some ⟨['-', '3', '.', '5', '0', '0', '0', '0', '0'], 9⟩ := by
  decide!

theorem safe_print_convert_double_default_realises :
    SafePrintDoubleConversion.realises_default safe_print_convert_double_default := by
  intro size number precision scientific hex uppercase keep_sign str h
  unfold safe_print_convert_double_default
  rw [h]
  rfl

/-- The call for the template `{sign}` and one double whose conversion with
the precision 6 returns `text`. -/
theorem safe_print_implementation_sign_double (cvt : SafePrintDoubleConversion) (r64 : Nat)
    (text : List Char) (hlen : (text.length : Int) < 2147483648)
    (hcvt : cvt 512 r64 6 false false false true = ⟨text, text.length⟩) :
    safe_print_implementation cvt SafePrintStdOut ['{', 's', 'i', 'g', 'n', '}']
        [.SAFE_PRINT_R64 r64] =
      safe_print_success ['{', 's', 'i', 'g', 'n', '}'] [.SAFE_PRINT_R64 r64] text 1 := by
  apply safe_print_implementation_sign cvt (.SAFE_PRINT_R64 r64) text hlen
  intro context hargs
  unfold safe_print_format_arg
  simp only [hargs]
  have hget : [SafePrintFormatArg.SAFE_PRINT_R64 r64].get? (0 : Int).toNat =
      some (.SAFE_PRINT_R64 r64) := rfl
  simp only [lt_self_iff_false, if_false, hget, ne_eq, not_true_eq_false]
  have h16 : decide ((0 : Int) = 16) = false := by decide
  have hup : decide (SafePrintCharCase.SP_FI_DEFAULT_CASE = SafePrintCharCase.SP_FI_UPPER_CASE) =
      false := by decide
  rw [h16, hup, hcvt]

/-- The conversion loop writes the base-`b` digits of a non-zero number, most
significant first, in front of what the buffer already holds. -/
theorem safe_print_convert_digits_eq_digits (lookup : List Char) (b : Nat) (hb : 2 ≤ b) :
    ∀ (room n : Nat) (buffer : List Char), n ≠ 0 → n < b ^ (room + 1) →
      safe_print_convert_digits lookup b room n buffer =
        (Nat.digits b n).reverse.map (safe_print_lookup lookup) ++ buffer := by
  intro room
  induction room with
  | zero =>
    intro n buffer hn hlt
    have hlt1 : n < b := by simpa using hlt
    rw [Nat.digits_of_lt b n hn hlt1]
    simp [safe_print_convert_digits, Nat.mod_eq_of_lt hlt1]
  | succ room ih =>
    intro n buffer hn hlt
    by_cases hdiv : n / b = 0
    · have hlt1 : n < b := (Nat.div_eq_zero_iff (by omega)).mp hdiv
      rw [Nat.digits_of_lt b n hn hlt1]
      simp [safe_print_convert_digits, hdiv, Nat.mod_eq_of_lt hlt1]
    · have h1 : n / b < b ^ (room + 1) := by
        apply Nat.div_lt_of_lt_mul
        calc n < b ^ (room + 1 + 1) := hlt
          _ = b * b ^ (room + 1) := by ring
      rw [safe_print_convert_digits, if_neg hdiv, ih (n / b) _ hdiv h1,
        Nat.digits_def' (by omega) (Nat.pos_of_ne_zero hn)]
      simp

/-! ## The cursor -/

theorem safe_print_next_token_number_suffix :
    ∀ (fmt : List Char) (number : Int), (safe_print_next_token_number fmt number).2 <:+ fmt := by
  intro fmt
  induction fmt with
  | nil => intro number; simp [safe_print_next_token_number]
  | cons c fmt ih =>
    intro number
    rw [safe_print_next_token_number]
    split
    · exact (ih _).trans (List.suffix_cons c fmt)
    · exact List.suffix_refl _

theorem safe_print_next_token_letters_suffix :
    ∀ (fmt : List Char), (safe_print_next_token_letters fmt).2 <:+ fmt := by
  intro fmt
  induction fmt with
  | nil => simp [safe_print_next_token_letters]
  | cons c fmt ih =>
    rw [safe_print_next_token_letters]
    split
    · exact ih.trans (List.suffix_cons c fmt)
    · exact List.suffix_refl _

/-- The tokenizer leaves the cursor on a suffix of the text it was given, and
it has consumed at least one character unless the token is `SP_FT_UNKOWN`. -/
theorem safe_print_next_token_at_suffix :
    ∀ (fmt : List Char), (safe_print_next_token_at fmt).2 <:+ fmt ∧
      ((safe_print_next_token_at fmt).2.length < fmt.length ∨
        (safe_print_next_token_at fmt).1.kind = .SP_FT_UNKOWN) := by
  intro fmt
  induction fmt with
  | nil => simp [safe_print_next_token_at]
  | cons c fmt ih =>
    rw [safe_print_next_token_at]
    have hcons : fmt <:+ c :: fmt := List.suffix_cons c fmt
    have hlen : fmt.length < (c :: fmt).length := by simp
    split
    · exact ⟨List.suffix_refl _, Or.inr rfl⟩
    split
    · exact ⟨hcons, Or.inl hlen⟩
    split
    · exact ⟨hcons, Or.inl hlen⟩
    split
    · exact ⟨hcons, Or.inl hlen⟩
    split
    · exact ⟨hcons, Or.inl hlen⟩
    split
    · refine ⟨ih.1.trans hcons, Or.inl ?_⟩
      have := ih.1.length_le
      simp only [List.length_cons]
      omega
    split
    · rename_i hdigit
      have h := safe_print_next_token_number_suffix fmt
        (wrapS32 (wrapS32 (0 * 10) + ((c.toNat : Int) - 48)))
      have hstep : (safe_print_next_token_number (c :: fmt) 0).2 =
          (safe_print_next_token_number fmt
            (wrapS32 (wrapS32 (0 * 10) + ((c.toNat : Int) - 48)))).2 := by
        rw [safe_print_next_token_number, if_pos hdigit]
      refine ⟨?_, Or.inl ?_⟩
      · show (safe_print_next_token_number (c :: fmt) 0).2 <:+ c :: fmt
        rw [hstep]; exact h.trans hcons
      · show (safe_print_next_token_number (c :: fmt) 0).2.length < (c :: fmt).length
        rw [hstep]
        have := h.length_le
        simp only [List.length_cons]
        omega
    split
    · exact ⟨hcons, Or.inl hlen⟩
    split
    · exact ⟨hcons, Or.inl hlen⟩
    · rename_i hletter
      have hl : safe_print_is_letter c = true := by simpa using hletter
      have h := safe_print_next_token_letters_suffix fmt
      have hstep : (safe_print_next_token_letters (c :: fmt)).2 =
          (safe_print_next_token_letters fmt).2 := by
        rw [safe_print_next_token_letters, if_pos hl]
      refine ⟨?_, Or.inl ?_⟩
      · show (safe_print_next_token_letters (c :: fmt)).2 <:+ c :: fmt
        rw [hstep]; exact h.trans hcons
      · show (safe_print_next_token_letters (c :: fmt)).2.length < (c :: fmt).length
        rw [hstep]
        have := h.length_le
        simp only [List.length_cons]
        omega

theorem safe_print_next_token_suffix (context : SafePrintContext) :
    (safe_print_next_token context).2.fmt <:+ context.fmt :=
  (safe_print_next_token_at_suffix context.fmt).1

/-- A token other than `SP_FT_UNKOWN` has consumed at least one character. -/
theorem safe_print_next_token_advances (context : SafePrintContext)
    (h : (safe_print_next_token context).1.kind ≠ .SP_FT_UNKOWN) :
    (safe_print_next_token context).2.fmt.length < context.fmt.length := by
  rcases (safe_print_next_token_at_suffix context.fmt).2 with h1 | h1
  · exact h1
  · exact absurd h1 h

theorem safe_print_report_error_fmt (context : SafePrintContext) (kind : Int) :
    (safe_print_report_error context kind).fmt = context.fmt := rfl

theorem safe_print_consume_next_token_suffix (context : SafePrintContext)
    (kind : SafePrintTokenKind) :
    (safe_print_consume_next_token context kind).2.fmt <:+ context.fmt := by
  unfold safe_print_consume_next_token
  simp only
  split
  · exact safe_print_next_token_suffix context
  · exact safe_print_next_token_suffix context

theorem safe_print_parse_format_function_suffix (context : SafePrintContext) :
    (safe_print_parse_format_function context).2.2.fmt <:+ context.fmt := by
  unfold safe_print_parse_format_function
  simp only
  split
  · exact safe_print_next_token_suffix context
  · have h3 := ((safe_print_next_token_suffix _).trans (safe_print_next_token_suffix _)).trans
      (safe_print_next_token_suffix context)
    split
    · exact h3
    · exact h3


/-- An option of a directive leaves the cursor on a suffix of the template. -/
theorem safe_print_parse_format_option_suffix (token : SafePrintFormatToken)
    (context : SafePrintContext) (info : SafePrintFormatInfo)
    (result : Option SafePrintFormatInfo) (context1 : SafePrintContext)
    (h : safe_print_parse_format_option token context info = .done (result, context1)) :
    context1.fmt <:+ context.fmt := by
  have hthree : ∀ (k1 k2 k3 : SafePrintTokenKind),
      (safe_print_consume_next_token (safe_print_consume_next_token
        (safe_print_consume_next_token context k1).2 k2).2 k3).2.fmt <:+ context.fmt :=
    fun k1 k2 k3 => ((safe_print_consume_next_token_suffix _ _).trans
      (safe_print_consume_next_token_suffix _ _)).trans (safe_print_consume_next_token_suffix _ _)
  unfold safe_print_parse_format_option at h
  split at h
  case h_1 =>
    split at h
    · cases h; exact List.suffix_refl _
    · cases h; exact List.suffix_refl _
  case h_2 =>
    have hs := safe_print_parse_format_function_suffix context
    split at h
    · rename_i token1 context2 heq
      rw [heq] at hs
      split at h
      · cases h; exact hs
      · cases h; exact hs
    · rename_i flag out context2 hne heq
      rw [heq] at hs
      cases h
      exact hs
  case h_3 =>
    simp only at h
    split at h
    · cases h
    · cases h
      exact hthree _ _ _
  case h_4 =>
    simp only at h
    have hs := safe_print_consume_next_token_suffix context .SP_FT_OPENING_PAREN
    split at h
    · cases h
    · rename_i c fmt heq
      split at h
      · cases h
      · cases h
        refine (safe_print_consume_next_token_suffix _ _).trans ?_
        show fmt <:+ context.fmt
        refine List.IsSuffix.trans ?_ hs
        rw [heq]
        exact List.suffix_cons c fmt
  case h_5 =>
    simp only at h
    split at h
    · cases h
    · cases h
      exact hthree _ _ _
  case h_8 =>
    simp only at h
    split at h
    · cases h
    · cases h
      exact hthree _ _ _
  all_goals
    cases h
    exact List.suffix_refl _


theorem safe_print_parse_format_option_fuel (token : SafePrintFormatToken)
    (context : SafePrintContext) (info : SafePrintFormatInfo) :
    safe_print_parse_format_option token context info ≠ .out_of_fuel := by
  unfold safe_print_parse_format_option
  split
  case h_2 =>
    split
    · split <;> simp
    · simp
  all_goals (try simp only)
  all_goals (repeat' split)
  all_goals simp

/-- The option loop ends within as many iterations as the template has
characters left, on a suffix of the template. -/
theorem safe_print_parse_format_options_cursor :
    ∀ (fuel : Nat) (context : SafePrintContext) (info : SafePrintFormatInfo),
      context.fmt.length < fuel →
      safe_print_parse_format_options fuel context info ≠ .out_of_fuel ∧
        ∀ result context1,
          safe_print_parse_format_options fuel context info = .done (result, context1) →
          context1.fmt <:+ context.fmt := by
  intro fuel
  induction fuel with
  | zero => intro context info h; omega
  | succ fuel ih =>
    intro context info hfuel
    rw [safe_print_parse_format_options]
    have hnext := safe_print_next_token_suffix context
    have hfuel0 := safe_print_parse_format_option_fuel (safe_print_next_token context).1
      (safe_print_next_token context).2 info
    generalize hopt : safe_print_parse_format_option (safe_print_next_token context).1
      (safe_print_next_token context).2 info = outcome at hfuel0
    cases outcome with
    | done result =>
      obtain ⟨result, context1⟩ := result
      have hs := (safe_print_parse_format_option_suffix _ _ _ _ _ hopt).trans hnext
      cases result with
      | none =>
        refine ⟨by simp, fun result context2 h => ?_⟩
        simp only [SafePrintOutcome.done.injEq, Prod.mk.injEq] at h
        rw [← h.2]
        exact hs
      | some info1 =>
        simp only
        split
        · rename_i hsep
          have hadv := safe_print_next_token_advances context1 (by rw [hsep]; decide)
          have hle := hs.length_le
          have hrec := ih (safe_print_next_token context1).2 info1 (by omega)
          refine ⟨hrec.1, fun result context2 h => ?_⟩
          exact ((hrec.2 result context2 h).trans (safe_print_next_token_suffix context1)).trans hs
        · refine ⟨by simp, fun result context2 h => ?_⟩
          simp only [SafePrintOutcome.done.injEq, Prod.mk.injEq] at h
          rw [← h.2]
          exact (safe_print_next_token_suffix context1).trans hs
    | past_terminator => exact ⟨by simp, fun _ _ h => by cases h⟩
    | union_member => exact ⟨by simp, fun _ _ h => by cases h⟩
    | out_of_fuel => exact absurd rfl hfuel0

theorem safe_print_parse_format_close_fmt (token : SafePrintFormatToken)
    (info : SafePrintFormatInfo) (context : SafePrintContext) :
    (safe_print_parse_format_close token info context).2.fmt = context.fmt := by
  unfold safe_print_parse_format_close
  split
  · rfl
  · split
    · split <;> rfl
    · rfl

/-- The directive parser never runs out of iterations; when it returns, the
cursor is on a suffix of the template, and on a proper suffix when the cursor
was at a `{`. -/
theorem safe_print_parse_format_specifier_cursor (context : SafePrintContext) :
    safe_print_parse_format_specifier context ≠ .out_of_fuel ∧
      ∀ status context1,
        safe_print_parse_format_specifier context = .done (status, context1) →
        context1.fmt <:+ context.fmt ∧
          (context.fmt.headD NUL = '{' → context1.fmt.length < context.fmt.length) := by
  have hnext := safe_print_next_token_suffix context
  have hadv : context.fmt.headD NUL = '{' →
      (safe_print_next_token context).2.fmt.length < context.fmt.length := by
    intro hhead
    apply safe_print_next_token_advances
    cases hfmt : context.fmt with
    | nil => rw [hfmt] at hhead; exact absurd hhead (by decide)
    | cons c fmt =>
      rw [hfmt] at hhead
      simp only [List.headD_cons] at hhead
      subst hhead
      simp [safe_print_next_token, hfmt, safe_print_next_token_at, NUL]
  have hmono : ∀ context1 : SafePrintContext,
      context1.fmt <:+ (safe_print_next_token context).2.fmt →
      context1.fmt <:+ context.fmt ∧
        (context.fmt.headD NUL = '{' → context1.fmt.length < context.fmt.length) := by
    intro context1 h
    refine ⟨h.trans hnext, fun hhead => ?_⟩
    have := h.length_le
    have := hadv hhead
    omega
  unfold safe_print_parse_format_specifier
  simp only
  split
  · refine ⟨by simp, fun status context1 h => ?_⟩
    simp only [SafePrintOutcome.done.injEq, Prod.mk.injEq] at h
    rw [← h.2]
    exact hmono _ (List.suffix_refl _)
  split
  · refine ⟨by simp, fun status context1 h => ?_⟩
    simp only [SafePrintOutcome.done.injEq, Prod.mk.injEq] at h
    rw [← h.2]
    exact hmono _ (List.tail_suffix _)
  split
  · have hrec := safe_print_parse_format_options_cursor
      ((safe_print_next_token context).2.fmt.length + 1) (safe_print_next_token context).2
      SafePrintFormatInfo.initial (Nat.lt_succ_self _)
    generalize hopts : safe_print_parse_format_options
      ((safe_print_next_token context).2.fmt.length + 1) (safe_print_next_token context).2
      SafePrintFormatInfo.initial = outcome at hrec
    cases outcome with
    | done result =>
      obtain ⟨result, context2⟩ := result
      have hs := hrec.2 result context2 rfl
      cases result with
      | none =>
        refine ⟨by simp, fun status context1 h => ?_⟩
        simp only [SafePrintOutcome.done.injEq, Prod.mk.injEq] at h
        rw [← h.2]
        exact hmono _ hs
      | some pair =>
        obtain ⟨token, info⟩ := pair
        refine ⟨by simp, fun status context1 h => ?_⟩
        simp only [SafePrintOutcome.done.injEq] at h
        have hfmt := safe_print_parse_format_close_fmt token info context2
        rw [h] at hfmt
        exact hmono _ (by show context1.fmt <:+ _; rw [hfmt]; exact hs)
    | past_terminator => exact ⟨by simp, fun _ _ h => by cases h⟩
    | union_member => exact ⟨by simp, fun _ _ h => by cases h⟩
    | out_of_fuel => exact absurd rfl hrec.1
  · refine ⟨by simp, fun status context1 h => ?_⟩
    simp only [SafePrintOutcome.done.injEq] at h
    have hfmt := safe_print_parse_format_close_fmt (safe_print_next_token
      (safe_print_next_token context).2).1 SafePrintFormatInfo.initial
      (safe_print_next_token (safe_print_next_token context).2).2
    rw [h] at hfmt
    exact hmono _ (by
      show context1.fmt <:+ _
      rw [hfmt]
      exact safe_print_next_token_suffix _)

/-! ## The exponent of a double -/

theorem safe_print_convert_double_hex_expo_range (number : Nat) :
    -1022 ≤ safe_print_convert_double_hex_expo number ∧
      safe_print_convert_double_hex_expo number ≤ 1024 := by
  unfold safe_print_convert_double_hex_expo stbsp__real_to_parts
  simp only
  have h := Nat.mod_lt (number % 18446744073709551616 / 4503599627370496) (by decide : 0 < 2048)
  split
  · split <;> omega
  · omega

/-- The text of the signed conversion into a 4-character buffer, in base 10
with the sign kept: a sign and the decimal digits of the magnitude, which are
at most three exactly for a magnitude below 1000. -/
theorem safe_print_convert_signed_to_string_exponent (e : Int) (uppercase : Bool)
    (hlo : -9999 ≤ e) (hhi : e ≤ 9999) :
    (safe_print_convert_signed_to_string 4 e 10 uppercase true).length =
        ((safe_print_convert_signed_to_string 4 e 10 uppercase true).data.length : Int) ∧
      ((safe_print_convert_signed_to_string 4 e 10 uppercase true).data.length ≤ 4 ↔
        (-1000 < e ∧ e < 1000)) := by
  have hnum : (if e < 0 then wrapU64 (-e) else wrapU64 e) = e.natAbs := by
    split
    · unfold wrapU64
      rw [Int.emod_eq_of_lt (by omega) (by omega)]
      omega
    · unfold wrapU64
      rw [Int.emod_eq_of_lt (by omega) (by omega)]
      omega
  have hbase : wrapU64 10 = 10 := by decide
  simp only [safe_print_convert_signed_to_string, hnum, hbase, Bool.or_true, if_true,
    List.length_cons]
  refine ⟨by push_cast; ring, ?_⟩
  generalize hl : (if uppercase = true then SafePrintCharacterLookupUppercase
    else SafePrintCharacterLookup) = lookup
  by_cases hsmall : e.natAbs < 1000
  · have h := safe_print_convert_digits_length_le lookup 10 (by decide) (4 - 1) e.natAbs [] 3
      (by decide) (by simpa using hsmall)
    simp only [List.length_nil, zero_add] at h
    constructor
    · intro _; omega
    · intro _; omega
  · have hne : e.natAbs ≠ 0 := by omega
    have hd := safe_print_convert_digits_eq_digits lookup 10 (by decide) (4 - 1) e.natAbs [] hne
      (by
        show e.natAbs < 10 ^ 4
        have : (10 : Nat) ^ 4 = 10000 := by norm_num
        omega)
    rw [hd]
    simp only [List.append_nil, List.length_map, List.length_reverse]
    rw [Nat.digits_len 10 e.natAbs (by decide) hne]
    have hlog : 3 ≤ Nat.log 10 e.natAbs := by
      apply Nat.le_log_of_pow_le (by decide)
      have : (10 : Nat) ^ 3 = 1000 := by norm_num
      omega
    constructor
    · intro _; omega
    · intro _; omega

theorem stbsp__real_to_str_denormal_range :
    ∀ (fuel bits v : Nat) (expo : Int),
      expo - fuel ≤ stbsp__real_to_str_denormal fuel bits v expo ∧
        stbsp__real_to_str_denormal fuel bits v expo ≤ expo := by
  intro fuel
  induction fuel with
  | zero => intro bits v expo; simp [stbsp__real_to_str_denormal]
  | succ fuel ih =>
    intro bits v expo
    rw [stbsp__real_to_str_denormal]
    split
    · have := ih bits (v / 2) (expo - 1)
      push_cast
      omega
    · push_cast
      omega

theorem stbsp__real_to_str_round_tens (bits tens : Int) (frac_digits : Nat) :
    (stbsp__real_to_str_round bits tens frac_digits).2 = tens ∨
      (stbsp__real_to_str_round bits tens frac_digits).2 = wrapS32 (tens + 1) := by
  unfold stbsp__real_to_str_round
  split
  · split
    · exact Or.inl rfl
    · split
      · simp only
        split
        · exact Or.inl rfl
        · simp only
          split
          · exact Or.inr rfl
          · exact Or.inl rfl
      · exact Or.inl rfl
  · exact Or.inl rfl

theorem stbsp__real_to_str_tens_range (expo : Int) (hlo : -52 ≤ expo) (hhi : expo ≤ 2046) :
    -323 ≤ (if expo - 1023 < 0 then ((expo - 1023) * 617).tdiv 2048
        else ((expo - 1023) * 1233).tdiv 4096 + 1) ∧
      (if expo - 1023 < 0 then ((expo - 1023) * 617).tdiv 2048
        else ((expo - 1023) * 1233).tdiv 4096 + 1) ≤ 308 := by
  split
  · have h : ((expo - 1023) * 617).tdiv 2048 = -((-((expo - 1023) * 617)) / 2048) := by
      rw [← Int.tdiv_eq_ediv (by omega) (by decide), Int.neg_tdiv, neg_neg]
    rw [h]
    omega
  · rw [Int.tdiv_eq_ediv (by omega) (by decide)]
    omega

/-- The decimal position that `stbsp__real_to_str` returns is the mark of a
special value when the exponent field is all ones, and lies within -323..310
for every other number. -/
theorem stbsp__real_to_str_decimal_pos (value frac_digits : Nat) (r : StbspRealString)
    (h : stbsp__real_to_str value frac_digits = some r) :
    (value % 18446744073709551616 / 4503599627370496 % 2048 = 2047 ∧
        r.decimal_pos = STBSP__SPECIAL) ∨
      (value % 18446744073709551616 / 4503599627370496 % 2048 ≠ 2047 ∧
        -323 ≤ r.decimal_pos ∧ r.decimal_pos ≤ 310) := by
  unfold stbsp__real_to_str at h
  simp only at h
  split at h
  · rename_i hspecial
    cases h
    exact Or.inl ⟨by exact_mod_cast hspecial, rfl⟩
  split at h
  · rename_i hspecial hzero
    cases h
    right
    refine ⟨fun hf => hspecial (by rw [hf]; rfl), ?_⟩
    show (-323 : Int) ≤ 1 ∧ (1 : Int) ≤ 310
    decide
  · rename_i hspecial hzero
    have hfield := Nat.mod_lt (value % 18446744073709551616 / 4503599627370496)
      (by decide : 0 < 2048)
    have hexpo : -52 ≤ (if ((value % 18446744073709551616 / 4503599627370496 % 2048 : Nat) : Int) = 0
          then stbsp__real_to_str_denormal 52 (value % 18446744073709551616) 2251799813685248
            ((value % 18446744073709551616 / 4503599627370496 % 2048 : Nat) : Int)
          else ((value % 18446744073709551616 / 4503599627370496 % 2048 : Nat) : Int)) ∧
        (if ((value % 18446744073709551616 / 4503599627370496 % 2048 : Nat) : Int) = 0
          then stbsp__real_to_str_denormal 52 (value % 18446744073709551616) 2251799813685248
            ((value % 18446744073709551616 / 4503599627370496 % 2048 : Nat) : Int)
          else ((value % 18446744073709551616 / 4503599627370496 % 2048 : Nat) : Int)) ≤ 2046 := by
      split
      · rename_i h0
        have := stbsp__real_to_str_denormal_range 52 (value % 18446744073709551616)
          2251799813685248 ((value % 18446744073709551616 / 4503599627370496 % 2048 : Nat) : Int)
        rw [h0] at this ⊢
        push_cast at this
        omega
      · omega
    generalize (if ((value % 18446744073709551616 / 4503599627370496 % 2048 : Nat) : Int) = 0
          then stbsp__real_to_str_denormal 52 (value % 18446744073709551616) 2251799813685248
            ((value % 18446744073709551616 / 4503599627370496 % 2048 : Nat) : Int)
          else ((value % 18446744073709551616 / 4503599627370496 % 2048 : Nat) : Int)) = expo
      at h hexpo
    have htens := stbsp__real_to_str_tens_range expo hexpo.1 hexpo.2
    generalize (if expo - 1023 < 0 then ((expo - 1023) * 617).tdiv 2048
        else ((expo - 1023) * 1233).tdiv 4096 + 1) = tens at h htens
    simp only [bind, Option.bind_eq_some] at h
    obtain ⟨a, -, bits1, -, bits3, -, out, -, hr⟩ := h
    simp only [Option.some.injEq] at hr
    rw [← hr]
    right
    refine ⟨fun hf => hspecial (by rw [hf]; rfl), ?_⟩
    simp only
    have htens2 : -323 ≤ (if wrapU64 bits1 ≥ stbsp__tento19th then tens + 1 else tens) ∧
        (if wrapU64 bits1 ≥ stbsp__tento19th then tens + 1 else tens) ≤ 309 := by
      split <;> omega
    generalize (if wrapU64 bits1 ≥ stbsp__tento19th then tens + 1 else tens) = tens2
      at hr htens2 ⊢
    rcases stbsp__real_to_str_round_tens bits1 tens2
      (if frac_digits / 2147483648 % 2 = 1 then wrapU32 ((frac_digits % 134217728 : Nat) + 1)
        else wrapU32 (tens2 + (frac_digits : Int))) with h1 | h1
    · rw [h1]; omega
    · rw [h1, wrapS32_of_range _ (by omega) (by omega)]; omega

/-! ## The hexadecimal rendering of a double -/

theorem stbsp__real_to_str_sign (value frac_digits : Nat) (r : StbspRealString)
    (h : stbsp__real_to_str value frac_digits = some r) :
    r.sign = ((value % 18446744073709551616 / 9223372036854775808 : Nat) : Int) := by
  unfold stbsp__real_to_str at h
  simp only at h
  split at h
  · cases h; rfl
  split at h
  · cases h; rfl
  · simp only [bind, Option.bind_eq_some] at h
    obtain ⟨a, -, bits1, -, bits3, -, out, -, hr⟩ := h
    simp only [Option.some.injEq] at hr
    rw [← hr]

theorem stbsp__real_to_str_len (value frac_digits : Nat) (r : StbspRealString)
    (h : stbsp__real_to_str value frac_digits = some r) : r.len = r.start.length := by
  unfold stbsp__real_to_str at h
  simp only at h
  split at h
  · cases h
    simp only
    split <;> rfl
  split at h
  · cases h; rfl
  · simp only [bind, Option.bind_eq_some] at h
    obtain ⟨a, -, bits1, -, bits3, -, out, -, hr⟩ := h
    simp only [Option.some.injEq] at hr
    rw [← hr]

theorem cut_or_zero_pad_eq (q : Nat) (digits : List Char) :
    cut_or_zero_pad q digits =
      digits.take (min q digits.length) ++ List.replicate (q - min q digits.length) '0' := by
  unfold cut_or_zero_pad
  rw [List.take_append_eq_append_take, List.take_replicate]
  by_cases h : q ≤ digits.length
  · rw [Nat.min_eq_left h]
    simp [Nat.sub_eq_zero_of_le h]
  · have h1 : digits.length ≤ q := by omega
    rw [Nat.min_eq_right h1, List.take_of_length_le h1, List.take_length]
    congr 2
    omega

theorem cut_or_zero_pad_zeros (q z : Nat) (digits : List Char) (hz : z ≤ q) :
    cut_or_zero_pad q (List.replicate z '0' ++ digits) =
      List.replicate z '0' ++ cut_or_zero_pad (q - z) digits := by
  unfold cut_or_zero_pad
  rw [List.append_assoc, List.take_append_eq_append_take, List.take_replicate,
    Nat.min_eq_right hz, List.length_replicate, List.take_append_eq_append_take,
    List.take_append_eq_append_take, List.take_replicate, List.take_replicate]
  congr 3
  omega

/-! ## The error flag -/

theorem safe_print_output_character_sticky (context : SafePrintContext) (c : Char)
    (h : context.error ≠ 0) : (safe_print_output_character context c).error ≠ 0 := by
  unfold safe_print_output_character
  split
  · show sp_true ≠ 0
    decide
  · exact h

theorem safe_print_output_string_sticky (context : SafePrintContext) (str : List Char)
    (length : Nat) (h : context.error ≠ 0) :
    (safe_print_output_string context str length).error ≠ 0 := by
  simp only [safe_print_output_string]
  split
  · show sp_true ≠ 0
    decide
  · exact h

theorem safe_print_output_fill_sticky (fill : Char) :
    ∀ (space : Nat) (context : SafePrintContext), context.error ≠ 0 →
      (safe_print_output_fill fill space context).error ≠ 0 := by
  intro space
  induction space with
  | zero => intro context h; exact h
  | succ space ih =>
    intro context h
    rw [safe_print_output_fill]
    exact ih _ (safe_print_output_character_sticky context fill h)

theorem safe_print_output_mapped_sticky (f : Char → Char) :
    ∀ (str : List Char) (context : SafePrintContext), context.error ≠ 0 →
      (safe_print_output_mapped f str context).error ≠ 0 := by
  intro str
  induction str with
  | nil => intro context h; exact h
  | cons c str ih =>
    intro context h
    rw [safe_print_output_mapped]
    exact ih _ (safe_print_output_character_sticky context (f c) h)

theorem safe_print_output_fill_if_sticky (p : Prop) [Decidable p] (fill : Char) (space : Nat)
    (context : SafePrintContext) (h : context.error ≠ 0) :
    (if p then safe_print_output_fill fill space context else context).error ≠ 0 := by
  split
  · exact safe_print_output_fill_sticky _ _ _ h
  · exact h

theorem safe_print_apply_format_info_sticky (context : SafePrintContext)
    (str : SafePrintStringRef) (info : SafePrintFormatInfo) (default_fill : Char)
    (h : context.error ≠ 0) :
    (safe_print_apply_format_info context str info default_fill).error ≠ 0 := by
  simp only [safe_print_apply_format_info]
  exact safe_print_output_fill_if_sticky _ _ _ _ (safe_print_output_string_sticky _ _ _
    (safe_print_output_fill_if_sticky _ _ _ _ h))

theorem safe_print_apply_format_info_to_string_sticky (context : SafePrintContext)
    (str : SafePrintStringRef) (info : SafePrintFormatInfo) (default_fill : Char)
    (h : context.error ≠ 0) :
    (safe_print_apply_format_info_to_string context str info default_fill).error ≠ 0 := by
  simp only [safe_print_apply_format_info_to_string]
  apply safe_print_output_fill_if_sticky
  split
  · exact safe_print_output_mapped_sticky _ _ _ (safe_print_output_fill_if_sticky _ _ _ _ h)
  · split
    · exact safe_print_output_mapped_sticky _ _ _ (safe_print_output_fill_if_sticky _ _ _ _ h)
    · exact safe_print_output_string_sticky _ _ _ (safe_print_output_fill_if_sticky _ _ _ _ h)

/-- Rendering an argument never clears the error flag. -/
theorem safe_print_format_arg_sticky (cvt : SafePrintDoubleConversion)
    (context : SafePrintContext) (info : SafePrintFormatInfo) (h : context.error ≠ 0) :
    (safe_print_format_arg cvt context info).error ≠ 0 := by
  unfold safe_print_format_arg
  split
  · exact h
  · split
    · exact h
    all_goals first
      | exact safe_print_apply_format_info_sticky _ _ _ _ h
      | exact safe_print_apply_format_info_to_string_sticky _ _ _ _ h

/-- At the top of the scanning loop a set error flag ends the call: before the
terminator the flag is returned, at the terminator the count of written
characters; the context is left as it is. -/
theorem safe_print_implementation_loop_flag (cvt : SafePrintDoubleConversion) (fuel : Nat)
    (context : SafePrintContext) (h : context.error ≠ 0) :
    safe_print_implementation_loop cvt (fuel + 1) context =
      .done ⟨if context.fmt.headD NUL = NUL then context.written else context.error, context⟩ := by
  rw [safe_print_implementation_loop]
  split
  · rename_i hfmt
    rw [hfmt]
    simp
  · rename_i c fmt hfmt
    rw [hfmt]
    simp only [List.headD_cons]
    by_cases hc : c = NUL
    · rw [if_pos hc, if_pos hc]
    · rw [if_neg hc, if_neg hc, if_pos h]

/-! ## Progress of the scanning loop -/

theorem safe_print_output_character_fmt (context : SafePrintContext) (c : Char) :
    (safe_print_output_character context c).fmt = context.fmt := by
  unfold safe_print_output_character
  split <;> rfl

theorem safe_print_output_string_fmt (context : SafePrintContext) (str : List Char)
    (length : Nat) : (safe_print_output_string context str length).fmt = context.fmt := by
  simp only [safe_print_output_string]
  split <;> rfl

theorem safe_print_output_fill_fmt (fill : Char) :
    ∀ (space : Nat) (context : SafePrintContext),
      (safe_print_output_fill fill space context).fmt = context.fmt := by
  intro space
  induction space with
  | zero => intro context; rfl
  | succ space ih =>
    intro context
    rw [safe_print_output_fill, ih, safe_print_output_character_fmt]

theorem safe_print_output_mapped_fmt (f : Char → Char) :
    ∀ (str : List Char) (context : SafePrintContext),
      (safe_print_output_mapped f str context).fmt = context.fmt := by
  intro str
  induction str with
  | nil => intro context; rfl
  | cons c str ih =>
    intro context
    rw [safe_print_output_mapped, ih, safe_print_output_character_fmt]

theorem safe_print_output_fill_if_fmt (p : Prop) [Decidable p] (fill : Char) (space : Nat)
    (context : SafePrintContext) :
    (if p then safe_print_output_fill fill space context else context).fmt = context.fmt := by
  split
  · exact safe_print_output_fill_fmt _ _ _
  · rfl

theorem safe_print_apply_format_info_fmt (context : SafePrintContext)
    (str : SafePrintStringRef) (info : SafePrintFormatInfo) (default_fill : Char) :
    (safe_print_apply_format_info context str info default_fill).fmt = context.fmt := by
  simp only [safe_print_apply_format_info]
  rw [safe_print_output_fill_if_fmt, safe_print_output_string_fmt, safe_print_output_fill_if_fmt]

theorem safe_print_apply_format_info_to_string_fmt (context : SafePrintContext)
    (str : SafePrintStringRef) (info : SafePrintFormatInfo) (default_fill : Char) :
    (safe_print_apply_format_info_to_string context str info default_fill).fmt = context.fmt := by
  simp only [safe_print_apply_format_info_to_string]
  rw [safe_print_output_fill_if_fmt]
  split
  · rw [safe_print_output_mapped_fmt, safe_print_output_fill_if_fmt]
  · split
    · rw [safe_print_output_mapped_fmt, safe_print_output_fill_if_fmt]
    · rw [safe_print_output_string_fmt, safe_print_output_fill_if_fmt]

/-- Rendering an argument does not move the cursor. -/
theorem safe_print_format_arg_fmt (cvt : SafePrintDoubleConversion)
    (context : SafePrintContext) (info : SafePrintFormatInfo) :
    (safe_print_format_arg cvt context info).fmt = context.fmt := by
  unfold safe_print_format_arg
  split
  · rfl
  · split
    · rfl
    all_goals first
      | exact safe_print_apply_format_info_fmt _ _ _ _
      | exact safe_print_apply_format_info_to_string_fmt _ _ _ _

/-- The scanning loop is the repetition of its body. -/
theorem safe_print_implementation_loop_step (cvt : SafePrintDoubleConversion) (fuel : Nat)
    (context : SafePrintContext) :
    safe_print_implementation_loop cvt (fuel + 1) context =
      match safe_print_implementation_step cvt context with
      | .done (.inl result) => .done result
      | .done (.inr context1) => safe_print_implementation_loop cvt fuel context1
      | .past_terminator => .past_terminator
      | .union_member => .union_member
      | .out_of_fuel => .out_of_fuel := by
  rw [safe_print_implementation_loop, safe_print_implementation_step]
  cases context.fmt with
  | nil => rfl
  | cons c fmt =>
    simp only
    by_cases h0 : c = NUL
    · simp only [if_pos h0]
    · simp only [if_neg h0]
      by_cases h1 : context.error ≠ 0
      · simp only [if_pos h1]
      · simp only [if_neg h1]
        by_cases h2 : c = '{'
        · simp only [if_pos h2]
          generalize safe_print_parse_format_specifier context = outcome
          cases outcome with
          | done result =>
            obtain ⟨status, context1⟩ := result
            cases status <;> rfl
          | past_terminator => rfl
          | union_member => rfl
          | out_of_fuel => rfl
        · simp only [if_neg h2]
          by_cases h3 : c = '}'
          · simp only [if_pos h3]
            by_cases h4 : fmt.headD NUL = '}'
            · simp only [if_pos h4]
            · simp only [if_neg h4]
          · simp only [if_neg h3]

/-- A pass of the scanning loop never runs out of iterations, and a pass that
does not return leaves the cursor on a proper suffix of the template. -/
theorem safe_print_implementation_step_cursor (cvt : SafePrintDoubleConversion)
    (context : SafePrintContext) :
    safe_print_implementation_step cvt context ≠ .out_of_fuel ∧
      ∀ context1, safe_print_implementation_step cvt context = .done (.inr context1) →
        context1.fmt <:+ context.fmt ∧ context1.fmt.length < context.fmt.length := by
  unfold safe_print_implementation_step
  split
  · exact ⟨by simp, fun _ h => by cases h⟩
  · rename_i c fmt hfmt
    have hcons : fmt <:+ context.fmt := by rw [hfmt]; exact List.suffix_cons c fmt
    have hlen : fmt.length < context.fmt.length := by rw [hfmt]; simp
    simp only
    split
    · exact ⟨by simp, fun _ h => by cases h⟩
    split
    · exact ⟨by simp, fun _ h => by cases h⟩
    split
    · rename_i hbrace
      have hcur := safe_print_parse_format_specifier_cursor context
      have hhead : context.fmt.headD NUL = '{' := by rw [hfmt, hbrace]; rfl
      generalize hparse : safe_print_parse_format_specifier context = outcome at hcur
      cases outcome with
      | done result =>
        obtain ⟨status, context2⟩ := result
        have hs := hcur.2 status context2 rfl
        cases status with
        | SP_PFS_ERROR => exact ⟨by simp, fun _ h => by cases h⟩
        | SP_PFS_ESCAPED_BRACE =>
          refine ⟨by simp, fun context1 h => ?_⟩
          simp only [SafePrintOutcome.done.injEq, Sum.inr.injEq] at h
          rw [← h, safe_print_output_character_fmt]
          exact ⟨hs.1, hs.2 hhead⟩
        | SP_PFS_OK info =>
          refine ⟨by simp, fun context1 h => ?_⟩
          simp only [SafePrintOutcome.done.injEq, Sum.inr.injEq] at h
          rw [← h, safe_print_format_arg_fmt]
          exact ⟨hs.1, hs.2 hhead⟩
      | past_terminator => exact ⟨by simp, fun _ h => by cases h⟩
      | union_member => exact ⟨by simp, fun _ h => by cases h⟩
      | out_of_fuel => exact absurd rfl hcur.1
    split
    · split
      · refine ⟨by simp, fun context1 h => ?_⟩
        simp only [SafePrintOutcome.done.injEq, Sum.inr.injEq] at h
        rw [← h]
        refine ⟨(List.tail_suffix fmt).trans hcons, ?_⟩
        have := (List.tail_suffix fmt).length_le
        show fmt.tail.length < context.fmt.length
        omega
      · refine ⟨by simp, fun context1 h => ?_⟩
        simp only [SafePrintOutcome.done.injEq, Sum.inr.injEq] at h
        rw [← h]
        exact ⟨hcons, hlen⟩
    · refine ⟨by simp, fun context1 h => ?_⟩
      simp only [SafePrintOutcome.done.injEq, Sum.inr.injEq] at h
      rw [← h]
      exact ⟨hcons, hlen⟩

/-- The scanning loop ends within as many passes as the template has
characters left. -/
theorem safe_print_implementation_loop_fuel (cvt : SafePrintDoubleConversion) :
    ∀ (fuel : Nat) (context : SafePrintContext), context.fmt.length < fuel →
      safe_print_implementation_loop cvt fuel context ≠ .out_of_fuel := by
  intro fuel
  induction fuel with
  | zero => intro context h; omega
  | succ fuel ih =>
    intro context hfuel
    rw [safe_print_implementation_loop_step]
    have hstep := safe_print_implementation_step_cursor cvt context
    generalize hs : safe_print_implementation_step cvt context = outcome at hstep
    cases outcome with
    | done result =>
      cases result with
      | inl result => simp
      | inr context1 =>
        have := (hstep.2 context1 rfl).2
        exact ih context1 (by omega)
    | past_terminator => simp
    | union_member => simp
    | out_of_fuel => exact absurd rfl hstep.1

/-- A directive that consists of a numeric literal `n` below 2^31: the parser
fails with `SP_ERROR_POSITIONAL_ARG_OUT_OF_RANGE` recorded exactly when `n`
exceeds the number of arguments; for `1 ≤ n ≤ arg_count` it returns
`SP_PFS_OK` with the argument index `n - 1`; for `n = 0` it does what it does
on the directive without an index. -/
theorem safe_print_parse_format_specifier_index_range (digits fs rest : List Char)
    (file : SafePrintFileType) (w e ci : Int) (args : List SafePrintFormatArg)
    (hdigits : literal_digits digits = true) (h31 : literal_value digits 0 < 2147483648) :
    safe_print_parse_format_specifier
        ⟨fs, '{' :: (digits ++ '}' :: rest), file, w, e, ci, args⟩ =
      if args.length < literal_value digits 0 then
        .done (.SP_PFS_ERROR,
          ⟨fs, '}' :: rest, file, w, SP_ERROR_POSITIONAL_ARG_OUT_OF_RANGE, ci, args⟩)
      else if literal_value digits 0 = 0 then
        safe_print_parse_format_specifier ⟨fs, '{' :: '}' :: rest, file, w, e, ci, args⟩
      else
        .done (.SP_PFS_OK
            { SafePrintFormatInfo.initial with arg_index := (literal_value digits 0 : Int) - 1 },
          ⟨fs, rest, file, w, e, ci, args⟩) := by
  have hw : wrapS32 (literal_value digits 0) = literal_value digits 0 :=
    wrapS32_of_range _ (by omega) (by omega)
  rw [safe_print_parse_format_specifier_index_literal digits fs rest file w e ci args _ hdigits hw]
  have hnn : ¬ ((literal_value digits 0 : Int) < 0) := by omega
  by_cases hgt : args.length < literal_value digits 0
  · have hgt1 : (args.length : Int) < (literal_value digits 0 : Nat) := by omega
    simp only [hgt, hgt1, or_true, if_true]
  · have hgt1 : ¬ (args.length : Int) < (literal_value digits 0 : Nat) := by omega
    simp only [hgt, hgt1, hnn, or_self, if_false]
    by_cases h0 : literal_value digits 0 = 0
    · have h01 : ((literal_value digits 0 : Nat) : Int) = 0 := by omega
      simp only [h01, if_pos h0, if_true]
    · have h01 : ¬ ((literal_value digits 0 : Nat) : Int) = 0 := by omega
      simp only [h01, if_neg h0, if_false]

/-! ## The claims -/

/-- C1 (brace escapes). For every template spelled by literal non-brace
characters and the escapes of the two braces, and every argument list, the
call ends normally, the sink holds the template with every escape replaced by
one brace, the sequential counter is still 0 (no argument consumed) and the
error field is still 0 (no error reported); the returned value is the count
of the characters written. With a following directive: the template
`{{ }} {}` with the single `int` argument 5 writes `{ } 5` and returns 5. -/
theorem C1_brace_escapes :
    (∀ (cvt : SafePrintDoubleConversion) (pieces : List SafePrintTemplatePiece)
        (args : List SafePrintFormatArg), (∀ p ∈ pieces, p.plain) →
      safe_print_implementation cvt SafePrintStdOut (escaped_template_text pieces) args =
        .done ⟨wrapS32 (escaped_template_rendering pieces).length,
          ⟨escaped_template_text pieces, [], ⟨escaped_template_rendering pieces, none⟩,
            wrapS32 (escaped_template_rendering pieces).length, 0, 0, args⟩⟩) ∧
    (∀ cvt : SafePrintDoubleConversion,
      safe_print_implementation cvt SafePrintStdOut ['{', '{', ' ', '}', '}', ' ', '{', '}']
          [.SAFE_PRINT_I32 5] =
        .done ⟨5, ⟨['{', '{', ' ', '}', '}', ' ', '{', '}'], [],
          ⟨['{', ' ', '}', ' ', '5'], none⟩, 5, 0, 1, [.SAFE_PRINT_I32 5]⟩⟩) := by
  refine ⟨?_, fun cvt => rfl⟩
  intro cvt pieces args h
  have hloop := safe_print_implementation_loop_escaped cvt pieces h
    ((escaped_template_text pieces).length + 1) (escaped_template_text pieces) [] 0 0 args
    (Nat.lt_succ_self _)
  have h0 : wrapS32 0 = 0 := by decide
  rw [h0] at hloop
  simpa [safe_print_implementation, SafePrintStdOut] using hloop

/-- C1, at the template `a{{}}` with one text argument. -/
theorem C1_brace_escapes_witness :
    (∀ p ∈ [SafePrintTemplatePiece.literal 'a', .escaped_open, .escaped_close], p.plain) ∧
    safe_print_implementation safe_print_convert_double_unused SafePrintStdOut
        (escaped_template_text [.literal 'a', .escaped_open, .escaped_close])
        [.SAFE_PRINT_STR ['x']] =
      .done ⟨wrapS32 (escaped_template_rendering
          [.literal 'a', .escaped_open, .escaped_close]).length,
        ⟨escaped_template_text [.literal 'a', .escaped_open, .escaped_close], [],
          ⟨escaped_template_rendering [.literal 'a', .escaped_open, .escaped_close], none⟩,
          wrapS32 (escaped_template_rendering
            [.literal 'a', .escaped_open, .escaped_close]).length, 0, 0,
          [.SAFE_PRINT_STR ['x']]⟩⟩ :=
  have h : ∀ p ∈ [SafePrintTemplatePiece.literal 'a', .escaped_open, .escaped_close], p.plain := by
    intro p hp
    simp only [List.mem_cons, List.mem_singleton, List.not_mem_nil, or_false] at hp
    rcases hp with rfl | rfl | rfl
    · exact ⟨by decide, by decide, by decide⟩
    · trivial
    · trivial
  ⟨h, C1_brace_escapes.1 safe_print_convert_double_unused _ _ h⟩

/-- C2 (positional references), as amended: for every list of at most 16 text
arguments (the capacity of `context.args`), each a C string shorter than 2^31
characters, and every index `n` with `1 ≤ n ≤ N`, the template `{n}` writes
exactly the `n`-th argument, returns its length, reports no error and leaves
the sequential counter at 0. The template `{2} {1}` with the texts `a` and
`b` writes `b a`. -/
theorem C2_positional_references :
    (∀ (cvt : SafePrintDoubleConversion) (texts : List (List Char)) (n : Nat),
      texts.length ≤ 16 →
      (∀ str ∈ texts, (∀ c ∈ str, c ≠ NUL) ∧ str.length < 2147483648) →
      1 ≤ n → n ≤ texts.length →
      safe_print_implementation cvt SafePrintStdOut ('{' :: (Nat.toDigits 10 n ++ ['}']))
          (texts.map .SAFE_PRINT_STR) =
        safe_print_success ('{' :: (Nat.toDigits 10 n ++ ['}'])) (texts.map .SAFE_PRINT_STR)
          (texts.getD (n - 1) []) 0) ∧
    (∀ cvt : SafePrintDoubleConversion,
      safe_print_implementation cvt SafePrintStdOut ['{', '2', '}', ' ', '{', '1', '}']
          [.SAFE_PRINT_STR ['a'], .SAFE_PRINT_STR ['b']] =
        safe_print_success ['{', '2', '}', ' ', '{', '1', '}']
          [.SAFE_PRINT_STR ['a'], .SAFE_PRINT_STR ['b']] ['b', ' ', 'a'] 0) := by
  refine ⟨?_, fun cvt => safe_print_implementation_two_positional cvt⟩
  intro cvt texts n h16 htexts h1 hn
  have hlt : n - 1 < texts.length := by omega
  have hget : texts.get? (n - 1) = some (texts.getD (n - 1) []) := by
    rw [List.getD_eq_getElem _ _ hlt, List.get?_eq_getElem?, List.getElem?_eq_getElem hlt]
  have hmem : texts.getD (n - 1) [] ∈ texts := by
    rw [List.getD_eq_getElem _ _ hlt]
    exact List.getElem_mem _
  obtain ⟨hnul, hlen⟩ := htexts _ hmem
  have hlength : wrapS32 (safe_print_cstring_length (texts.getD (n - 1) [])) =
      ((texts.getD (n - 1) []).length : Int) := by
    rw [safe_print_cstring_length_eq _ hnul, wrapS32_of_range _ (by omega) (by omega)]
  rw [safe_print_implementation_positional_text cvt texts n _ _ h1 hn (by omega) hget hlength
    (by omega) (le_refl _), wrapS32_of_range _ (by omega) (by omega)]
  simp [safe_print_success]

/-- C2 as amended, at the second of two texts. -/
theorem C2_positional_references_witness :
    [['a', 'b'], ['c', 'd', 'e']].length ≤ 16 ∧
    (∀ str ∈ [['a', 'b'], ['c', 'd', 'e']], (∀ c ∈ str, c ≠ NUL) ∧ str.length < 2147483648) ∧
    1 ≤ 2 ∧ 2 ≤ [['a', 'b'], ['c', 'd', 'e']].length ∧
    safe_print_implementation safe_print_convert_double_unused SafePrintStdOut
        ('{' :: (Nat.toDigits 10 2 ++ ['}']))
        ([['a', 'b'], ['c', 'd', 'e']].map .SAFE_PRINT_STR) =
      safe_print_success ('{' :: (Nat.toDigits 10 2 ++ ['}']))
        ([['a', 'b'], ['c', 'd', 'e']].map .SAFE_PRINT_STR)
        ([['a', 'b'], ['c', 'd', 'e']].getD (2 - 1) []) 0 :=
  ⟨by decide, by decide, by decide, by decide,
    (C2_positional_references.1 safe_print_convert_double_unused [['a', 'b'], ['c', 'd', 'e']] 2
      (by decide) (by decide) (by decide) (by decide))⟩

/-- C2 as stated fails: for a text argument of 2^32 letters `a` the template
`{1}` writes nothing, because the length of the text is kept in an `int`. -/
theorem C2_positional_references_counterexample :
    safe_print_implementation safe_print_convert_double_unused SafePrintStdOut ['{', '1', '}']
        [.SAFE_PRINT_STR (List.replicate 4294967296 'a')] =
      .done ⟨0, ⟨['{', '1', '}'], [], ⟨[], none⟩, 0, 0, 0,
        [.SAFE_PRINT_STR (List.replicate 4294967296 'a')]⟩⟩ ∧
    (List.replicate 4294967296 'a' : List Char) ≠ [] := by
  constructor
  · have hlength : wrapS32 (safe_print_cstring_length (List.replicate 4294967296 'a')) = 0 := by
      rw [safe_print_cstring_length_replicate _ _ (by decide)]
      decide
    have h := safe_print_implementation_positional_text safe_print_convert_double_unused
      [List.replicate 4294967296 'a'] 1 (List.replicate 4294967296 'a') 0 (le_refl _)
      (le_refl _) (by decide) rfl hlength (le_refl _) (Int.natCast_nonneg _)
    have hw0 : wrapS32 0 = 0 := by decide
    rw [hw0] at h
    exact h
  · intro h
    have := congrArg List.length h
    rw [List.length_replicate] at this
    exact absurd this (by decide)

/-- C3 (width, fill and alignment), as amended: for every integer argument
whose decimal text `t` has length `L < m`, every `m` below 2^31 and every fill
character `c`, `{min(m):fill(c):left}` writes `t` followed by `m - L` copies of
`c` and `{min(m):fill(c):right}` writes `m - L` copies of `c` followed by `t`.
With the `int` argument 7, `{min(5):fill(*):left}` writes `7****` and
`{min(5):fill(*):right}` writes `****7`. -/
theorem C3_width_fill_alignment :
    (∀ (cvt : SafePrintDoubleConversion) (arg : SafePrintFormatArg) (x : Int) (m : Nat) (c : Char),
      arg.integer_value = some x → (integer_text 10 false x).length < m → m < 2147483648 →
      c ≠ NUL →
      safe_print_implementation cvt SafePrintStdOut
          ('{' :: 'm' :: 'i' :: 'n' :: '(' :: (Nat.toDigits 10 m ++
            [')', ':', 'f', 'i', 'l', 'l', '(', c, ')', ':', 'l', 'e', 'f', 't', '}'])) [arg] =
        safe_print_success
          ('{' :: 'm' :: 'i' :: 'n' :: '(' :: (Nat.toDigits 10 m ++
            [')', ':', 'f', 'i', 'l', 'l', '(', c, ')', ':', 'l', 'e', 'f', 't', '}'])) [arg]
          (integer_text 10 false x ++
            List.replicate (m - (integer_text 10 false x).length) c) 1 ∧
      safe_print_implementation cvt SafePrintStdOut
          ('{' :: 'm' :: 'i' :: 'n' :: '(' :: (Nat.toDigits 10 m ++
            [')', ':', 'f', 'i', 'l', 'l', '(', c, ')', ':', 'r', 'i', 'g', 'h', 't', '}'])) [arg] =
        safe_print_success
          ('{' :: 'm' :: 'i' :: 'n' :: '(' :: (Nat.toDigits 10 m ++
            [')', ':', 'f', 'i', 'l', 'l', '(', c, ')', ':', 'r', 'i', 'g', 'h', 't', '}'])) [arg]
          (List.replicate (m - (integer_text 10 false x).length) c ++
            integer_text 10 false x) 1) ∧
    (∀ cvt : SafePrintDoubleConversion,
      safe_print_implementation cvt SafePrintStdOut
          ['{', 'm', 'i', 'n', '(', '5', ')', ':', 'f', 'i', 'l', 'l', '(', '*', ')', ':',
            'l', 'e', 'f', 't', '}'] [.SAFE_PRINT_I32 7] =
        safe_print_success
          ['{', 'm', 'i', 'n', '(', '5', ')', ':', 'f', 'i', 'l', 'l', '(', '*', ')', ':',
            'l', 'e', 'f', 't', '}'] [.SAFE_PRINT_I32 7] ['7', '*', '*', '*', '*'] 1 ∧
      safe_print_implementation cvt SafePrintStdOut
          ['{', 'm', 'i', 'n', '(', '5', ')', ':', 'f', 'i', 'l', 'l', '(', '*', ')', ':',
            'r', 'i', 'g', 'h', 't', '}'] [.SAFE_PRINT_I32 7] =
        safe_print_success
          ['{', 'm', 'i', 'n', '(', '5', ')', ':', 'f', 'i', 'l', 'l', '(', '*', ')', ':',
            'r', 'i', 'g', 'h', 't', '}'] [.SAFE_PRINT_I32 7] ['*', '*', '*', '*', '7'] 1) := by
  constructor
  · intro cvt arg x m c hx hL hm hc
    have hpad : ((m : Int) - ((integer_text 10 false x).length : Int)).toNat =
        m - (integer_text 10 false x).length := by omega
    constructor
    · have h := safe_print_implementation_min_fill cvt (Nat.toDigits 10 m) ['l', 'e', 'f', 't'] m x
        c .SP_FI_ALIGN_LEFT arg (by omega) hc hx (by decide)
        (fun fuel info => (safe_print_parse_format_options_align_close fuel _ [] _ 0 0 0 [arg]
          info).1)
        (safe_print_next_token_at_toDigits m ')' _ hm (by decide))
      rw [hpad] at h
      exact h
    · have h := safe_print_implementation_min_fill cvt (Nat.toDigits 10 m)
        ['r', 'i', 'g', 'h', 't'] m x c .SP_FI_ALIGN_RIGHT arg (by omega) hc hx (by decide)
        (fun fuel info => (safe_print_parse_format_options_align_close fuel _ [] _ 0 0 0 [arg]
          info).2)
        (safe_print_next_token_at_toDigits m ')' _ hm (by decide))
      rw [hpad] at h
      exact h
  · intro cvt
    constructor
    · exact safe_print_implementation_min_fill cvt ['5'] ['l', 'e', 'f', 't'] 5 7
        '*' .SP_FI_ALIGN_LEFT (.SAFE_PRINT_I32 7) (by decide) (by decide) rfl (by decide)
        (fun fuel info => (safe_print_parse_format_options_align_close fuel _ [] _ 0 0 0
          [.SAFE_PRINT_I32 7] info).1) (by decide)
    · exact safe_print_implementation_min_fill cvt ['5'] ['r', 'i', 'g', 'h', 't'] 5 7
        '*' .SP_FI_ALIGN_RIGHT (.SAFE_PRINT_I32 7) (by decide) (by decide) rfl (by decide)
        (fun fuel info => (safe_print_parse_format_options_align_close fuel _ [] _ 0 0 0
          [.SAFE_PRINT_I32 7] info).2) (by decide)

/-- C3 as amended, at the 64-bit argument -42, the width 6 and the fill `.`. -/
theorem C3_width_fill_alignment_witness :
    (SafePrintFormatArg.SAFE_PRINT_I64 (-42)).integer_value = some (-42) ∧
    (integer_text 10 false (-42)).length < 6 ∧ 6 < 2147483648 ∧ '.' ≠ NUL ∧
    safe_print_implementation safe_print_convert_double_unused SafePrintStdOut
        ('{' :: 'm' :: 'i' :: 'n' :: '(' :: (Nat.toDigits 10 6 ++
          [')', ':', 'f', 'i', 'l', 'l', '(', '.', ')', ':', 'r', 'i', 'g', 'h', 't', '}']))
        [.SAFE_PRINT_I64 (-42)] =
      safe_print_success
        ('{' :: 'm' :: 'i' :: 'n' :: '(' :: (Nat.toDigits 10 6 ++
          [')', ':', 'f', 'i', 'l', 'l', '(', '.', ')', ':', 'r', 'i', 'g', 'h', 't', '}']))
        [.SAFE_PRINT_I64 (-42)]
        (List.replicate (6 - (integer_text 10 false (-42)).length) '.' ++
          integer_text 10 false (-42)) 1 :=
  ⟨rfl, by decide, by decide, by decide,
    (C3_width_fill_alignment.1 safe_print_convert_double_unused (.SAFE_PRINT_I64 (-42)) (-42) 6 '.'
      rfl (by decide) (by decide) (by decide)).2⟩

/-- C3 as stated fails: the numeric literal is accumulated in an `sp_s32`, so
`{min(4294967301):fill(*):left}` with the `int` argument 7 writes `7****`,
the text followed by 4 fill characters, not by 4294967300. -/
theorem C3_width_fill_alignment_counterexample :
    safe_print_implementation safe_print_convert_double_unused SafePrintStdOut
        ['{', 'm', 'i', 'n', '(', '4', '2', '9', '4', '9', '6', '7', '3', '0', '1', ')', ':',
          'f', 'i', 'l', 'l', '(', '*', ')', ':', 'l', 'e', 'f', 't', '}'] [.SAFE_PRINT_I32 7] =
      safe_print_success
        ['{', 'm', 'i', 'n', '(', '4', '2', '9', '4', '9', '6', '7', '3', '0', '1', ')', ':',
          'f', 'i', 'l', 'l', '(', '*', ')', ':', 'l', 'e', 'f', 't', '}'] [.SAFE_PRINT_I32 7]
        ['7', '*', '*', '*', '*'] 1 ∧
    ['7', '*', '*', '*', '*'] ≠
      integer_text 10 false 7 ++
        List.replicate (4294967301 - (integer_text 10 false 7).length) '*' := by
  constructor
  · have htok : safe_print_next_token_at
        (['4', '2', '9', '4', '9', '6', '7', '3', '0', '1'] ++ ')' :: ':' :: 'f' :: 'i' :: 'l' ::
          'l' :: '(' :: '*' :: ')' :: ':' :: (['l', 'e', 'f', 't'] ++ ['}'])) =
        (⟨.SP_FT_NUMBER, 5, [], false⟩, ')' :: ':' :: 'f' :: 'i' :: 'l' :: 'l' :: '(' :: '*' ::
          ')' :: ':' :: (['l', 'e', 'f', 't'] ++ ['}'])) := by
      set_option maxRecDepth 4096 in decide
    exact safe_print_implementation_min_fill safe_print_convert_double_unused
      ['4', '2', '9', '4', '9', '6', '7', '3', '0', '1'] ['l', 'e', 'f', 't'] 5 7
      '*' .SP_FI_ALIGN_LEFT (.SAFE_PRINT_I32 7) (by decide) (by decide) rfl (by decide)
      (fun fuel info => (safe_print_parse_format_options_align_close fuel _ [] _ 0 0 0
        [.SAFE_PRINT_I32 7] info).1) htok
  · intro h
    have hlen := congrArg List.length h
    rw [List.length_append, List.length_replicate] at hlen
    revert hlen
    decide

/-- C4 (base keywords). For every integer argument with a non-negative value
`v` (an `int`, `unsigned`, 64-bit signed or 64-bit unsigned member in the
range of its type), the directives `{bin}`, `{oct}`, `{dec}` and `{hex}` write
the positional digits of `v` in base 2, 8, 10 and 16 as `Nat.toDigits` gives
them (lowercase), and `{hex:upper}` writes the base-16 digits in uppercase;
each call returns the number of digits and reports no error. For the `int`
42 the five outputs are `101010`, `52`, `42`, `2a` and `2A`. -/
theorem C4_base_keywords :
    (∀ (cvt : SafePrintDoubleConversion) (arg : SafePrintFormatArg) (v : Int),
      arg.integer_value = some v → 0 ≤ v →
      safe_print_implementation cvt SafePrintStdOut ['{', 'b', 'i', 'n', '}'] [arg] =
        safe_print_success ['{', 'b', 'i', 'n', '}'] [arg] (Nat.toDigits 2 v.toNat) 1 ∧
      safe_print_implementation cvt SafePrintStdOut ['{', 'o', 'c', 't', '}'] [arg] =
        safe_print_success ['{', 'o', 'c', 't', '}'] [arg] (Nat.toDigits 8 v.toNat) 1 ∧
      safe_print_implementation cvt SafePrintStdOut ['{', 'd', 'e', 'c', '}'] [arg] =
        safe_print_success ['{', 'd', 'e', 'c', '}'] [arg] (Nat.toDigits 10 v.toNat) 1 ∧
      safe_print_implementation cvt SafePrintStdOut ['{', 'h', 'e', 'x', '}'] [arg] =
        safe_print_success ['{', 'h', 'e', 'x', '}'] [arg] (Nat.toDigits 16 v.toNat) 1 ∧
      safe_print_implementation cvt SafePrintStdOut
          ['{', 'h', 'e', 'x', ':', 'u', 'p', 'p', 'e', 'r', '}'] [arg] =
        safe_print_success ['{', 'h', 'e', 'x', ':', 'u', 'p', 'p', 'e', 'r', '}'] [arg]
          ((Nat.toDigits 16 v.toNat).map Char.toUpper) 1) ∧
    (∀ cvt : SafePrintDoubleConversion,
      safe_print_implementation cvt SafePrintStdOut ['{', 'b', 'i', 'n', '}'] [.SAFE_PRINT_I32 42] =
        safe_print_success ['{', 'b', 'i', 'n', '}'] [.SAFE_PRINT_I32 42]
          ['1', '0', '1', '0', '1', '0'] 1 ∧
      safe_print_implementation cvt SafePrintStdOut ['{', 'o', 'c', 't', '}'] [.SAFE_PRINT_I32 42] =
        safe_print_success ['{', 'o', 'c', 't', '}'] [.SAFE_PRINT_I32 42] ['5', '2'] 1 ∧
      safe_print_implementation cvt SafePrintStdOut ['{', 'd', 'e', 'c', '}'] [.SAFE_PRINT_I32 42] =
        safe_print_success ['{', 'd', 'e', 'c', '}'] [.SAFE_PRINT_I32 42] ['4', '2'] 1 ∧
      safe_print_implementation cvt SafePrintStdOut ['{', 'h', 'e', 'x', '}'] [.SAFE_PRINT_I32 42] =
        safe_print_success ['{', 'h', 'e', 'x', '}'] [.SAFE_PRINT_I32 42] ['2', 'a'] 1 ∧
      safe_print_implementation cvt SafePrintStdOut
          ['{', 'h', 'e', 'x', ':', 'u', 'p', 'p', 'e', 'r', '}'] [.SAFE_PRINT_I32 42] =
        safe_print_success ['{', 'h', 'e', 'x', ':', 'u', 'p', 'p', 'e', 'r', '}']
          [.SAFE_PRINT_I32 42] ['2', 'A'] 1) := by
  refine ⟨?_, fun cvt => ⟨rfl, rfl, rfl, rfl, rfl⟩⟩
  intro cvt arg v hv h0
  have hneg : ¬ v < 0 := by omega
  have htext : ∀ (base : Nat) (uppercase : Bool), integer_text base uppercase v =
      (Nat.toDigits base v.toNat).map (if uppercase then Char.toUpper else id) := by
    intro base uppercase
    have : v.natAbs = v.toNat := by omega
    simp [integer_text, hneg, this]
  refine ⟨?_, ?_, ?_, ?_, ?_⟩
  · have h := safe_print_implementation_integer_directive cvt ['b', 'i', 'n', '}'] arg v
      { SafePrintFormatInfo.initial with arg_index := 0, base := 2 } 2 rfl rfl hv rfl rfl
      (by norm_num) (by norm_num) rfl rfl
    rw [h, htext]
    simp [SafePrintFormatInfo.initial]
  · have h := safe_print_implementation_integer_directive cvt ['o', 'c', 't', '}'] arg v
      { SafePrintFormatInfo.initial with arg_index := 0, base := 8 } 8 rfl rfl hv rfl rfl
      (by norm_num) (by norm_num) rfl rfl
    rw [h, htext]
    simp [SafePrintFormatInfo.initial]
  · have h := safe_print_implementation_integer_directive cvt ['d', 'e', 'c', '}'] arg v
      { SafePrintFormatInfo.initial with arg_index := 0, base := 10 } 10 rfl rfl hv rfl rfl
      (by norm_num) (by norm_num) rfl rfl
    rw [h, htext]
    simp [SafePrintFormatInfo.initial]
  · have h := safe_print_implementation_integer_directive cvt ['h', 'e', 'x', '}'] arg v
      { SafePrintFormatInfo.initial with arg_index := 0, base := 16 } 16 rfl rfl hv rfl rfl
      (by norm_num) (by norm_num) rfl rfl
    rw [h, htext]
    simp [SafePrintFormatInfo.initial]
  · have h := safe_print_implementation_integer_directive cvt
      ['h', 'e', 'x', ':', 'u', 'p', 'p', 'e', 'r', '}'] arg v
      { SafePrintFormatInfo.initial with
        arg_index := 0
        base := 16
        char_case := .SP_FI_UPPER_CASE } 16 rfl rfl hv rfl rfl
      (by norm_num) (by norm_num) rfl rfl
    rw [h, htext]
    simp

/-- C4, at the 64-bit unsigned argument 255. -/
theorem C4_base_keywords_witness :
    (SafePrintFormatArg.SAFE_PRINT_U64 255).integer_value = some 255 ∧ (0 : Int) ≤ 255 ∧
    safe_print_implementation safe_print_convert_double_unused SafePrintStdOut
        ['{', 'h', 'e', 'x', '}'] [.SAFE_PRINT_U64 255] =
      safe_print_success ['{', 'h', 'e', 'x', '}'] [.SAFE_PRINT_U64 255]
        (Nat.toDigits 16 (255 : Int).toNat) 1 :=
  ⟨rfl, by decide,
    (C4_base_keywords.1 safe_print_convert_double_unused (.SAFE_PRINT_U64 255) 255 rfl
      (by decide)).2.2.2.1⟩

/-- C5 (integer round trip). For every signed 64-bit value (the minimum
included), every unsigned 64-bit value, every base among 2, 8, 10, 16 and 36,
either digit case and either setting of `keep_sign`, the text returned by
`safe_print_convert_signed_to_string` or `safe_print_convert_unsigned_to_string`
for the 128-character buffer parses back, as a numeral of that base with an
optional leading sign, to the value converted. -/
theorem C5_integer_round_trip :
    (∀ (v : Int) (b : Nat) (uppercase keep_sign : Bool),
      -9223372036854775808 ≤ v → v < 9223372036854775808 →
      b = 2 ∨ b = 8 ∨ b = 10 ∨ b = 16 ∨ b = 36 →
      parse_numeral b (safe_print_convert_signed_to_string 128 v b uppercase keep_sign).text =
        some v) ∧
    (∀ (n b : Nat) (uppercase : Bool), n < 18446744073709551616 →
      b = 2 ∨ b = 8 ∨ b = 10 ∨ b = 16 ∨ b = 36 →
      parse_numeral b (safe_print_convert_unsigned_to_string 128 n b uppercase).text =
        some (n : Int)) := by
  constructor
  · intro v b uppercase keep_sign h0 h1 hb
    exact parse_numeral_convert_signed b uppercase keep_sign (by omega) (by omega) v h0 h1
  · intro n b uppercase hn hb
    exact parse_numeral_convert_unsigned b uppercase (by omega) (by omega) n hn

/-- C5, at the minimum signed 64-bit value in base 36. -/
theorem C5_integer_round_trip_witness :
    (-9223372036854775808 : Int) ≤ -9223372036854775808 ∧
    (-9223372036854775808 : Int) < 9223372036854775808 ∧
    ((36 : Nat) = 2 ∨ (36 : Nat) = 8 ∨ (36 : Nat) = 10 ∨ (36 : Nat) = 16 ∨ (36 : Nat) = 36) ∧
    parse_numeral 36
        (safe_print_convert_signed_to_string 128 (-9223372036854775808) (36 : Nat) true
          false).text = some (-9223372036854775808) :=
  ⟨by decide, by decide, by decide,
    C5_integer_round_trip.1 (-9223372036854775808) 36 true false (by decide) (by decide)
      (by decide)⟩

/-- C6 (truncation), as amended: for every text argument that is a C string
shorter than 2^31 characters and every `m` with `1 ≤ m < 2^31`, the directive
`{max(m)}` writes exactly the first `min(m, length)` characters of the text and
returns their number. Applied to `hello`, `{max(2)}` writes `he`. -/
theorem C6_truncation :
    (∀ (cvt : SafePrintDoubleConversion) (str : List Char) (m : Nat),
      (∀ c ∈ str, c ≠ NUL) → str.length < 2147483648 → 1 ≤ m → m < 2147483648 →
      safe_print_implementation cvt SafePrintStdOut
          ('{' :: 'm' :: 'a' :: 'x' :: '(' :: (Nat.toDigits 10 m ++ [')', '}']))
          [.SAFE_PRINT_STR str] =
        safe_print_success ('{' :: 'm' :: 'a' :: 'x' :: '(' :: (Nat.toDigits 10 m ++ [')', '}']))
          [.SAFE_PRINT_STR str] (str.take (min m str.length)) 1) ∧
    (∀ cvt : SafePrintDoubleConversion,
      safe_print_implementation cvt SafePrintStdOut ['{', 'm', 'a', 'x', '(', '2', ')', '}']
          [.SAFE_PRINT_STR ['h', 'e', 'l', 'l', 'o']] =
        safe_print_success ['{', 'm', 'a', 'x', '(', '2', ')', '}']
          [.SAFE_PRINT_STR ['h', 'e', 'l', 'l', 'o']] ['h', 'e'] 1) := by
  refine ⟨?_, fun cvt => rfl⟩
  intro cvt str m hnul hlen h1 hm
  have htok := safe_print_next_token_at_toDigits m ')' ['}'] hm (by decide)
  rw [safe_print_implementation_max_text cvt (Nat.toDigits 10 m) str m (Int.natCast_nonneg _) htok
    hnul hlen]
  congr 1
  by_cases h : str.length > m
  · have h' : (m : Int) ≠ 0 ∧ (str.length : Int) > (m : Int) := ⟨by omega, by omega⟩
    rw [if_pos h', Int.toNat_ofNat, Nat.min_eq_left (by omega)]
  · have h' : ¬ ((m : Int) ≠ 0 ∧ (str.length : Int) > (m : Int)) := by omega
    rw [if_neg h', Nat.min_eq_right (by omega)]

/-- C6 as amended, at the text `hello` and the bound 3. -/
theorem C6_truncation_witness :
    (∀ c ∈ ['h', 'e', 'l', 'l', 'o'], c ≠ NUL) ∧ ['h', 'e', 'l', 'l', 'o'].length < 2147483648 ∧
    1 ≤ 3 ∧ 3 < 2147483648 ∧
    safe_print_implementation safe_print_convert_double_unused SafePrintStdOut
        ('{' :: 'm' :: 'a' :: 'x' :: '(' :: (Nat.toDigits 10 3 ++ [')', '}']))
        [.SAFE_PRINT_STR ['h', 'e', 'l', 'l', 'o']] =
      safe_print_success ('{' :: 'm' :: 'a' :: 'x' :: '(' :: (Nat.toDigits 10 3 ++ [')', '}']))
        [.SAFE_PRINT_STR ['h', 'e', 'l', 'l', 'o']]
        (['h', 'e', 'l', 'l', 'o'].take (min 3 ['h', 'e', 'l', 'l', 'o'].length)) 1 :=
  ⟨by decide, by decide, by decide, by decide,
    C6_truncation.1 safe_print_convert_double_unused ['h', 'e', 'l', 'l', 'o'] 3 (by decide)
      (by decide) (by decide) (by decide)⟩

/-- C6 as stated fails: the numeric literal is accumulated in an `sp_s32`, so
`{max(4294967298)}` applied to `hello` writes `he`, not the first
`min(4294967298, 5)` characters. -/
theorem C6_truncation_counterexample :
    safe_print_implementation safe_print_convert_double_unused SafePrintStdOut
        ['{', 'm', 'a', 'x', '(', '4', '2', '9', '4', '9', '6', '7', '2', '9', '8', ')', '}']
        [.SAFE_PRINT_STR ['h', 'e', 'l', 'l', 'o']] =
      safe_print_success
        ['{', 'm', 'a', 'x', '(', '4', '2', '9', '4', '9', '6', '7', '2', '9', '8', ')', '}']
        [.SAFE_PRINT_STR ['h', 'e', 'l', 'l', 'o']] ['h', 'e'] 1 ∧
    ['h', 'e'] ≠ ['h', 'e', 'l', 'l', 'o'].take (min 4294967298 ['h', 'e', 'l', 'l', 'o'].length) := by
  refine ⟨?_, by decide⟩
  have htok : safe_print_next_token_at
      (['4', '2', '9', '4', '9', '6', '7', '2', '9', '8'] ++ [')', '}']) =
      (⟨.SP_FT_NUMBER, 2, [], false⟩, [')', '}']) := by
    set_option maxRecDepth 4096 in decide
  exact safe_print_implementation_max_text safe_print_convert_double_unused
    ['4', '2', '9', '4', '9', '6', '7', '2', '9', '8'] ['h', 'e', 'l', 'l', 'o'] 2 (by decide)
    htok (by decide) (by decide)

/-- C7 (literal text is echoed), as amended: for every template without `{`
and `}` that is shorter than 2^31 characters, and every argument list, the
call writes the template verbatim to the accepting sink and returns the length
of the template. -/
theorem C7_literal_text (cvt : SafePrintDoubleConversion) (fmt : List Char)
    (args : List SafePrintFormatArg) (h : ∀ c ∈ fmt, c ≠ NUL ∧ c ≠ '{' ∧ c ≠ '}')
    (hlen : fmt.length < 2147483648) :
    safe_print_implementation cvt SafePrintStdOut fmt args = safe_print_success fmt args fmt 0 := by
  rw [safe_print_implementation_literal cvt fmt args h,
    wrapS32_of_range _ (by omega) (by omega)]
  rfl

/-- C7 as amended, at the template `Hello world!`. -/
theorem C7_literal_text_witness :
    (∀ c ∈ ['H', 'e', 'l', 'l', 'o', ' ', 'w', 'o', 'r', 'l', 'd', '!'],
      c ≠ NUL ∧ c ≠ '{' ∧ c ≠ '}') ∧
    ['H', 'e', 'l', 'l', 'o', ' ', 'w', 'o', 'r', 'l', 'd', '!'].length < 2147483648 ∧
    safe_print_implementation safe_print_convert_double_unused SafePrintStdOut
        ['H', 'e', 'l', 'l', 'o', ' ', 'w', 'o', 'r', 'l', 'd', '!'] [.SAFE_PRINT_I32 1] =
      safe_print_success ['H', 'e', 'l', 'l', 'o', ' ', 'w', 'o', 'r', 'l', 'd', '!']
        [.SAFE_PRINT_I32 1] ['H', 'e', 'l', 'l', 'o', ' ', 'w', 'o', 'r', 'l', 'd', '!'] 0 :=
  ⟨by decide, by decide,
    C7_literal_text safe_print_convert_double_unused _ [.SAFE_PRINT_I32 1] (by decide)
      (by decide)⟩

/-- C7 as stated fails: for the template of 2^31 letters `a` the template is
written verbatim, but the value returned is -2^31, not the length 2^31. -/
theorem C7_literal_text_counterexample :
    safe_print_implementation safe_print_convert_double_unused SafePrintStdOut
        (List.replicate 2147483648 'a') [] =
      .done ⟨-2147483648, ⟨List.replicate 2147483648 'a', [],
        ⟨List.replicate 2147483648 'a', none⟩, -2147483648, 0, 0, []⟩⟩ ∧
    (-2147483648 : Int) ≠ ((List.replicate 2147483648 'a').length : Int) := by
  refine ⟨?_, by rw [List.length_replicate]; decide⟩
  have h : ∀ c ∈ List.replicate 2147483648 'a', c ≠ NUL ∧ c ≠ '{' ∧ c ≠ '}' := by
    intro c hc
    rw [List.eq_of_mem_replicate hc]
    decide
  have hw : wrapS32 ((List.replicate 2147483648 'a').length : Int) = -2147483648 := by
    rw [List.length_replicate]
    decide
  rw [safe_print_implementation_literal _ _ _ h, hw]

/-- C8 (out-of-range index), evaluated at the template `{5}` with two
arguments: nothing is written and the parser records
`SP_ERROR_POSITIONAL_ARG_OUT_OF_RANGE` (-2) in the error field, but the value
returned by the call is `SP_ERROR_UNKNOWN_FORMAT_SPECIFIER` (-3). -/
theorem C8_out_of_range_index_returns_minus_three :
    safe_print_implementation safe_print_convert_double_unused SafePrintStdOut ['{', '5', '}']
        [.SAFE_PRINT_I32 1, .SAFE_PRINT_I32 2] =
      .done ⟨SP_ERROR_UNKNOWN_FORMAT_SPECIFIER,
        ⟨['{', '5', '}'], ['}'], ⟨[], none⟩, 0, SP_ERROR_POSITIONAL_ARG_OUT_OF_RANGE, 0,
          [.SAFE_PRINT_I32 1, .SAFE_PRINT_I32 2]⟩⟩ := by
  decide

/-- C9 (error codes), evaluated on four failing calls: whatever failure the
parser records in the error field (-1 for `{}` without arguments, -2 for `{3}`
with one argument, -4 for the unclosed `{1`, -3 for the unclosed `{`), the
value returned by the call is -3. -/
theorem C9_parse_failures_return_minus_three :
    safe_print_implementation safe_print_convert_double_unused SafePrintStdOut ['{', '}'] [] =
      .done ⟨-3, ⟨['{', '}'], [], ⟨[], none⟩, 0, -1, 0, []⟩⟩ ∧
    safe_print_implementation safe_print_convert_double_unused SafePrintStdOut ['{', '3', '}']
        [.SAFE_PRINT_I32 1] =
      .done ⟨-3, ⟨['{', '3', '}'], ['}'], ⟨[], none⟩, 0, -2, 0, [.SAFE_PRINT_I32 1]⟩⟩ ∧
    safe_print_implementation safe_print_convert_double_unused SafePrintStdOut ['{', '1']
        [.SAFE_PRINT_I32 1] =
      .done ⟨-3, ⟨['{', '1'], [], ⟨[], none⟩, 0, -4, 0, [.SAFE_PRINT_I32 1]⟩⟩ ∧
    safe_print_implementation safe_print_convert_double_unused SafePrintStdOut ['{']
        [.SAFE_PRINT_I32 1] =
      .done ⟨-3, ⟨['{'], [], ⟨[], none⟩, 0, -3, 0, [.SAFE_PRINT_I32 1]⟩⟩ := by
  decide

/-- C10 (return value on success), as amended: whenever a call on the empty
accepting sink ends with the error field at zero (no error was reported) and
has written fewer than 2^31 characters, the value returned is non-negative
and equals the number of characters written to the sink. -/
theorem C10_return_value_on_success (cvt : SafePrintDoubleConversion) (fmt : List Char)
    (args : List SafePrintFormatArg) (result : SafePrintReturn)
    (h : safe_print_implementation cvt SafePrintStdOut fmt args = .done result)
    (herror : result.context.error = 0)
    (hlength : result.context.file.content.length < 2147483648) :
    0 ≤ result.value ∧ result.value = result.context.file.content.length := by
  have h0 : (⟨fmt, fmt, SafePrintStdOut, 0, 0, 0, args⟩ : SafePrintContext).counted := by
    show (0 : Int) = wrapS32 0
    decide
  obtain ⟨hc, hv⟩ := safe_print_implementation_loop_counted cvt _ _ result h0 h
  unfold SafePrintContext.counted at hc
  rw [hv herror, hc, wrapS32_of_range _ (by omega) (by omega)]
  exact ⟨Int.natCast_nonneg _, rfl⟩

/-- C10 as amended, at the template `{}` with the `int` argument 5. -/
theorem C10_return_value_on_success_witness :
    safe_print_implementation safe_print_convert_double_unused SafePrintStdOut ['{', '}']
        [.SAFE_PRINT_I32 5] =
      .done ⟨1, ⟨['{', '}'], [], ⟨['5'], none⟩, 1, 0, 1, [.SAFE_PRINT_I32 5]⟩⟩ ∧
    (0 : Int) = 0 ∧ ['5'].length < 2147483648 ∧
    (0 : Int) ≤ 1 ∧ (1 : Int) = (['5'].length : Int) :=
  ⟨by decide, rfl, by decide,
    C10_return_value_on_success safe_print_convert_double_unused ['{', '}'] [.SAFE_PRINT_I32 5]
      ⟨1, ⟨['{', '}'], [], ⟨['5'], none⟩, 1, 0, 1, [.SAFE_PRINT_I32 5]⟩⟩ (by decide) rfl
      (by decide)⟩

/-- C10 as stated fails: the template `{min(2147483647)}a` with the `int`
argument 7 is formatted without any error, 2^31 characters are written, and
the value returned is -2^31. -/
theorem C10_return_value_on_success_counterexample :
    safe_print_implementation safe_print_convert_double_unused SafePrintStdOut
        ['{', 'm', 'i', 'n', '(', '2', '1', '4', '7', '4', '8', '3', '6', '4', '7', ')', '}', 'a']
        [.SAFE_PRINT_I32 7] =
      .done ⟨-2147483648,
        ⟨['{', 'm', 'i', 'n', '(', '2', '1', '4', '7', '4', '8', '3', '6', '4', '7', ')', '}', 'a'],
          [], ⟨List.replicate 2147483646 '0' ++ ['7', 'a'], none⟩, -2147483648, 0, 1,
          [.SAFE_PRINT_I32 7]⟩⟩ ∧
    (List.replicate 2147483646 '0' ++ ['7', 'a']).length = 2147483648 := by
  constructor
  · have hdigits : Nat.toDigits 10 2147483647 =
        ['2', '1', '4', '7', '4', '8', '3', '6', '4', '7'] := by decide
    have hparse := (safe_print_parse_format_specifier_width
      ['{', 'm', 'i', 'n', '(', '2', '1', '4', '7', '4', '8', '3', '6', '4', '7', ')', '}', 'a']
      ['a'] SafePrintStdOut 0 0 (.SAFE_PRINT_I32 7) 2147483647 (by decide)).1
    rw [hdigits] at hparse
    simp only [List.cons_append, List.nil_append, Nat.cast_ofNat] at hparse
    have hfa := safe_print_format_arg_integer_accepting safe_print_convert_double_unused
      ['{', 'm', 'i', 'n', '(', '2', '1', '4', '7', '4', '8', '3', '6', '4', '7', ')', '}', 'a']
      ['a'] [] 0 0 1 [.SAFE_PRINT_I32 7]
      ⟨0, 2147483647, 0, 0, 0, .SP_FI_ALIGN_DEFAULT, false, false, .SP_FI_DEFAULT_CASE, NUL⟩
      (.SAFE_PRINT_I32 7) 7 10 (by decide) rfl rfl rfl rfl (by decide) (by decide) (by decide) rfl
    have htext : integer_text 10 (decide (SafePrintCharCase.SP_FI_DEFAULT_CASE =
        SafePrintCharCase.SP_FI_UPPER_CASE)) 7 = ['7'] := by decide
    have hw0 : wrapS32 0 = 0 := by decide
    simp only [htext, hw0] at hfa
    have hpad : ((2147483647 : Int) - (['7'].length : Int)).toNat = 2147483646 := by decide
    rw [hpad] at hfa
    simp only [reduceCtorEq, if_false, ne_eq, not_true_eq_false, List.nil_append, List.append_nil,
      List.length_singleton, Nat.cast_one, Nat.cast_ofNat, zero_add] at hfa
    unfold safe_print_implementation
    rw [safe_print_implementation_loop_directive _ _ _ _ _ _ rfl rfl hparse, SafePrintStdOut, hfa]
    simp only [List.length_cons, List.length_nil]
    rw [safe_print_implementation_loop_character _ _ _ _ _ _ _ _ _ (by decide),
      safe_print_implementation_loop_end _ _ _ rfl]
    have hw : wrapS32 (2147483646 + 1 + 1) = -2147483648 := by decide
    simp only [hw, List.append_assoc, List.singleton_append]
  · rw [List.length_append, List.length_replicate]
    rfl

/-- C11 (parse failures are terminal). Whenever the scanning loop stands at a
`{` with no error recorded and `safe_print_parse_format_specifier` returns
`SP_PFS_ERROR` there, the call returns at once with a negative value, and the
sink and the count of written characters are what they were when the
directive was reached. For a template whose text before the failing directive
consists of literal characters and brace escapes, the whole call returns that
negative value and the sink holds exactly the rendering of that text: nothing
of the failing directive or of the text after it is written. -/
theorem C11_parse_failures_are_terminal :
    (∀ (cvt : SafePrintDoubleConversion) (fuel : Nat) (context context1 : SafePrintContext),
      context.fmt.headD NUL = '{' → context.error = 0 →
      safe_print_parse_format_specifier context = .done (.SP_PFS_ERROR, context1) →
      safe_print_implementation_loop cvt (fuel + 1) context =
          .done ⟨SP_ERROR_UNKNOWN_FORMAT_SPECIFIER, context1⟩ ∧
        SP_ERROR_UNKNOWN_FORMAT_SPECIFIER < 0 ∧
        context1.file = context.file ∧ context1.written = context.written) ∧
    (∀ (cvt : SafePrintDoubleConversion) (pieces : List SafePrintTemplatePiece)
        (rest : List Char) (args : List SafePrintFormatArg) (context1 : SafePrintContext),
      (∀ p ∈ pieces, p.plain) → rest.headD NUL = '{' →
      safe_print_parse_format_specifier
          ⟨escaped_template_text pieces ++ rest, rest, ⟨escaped_template_rendering pieces, none⟩,
            wrapS32 (escaped_template_rendering pieces).length, 0, 0, args⟩ =
        .done (.SP_PFS_ERROR, context1) →
      safe_print_implementation cvt SafePrintStdOut (escaped_template_text pieces ++ rest) args =
          .done ⟨SP_ERROR_UNKNOWN_FORMAT_SPECIFIER, context1⟩ ∧
        SP_ERROR_UNKNOWN_FORMAT_SPECIFIER < 0 ∧
        context1.file = ⟨escaped_template_rendering pieces, none⟩) := by
  refine ⟨?_, ?_⟩
  · intro cvt fuel context context1 hfmt herr hparse
    have hframe := (safe_print_parse_format_specifier_frame _ _ _ hparse).1
    exact ⟨safe_print_implementation_loop_parse_error cvt fuel context context1 hfmt herr hparse,
      by decide, hframe.2.1, hframe.2.2.1⟩
  · intro cvt pieces rest args context1 hplain hrest hparse
    have hframe := (safe_print_parse_format_specifier_frame _ _ _ hparse).1
    refine ⟨?_, by decide, hframe.2.1⟩
    have hlen := escaped_template_text_length pieces
    have hfuel : (escaped_template_text pieces ++ rest).length + 1 =
        ((escaped_template_text pieces ++ rest).length - pieces.length) + 1 + pieces.length := by
      rw [List.length_append]; omega
    have h0 : wrapS32 0 = 0 := by decide
    have hstep := safe_print_implementation_loop_escaped_prefix cvt pieces hplain rest
      (((escaped_template_text pieces ++ rest).length - pieces.length) + 1)
      (escaped_template_text pieces ++ rest) [] 0 0 args
    rw [h0, zero_add, List.nil_append] at hstep
    rw [safe_print_implementation, hfuel, SafePrintStdOut]
    rw [hstep]
    exact safe_print_implementation_loop_parse_error cvt _ _ context1 hrest rfl hparse

/-- C11, at the template `ab{x}cd` without arguments: the call returns -3 and
the sink holds `ab`. -/
theorem C11_parse_failures_are_terminal_witness :
    (∀ p ∈ [SafePrintTemplatePiece.literal 'a', .literal 'b'], p.plain) ∧
    List.headD ['{', 'x', '}', 'c', 'd'] NUL = '{' ∧
    safe_print_implementation safe_print_convert_double_unused SafePrintStdOut
        ['a', 'b', '{', 'x', '}', 'c', 'd'] [] =
      .done ⟨-3, ⟨['a', 'b', '{', 'x', '}', 'c', 'd'], ['}', 'c', 'd'], ⟨['a', 'b'], none⟩,
        2, -3, 0, []⟩⟩ :=
  ⟨by decide, by decide,
    (C11_parse_failures_are_terminal.2 safe_print_convert_double_unused
      [.literal 'a', .literal 'b'] ['{', 'x', '}', 'c', 'd'] []
      ⟨['a', 'b', '{', 'x', '}', 'c', 'd'], ['}', 'c', 'd'], ⟨['a', 'b'], none⟩, 2, -3, 0, []⟩
      (by decide) (by decide) (by decide)).1⟩

/-- C12 (stray closing brace), evaluated on three templates without
arguments. When the stray `}` is the last character of the template (`a}` and
`}`), the error `SP_ERROR_MISSING_BRACE` (-4) is recorded in the error field
but the loop ends at the terminator and the call returns the count of written
characters (1 and 0). When a character follows (`a}b`), the call returns -4. -/
theorem C12_stray_closing_brace_at_end_returns_count :
    safe_print_implementation safe_print_convert_double_unused SafePrintStdOut ['a', '}'] [] =
      .done ⟨1, ⟨['a', '}'], [], ⟨['a'], none⟩, 1, SP_ERROR_MISSING_BRACE, 0, []⟩⟩ ∧
    safe_print_implementation safe_print_convert_double_unused SafePrintStdOut ['}'] [] =
      .done ⟨0, ⟨['}'], [], ⟨[], none⟩, 0, SP_ERROR_MISSING_BRACE, 0, []⟩⟩ ∧
    safe_print_implementation safe_print_convert_double_unused SafePrintStdOut ['a', '}', 'b'] [] =
      .done ⟨SP_ERROR_MISSING_BRACE,
        ⟨['a', '}', 'b'], ['b'], ⟨['a'], none⟩, 1, SP_ERROR_MISSING_BRACE, 0, []⟩⟩ := by
  decide

/-- C13 (sequential numbering), evaluated on three calls with text arguments.
The template `{2} {}` with (`a`, `b`) writes `b a`: the directive without an
index renders argument 1. The template `{0} {}` with (`a`, `b`) writes `a b`:
the explicit index 0 is stored as -1, the value that marks a missing index,
so `{0}` takes the sequential counter and the first directive without an
index renders argument 2. The template `{} {}` with (`a`) fails at the second
directive: `SP_ERROR_TOO_MANY_ARGUMENTS` (-1) is recorded and the sequential
counter stays at 1. -/
theorem C13_explicit_index_zero_consumes_the_sequential_counter :
    safe_print_implementation safe_print_convert_double_unused SafePrintStdOut
        ['{', '2', '}', ' ', '{', '}'] [.SAFE_PRINT_STR ['a'], .SAFE_PRINT_STR ['b']] =
      .done ⟨3, ⟨['{', '2', '}', ' ', '{', '}'], [], ⟨['b', ' ', 'a'], none⟩, 3, 0, 1,
        [.SAFE_PRINT_STR ['a'], .SAFE_PRINT_STR ['b']]⟩⟩ ∧
    safe_print_implementation safe_print_convert_double_unused SafePrintStdOut
        ['{', '0', '}', ' ', '{', '}'] [.SAFE_PRINT_STR ['a'], .SAFE_PRINT_STR ['b']] =
      .done ⟨3, ⟨['{', '0', '}', ' ', '{', '}'], [], ⟨['a', ' ', 'b'], none⟩, 3, 0, 2,
        [.SAFE_PRINT_STR ['a'], .SAFE_PRINT_STR ['b']]⟩⟩ ∧
    safe_print_implementation safe_print_convert_double_unused SafePrintStdOut
        ['{', '}', ' ', '{', '}'] [.SAFE_PRINT_STR ['a']] =
      .done ⟨SP_ERROR_UNKNOWN_FORMAT_SPECIFIER,
        ⟨['{', '}', ' ', '{', '}'], [], ⟨['a', ' '], none⟩, 2, SP_ERROR_TOO_MANY_ARGUMENTS, 1,
          [.SAFE_PRINT_STR ['a']]⟩⟩ := by
  decide

/-- C14 (last occurrence wins). For any two admissible options `a` and `b` of
one category (positional index, `min`, `max`, `fill`, `precision`, the five
base options, `left`/`right`, `upper`/`lower`, `sci`, `sign`) the parser does
on the directive `{a:b}` exactly what it does on `{b}`: same status, same
format info, same cursor, same error field, same sequential counter. When the
sequential counter still points at an argument, or `b` is an index, that
result is `SP_PFS_OK` with the error field unchanged and the format info that
`b` alone stores: repeating the category is not an error. -/
theorem C14_last_occurrence_wins (a b : SafePrintOption) (fs rest : List Char)
    (file : SafePrintFileType) (w e ci : Int) (args : List SafePrintFormatArg)
    (ha : a.admissible args.length = true) (hb : b.admissible args.length = true)
    (hcat : a.category = b.category) :
    safe_print_parse_format_specifier
        ⟨fs, directive_text [a, b] ++ rest, file, w, e, ci, args⟩ =
      safe_print_parse_format_specifier
        ⟨fs, directive_text [b] ++ rest, file, w, e, ci, args⟩ ∧
    ((¬ b.category = .index → 0 ≤ ci ∧ ci < args.length) →
      safe_print_parse_format_specifier
          ⟨fs, directive_text [b] ++ rest, file, w, e, ci, args⟩ =
        .done (.SP_PFS_OK
            (if b.category = .index then b.store SafePrintFormatInfo.initial
            else { b.store SafePrintFormatInfo.initial with arg_index := ci }),
          ⟨fs, rest, file, w, e, if b.category = .index then ci else wrapS32 (ci + 1),
            args⟩)) := by
  have hab : ∀ option ∈ [a, b], option.admissible args.length = true := by
    intro option ho
    simp only [List.mem_cons, List.mem_singleton, List.not_mem_nil, or_false] at ho
    rcases ho with rfl | rfl
    · exact ha
    · exact hb
  have hb1 : ∀ option ∈ [b], option.admissible args.length = true := by
    intro option ho
    simp only [List.mem_singleton] at ho
    rw [ho]; exact hb
  rw [safe_print_parse_format_specifier_directive [a, b] fs rest file w e ci args (by simp) hab,
    safe_print_parse_format_specifier_directive [b] fs rest file w e ci args (by simp) hb1]
  simp only [List.foldl_cons, List.foldl_nil, SafePrintOption.store_store a b _ hcat, true_and]
  intro hseq
  have hidx := SafePrintOption.store_initial_arg_index b args.length hb
  by_cases hi : b.category = .index
  · have hne1 : ¬ ((b.store SafePrintFormatInfo.initial).arg_index = -1) := by
      rw [hidx]; exact fun h => h hi
    simp [safe_print_parse_format_close, hne1, hi]
  · have heq : (b.store SafePrintFormatInfo.initial).arg_index = -1 := hidx.mpr hi
    have hci := hseq hi
    have hne2 : ¬ (ci = (args.length : Int)) := by omega
    simp [safe_print_parse_format_close, heq, SafePrintContext.arg_count, hne2, hi]

/-- C14, at the directive `{hex:bin}` with one argument: the base is 2, as
for `{bin}`. -/
theorem C14_last_occurrence_wins_witness :
    safe_print_parse_format_specifier
        ⟨[], directive_text [.hex, .bin] ++ [], SafePrintStdOut, 0, 0, 0, [.SAFE_PRINT_I32 5]⟩ =
      safe_print_parse_format_specifier
        ⟨[], directive_text [.bin] ++ [], SafePrintStdOut, 0, 0, 0, [.SAFE_PRINT_I32 5]⟩ ∧
    safe_print_parse_format_specifier
        ⟨[], directive_text [.bin] ++ [], SafePrintStdOut, 0, 0, 0, [.SAFE_PRINT_I32 5]⟩ =
      .done (.SP_PFS_OK ⟨0, 0, 0, 0, 2, .SP_FI_ALIGN_DEFAULT, false, false, .SP_FI_DEFAULT_CASE,
          NUL⟩,
        ⟨[], [], SafePrintStdOut, 0, 0, 1, [.SAFE_PRINT_I32 5]⟩) :=
  ⟨(C14_last_occurrence_wins .hex .bin [] [] SafePrintStdOut 0 0 0 [.SAFE_PRINT_I32 5]
      (by decide) (by decide) (by decide)).1,
    (C14_last_occurrence_wins .hex .bin [] [] SafePrintStdOut 0 0 0 [.SAFE_PRINT_I32 5]
      (by decide) (by decide) (by decide)).2 (by decide)⟩

/-- C15 (explicit sign), as amended: with the directive `{sign}` every signed
integer argument, 32-bit or 64-bit, is written with an explicit sign
character, `+` before a non-negative value and `-` before a negative one,
followed by the decimal digits of its magnitude; an unsigned argument, 32-bit
or 64-bit, is written as its decimal digits without a sign. With the `int`
arguments 42 and -42 the call writes `+42` and `-42`. -/
theorem C15_explicit_sign :
    (∀ (cvt : SafePrintDoubleConversion) (v : Int), -2147483648 ≤ v → v < 2147483648 →
      safe_print_implementation cvt SafePrintStdOut ['{', 's', 'i', 'g', 'n', '}']
          [.SAFE_PRINT_I32 v] =
        safe_print_success ['{', 's', 'i', 'g', 'n', '}'] [.SAFE_PRINT_I32 v]
          (signed_integer_text 10 false v) 1) ∧
    (∀ (cvt : SafePrintDoubleConversion) (v : Int), -9223372036854775808 ≤ v →
      v < 9223372036854775808 →
      safe_print_implementation cvt SafePrintStdOut ['{', 's', 'i', 'g', 'n', '}']
          [.SAFE_PRINT_I64 v] =
        safe_print_success ['{', 's', 'i', 'g', 'n', '}'] [.SAFE_PRINT_I64 v]
          (signed_integer_text 10 false v) 1) ∧
    (∀ (cvt : SafePrintDoubleConversion) (n : Nat), n < 4294967296 →
      safe_print_implementation cvt SafePrintStdOut ['{', 's', 'i', 'g', 'n', '}']
          [.SAFE_PRINT_U32 n] =
        safe_print_success ['{', 's', 'i', 'g', 'n', '}'] [.SAFE_PRINT_U32 n]
          (Nat.toDigits 10 n) 1) ∧
    (∀ (cvt : SafePrintDoubleConversion) (n : Nat), n < 18446744073709551616 →
      safe_print_implementation cvt SafePrintStdOut ['{', 's', 'i', 'g', 'n', '}']
          [.SAFE_PRINT_U64 n] =
        safe_print_success ['{', 's', 'i', 'g', 'n', '}'] [.SAFE_PRINT_U64 n]
          (Nat.toDigits 10 n) 1) ∧
    (∀ cvt : SafePrintDoubleConversion,
      safe_print_implementation cvt SafePrintStdOut ['{', 's', 'i', 'g', 'n', '}']
          [.SAFE_PRINT_I32 42] =
        safe_print_success ['{', 's', 'i', 'g', 'n', '}'] [.SAFE_PRINT_I32 42] ['+', '4', '2'] 1 ∧
      safe_print_implementation cvt SafePrintStdOut ['{', 's', 'i', 'g', 'n', '}']
          [.SAFE_PRINT_I32 (-42)] =
        safe_print_success ['{', 's', 'i', 'g', 'n', '}'] [.SAFE_PRINT_I32 (-42)]
          ['-', '4', '2'] 1) := by
  have hunsigned : ∀ n : Nat, n < 18446744073709551616 →
      integer_text 10 false (n : Int) = Nat.toDigits 10 n := by
    intro n _
    simp [integer_text]
  refine ⟨?_, ?_, ?_, ?_, fun cvt => ⟨rfl, rfl⟩⟩
  · intro cvt v h0 h1
    refine safe_print_implementation_sign cvt _ _
      (signed_integer_text_length_lt 10 false v (by norm_num) (by omega)) ?_
    intro context hargs
    simp only [safe_print_format_arg, hargs]
    simp only [Int.toNat_zero, List.get?_cons_zero, lt_self_iff_false, if_false]
    rw [show SAFE_PRINT_BASE 0 = ((10 : Nat) : Int) from rfl,
      safe_print_convert_signed_to_string_sign_eq v 10 _ (by omega) (by omega) (by norm_num)
        (by norm_num)]
    rfl
  · intro cvt v h0 h1
    refine safe_print_implementation_sign cvt _ _
      (signed_integer_text_length_lt 10 false v (by norm_num) (by omega)) ?_
    intro context hargs
    simp only [safe_print_format_arg, hargs]
    simp only [Int.toNat_zero, List.get?_cons_zero, lt_self_iff_false, if_false]
    rw [show SAFE_PRINT_BASE 0 = ((10 : Nat) : Int) from rfl,
      safe_print_convert_signed_to_string_sign_eq v 10 _ (by omega) (by omega) (by norm_num)
        (by norm_num)]
    rfl
  · intro cvt n hn
    have hlen := integer_text_length_lt 10 false (n : Int) (by norm_num) (by omega)
    rw [hunsigned n (by omega)] at hlen
    refine safe_print_implementation_sign cvt _ _ hlen ?_
    intro context hargs
    simp only [safe_print_format_arg, hargs]
    simp only [Int.toNat_zero, List.get?_cons_zero, lt_self_iff_false, if_false]
    rw [show SAFE_PRINT_BASE 0 = ((10 : Nat) : Int) from rfl,
      safe_print_convert_unsigned_to_string_eq n 10 _ (by omega) (by norm_num) (by norm_num)]
    simp only [reduceCtorEq, decide_False, hunsigned n (by omega)]
  · intro cvt n hn
    have hlen := integer_text_length_lt 10 false (n : Int) (by norm_num) (by omega)
    rw [hunsigned n hn] at hlen
    refine safe_print_implementation_sign cvt _ _ hlen ?_
    intro context hargs
    simp only [safe_print_format_arg, hargs]
    simp only [Int.toNat_zero, List.get?_cons_zero, lt_self_iff_false, if_false]
    rw [show SAFE_PRINT_BASE 0 = ((10 : Nat) : Int) from rfl,
      safe_print_convert_unsigned_to_string_eq n 10 _ hn (by norm_num) (by norm_num)]
    simp only [reduceCtorEq, decide_False, hunsigned n hn]

/-- C15 as amended, at the 64-bit signed argument -7 and at the unsigned
argument 42. -/
theorem C15_explicit_sign_witness :
    ((-9223372036854775808 : Int) ≤ -7 ∧ (-7 : Int) < 9223372036854775808 ∧
      safe_print_implementation safe_print_convert_double_unused SafePrintStdOut
          ['{', 's', 'i', 'g', 'n', '}'] [.SAFE_PRINT_I64 (-7)] =
        safe_print_success ['{', 's', 'i', 'g', 'n', '}'] [.SAFE_PRINT_I64 (-7)]
          (signed_integer_text 10 false (-7)) 1) ∧
    (42 < 4294967296 ∧
      safe_print_implementation safe_print_convert_double_unused SafePrintStdOut
          ['{', 's', 'i', 'g', 'n', '}'] [.SAFE_PRINT_U32 42] =
        safe_print_success ['{', 's', 'i', 'g', 'n', '}'] [.SAFE_PRINT_U32 42]
          (Nat.toDigits 10 42) 1) :=
  ⟨⟨by decide, by decide,
      C15_explicit_sign.2.1 safe_print_convert_double_unused (-7) (by decide) (by decide)⟩,
    ⟨by decide, C15_explicit_sign.2.2.1 safe_print_convert_double_unused 42 (by decide)⟩⟩

/-- C15 as stated fails for unsigned arguments: the conversion of unsigned
numbers takes no `keep_sign` flag, so `{sign}` with the `unsigned` argument 42
writes `42`, not `+42`. -/
theorem C15_explicit_sign_counterexample :
    safe_print_implementation safe_print_convert_double_unused SafePrintStdOut
        ['{', 's', 'i', 'g', 'n', '}'] [.SAFE_PRINT_U32 42] =
      safe_print_success ['{', 's', 'i', 'g', 'n', '}'] [.SAFE_PRINT_U32 42] ['4', '2'] 1 ∧
    ['4', '2'] ≠ signed_integer_text 10 false 42 := by
  decide

/-- C16 (case folding of text), as amended: for every text argument `s`
shorter than 2^31 characters, `{upper}` writes `s` with each letter `a`-`z`
replaced by its uppercase counterpart and every other character unchanged,
`{lower}` writes `s` with each letter `A`-`Z` replaced by its lowercase
counterpart and every other character unchanged, and `{}` writes `s`
unchanged; the length is that of `s` in all three cases. -/
theorem C16_case_folding_of_text (cvt : SafePrintDoubleConversion) (s : List Char)
    (hnul : ∀ c ∈ s, c ≠ NUL) (hlen : s.length < 2147483648) :
    safe_print_implementation cvt SafePrintStdOut ['{', 'u', 'p', 'p', 'e', 'r', '}']
        [.SAFE_PRINT_STR s] =
      safe_print_success ['{', 'u', 'p', 'p', 'e', 'r', '}'] [.SAFE_PRINT_STR s]
        (s.map Char.toUpper) 1 ∧
    safe_print_implementation cvt SafePrintStdOut ['{', 'l', 'o', 'w', 'e', 'r', '}']
        [.SAFE_PRINT_STR s] =
      safe_print_success ['{', 'l', 'o', 'w', 'e', 'r', '}'] [.SAFE_PRINT_STR s]
        (s.map Char.toLower) 1 ∧
    safe_print_implementation cvt SafePrintStdOut ['{', '}'] [.SAFE_PRINT_STR s] =
      safe_print_success ['{', '}'] [.SAFE_PRINT_STR s] s 1 ∧
    (s.map Char.toUpper).length = s.length ∧ (s.map Char.toLower).length = s.length := by
  have hlength : wrapS32 (safe_print_cstring_length s) = (s.length : Int) := by
    rw [safe_print_cstring_length_eq _ hnul, wrapS32_of_range _ (by omega) (by omega)]
  refine ⟨?_, ?_, ?_, List.length_map _ _, List.length_map _ _⟩
  · have h := safe_print_implementation_text_directive cvt ['u', 'p', 'p', 'e', 'r', '}'] s
      ⟨0, 0, 0, 0, 0, .SP_FI_ALIGN_DEFAULT, false, false, .SP_FI_UPPER_CASE, NUL⟩ s.length rfl
      rfl rfl rfl hlength (le_refl _)
    simpa using h
  · have h := safe_print_implementation_text_directive cvt ['l', 'o', 'w', 'e', 'r', '}'] s
      ⟨0, 0, 0, 0, 0, .SP_FI_ALIGN_DEFAULT, false, false, .SP_FI_LOWER_CASE, NUL⟩ s.length rfl
      rfl rfl rfl hlength (le_refl _)
    simpa using h
  · have h := safe_print_implementation_text_directive cvt ['}'] s
      ⟨0, 0, 0, 0, 0, .SP_FI_ALIGN_DEFAULT, false, false, .SP_FI_DEFAULT_CASE, NUL⟩ s.length rfl
      rfl rfl rfl hlength (le_refl _)
    simpa using h

/-- C16 as amended, at the text `Going Postal!` of the example program. -/
theorem C16_case_folding_of_text_witness :
    (∀ c ∈ "Going Postal!".toList, c ≠ NUL) ∧ "Going Postal!".toList.length < 2147483648 ∧
    safe_print_implementation safe_print_convert_double_unused SafePrintStdOut
        ['{', 'u', 'p', 'p', 'e', 'r', '}'] [.SAFE_PRINT_STR "Going Postal!".toList] =
      safe_print_success ['{', 'u', 'p', 'p', 'e', 'r', '}']
        [.SAFE_PRINT_STR "Going Postal!".toList] ("Going Postal!".toList.map Char.toUpper) 1 :=
  ⟨by decide, by decide,
    (C16_case_folding_of_text safe_print_convert_double_unused "Going Postal!".toList
      (by decide) (by decide)).1⟩

/-- C16 as stated fails: the length of a text is kept in an `int`, so for a
text argument of 2^32 letters `a` the template `{upper}` writes nothing. -/
theorem C16_case_folding_of_text_counterexample :
    safe_print_implementation safe_print_convert_double_unused SafePrintStdOut
        ['{', 'u', 'p', 'p', 'e', 'r', '}'] [.SAFE_PRINT_STR (List.replicate 4294967296 'a')] =
      safe_print_success ['{', 'u', 'p', 'p', 'e', 'r', '}']
        [.SAFE_PRINT_STR (List.replicate 4294967296 'a')] [] 1 ∧
    ([] : List Char) ≠ (List.replicate 4294967296 'a').map Char.toUpper := by
  have key : ∀ str : List Char, wrapS32 (safe_print_cstring_length str) = ((0 : Nat) : Int) →
      safe_print_implementation safe_print_convert_double_unused SafePrintStdOut
          ['{', 'u', 'p', 'p', 'e', 'r', '}'] [.SAFE_PRINT_STR str] =
        safe_print_success ['{', 'u', 'p', 'p', 'e', 'r', '}'] [.SAFE_PRINT_STR str] [] 1 := by
    intro str hl
    have h := safe_print_implementation_text_directive safe_print_convert_double_unused
      ['u', 'p', 'p', 'e', 'r', '}'] str
      ⟨0, 0, 0, 0, 0, .SP_FI_ALIGN_DEFAULT, false, false, .SP_FI_UPPER_CASE, NUL⟩ 0 rfl
      rfl rfl rfl hl (Nat.zero_le _)
    simpa using h
  constructor
  · refine key _ ?_
    rw [safe_print_cstring_length_replicate _ _ (by decide)]
    decide
  · intro h
    have := congrArg List.length h
    rw [List.length_map, List.length_replicate] at this
    exact absurd this (by decide)

/-- C18 (inapplicable options are ignored). For a text argument the result of
`safe_print_format_arg` (sink, count of written characters, error field) is
the same whatever the `base`, `precision`, `scientific` and `sign` fields of
the format info are; for an integer argument of any of the four kinds it is
the same whatever the `precision` and `scientific` fields are. -/
theorem C18_inapplicable_options_are_ignored :
    (∀ (cvt : SafePrintDoubleConversion) (context : SafePrintContext)
        (info : SafePrintFormatInfo) (str : List Char) (base precision : Int)
        (scientific sign : Bool),
      context.args.get? info.arg_index.toNat = some (.SAFE_PRINT_STR str) →
      safe_print_format_arg cvt context
          { info with base := base, precision := precision, scientific := scientific,
                      sign := sign } =
        safe_print_format_arg cvt context info) ∧
    (∀ (cvt : SafePrintDoubleConversion) (context : SafePrintContext)
        (info : SafePrintFormatInfo) (arg : SafePrintFormatArg) (precision : Int)
        (scientific : Bool),
      context.args.get? info.arg_index.toNat = some arg →
      ((∃ s32, arg = .SAFE_PRINT_I32 s32) ∨ (∃ u32, arg = .SAFE_PRINT_U32 u32) ∨
        (∃ s64, arg = .SAFE_PRINT_I64 s64) ∨ (∃ u64, arg = .SAFE_PRINT_U64 u64)) →
      safe_print_format_arg cvt context
          { info with precision := precision, scientific := scientific } =
        safe_print_format_arg cvt context info) := by
  constructor
  · intro cvt context info str base precision scientific sign hget
    simp only [safe_print_format_arg, hget, safe_print_apply_format_info_to_string]
  · intro cvt context info arg precision scientific hget harg
    rcases harg with ⟨x, rfl⟩ | ⟨x, rfl⟩ | ⟨x, rfl⟩ | ⟨x, rfl⟩ <;>
      simp only [safe_print_format_arg, hget, safe_print_apply_format_info]

/-- C18, at the text `hello` with the fields of `{hex:precision(3):sci:sign}`
set, and at the `int` argument 42 with the fields of `{precision(3):sci}` set. -/
theorem C18_inapplicable_options_are_ignored_witness :
    safe_print_format_arg safe_print_convert_double_unused
        ⟨[], [], SafePrintStdOut, 0, 0, 1, [.SAFE_PRINT_STR ['h', 'e', 'l', 'l', 'o']]⟩
        { SafePrintFormatInfo.initial with arg_index := 0, base := 16, precision := 3,
                                           scientific := true, sign := true } =
      safe_print_format_arg safe_print_convert_double_unused
        ⟨[], [], SafePrintStdOut, 0, 0, 1, [.SAFE_PRINT_STR ['h', 'e', 'l', 'l', 'o']]⟩
        { SafePrintFormatInfo.initial with arg_index := 0 } ∧
    safe_print_format_arg safe_print_convert_double_unused
        ⟨[], [], SafePrintStdOut, 0, 0, 1, [.SAFE_PRINT_I32 42]⟩
        { SafePrintFormatInfo.initial with arg_index := 0, precision := 3,
                                           scientific := true } =
      safe_print_format_arg safe_print_convert_double_unused
        ⟨[], [], SafePrintStdOut, 0, 0, 1, [.SAFE_PRINT_I32 42]⟩
        { SafePrintFormatInfo.initial with arg_index := 0 } :=
  ⟨C18_inapplicable_options_are_ignored.1 safe_print_convert_double_unused
      ⟨[], [], SafePrintStdOut, 0, 0, 1, [.SAFE_PRINT_STR ['h', 'e', 'l', 'l', 'o']]⟩
      { SafePrintFormatInfo.initial with arg_index := 0 } ['h', 'e', 'l', 'l', 'o'] 16 3 true
      true rfl,
    C18_inapplicable_options_are_ignored.2 safe_print_convert_double_unused
      ⟨[], [], SafePrintStdOut, 0, 0, 1, [.SAFE_PRINT_I32 42]⟩
      { SafePrintFormatInfo.initial with arg_index := 0 } (.SAFE_PRINT_I32 42) 3 true rfl
      (Or.inl ⟨42, rfl⟩)⟩

/-- C19 (sign and default precision on floats). The decimal literals `3.5`
and `-3.5` denote the doubles with the bit patterns 0x400C000000000000 and
0xC00C000000000000. For every double conversion that realises the default
float conversion of the header, the call with the template `{sign}` and the
double 3.5 writes `+3.500000` (default precision 6, fixed notation) and
returns 9, and with the double -3.5 it writes `-3.500000`, with a single
leading `-`. -/
theorem C19_sign_and_default_precision_on_floats (cvt : SafePrintDoubleConversion)
    (hcvt : SafePrintDoubleConversion.realises_default cvt) :
    sp_r64_literal false 35 (-1) = some 4615063718147915776 ∧
    sp_r64_literal true 35 (-1) = some 13838435755002691584 ∧
    safe_print_implementation cvt SafePrintStdOut ['{', 's', 'i', 'g', 'n', '}']
        [.SAFE_PRINT_R64 4615063718147915776] =
      safe_print_success ['{', 's', 'i', 'g', 'n', '}'] [.SAFE_PRINT_R64 4615063718147915776]
        ['+', '3', '.', '5', '0', '0', '0', '0', '0'] 1 ∧
    safe_print_implementation cvt SafePrintStdOut ['{', 's', 'i', 'g', 'n', '}']
        [.SAFE_PRINT_R64 13838435755002691584] =
      safe_print_success ['{', 's', 'i', 'g', 'n', '}'] [.SAFE_PRINT_R64 13838435755002691584]
        ['-', '3', '.', '5', '0', '0', '0', '0', '0'] 1 := by
  have h := safe_print_convert_double_to_string_sign
  refine ⟨by decide!, by decide!, ?_, ?_⟩
  · exact safe_print_implementation_sign_double cvt _ _ (by decide)
      (hcvt _ _ _ _ _ _ _ _ h.2.2.1)
  · exact safe_print_implementation_sign_double cvt _ _ (by decide)
      (hcvt _ _ _ _ _ _ _ _ h.2.2.2)

/-- C19, at the default float conversion itself. -/
theorem C19_sign_and_default_precision_on_floats_witness :
    safe_print_implementation safe_print_convert_double_default SafePrintStdOut
        ['{', 's', 'i', 'g', 'n', '}'] [.SAFE_PRINT_R64 4615063718147915776] =
      safe_print_success ['{', 's', 'i', 'g', 'n', '}'] [.SAFE_PRINT_R64 4615063718147915776]
        ['+', '3', '.', '5', '0', '0', '0', '0', '0'] 1 ∧
    safe_print_implementation safe_print_convert_double_default SafePrintStdOut
        ['{', 's', 'i', 'g', 'n', '}'] [.SAFE_PRINT_R64 13838435755002691584] =
      safe_print_success ['{', 's', 'i', 'g', 'n', '}'] [.SAFE_PRINT_R64 13838435755002691584]
        ['-', '3', '.', '5', '0', '0', '0', '0', '0'] 1 :=
  (C19_sign_and_default_precision_on_floats safe_print_convert_double_default
    safe_print_convert_double_default_realises).2.2

/-- C20 (parser completeness and meaning). For every directive
`{o1:o2:...:ok}` with `k ≥ 1` whose options are options of the grammar, with
numeric literals below 2^31, positional indices within `1..arg_count` and,
when no option is an index, a sequential counter that still points at an
argument, `safe_print_parse_format_specifier` returns `SP_PFS_OK`, leaves the
error field as it was, leaves the cursor exactly behind the directive, and
the format info it returns is the initial one updated by `o1 .. ok` in order
(with the sequential counter as argument index when no option is an index, in
which case the counter advances by one). -/
theorem C20_parser_completeness (options : List SafePrintOption) (fs rest : List Char)
    (file : SafePrintFileType) (w e ci : Int) (args : List SafePrintFormatArg)
    (hne : options ≠ [])
    (hadm : ∀ option ∈ options, option.admissible args.length = true)
    (hsmall : ∀ option ∈ options, option.small = true)
    (hseq : directive_indexed options = false → 0 ≤ ci ∧ ci < args.length) :
    safe_print_parse_format_specifier
        ⟨fs, directive_text options ++ rest, file, w, e, ci, args⟩ =
      .done (.SP_PFS_OK
          (if directive_indexed options then
            options.foldl SafePrintOption.update SafePrintFormatInfo.initial
          else
            { options.foldl SafePrintOption.update SafePrintFormatInfo.initial with
              arg_index := ci }),
        ⟨fs, rest, file, w, e, if directive_indexed options then ci else wrapS32 (ci + 1),
          args⟩) := by
  rw [safe_print_parse_format_specifier_directive options fs rest file w e ci args hne hadm,
    SafePrintOption.foldl_store_eq_update options _ hsmall]
  have hidx := SafePrintOption.foldl_update_arg_index args.length options
    SafePrintFormatInfo.initial hadm (Or.inl rfl)
  cases hi : directive_indexed options with
  | true =>
    have hne1 : ¬ ((options.foldl SafePrintOption.update SafePrintFormatInfo.initial).arg_index
        = -1) := by
      rw [hidx, hi]; simp
    simp [safe_print_parse_format_close, hne1]
  | false =>
    have heq : (options.foldl SafePrintOption.update SafePrintFormatInfo.initial).arg_index
        = -1 := by
      rw [hidx, hi]; exact ⟨rfl, rfl⟩
    have hci := hseq hi
    have hne2 : ¬ (ci = (args.length : Int)) := by omega
    simp [safe_print_parse_format_close, heq, SafePrintContext.arg_count, hne2]

/-- C20, at the directive `{2:min(8):fill(*):left:hex:upper}` with two
arguments, and at the directive `{sign:precision(3)}` with one argument that
the sequential counter points at. -/
theorem C20_parser_completeness_witness :
    safe_print_parse_format_specifier
        ⟨[], directive_text [.index ['2'], .min ['8'], .fill '*', .left, .hex, .upper] ++ ['x'],
          SafePrintStdOut, 0, 0, 0, [.SAFE_PRINT_I32 1, .SAFE_PRINT_I32 2]⟩ =
      .done (.SP_PFS_OK ⟨1, 8, 0, 0, 16, .SP_FI_ALIGN_LEFT, false, false, .SP_FI_UPPER_CASE, '*'⟩,
        ⟨[], ['x'], SafePrintStdOut, 0, 0, 0, [.SAFE_PRINT_I32 1, .SAFE_PRINT_I32 2]⟩) ∧
    safe_print_parse_format_specifier
        ⟨[], directive_text [.sign, .precision ['3']] ++ [], SafePrintStdOut, 0, 0, 0,
          [.SAFE_PRINT_R64 0]⟩ =
      .done (.SP_PFS_OK ⟨0, 0, 0, 3, 0, .SP_FI_ALIGN_DEFAULT, false, true, .SP_FI_DEFAULT_CASE,
          NUL⟩,
        ⟨[], [], SafePrintStdOut, 0, 0, 1, [.SAFE_PRINT_R64 0]⟩) :=
  ⟨C20_parser_completeness [.index ['2'], .min ['8'], .fill '*', .left, .hex, .upper] [] ['x']
      SafePrintStdOut 0 0 0 [.SAFE_PRINT_I32 1, .SAFE_PRINT_I32 2] (by decide) (by decide)
      (by decide) (by decide),
    C20_parser_completeness [.sign, .precision ['3']] [] [] SafePrintStdOut 0 0 0
      [.SAFE_PRINT_R64 0] (by decide) (by decide) (by decide) (by decide)⟩

/-- C21 (parser soundness), evaluated on the three directive bodies of the
claim with one text argument. The `switch (token.kind)` of the parser has no
case for the tokens `(`, `)` and `:` (nor for a brace) and no default, so such
a token in the place of an option is skipped: `{(}`, `{)}` and `{:}` return
`SP_PFS_OK` with the all-default format info bound to the sequential
argument, no error is recorded, and the call renders the argument. The same
holds for `{:::}` and for `{hex:)}`. -/
theorem C21_punctuation_in_place_of_an_option_is_accepted :
    safe_print_parse_format_specifier
        ⟨['{', '(', '}'], ['{', '(', '}'], SafePrintStdOut, 0, 0, 0, [.SAFE_PRINT_STR ['a']]⟩ =
      .done (.SP_PFS_OK { SafePrintFormatInfo.initial with arg_index := 0 },
        ⟨['{', '(', '}'], [], SafePrintStdOut, 0, 0, 1, [.SAFE_PRINT_STR ['a']]⟩) ∧
    safe_print_parse_format_specifier
        ⟨['{', ')', '}'], ['{', ')', '}'], SafePrintStdOut, 0, 0, 0, [.SAFE_PRINT_STR ['a']]⟩ =
      .done (.SP_PFS_OK { SafePrintFormatInfo.initial with arg_index := 0 },
        ⟨['{', ')', '}'], [], SafePrintStdOut, 0, 0, 1, [.SAFE_PRINT_STR ['a']]⟩) ∧
    safe_print_parse_format_specifier
        ⟨['{', ':', '}'], ['{', ':', '}'], SafePrintStdOut, 0, 0, 0, [.SAFE_PRINT_STR ['a']]⟩ =
      .done (.SP_PFS_OK { SafePrintFormatInfo.initial with arg_index := 0 },
        ⟨['{', ':', '}'], [], SafePrintStdOut, 0, 0, 1, [.SAFE_PRINT_STR ['a']]⟩) ∧
    safe_print_parse_format_specifier
        ⟨[], ['{', ':', ':', ':', '}'], SafePrintStdOut, 0, 0, 0, [.SAFE_PRINT_STR ['a']]⟩ =
      .done (.SP_PFS_OK { SafePrintFormatInfo.initial with arg_index := 0 },
        ⟨[], [], SafePrintStdOut, 0, 0, 1, [.SAFE_PRINT_STR ['a']]⟩) ∧
    safe_print_parse_format_specifier
        ⟨[], ['{', 'h', 'e', 'x', ':', ')', '}'], SafePrintStdOut, 0, 0, 0,
          [.SAFE_PRINT_STR ['a']]⟩ =
      .done (.SP_PFS_OK { SafePrintFormatInfo.initial with arg_index := 0, base := 16 },
        ⟨[], [], SafePrintStdOut, 0, 0, 1, [.SAFE_PRINT_STR ['a']]⟩) ∧
    safe_print_implementation safe_print_convert_double_unused SafePrintStdOut ['{', '(', '}']
        [.SAFE_PRINT_STR ['a']] =
      safe_print_success ['{', '(', '}'] [.SAFE_PRINT_STR ['a']] ['a'] 1 := by
  decide

/-- C22 (malformed parenthesized options), evaluated with the text argument
`hello`. The `min` option goes through `safe_print_parse_format_function` and
fails: `{min(2x}` and `{min(x)}` return `SP_PFS_ERROR`. The `max`, `precision`
and `base` options go through `safe_print_consume_next_token`, which records
the error (-3) and lets the parser go on: `{max(2x}`, `{precision(2x}` and
`{base(2x}` return `SP_PFS_OK` with the number stored, and the call on
`{max(2x}` renders the argument, cut to `he`, and returns 2. On `{max(x)}` the
parser reads `token.number` from the token of the letters `x`, whose union
holds its string, and does not return an error either. -/
theorem C22_malformed_max_is_accepted_and_rendered :
    safe_print_parse_format_specifier
        ⟨[], ['{', 'm', 'i', 'n', '(', '2', 'x', '}'], SafePrintStdOut, 0, 0, 0,
          [.SAFE_PRINT_STR ['h', 'e', 'l', 'l', 'o']]⟩ =
      .done (.SP_PFS_ERROR,
        ⟨[], ['}'], SafePrintStdOut, 0, SP_ERROR_UNKNOWN_FORMAT_SPECIFIER, 0,
          [.SAFE_PRINT_STR ['h', 'e', 'l', 'l', 'o']]⟩) ∧
    safe_print_parse_format_specifier
        ⟨[], ['{', 'm', 'i', 'n', '(', 'x', ')', '}'], SafePrintStdOut, 0, 0, 0,
          [.SAFE_PRINT_STR ['h', 'e', 'l', 'l', 'o']]⟩ =
      .done (.SP_PFS_ERROR,
        ⟨[], ['}'], SafePrintStdOut, 0, SP_ERROR_UNKNOWN_FORMAT_SPECIFIER, 0,
          [.SAFE_PRINT_STR ['h', 'e', 'l', 'l', 'o']]⟩) ∧
    safe_print_parse_format_specifier
        ⟨[], ['{', 'm', 'a', 'x', '(', '2', 'x', '}'], SafePrintStdOut, 0, 0, 0,
          [.SAFE_PRINT_STR ['h', 'e', 'l', 'l', 'o']]⟩ =
      .done (.SP_PFS_OK { SafePrintFormatInfo.initial with arg_index := 0, max := 2 },
        ⟨[], [], SafePrintStdOut, 0, SP_ERROR_UNKNOWN_FORMAT_SPECIFIER, 1,
          [.SAFE_PRINT_STR ['h', 'e', 'l', 'l', 'o']]⟩) ∧
    safe_print_parse_format_specifier
        ⟨[], ['{', 'p', 'r', 'e', 'c', 'i', 's', 'i', 'o', 'n', '(', '2', 'x', '}'],
          SafePrintStdOut, 0, 0, 0, [.SAFE_PRINT_STR ['h', 'e', 'l', 'l', 'o']]⟩ =
      .done (.SP_PFS_OK { SafePrintFormatInfo.initial with arg_index := 0, precision := 2 },
        ⟨[], [], SafePrintStdOut, 0, SP_ERROR_UNKNOWN_FORMAT_SPECIFIER, 1,
          [.SAFE_PRINT_STR ['h', 'e', 'l', 'l', 'o']]⟩) ∧
    safe_print_parse_format_specifier
        ⟨[], ['{', 'b', 'a', 's', 'e', '(', '2', 'x', '}'], SafePrintStdOut, 0, 0, 0,
          [.SAFE_PRINT_STR ['h', 'e', 'l', 'l', 'o']]⟩ =
      .done (.SP_PFS_OK { SafePrintFormatInfo.initial with arg_index := 0, base := 2 },
        ⟨[], [], SafePrintStdOut, 0, SP_ERROR_UNKNOWN_FORMAT_SPECIFIER, 1,
          [.SAFE_PRINT_STR ['h', 'e', 'l', 'l', 'o']]⟩) ∧
    safe_print_implementation safe_print_convert_double_unused SafePrintStdOut
        ['{', 'm', 'a', 'x', '(', '2', 'x', '}'] [.SAFE_PRINT_STR ['h', 'e', 'l', 'l', 'o']] =
      .done ⟨2, ⟨['{', 'm', 'a', 'x', '(', '2', 'x', '}'], [], ⟨['h', 'e'], none⟩, 2,
        SP_ERROR_UNKNOWN_FORMAT_SPECIFIER, 1, [.SAFE_PRINT_STR ['h', 'e', 'l', 'l', 'o']]⟩⟩ ∧
    safe_print_parse_format_specifier
        ⟨[], ['{', 'm', 'a', 'x', '(', 'x', ')', '}'], SafePrintStdOut, 0, 0, 0,
          [.SAFE_PRINT_STR ['h', 'e', 'l', 'l', 'o']]⟩ = .union_member := by
  decide

/-- C23 (positional index range), evaluated. The directive `{0}` does not
fail: the range test `token.number < 0 || token.number > context->arg_count`
lets the index 0 through, `info.arg_index = token.number - 1` stores -1, the
mark of a missing index, and the parser goes on as on `{}`. With one text
argument `{0}` returns `SP_PFS_OK` with the argument index 0 taken from the
sequential counter, which it advances, no error is recorded, and the call
writes the argument and returns 1; with no argument the code recorded is
`SP_ERROR_TOO_MANY_ARGUMENTS`, not `SP_ERROR_POSITIONAL_ARG_OUT_OF_RANGE`. For
every other literal `n` below 2^31 the parser does what the claim says: it
fails with `SP_ERROR_POSITIONAL_ARG_OUT_OF_RANGE` recorded when `n` exceeds
the number of arguments, and it returns `SP_PFS_OK` with the argument index
`n - 1` when `1 ≤ n ≤ arg_count`. -/
theorem C23_index_zero_is_accepted :
    safe_print_parse_format_specifier
        ⟨[], ['{', '0', '}'], SafePrintStdOut, 0, 0, 0, [.SAFE_PRINT_STR ['a']]⟩ =
      .done (.SP_PFS_OK { SafePrintFormatInfo.initial with arg_index := 0 },
        ⟨[], [], SafePrintStdOut, 0, 0, 1, [.SAFE_PRINT_STR ['a']]⟩) ∧
    safe_print_implementation safe_print_convert_double_unused SafePrintStdOut ['{', '0', '}']
        [.SAFE_PRINT_STR ['a']] =
      .done ⟨1, ⟨['{', '0', '}'], [], ⟨['a'], none⟩, 1, 0, 1, [.SAFE_PRINT_STR ['a']]⟩⟩ ∧
    safe_print_parse_format_specifier ⟨[], ['{', '0', '}'], SafePrintStdOut, 0, 0, 0, []⟩ =
      .done (.SP_PFS_ERROR,
        ⟨[], [], SafePrintStdOut, 0, SP_ERROR_TOO_MANY_ARGUMENTS, 0, []⟩) ∧
    (∀ (digits fs rest : List Char) (file : SafePrintFileType) (w e ci : Int)
        (args : List SafePrintFormatArg),
      literal_digits digits = true → literal_value digits 0 < 2147483648 →
      (args.length < literal_value digits 0 →
        safe_print_parse_format_specifier
            ⟨fs, '{' :: (digits ++ '}' :: rest), file, w, e, ci, args⟩ =
          .done (.SP_PFS_ERROR,
            ⟨fs, '}' :: rest, file, w, SP_ERROR_POSITIONAL_ARG_OUT_OF_RANGE, ci, args⟩)) ∧
      (1 ≤ literal_value digits 0 → literal_value digits 0 ≤ args.length →
        safe_print_parse_format_specifier
            ⟨fs, '{' :: (digits ++ '}' :: rest), file, w, e, ci, args⟩ =
          .done (.SP_PFS_OK
              { SafePrintFormatInfo.initial with
                arg_index := (literal_value digits 0 : Int) - 1 },
            ⟨fs, rest, file, w, e, ci, args⟩)) ∧
      (literal_value digits 0 = 0 →
        safe_print_parse_format_specifier
            ⟨fs, '{' :: (digits ++ '}' :: rest), file, w, e, ci, args⟩ =
          safe_print_parse_format_specifier ⟨fs, '{' :: '}' :: rest, file, w, e, ci, args⟩)) := by
  refine ⟨by decide, by decide, by decide, ?_⟩
  intro digits fs rest file w e ci args hdigits h31
  have h := safe_print_parse_format_specifier_index_range digits fs rest file w e ci args hdigits
    h31
  refine ⟨fun hgt => ?_, fun h1 hle => ?_, fun h0 => ?_⟩
  · rw [h, if_pos hgt]
  · rw [h, if_neg (by omega), if_neg (by omega)]
  · rw [h, if_neg (by omega), if_pos h0]

/-- C24 (argument index invariant). In a context whose sequential counter
lies within `0..arg_count` (with at most 16 captured arguments, the size of
the array), whenever `safe_print_parse_format_specifier` returns, the counter
still lies within `0..arg_count` and the arguments are unchanged; when the
status is `SP_PFS_OK`, the argument index satisfies
`0 ≤ arg_index < arg_count`, so that `safe_print_format_arg` reads a captured
argument. Rendering keeps the invariant, the scanning loop keeps it from any
state on, and the context a call starts from has it: it holds across every
sequence of directive parses of a call. -/
theorem C24_argument_index_invariant :
    (∀ (context : SafePrintContext) (status : SafePrintParseStatus)
        (context1 : SafePrintContext), context.indexed →
      safe_print_parse_format_specifier context = .done (status, context1) →
      context1.indexed ∧ context1.args = context.args ∧
        ∀ info, status = .SP_PFS_OK info →
          0 ≤ info.arg_index ∧ info.arg_index < context1.arg_count ∧
            ∃ arg, context1.args.get? info.arg_index.toNat = some arg) ∧
    (∀ (cvt : SafePrintDoubleConversion) (context : SafePrintContext)
        (info : SafePrintFormatInfo), context.indexed →
      (safe_print_format_arg cvt context info).indexed) ∧
    (∀ (cvt : SafePrintDoubleConversion) (fuel : Nat) (context : SafePrintContext)
        (result : SafePrintReturn), context.indexed →
      safe_print_implementation_loop cvt fuel context = .done result →
      result.context.indexed) ∧
    (∀ (cvt : SafePrintDoubleConversion) (handle : SafePrintFileType) (fmt : List Char)
        (args : List SafePrintFormatArg) (result : SafePrintReturn), args.length ≤ 16 →
      safe_print_implementation cvt handle fmt args = .done result →
      result.context.indexed) := by
  refine ⟨?_, ?_, ?_, ?_⟩
  · intro context status context1 hc h
    have hindex := safe_print_parse_format_specifier_index context status context1 hc h
    have hargs := (safe_print_parse_format_specifier_frame context status context1 h).1.2.2.2
    refine ⟨hindex.1, hargs, fun info hinfo => ?_⟩
    obtain ⟨h0, h1⟩ := hindex.2 info hinfo
    refine ⟨h0, h1, ?_⟩
    have hlt : info.arg_index.toNat < context1.args.length := by
      unfold SafePrintContext.arg_count at h1
      omega
    exact ⟨context1.args.get ⟨_, hlt⟩, List.get?_eq_get hlt⟩
  · intro cvt context info hc
    exact SafePrintContext.indexed_of_eq (safe_print_format_arg_indexed
      (fun index args => index = context.current_index ∧ args = context.args) cvt context info
      ⟨rfl, rfl⟩) hc
  · intro cvt fuel context result hc h
    exact safe_print_implementation_loop_indexed cvt fuel context result hc h
  · intro cvt handle fmt args result hargs h
    refine safe_print_implementation_loop_indexed cvt _ _ result ?_ h
    refine ⟨le_refl _, ?_, hargs⟩
    show (0 : Int) ≤ (args.length : Int)
    omega

/-- C24, at the template `{} {2}` with two text arguments: the first parse
returns the index 0 and moves the counter to 1, and the call ends with the
counter at 1, within `0..2`. -/
theorem C24_argument_index_invariant_witness :
    SafePrintContext.indexed ⟨['{', '}', ' ', '{', '2', '}'], ['{', '}', ' ', '{', '2', '}'],
      SafePrintStdOut, 0, 0, 0, [.SAFE_PRINT_STR ['a'], .SAFE_PRINT_STR ['b']]⟩ ∧
    (SafePrintContext.indexed ⟨['{', '}', ' ', '{', '2', '}'], [' ', '{', '2', '}'],
        SafePrintStdOut, 0, 0, 1, [.SAFE_PRINT_STR ['a'], .SAFE_PRINT_STR ['b']]⟩ ∧
      (0 : Int) ≤ SafePrintFormatInfo.arg_index { SafePrintFormatInfo.initial with arg_index := 0 } ∧
      SafePrintFormatInfo.arg_index { SafePrintFormatInfo.initial with arg_index := 0 } <
        SafePrintContext.arg_count ⟨['{', '}', ' ', '{', '2', '}'], [' ', '{', '2', '}'],
          SafePrintStdOut, 0, 0, 1, [.SAFE_PRINT_STR ['a'], .SAFE_PRINT_STR ['b']]⟩) ∧
    SafePrintContext.indexed ⟨['{', '}', ' ', '{', '2', '}'], [], ⟨['a', ' ', 'b'], none⟩, 3, 0,
      1, [.SAFE_PRINT_STR ['a'], .SAFE_PRINT_STR ['b']]⟩ :=
  ⟨by decide,
    ⟨(C24_argument_index_invariant.1
        ⟨['{', '}', ' ', '{', '2', '}'], ['{', '}', ' ', '{', '2', '}'], SafePrintStdOut, 0, 0, 0,
          [.SAFE_PRINT_STR ['a'], .SAFE_PRINT_STR ['b']]⟩
        (.SP_PFS_OK { SafePrintFormatInfo.initial with arg_index := 0 })
        ⟨['{', '}', ' ', '{', '2', '}'], [' ', '{', '2', '}'], SafePrintStdOut, 0, 0, 1,
          [.SAFE_PRINT_STR ['a'], .SAFE_PRINT_STR ['b']]⟩ (by decide) (by decide)).1,
      ((C24_argument_index_invariant.1
        ⟨['{', '}', ' ', '{', '2', '}'], ['{', '}', ' ', '{', '2', '}'], SafePrintStdOut, 0, 0, 0,
          [.SAFE_PRINT_STR ['a'], .SAFE_PRINT_STR ['b']]⟩
        (.SP_PFS_OK { SafePrintFormatInfo.initial with arg_index := 0 })
        ⟨['{', '}', ' ', '{', '2', '}'], [' ', '{', '2', '}'], SafePrintStdOut, 0, 0, 1,
          [.SAFE_PRINT_STR ['a'], .SAFE_PRINT_STR ['b']]⟩ (by decide) (by decide)).2.2 _ rfl).1,
      ((C24_argument_index_invariant.1
        ⟨['{', '}', ' ', '{', '2', '}'], ['{', '}', ' ', '{', '2', '}'], SafePrintStdOut, 0, 0, 0,
          [.SAFE_PRINT_STR ['a'], .SAFE_PRINT_STR ['b']]⟩
        (.SP_PFS_OK { SafePrintFormatInfo.initial with arg_index := 0 })
        ⟨['{', '}', ' ', '{', '2', '}'], [' ', '{', '2', '}'], SafePrintStdOut, 0, 0, 1,
          [.SAFE_PRINT_STR ['a'], .SAFE_PRINT_STR ['b']]⟩ (by decide) (by decide)).2.2 _ rfl).2.1⟩,
    C24_argument_index_invariant.2.2.2 safe_print_convert_double_unused SafePrintStdOut
      ['{', '}', ' ', '{', '2', '}'] [.SAFE_PRINT_STR ['a'], .SAFE_PRINT_STR ['b']]
      ⟨3, ⟨['{', '}', ' ', '{', '2', '}'], [], ⟨['a', ' ', 'b'], none⟩, 3, 0, 1,
        [.SAFE_PRINT_STR ['a'], .SAFE_PRINT_STR ['b']]⟩⟩ (by decide) (by decide)⟩

/-- C25 (base range), evaluated. The parser stores the number of `base(n)`
without a range test (`info.base = token.number`), where the positional index
is tested before it is stored. For every numeric literal `n` below 2^31 and
a context with an argument left, the directive `{base(n)}` returns
`SP_PFS_OK` with the base `n`. For every `n` from 37 on, the radix
`SAFE_PRINT_BASE(n)` is `n`, and the remainder of the argument `n - 1`, the
index the integer conversion reads the digit table at, is `n - 1`, beyond the
36 entries of the table. The directives `{base(99)}` and `{base(1)}` return
`SP_PFS_OK` with the bases 99 and 1; with the base 99 the remainder 98 of the
argument 98 lies beyond the table, and with the base 1 the conversion of 5
fills its buffer with 128 digits `0`. -/
theorem C25_base_is_stored_without_a_range_test :
    (∀ (digits fs rest : List Char) (file : SafePrintFileType) (w e ci : Int)
        (args : List SafePrintFormatArg),
      literal_digits digits = true → literal_value digits 0 < 2147483648 →
      ci ≠ args.length →
      safe_print_parse_format_specifier
          ⟨fs, directive_text [.base digits] ++ rest, file, w, e, ci, args⟩ =
        .done (.SP_PFS_OK
            { SafePrintFormatInfo.initial with
              arg_index := ci, base := (literal_value digits 0 : Int) },
          ⟨fs, rest, file, w, e, wrapS32 (ci + 1), args⟩)) ∧
    (∀ n : Nat, 37 ≤ n → n < 2147483648 →
      wrapU64 (SAFE_PRINT_BASE n) = n ∧
        ¬ ((n - 1) % wrapU64 (SAFE_PRINT_BASE n) < SafePrintCharacterLookup.length)) ∧
    safe_print_parse_format_specifier
        ⟨[], ['{', 'b', 'a', 's', 'e', '(', '9', '9', ')', '}'], SafePrintStdOut, 0, 0, 0,
          [.SAFE_PRINT_I32 98]⟩ =
      .done (.SP_PFS_OK { SafePrintFormatInfo.initial with arg_index := 0, base := 99 },
        ⟨[], [], SafePrintStdOut, 0, 0, 1, [.SAFE_PRINT_I32 98]⟩) ∧
    safe_print_parse_format_specifier
        ⟨[], ['{', 'b', 'a', 's', 'e', '(', '1', ')', '}'], SafePrintStdOut, 0, 0, 0,
          [.SAFE_PRINT_I32 5]⟩ =
      .done (.SP_PFS_OK { SafePrintFormatInfo.initial with arg_index := 0, base := 1 },
        ⟨[], [], SafePrintStdOut, 0, 0, 1, [.SAFE_PRINT_I32 5]⟩) ∧
    ¬ (98 % wrapU64 (SAFE_PRINT_BASE 99) < SafePrintCharacterLookup.length) ∧
    (safe_print_convert_signed_to_string 128 5 (SAFE_PRINT_BASE 1) false false).data =
      List.replicate 128 '0' := by
  refine ⟨?_, ?_, by decide, by decide, by decide, by decide⟩
  · intro digits fs rest file w e ci args hdigits h31 hci
    rw [safe_print_parse_format_specifier_directive [.base digits] fs rest file w e ci args
      (by simp) (by
        intro option hmem
        rw [List.mem_singleton] at hmem
        rw [hmem]
        exact hdigits)]
    have hw : wrapS32 (literal_value digits 0) = literal_value digits 0 :=
      wrapS32_of_range _ (by omega) (by omega)
    have hci1 : ¬ (ci = ((args.length : Nat) : Int)) := hci
    simp only [List.foldl_cons, List.foldl_nil]
    rw [SafePrintOption.store]
    simp only [safe_print_parse_format_close, SafePrintContext.arg_count, SafePrintFormatInfo.initial,
      ne_eq, not_true_eq_false, if_false, if_true, hw, hci1]
  · intro n h37 h31
    have hbase : SAFE_PRINT_BASE (n : Int) = n := by
      unfold SAFE_PRINT_BASE
      rw [if_pos (by omega)]
    have hw : wrapU64 (SAFE_PRINT_BASE (n : Int)) = n := by
      rw [hbase, wrapU64_of_range _ (by omega) (by omega)]
      simp
    have hlen : SafePrintCharacterLookup.length = 36 := by decide
    refine ⟨hw, ?_⟩
    rw [hw, hlen, Nat.mod_eq_of_lt (by omega)]
    omega

/-- C26 (keywords), as amended: the keywords are matched exactly, in
lowercase. For every non-empty run of letters `word` that is followed by a
character other than a letter (or by the end of the template),
`safe_print_next_token` returns one token that holds the run, moves the
cursor behind it, and gives the token the kind `keyword_kind word`: the kind
of the keyword when `word` is one of the 15 lowercase keywords, the generic
identifier token `SP_FT_STRING` for every other run; a run with an uppercase
letter is never a keyword. -/
theorem C26_keywords_are_matched_exactly (word rest fs : List Char) (file : SafePrintFileType)
    (w e ci : Int) (args : List SafePrintFormatArg) (hne : word ≠ [])
    (hword : word.all safe_print_is_letter = true)
    (hrest : safe_print_is_letter (rest.headD NUL) = false) :
    safe_print_next_token ⟨fs, word ++ rest, file, w, e, ci, args⟩ =
        (⟨keyword_kind word, 0, word, true⟩, ⟨fs, rest, file, w, e, ci, args⟩) ∧
      (word.any Char.isUpper = true → keyword_kind word = .SP_FT_STRING) := by
  refine ⟨?_, keyword_kind_upper word⟩
  unfold safe_print_next_token
  simp only [safe_print_next_token_at_word word rest hne hword hrest]

/-- C26 as amended, at the runs `hex` and `HEX` in front of a closing
brace. -/
theorem C26_keywords_are_matched_exactly_witness :
    safe_print_next_token ⟨[], ['h', 'e', 'x'] ++ ['}'], SafePrintStdOut, 0, 0, 0, []⟩ =
        (⟨.SP_FT_BASE_HEX, 0, ['h', 'e', 'x'], true⟩, ⟨[], ['}'], SafePrintStdOut, 0, 0, 0, []⟩) ∧
    safe_print_next_token ⟨[], ['H', 'E', 'X'] ++ ['}'], SafePrintStdOut, 0, 0, 0, []⟩ =
        (⟨.SP_FT_STRING, 0, ['H', 'E', 'X'], true⟩, ⟨[], ['}'], SafePrintStdOut, 0, 0, 0, []⟩) :=
  ⟨(C26_keywords_are_matched_exactly ['h', 'e', 'x'] ['}'] [] SafePrintStdOut 0 0 0 []
      (by decide) (by decide) (by decide)).1,
    (C26_keywords_are_matched_exactly ['H', 'E', 'X'] ['}'] [] SafePrintStdOut 0 0 0 []
      (by decide) (by decide) (by decide)).1.trans
      (by rw [(C26_keywords_are_matched_exactly ['H', 'E', 'X'] ['}'] [] SafePrintStdOut 0 0 0 []
        (by decide) (by decide) (by decide)).2 (by decide)])⟩

/-- C26 as stated fails: the spellings `HEX` and `Min` of the claim yield the
generic identifier token, not the token of the keyword, and the directive
`{HEX}` is a parse error. -/
theorem C26_keywords_are_matched_exactly_counterexample :
    (safe_print_next_token ⟨[], ['H', 'E', 'X', '}'], SafePrintStdOut, 0, 0, 0, []⟩).1.kind =
      .SP_FT_STRING ∧
    (safe_print_next_token ⟨[], ['M', 'i', 'n', '('], SafePrintStdOut, 0, 0, 0, []⟩).1.kind =
      .SP_FT_STRING ∧
    (safe_print_next_token ⟨[], ['h', 'e', 'x', '}'], SafePrintStdOut, 0, 0, 0, []⟩).1.kind =
      .SP_FT_BASE_HEX ∧
    safe_print_parse_format_specifier
        ⟨[], ['{', 'H', 'E', 'X', '}'], SafePrintStdOut, 0, 0, 0, [.SAFE_PRINT_I32 255]⟩ =
      .done (.SP_PFS_ERROR,
        ⟨[], ['}'], SafePrintStdOut, 0, SP_ERROR_UNKNOWN_FORMAT_SPECIFIER, 0,
          [.SAFE_PRINT_I32 255]⟩) := by
  decide

/-- C27 (end-of-input token), evaluated. `safe_print_next_token` never returns
`SP_FT_END_OF_INPUT`, whatever the context: the loop `while (context->fmt[0])`
ends at the terminator before the `case 0` of the switch can be entered. When
nothing or only whitespace remains (any text filtered down to its blanks,
newlines, carriage returns and tabs), the token is `SP_FT_UNKOWN`, the cursor
stands at the end, and a repeated call returns `SP_FT_UNKOWN` again without
moving the cursor. In the parser the template `{hex:` therefore ends in
`case SP_FT_UNKOWN` with the error -3 recorded, not in
`case SP_FT_END_OF_INPUT` with `SP_ERROR_MISSING_BRACE`. -/
theorem C27_end_of_input_token_is_never_returned :
    (∀ context : SafePrintContext,
      (safe_print_next_token context).1.kind ≠ .SP_FT_END_OF_INPUT) ∧
    (∀ (text fs : List Char) (file : SafePrintFileType) (w e ci : Int)
        (args : List SafePrintFormatArg),
      safe_print_next_token
          ⟨fs, text.filter (fun c => decide (c = ' ' ∨ c = '\n' ∨ c = '\r' ∨ c = '\t')), file, w,
            e, ci, args⟩ =
        (⟨.SP_FT_UNKOWN, 0, [], false⟩, ⟨fs, [], file, w, e, ci, args⟩)) ∧
    (∀ (fs : List Char) (file : SafePrintFileType) (w e ci : Int)
        (args : List SafePrintFormatArg),
      safe_print_next_token ⟨fs, [], file, w, e, ci, args⟩ =
        (⟨.SP_FT_UNKOWN, 0, [], false⟩, ⟨fs, [], file, w, e, ci, args⟩)) ∧
    safe_print_parse_format_specifier
        ⟨[], ['{', 'h', 'e', 'x', ':'], SafePrintStdOut, 0, 0, 0, [.SAFE_PRINT_I32 5]⟩ =
      .done (.SP_PFS_ERROR,
        ⟨[], [], SafePrintStdOut, 0, SP_ERROR_UNKNOWN_FORMAT_SPECIFIER, 0,
          [.SAFE_PRINT_I32 5]⟩) := by
  refine ⟨fun context => safe_print_next_token_at_ne_end context.fmt, ?_, fun _ _ _ _ _ _ => rfl,
    by decide⟩
  intro text fs file w e ci args
  have key : safe_print_next_token_at
      (text.filter (fun c => decide (c = ' ' ∨ c = '\n' ∨ c = '\r' ∨ c = '\t'))) =
      (⟨.SP_FT_UNKOWN, 0, [], false⟩, []) := by
    induction text with
    | nil => rfl
    | cons c text ih =>
      rw [List.filter_cons]
      split
      · rename_i hc
        simp only [decide_eq_true_eq] at hc
        have h1 : c ≠ NUL := by rintro rfl; revert hc; decide
        have h2 : c ≠ '{' := by rintro rfl; revert hc; decide
        have h3 : c ≠ '}' := by rintro rfl; revert hc; decide
        have h4 : c ≠ '(' := by rintro rfl; revert hc; decide
        have h5 : c ≠ ')' := by rintro rfl; revert hc; decide
        rw [safe_print_next_token_at]
        simp only [h1, h2, h3, h4, h5, hc, if_false, if_true]
        exact ih
      · exact ih
  unfold safe_print_next_token
  simp only [key]

/-- C28 (whitespace inside a directive), evaluated with one argument. Between
the tokens of a directive with options the tokenizer skips whitespace:
`{ hex : min ( 3 ) }` parses like `{hex:min(3)}`. The test for the empty
directive (`context->fmt[0]` against the closing brace) looks at the raw character behind the
opening brace: on `{ }` the parser enters the option loop, takes the closing
brace for the option token, reads the next token behind the directive and
fails with `SP_ERROR_MISSING_BRACE` recorded, where `{}` returns `SP_PFS_OK`
with the all-default format info bound to the sequential argument; the call
on `{ }` returns -3 and writes nothing. On `{ }}` the parser returns
`SP_PFS_OK` and consumes both closing braces. -/
theorem C28_blank_in_the_empty_directive_is_an_error :
    safe_print_parse_format_specifier
        ⟨[], ['{', '}'], SafePrintStdOut, 0, 0, 0, [.SAFE_PRINT_STR ['a']]⟩ =
      .done (.SP_PFS_OK { SafePrintFormatInfo.initial with arg_index := 0 },
        ⟨[], [], SafePrintStdOut, 0, 0, 1, [.SAFE_PRINT_STR ['a']]⟩) ∧
    safe_print_parse_format_specifier
        ⟨[], ['{', ' ', '}'], SafePrintStdOut, 0, 0, 0, [.SAFE_PRINT_STR ['a']]⟩ =
      .done (.SP_PFS_ERROR,
        ⟨[], [], SafePrintStdOut, 0, SP_ERROR_MISSING_BRACE, 0, [.SAFE_PRINT_STR ['a']]⟩) ∧
    safe_print_parse_format_specifier
        ⟨[], ['{', '\t', '}'], SafePrintStdOut, 0, 0, 0, [.SAFE_PRINT_STR ['a']]⟩ =
      .done (.SP_PFS_ERROR,
        ⟨[], [], SafePrintStdOut, 0, SP_ERROR_MISSING_BRACE, 0, [.SAFE_PRINT_STR ['a']]⟩) ∧
    safe_print_implementation safe_print_convert_double_unused SafePrintStdOut ['{', ' ', '}']
        [.SAFE_PRINT_STR ['a']] =
      .done ⟨SP_ERROR_UNKNOWN_FORMAT_SPECIFIER,
        ⟨['{', ' ', '}'], [], SafePrintStdOut, 0, SP_ERROR_MISSING_BRACE, 0,
          [.SAFE_PRINT_STR ['a']]⟩⟩ ∧
    safe_print_parse_format_specifier
        ⟨[], ['{', ' ', '}', '}'], SafePrintStdOut, 0, 0, 0, [.SAFE_PRINT_STR ['a']]⟩ =
      .done (.SP_PFS_OK { SafePrintFormatInfo.initial with arg_index := 0 },
        ⟨[], [], SafePrintStdOut, 0, 0, 1, [.SAFE_PRINT_STR ['a']]⟩) ∧
    safe_print_parse_format_specifier
        ⟨[], ['{', ' ', 'h', 'e', 'x', ' ', ':', '\n', 'm', 'i', 'n', ' ', '(', '\t', '3', ' ',
          ')', ' ', '}'], SafePrintStdOut, 0, 0, 0, [.SAFE_PRINT_STR ['a']]⟩ =
      safe_print_parse_format_specifier
        ⟨[], ['{', 'h', 'e', 'x', ':', 'm', 'i', 'n', '(', '3', ')', '}'], SafePrintStdOut, 0,
          0, 0, [.SAFE_PRINT_STR ['a']]⟩ ∧
    safe_print_parse_format_specifier
        ⟨[], ['{', 'h', 'e', 'x', ':', 'm', 'i', 'n', '(', '3', ')', '}'], SafePrintStdOut, 0,
          0, 0, [.SAFE_PRINT_STR ['a']]⟩ =
      .done (.SP_PFS_OK { SafePrintFormatInfo.initial with arg_index := 0, base := 16, min := 3 },
        ⟨[], [], SafePrintStdOut, 0, 0, 1, [.SAFE_PRINT_STR ['a']]⟩) := by
  decide

/-- C30 (signed conversion is a sign prefix on the unsigned conversion). For
every signed 64-bit value `v` (the minimum included, whose magnitude 2^63 is
its negation modulo 2^64), every base within 2..36, either case and a
128-character buffer, the string that `safe_print_convert_signed_to_string`
returns is a prefix followed by exactly the string that
`safe_print_convert_unsigned_to_string` returns for `|v|`; the prefix is `-`
when `v < 0`, `+` when `v ≥ 0` and `keep_sign` is set, and empty otherwise.
The length fields agree with that, the digits are at most 64 entries of the
digit table, and digits and prefix fit the buffer. -/
theorem C30_signed_conversion_is_sign_then_unsigned (v : Int) (base : Int) (uppercase keep_sign : Bool)
    (hlo : -9223372036854775808 ≤ v) (hhi : v < 9223372036854775808) (hb : 2 ≤ base)
    (hb36 : base ≤ 36) :
    (safe_print_convert_signed_to_string 128 v base uppercase keep_sign).data =
        (if v < 0 then ['-'] else if keep_sign then ['+'] else []) ++
          (safe_print_convert_unsigned_to_string 128 v.natAbs base uppercase).data ∧
      (safe_print_convert_signed_to_string 128 v base uppercase keep_sign).length =
        ((if v < 0 then ['-'] else if keep_sign then ['+'] else [] : List Char).length : Int) +
          (safe_print_convert_unsigned_to_string 128 v.natAbs base uppercase).length ∧
      (safe_print_convert_signed_to_string 128 v base uppercase keep_sign).text =
        (if v < 0 then ['-'] else if keep_sign then ['+'] else []) ++
          (safe_print_convert_unsigned_to_string 128 v.natAbs base uppercase).text ∧
      (safe_print_convert_unsigned_to_string 128 v.natAbs base uppercase).data.length ≤ 64 ∧
      ∀ c ∈ (safe_print_convert_unsigned_to_string 128 v.natAbs base uppercase).data,
        c ∈ (if uppercase then SafePrintCharacterLookupUppercase
          else SafePrintCharacterLookup) := by
  have hnum : (if v < 0 then wrapU64 (-v) else wrapU64 v) = v.natAbs := by
    split
    · unfold wrapU64
      rw [Int.emod_eq_of_lt (by omega) (by omega)]
      omega
    · unfold wrapU64
      rw [Int.emod_eq_of_lt (by omega) (by omega)]
      omega
  have hbase : wrapU64 base = base.toNat := by
    unfold wrapU64
    rw [Int.emod_eq_of_lt (by omega) (by omega)]
  have hb2 : 2 ≤ base.toNat := by omega
  have hpow : v.natAbs < base.toNat ^ 64 := by
    have h1 : v.natAbs < 2 ^ 64 := by
      have : (2 : Nat) ^ 64 = 18446744073709551616 := by norm_num
      omega
    exact lt_of_lt_of_le h1 (Nat.pow_le_pow_left hb2 64)
  have hlen := safe_print_convert_digits_length_le
    (if uppercase = true then SafePrintCharacterLookupUppercase else SafePrintCharacterLookup)
    base.toNat hb2 (128 - 1) v.natAbs [] 64 (by omega) hpow
  have hsize : base.toNat ≤
      (if uppercase = true then SafePrintCharacterLookupUppercase
        else SafePrintCharacterLookup).length := by
    have h1 : SafePrintCharacterLookupUppercase.length = 36 := by decide
    have h2 : SafePrintCharacterLookup.length = 36 := by decide
    split
    · rw [h1]; omega
    · rw [h2]; omega
  have hmem := safe_print_convert_digits_mem
    (if uppercase = true then SafePrintCharacterLookupUppercase else SafePrintCharacterLookup)
    base.toNat (by omega) hsize (128 - 1) v.natAbs []
  simp only [safe_print_convert_signed_to_string, safe_print_convert_unsigned_to_string, hnum,
    hbase, SafePrintStringRef.text]
  simp only [List.length_nil, zero_add] at hlen
  refine ⟨?_, ?_, ?_, hlen, fun c hc => ?_⟩
  · by_cases hneg : v < 0
    · simp [hneg]
    · cases keep_sign <;> simp [hneg]
  · by_cases hneg : v < 0
    · simp [hneg]
      omega
    · cases keep_sign
      · simp [hneg]
      · simp [hneg]
        omega
  · by_cases hneg : v < 0
    · simp [hneg]
    · cases keep_sign <;> simp [hneg]
  · rcases hmem c hc with h | h
    · exact h
    · simp at h

/-- C30, at the minimum signed 64-bit value in base 16, uppercase, and at 255
in base 2 with `keep_sign`. -/
theorem C30_signed_conversion_is_sign_then_unsigned_witness :
    (safe_print_convert_signed_to_string 128 (-9223372036854775808) 16 true false).data =
        (if (-9223372036854775808 : Int) < 0 then ['-'] else if false then ['+'] else []) ++
          (safe_print_convert_unsigned_to_string 128
            (-9223372036854775808 : Int).natAbs 16 true).data ∧
    (safe_print_convert_signed_to_string 128 255 2 false true).text =
        (if (255 : Int) < 0 then ['-'] else if true then ['+'] else []) ++
          (safe_print_convert_unsigned_to_string 128 (255 : Int).natAbs 2 false).text :=
  ⟨(C30_signed_conversion_is_sign_then_unsigned (-9223372036854775808) 16 true false (by decide)
      (by decide) (by decide) (by decide)).1,
    (C30_signed_conversion_is_sign_then_unsigned 255 2 false true (by decide) (by decide) (by decide)
      (by decide)).2.2.1⟩

/-- C31 (canonical digits). For every unsigned 64-bit value `v`, every base `b`
within 2..36, either case and a 128-character buffer,
`safe_print_convert_unsigned_to_string` returns `"0"` when `v = 0`; in general
it returns a string whose characters are digit glyphs with values `digits`,
most significant first, where `digits` has one entry when `v = 0` and
`floor(log_b v) + 1` entries otherwise, every entry is below `b`, the leading
entry is non-zero when `v ≠ 0`, and the entries denote `v` in base `b`. The
length field counts exactly these characters. -/
theorem C31_canonical_digits (v b : Nat) (uppercase : Bool) (hv : v < 18446744073709551616)
    (hb : 2 ≤ b) (hb36 : b ≤ 36) :
    (v = 0 → (safe_print_convert_unsigned_to_string 128 v b uppercase).text = ['0']) ∧
      ∃ digits : List Nat,
        (safe_print_convert_unsigned_to_string 128 v b uppercase).text.map numeral_digit_value =
            digits.map some ∧
          (safe_print_convert_unsigned_to_string 128 v b uppercase).length = digits.length ∧
          digits.length = (if v = 0 then 1 else Nat.log b v + 1) ∧
          (∀ d ∈ digits, d < b) ∧
          (v ≠ 0 → ∃ d rest, digits = d :: rest ∧ d ≠ 0) ∧
          Nat.ofDigits b digits.reverse = v := by
  have hbase : wrapU64 (b : Int) = b := by
    rw [wrapU64_of_range _ (by omega) (by omega)]; simp
  have hvalue : ∀ r, r < b →
      numeral_digit_value (safe_print_lookup
        (if uppercase = true then SafePrintCharacterLookupUppercase
          else SafePrintCharacterLookup) r) = some r := by
    intro r hr
    cases uppercase
    · exact numeral_digit_value_lookup_lower r (by omega)
    · exact numeral_digit_value_lookup_upper r (by omega)
  by_cases h0 : v = 0
  · subst h0
    refine ⟨fun _ => ?_, [0], ?_, ?_, ?_, ?_, ?_, ?_⟩
    · cases uppercase <;>
        simp [safe_print_convert_unsigned_to_string, SafePrintStringRef.text, hbase,
          safe_print_convert_digits] <;> rfl
    · cases uppercase <;>
        simp [safe_print_convert_unsigned_to_string, SafePrintStringRef.text, hbase,
          safe_print_convert_digits] <;> rfl
    · simp [safe_print_convert_unsigned_to_string, hbase, safe_print_convert_digits]
    · simp
    · intro d hd
      simp at hd
      omega
    · intro h; exact absurd rfl h
    · simp
  · have hpow : v < b ^ (127 + 1) := by
      calc v < 2 ^ 64 := hv
        _ ≤ 2 ^ 128 := by norm_num
        _ ≤ b ^ (127 + 1) := Nat.pow_le_pow_left hb _
    have hd := safe_print_convert_digits_eq_digits
      (if uppercase = true then SafePrintCharacterLookupUppercase else SafePrintCharacterLookup)
      b hb 127 v [] h0 hpow
    refine ⟨fun h => absurd h h0, (Nat.digits b v).reverse, ?_, ?_, ?_, ?_, ?_, ?_⟩
    · simp only [safe_print_convert_unsigned_to_string, SafePrintStringRef.text, hbase,
        Nat.add_one_sub_one, Int.toNat_ofNat, List.take_length, hd, List.append_nil,
        List.map_map]
      apply List.map_congr_left
      intro r hr
      exact hvalue r (Nat.digits_lt_base (by omega) (List.mem_reverse.mp hr))
    · simp only [safe_print_convert_unsigned_to_string, hbase, Nat.add_one_sub_one, hd,
        List.append_nil, List.length_map]
    · rw [List.length_reverse, Nat.digits_len b v (by omega) h0, if_neg h0]
    · intro d hd1
      exact Nat.digits_lt_base (by omega) (List.mem_reverse.mp hd1)
    · intro _
      have hne : Nat.digits b v ≠ [] := Nat.digits_ne_nil_iff_ne_zero.mpr h0
      have hlast := Nat.getLast_digit_ne_zero b h0
      refine ⟨(Nat.digits b v).getLast hne, (Nat.digits b v).dropLast.reverse, ?_, hlast⟩
      conv_lhs => rw [← List.dropLast_append_getLast hne]
      simp
    · rw [List.reverse_reverse, Nat.ofDigits_digits]

/-- C31, at the largest unsigned 64-bit value in base 36 and at 0 in base 2. -/
theorem C31_canonical_digits_witness :
    (∃ digits : List Nat,
        (safe_print_convert_unsigned_to_string 128 18446744073709551615 (36 : Nat)
            false).text.map numeral_digit_value = digits.map some ∧
          (safe_print_convert_unsigned_to_string 128 18446744073709551615 (36 : Nat)
            false).length = digits.length ∧
          digits.length = (if 18446744073709551615 = 0 then 1
            else Nat.log 36 18446744073709551615 + 1) ∧
          (∀ d ∈ digits, d < 36) ∧
          (18446744073709551615 ≠ 0 → ∃ d rest, digits = d :: rest ∧ d ≠ 0) ∧
          Nat.ofDigits 36 digits.reverse = 18446744073709551615) ∧
      (safe_print_convert_unsigned_to_string 128 0 (2 : Nat) true).text = ['0'] :=
  ⟨(C31_canonical_digits 18446744073709551615 36 false (by decide) (by decide) (by decide)).2,
    (C31_canonical_digits 0 2 true (by decide) (by decide) (by decide)).1 rfl⟩

/-- C32 (argument capture maps every type to the matching category). With
`int` of 4 bytes and `long long` of 8, for `long` of 8 bytes and for `long` of
4 bytes, the category that `SAFE_PRINT_ARG_INDEX` followed by
`TypeLookupTable` selects differs from the matching category for exactly three
of the sixteen supported types: `unsigned int`, `void const*` and `void*`.
Whatever the sizes are, `unsigned int` has the index of `int` and is captured
as a 32-bit signed value, and a void pointer has index 14, where the table
holds the text category, so it is captured as text; the two entries of the
table that hold the opaque address category are beyond every index the macro
produces. -/
theorem C32_unsigned_int_and_void_pointers_are_captured_in_another_category :
    SafePrintCType.all.filter (fun t =>
        decide (safe_print_capture_kind 4 8 8 t ≠ some (matching_category 8 8 t))) =
      [.unsigned_int, .void_const_pointer, .void_pointer] ∧
    SafePrintCType.all.filter (fun t =>
        decide (safe_print_capture_kind 4 4 8 t ≠ some (matching_category 4 8 t))) =
      [.unsigned_int, .void_const_pointer, .void_pointer] ∧
    (∀ sizeof_int sizeof_long sizeof_long_long : Nat,
      safe_print_capture_kind sizeof_int sizeof_long sizeof_long_long .unsigned_int =
          some .SAFE_PRINT_I32 ∧
        safe_print_capture_kind sizeof_int sizeof_long sizeof_long_long .void_const_pointer =
          some .SAFE_PRINT_STR ∧
        safe_print_capture_kind sizeof_int sizeof_long sizeof_long_long .void_pointer =
          some .SAFE_PRINT_STR ∧
        (TypeLookupTable sizeof_int sizeof_long sizeof_long_long).getD SAFE_PRINT_UINT none =
          some .SAFE_PRINT_U32 ∧
        (TypeLookupTable sizeof_int sizeof_long sizeof_long_long).drop 15 =
          [some .SAFE_PRINT_PTR, some .SAFE_PRINT_PTR]) ∧
    (∀ t : SafePrintCType, t ∈ SafePrintCType.all ∧ SAFE_PRINT_ARG_INDEX t ≤ 14) := by
  refine ⟨by decide, by decide, fun _ _ _ => ⟨rfl, rfl, rfl, rfl, rfl⟩, fun t => ?_⟩
  cases t <;> decide

/-- C33 (the cursor stays inside the template), evaluated. After every call of
`safe_print_next_token` the cursor is on a suffix of the text it started from,
so the tokenizer never moves beyond the terminator, and whenever
`safe_print_parse_format_specifier` returns in the embedding, the cursor is on
a suffix as well. The `fill` option is the exception: it stores the raw
character at the cursor and steps over it (`context->fmt += 1`) without looking
for the terminator. On the unterminated directives `{fill(` and `{fill` (and
`{hex:fill(`) the character stored is the terminator and the cursor is moved
one beyond it, where the parser goes on to read the next token; the call
`safe_print_implementation` on the template `{fill(` ends there. With any
character behind `fill(` the cursor stays inside (`{fill(*` is a parse
error at the end of the template). -/
theorem C33_fill_at_the_end_moves_the_cursor_past_the_terminator :
    (∀ context : SafePrintContext,
      (safe_print_next_token context).2.fmt <:+ context.fmt) ∧
    (∀ context : SafePrintContext,
      safe_print_parse_format_specifier context ≠ .out_of_fuel ∧
        ∀ status context1,
          safe_print_parse_format_specifier context = .done (status, context1) →
          context1.fmt <:+ context.fmt) ∧
    safe_print_parse_format_specifier
        ⟨[], ['{', 'f', 'i', 'l', 'l', '('], SafePrintStdOut, 0, 0, 0, [.SAFE_PRINT_STR ['a']]⟩ =
      .past_terminator ∧
    safe_print_parse_format_specifier
        ⟨[], ['{', 'f', 'i', 'l', 'l'], SafePrintStdOut, 0, 0, 0, [.SAFE_PRINT_STR ['a']]⟩ =
      .past_terminator ∧
    safe_print_parse_format_specifier
        ⟨[], ['{', 'h', 'e', 'x', ':', 'f', 'i', 'l', 'l', '('], SafePrintStdOut, 0, 0, 0,
          [.SAFE_PRINT_STR ['a']]⟩ =
      .past_terminator ∧
    safe_print_implementation safe_print_convert_double_unused SafePrintStdOut
        ['{', 'f', 'i', 'l', 'l', '('] [.SAFE_PRINT_STR ['a']] =
      .past_terminator ∧
    safe_print_parse_format_specifier
        ⟨[], ['{', 'f', 'i', 'l', 'l', '(', '*'], SafePrintStdOut, 0, 0, 0,
          [.SAFE_PRINT_STR ['a']]⟩ =
      .done (.SP_PFS_ERROR,
        ⟨[], [], SafePrintStdOut, 0, SP_ERROR_MISSING_BRACE, 0, [.SAFE_PRINT_STR ['a']]⟩) := by
  refine ⟨safe_print_next_token_suffix, fun context =>
    ⟨(safe_print_parse_format_specifier_cursor context).1, fun status context1 h =>
      ((safe_print_parse_format_specifier_cursor context).2 status context1 h).1⟩,
    by decide, by decide, by decide, by decide, by decide⟩

/-- C34 (the exponent text fits its 4-character buffer), evaluated. For the
scientific rendering the claim holds: whenever the digit extractor returns a
decimal position for a finite number, the text that the signed conversion
produces for the exponent `pos - 1`, a sign and the decimal digits, has at most
4 characters. For the hexadecimal rendering the exponent handed to the signed
conversion lies within -1022..1024 and its text has at most 4 characters
exactly when the exponent is within -999..999: for a binary exponent of 1000
or more, for -1000 and below, and for every denormal (exponent -1022), the
text is a sign and four digits, five characters for the 4-character
`exp_buffer`. At the bit patterns of 2^1000 and of the smallest denormal the
renderings are `0x1.0p+1000` and `0x0.0p-1022`. -/
theorem C34_hex_exponent_text_has_five_characters :
    (∀ (value frac_digits : Nat) (r : StbspRealString),
      stbsp__real_to_str value frac_digits = some r → r.decimal_pos ≠ STBSP__SPECIAL →
      (safe_print_convert_signed_to_string 4 (wrapS32 (r.decimal_pos - 1)) 10 false
        true).data.length ≤ 4) ∧
    (∀ (number : Nat) (uppercase : Bool),
      -1022 ≤ safe_print_convert_double_hex_expo number ∧
        safe_print_convert_double_hex_expo number ≤ 1024 ∧
        ((safe_print_convert_signed_to_string 4 (safe_print_convert_double_hex_expo number) 10
            uppercase true).data.length ≤ 4 ↔
          (-1000 < safe_print_convert_double_hex_expo number ∧
            safe_print_convert_double_hex_expo number < 1000))) ∧
    safe_print_convert_double_hex_expo 9110782046170513408 = 1000 ∧
    safe_print_convert_signed_to_string 4 1000 10 false true =
      ⟨['+', '1', '0', '0', '0'], 5⟩ ∧
    safe_print_convert_double_hex_expo 1 = -1022 ∧
    safe_print_convert_signed_to_string 4 (-1022) 10 false true =
      ⟨['-', '1', '0', '2', '2'], 5⟩ ∧
    safe_print_convert_double_to_string 512 9110782046170513408 1 false true false false =
      some ⟨['0', 'x', '1', '.', '0', 'p', '+', '1', '0', '0', '0'], 11⟩ ∧
    safe_print_convert_double_to_string 512 1 1 false true false false =
      some ⟨['0', 'x', '0', '.', '0', 'p', '-', '1', '0', '2', '2'], 11⟩ := by
  refine ⟨fun value frac_digits r h hspecial => ?_, fun number uppercase => ?_, by decide,
    by decide, by decide, by decide, by decide!, by decide!⟩
  · rcases stbsp__real_to_str_decimal_pos value frac_digits r h with h1 | h1
    · exact absurd h1.2 hspecial
    · replace h1 := h1.2
      rw [wrapS32_of_range _ (by omega) (by omega)]
      exact ((safe_print_convert_signed_to_string_exponent (r.decimal_pos - 1) false (by omega)
        (by omega)).2).mpr (by omega)
  · have hr := safe_print_convert_double_hex_expo_range number
    exact ⟨hr.1, hr.2, (safe_print_convert_signed_to_string_exponent _ uppercase (by omega)
      (by omega)).2⟩

/-- C36 (special values). For every 64-bit pattern whose exponent field is all
ones, every precision, every setting of the scientific, hex and uppercase
flags and a buffer of at least 4 characters,
`safe_print_convert_double_to_string` yields `NaN` when the mantissa is
non-zero and `Inf` when it is zero, preceded by `-` when the sign bit is set,
by `+` when it is clear and `keep_sign` is requested, and by nothing
otherwise; the length field counts exactly these characters. -/
theorem C36_special_values (size number : Nat) (precision : Int)
    (scientific hex uppercase keep_sign : Bool)
    (hspecial : number % 18446744073709551616 / 4503599627370496 % 2048 = 2047)
    (hsize : 4 ≤ size) :
    safe_print_convert_double_to_string size number precision scientific hex uppercase
        keep_sign =
      some ⟨(if number % 18446744073709551616 / 9223372036854775808 ≠ 0 then ['-']
            else if keep_sign then ['+'] else []) ++
          (if number % 18446744073709551616 % 4503599627370496 ≠ 0 then ['N', 'a', 'N']
            else ['I', 'n', 'f']),
        (((if number % 18446744073709551616 / 9223372036854775808 ≠ 0 then ['-']
            else if keep_sign then ['+'] else []) ++
          (if number % 18446744073709551616 % 4503599627370496 ≠ 0 then ['N', 'a', 'N']
            else ['I', 'n', 'f']) : List Char).length : Int)⟩ := by
  have hr : stbsp__real_to_str number (wrapU32 precision) =
      some ⟨if number % 18446744073709551616 % 4503599627370496 ≠ 0 then ['N', 'a', 'N']
          else ['I', 'n', 'f'], 3, STBSP__SPECIAL,
        ((number % 18446744073709551616 / 9223372036854775808 : Nat) : Int)⟩ := by
    unfold stbsp__real_to_str
    simp only
    rw [if_pos (by rw [hspecial]; rfl)]
  have hsigntext : (if ((number % 18446744073709551616 / 9223372036854775808 : Nat) : Int) ≠ 0
        then ['-'] else if keep_sign = true then ['+'] else []) =
      (if number % 18446744073709551616 / 9223372036854775808 ≠ 0 then ['-']
        else if keep_sign then ['+'] else []) := by
    by_cases h0 : number % 18446744073709551616 / 9223372036854775808 = 0
    · rw [h0]
      simp
    · have : ((number % 18446744073709551616 / 9223372036854775808 : Nat) : Int) ≠ 0 := by
        exact_mod_cast h0
      rw [if_pos this, if_pos h0]
  have hlen : ((if number % 18446744073709551616 / 9223372036854775808 ≠ 0 then ['-']
        else if keep_sign then ['+'] else []) ++
      (if number % 18446744073709551616 % 4503599627370496 ≠ 0 then ['N', 'a', 'N']
        else ['I', 'n', 'f']) : List Char).length ≤ size := by
    have h1 : (if number % 18446744073709551616 / 9223372036854775808 ≠ 0 then ['-']
        else if keep_sign then ['+'] else [] : List Char).length ≤ 1 := by
      split
      · simp
      · split <;> simp
    have h2 : (if number % 18446744073709551616 % 4503599627370496 ≠ 0 then ['N', 'a', 'N']
        else ['I', 'n', 'f'] : List Char).length = 3 := by
      split <;> rfl
    rw [List.length_append, h2]
    omega
  have hchars : ∀ (str : List Char), str.length = 3 →
      [str.getD 0 NUL, str.getD 1 NUL, str.getD 2 NUL] = str := by
    intro str h
    match str, h with
    | [a, b, c], _ => rfl
  have hstart : (if number % 18446744073709551616 % 4503599627370496 ≠ 0 then ['N', 'a', 'N']
      else ['I', 'n', 'f'] : List Char).length = 3 := by
    split <;> rfl
  unfold safe_print_convert_double_to_string
  simp only [hr, bind, Option.bind, if_true, hsigntext, hchars _ hstart]
  rw [if_pos hlen]

/-- C36, at negative infinity (bit pattern 0xFFF0000000000000) with a negative
precision and the hex flag, and at a NaN (0x7FF8000000000001) with
`keep_sign` in scientific notation. -/
theorem C36_special_values_witness :
    safe_print_convert_double_to_string 512 18442240474082181120 (-1) false true false false =
        some ⟨['-', 'I', 'n', 'f'], 4⟩ ∧
      safe_print_convert_double_to_string 4 9221120237041090561 6 true false true true =
        some ⟨['+', 'N', 'a', 'N'], 4⟩ :=
  ⟨C36_special_values 512 18442240474082181120 (-1) false true false false (by decide)
      (by decide),
    C36_special_values 4 9221120237041090561 6 true false true true (by decide) (by decide)⟩

/-- C37 (fixed-notation layout). For every finite double, given as its 64-bit
pattern, every precision `q ≥ 0` (so in particular `q ≥ 1`) and a buffer of at
least `q + 313` characters: given the digit string and the decimal position
`p` returned by the digit extractor, the fixed rendering of
`safe_print_convert_double_to_string` is the sign followed by the reference
layout: the integer part (the first `p` digits, right-padded with zeros to
exactly `p` characters, or a single `0` when `p ≤ 0`), then `.`, then exactly
`q` fraction digits (`min(-p, q)` leading zeros when `p < 0`, then the
remaining digits of the string, cut or zero-padded to `q` in total). -/
theorem C37_fixed_notation_layout (size number : Nat) (precision : Int)
    (uppercase keep_sign : Bool) (r : StbspRealString)
    (hr : stbsp__real_to_str number (wrapU32 precision) = some r)
    (hfinite : number % 18446744073709551616 / 4503599627370496 % 2048 ≠ 2047)
    (hprec : 0 ≤ precision) (hsize : precision + 313 ≤ size) :
    ∃ text : List Char,
      safe_print_convert_double_to_string size number precision false false uppercase
          keep_sign = some ⟨text, text.length⟩ ∧
        text =
          (if number % 18446744073709551616 / 9223372036854775808 ≠ 0 then ['-']
            else if keep_sign then ['+'] else []) ++
          fixed_notation_reference r.start r.decimal_pos precision.toNat ∧
        (fixed_notation_reference r.start r.decimal_pos precision.toNat).length =
          (if r.decimal_pos ≤ 0 then 1 else r.decimal_pos.toNat) + 1 + precision.toNat := by
  have hrange : -323 ≤ r.decimal_pos ∧ r.decimal_pos ≤ 310 := by
    rcases stbsp__real_to_str_decimal_pos number _ r hr with h | h
    · exact absurd h.1 hfinite
    · exact h.2
  have hpos : r.decimal_pos ≠ STBSP__SPECIAL := by
    have hs : STBSP__SPECIAL = 28672 := rfl
    omega
  have hsign := stbsp__real_to_str_sign number _ r hr
  have hlen := stbsp__real_to_str_len number _ r hr
  have hsigntext : (if r.sign ≠ 0 then ['-'] else if keep_sign = true then ['+'] else []) =
      (if number % 18446744073709551616 / 9223372036854775808 ≠ 0 then ['-']
        else if keep_sign then ['+'] else []) := by
    rw [hsign]
    by_cases h0 : number % 18446744073709551616 / 9223372036854775808 = 0
    · rw [h0]
      simp
    · have : ((number % 18446744073709551616 / 9223372036854775808 : Nat) : Int) ≠ 0 := by
        exact_mod_cast h0
      rw [if_pos this, if_pos h0]
  have hs : (if number % 18446744073709551616 / 9223372036854775808 ≠ 0 then ['-']
      else if keep_sign then ['+'] else [] : List Char).length ≤ 1 := by
    split
    · simp
    · split <;> simp
  have hreflen : (fixed_notation_reference r.start r.decimal_pos precision.toNat).length =
      (if r.decimal_pos ≤ 0 then 1 else r.decimal_pos.toNat) + 1 + precision.toNat := by
    unfold fixed_notation_reference cut_or_zero_pad
    simp only [List.length_append, List.length_take, List.length_replicate, List.length_cons,
      List.length_nil]
    by_cases h0 : r.decimal_pos ≤ 0
    · simp only [h0, if_true, List.length_cons, List.length_nil]
      omega
    · simp only [h0, if_false, List.length_append, List.length_take, List.length_replicate]
      omega
  have hfit : ((if number % 18446744073709551616 / 9223372036854775808 ≠ 0 then ['-']
        else if keep_sign then ['+'] else []) ++
      fixed_notation_reference r.start r.decimal_pos precision.toNat).length ≤ size := by
    rw [List.length_append, hreflen]
    have hint : (if r.decimal_pos ≤ 0 then 1 else r.decimal_pos.toNat) ≤ 310 := by
      split <;> omega
    omega
  have hl0 : r.decimal_pos = 0 → ∀ buffer : List Char,
      buffer ++ ['0', '.'] ++ r.start.take (min precision.toNat r.len) ++
          List.replicate (precision.toNat - min precision.toNat r.len) '0' =
        buffer ++ fixed_notation_reference r.start r.decimal_pos precision.toNat := by
    intro h0 buffer
    rw [hlen]
    unfold fixed_notation_reference
    simp only
    rw [h0]
    simp only [le_refl, if_true, lt_irrefl, if_false, List.replicate_zero, List.nil_append,
      cut_or_zero_pad_eq]
    simp
  have hl1 : r.decimal_pos > 0 → ∀ buffer : List Char,
      buffer ++ r.start.take (min r.decimal_pos.toNat r.len) ++
          List.replicate (r.decimal_pos.toNat - min r.decimal_pos.toNat r.len) '0' ++ ['.'] ++
          (r.start.drop (min r.decimal_pos.toNat r.len)).take
            (min precision.toNat (r.len - min r.decimal_pos.toNat r.len)) ++
          List.replicate (precision.toNat -
            min precision.toNat (r.len - min r.decimal_pos.toNat r.len)) '0' =
        buffer ++ fixed_notation_reference r.start r.decimal_pos precision.toNat := by
    intro h1 buffer
    rw [hlen]
    unfold fixed_notation_reference
    simp only
    have h2 : ¬ r.decimal_pos ≤ 0 := by omega
    have h3 : ¬ r.decimal_pos < 0 := by omega
    simp only [h2, h3, if_false, List.replicate_zero, List.nil_append, cut_or_zero_pad_eq,
      List.length_take, List.length_drop]
    by_cases h4 : r.decimal_pos.toNat ≤ r.start.length
    · rw [Nat.min_eq_left h4]
      simp
    · have h5 : r.start.length ≤ r.decimal_pos.toNat := by omega
      rw [Nat.min_eq_right h5, List.take_of_length_le h5,
        List.drop_eq_nil_of_le (Nat.le_refl _), List.drop_eq_nil_of_le h5]
      simp
      omega
  have hl2 : r.decimal_pos < 0 → ∀ buffer : List Char,
      buffer ++ ['0', '.'] ++
          List.replicate (min (-r.decimal_pos).toNat precision.toNat) '0' ++
          r.start.take (min (precision.toNat - min (-r.decimal_pos).toNat precision.toNat)
            r.len) ++
          List.replicate (precision.toNat - min (-r.decimal_pos).toNat precision.toNat -
            min (precision.toNat - min (-r.decimal_pos).toNat precision.toNat) r.len) '0' =
        buffer ++ fixed_notation_reference r.start r.decimal_pos precision.toNat := by
    intro h3 buffer
    rw [hlen]
    unfold fixed_notation_reference
    simp only
    have h2 : r.decimal_pos ≤ 0 := by omega
    simp only [h2, h3, if_true]
    rw [cut_or_zero_pad_zeros _ _ _ (Nat.min_le_right _ _), cut_or_zero_pad_eq]
    simp
  refine ⟨_, ?_, rfl, hreflen⟩
  unfold safe_print_convert_double_to_string
  simp only [hr, bind, Option.some_bind, if_neg hpos, if_neg (not_lt.mpr hprec), hsigntext,
    Bool.false_eq_true, if_false]
  by_cases h0 : r.decimal_pos = 0
  · simp only [if_pos h0, hl0 h0]
    rw [if_pos hfit]
  · by_cases h1 : r.decimal_pos > 0
    · simp only [if_neg h0, if_pos h1, hl1 h1]
      rw [if_pos hfit]
    · simp only [if_neg h0, if_neg h1, hl2 (by omega)]
      rw [if_pos hfit]

/-- C37, at 3.5 with precision 6 (digits `3500`, position 1), at
0.00123390... with precision 4 (digits `12`, position -2) and at 10^21 with
precision 2 and `keep_sign` (digit `1`, position 22). -/
theorem C37_fixed_notation_layout_witness :
    safe_print_convert_double_to_string 512 4615063718147915776 6 false false false false =
        some ⟨['3', '.', '5', '0', '0', '0', '0', '0'], 8⟩ ∧
      safe_print_convert_double_to_string 512 4563333198574741823 4 false false false false =
        some ⟨['0', '.', '0', '0', '1', '2'], 6⟩ ∧
      safe_print_convert_double_to_string 512 4921056587992461136 2 false false false true =
        some ⟨['+', '1', '0', '0', '0', '0', '0', '0', '0', '0', '0', '0', '0', '0', '0', '0', '0',
          '0', '0', '0', '0', '0', '0', '.', '0', '0'], 26⟩ := by
  obtain ⟨text1, h1, ht1, -⟩ := C37_fixed_notation_layout 512 4615063718147915776 6 false false
    ⟨['3', '5', '0', '0'], 4, 1, 0⟩ (by decide!) (by decide) (by decide) (by decide)
  obtain ⟨text2, h2, ht2, -⟩ := C37_fixed_notation_layout 512 4563333198574741823 4 false false
    ⟨['1', '2'], 2, -2, 0⟩ (by decide!) (by decide) (by decide) (by decide)
  obtain ⟨text3, h3, ht3, -⟩ := C37_fixed_notation_layout 512 4921056587992461136 2 false true
    ⟨['1'], 1, 22, 0⟩ (by decide!) (by decide) (by decide) (by decide)
  rw [h1, h2, h3, ht1, ht2, ht3]
  exact ⟨by decide, by decide, by decide⟩

/-- C38 (sink failure), evaluated. With a sink that accepts two characters the
call on the template `abcd` writes `ab`, has counted 2 characters and returns
+1: the failed write sets `context.error` to `sp_true` and the driver, at the
top of its next pass, executes `return context.error`. The value is neither
the accumulated count nor a negative code. The same holds for a failure
inside a directive (`{}{}!` with the texts `ab` and `cd` and a sink that
accepts three characters returns 1 with 3 characters written). On `abc` the
template ends before the flag is looked at and the call returns the count, 2.
In general: a refused character sets the flag to `sp_true`, writes nothing
and does not count; once the flag is set no output function and no rendering
of an argument clears it; and a pass of the loop that starts with the flag
set returns at once with the context as it is, the flag before the
terminator and the count at the terminator. -/
theorem C38_sink_failure_returns_plus_one :
    safe_print_implementation safe_print_convert_double_unused ⟨[], some 2⟩
        ['a', 'b', 'c', 'd'] [] =
      .done ⟨1, ⟨['a', 'b', 'c', 'd'], ['d'], ⟨['a', 'b'], some 2⟩, 2, 1, 0, []⟩⟩ ∧
    safe_print_implementation safe_print_convert_double_unused ⟨[], some 3⟩
        ['{', '}', '{', '}', '!'] [.SAFE_PRINT_STR ['a', 'b'], .SAFE_PRINT_STR ['c', 'd']] =
      .done ⟨1, ⟨['{', '}', '{', '}', '!'], ['!'], ⟨['a', 'b', 'c'], some 3⟩, 3, 1, 2,
        [.SAFE_PRINT_STR ['a', 'b'], .SAFE_PRINT_STR ['c', 'd']]⟩⟩ ∧
    safe_print_implementation safe_print_convert_double_unused ⟨[], some 2⟩
        ['a', 'b', 'c'] [] =
      .done ⟨2, ⟨['a', 'b', 'c'], [], ⟨['a', 'b'], some 2⟩, 2, 1, 0, []⟩⟩ ∧
    sp_true = 1 ∧
    (∀ (context : SafePrintContext) (c : Char), context.file.accepts 1 = 0 →
      safe_print_output_character context c = { context with error := sp_true }) ∧
    (∀ (cvt : SafePrintDoubleConversion) (fuel : Nat) (context : SafePrintContext),
      context.error ≠ 0 →
      (∀ c, (safe_print_output_character context c).error ≠ 0) ∧
        (∀ str length, (safe_print_output_string context str length).error ≠ 0) ∧
        (∀ info, (safe_print_format_arg cvt context info).error ≠ 0) ∧
        safe_print_implementation_loop cvt (fuel + 1) context =
          .done ⟨if context.fmt.headD NUL = NUL then context.written else context.error,
            context⟩) := by
  refine ⟨by decide, by decide, by decide, rfl, fun context c hfull => ?_,
    fun cvt fuel context h => ⟨fun c => safe_print_output_character_sticky _ _ h,
      fun str length => safe_print_output_string_sticky _ _ _ h,
      fun info => safe_print_format_arg_sticky _ _ _ h,
      safe_print_implementation_loop_flag cvt fuel context h⟩⟩
  unfold safe_print_output_character
  rw [if_pos hfull]

/-- C39 (the driver terminates on every template), evaluated. In the
embedding the scanning loop of `safe_print_implementation` is the repetition
of its body, and for every template and every argument list it ends within
length + 1 passes: a pass either returns or leaves the cursor on a proper
suffix of the template, and every call of `safe_print_next_token` and every
returning call of `safe_print_parse_format_specifier` leaves the cursor on a
suffix (a move forward, never backwards). The run ends outside the template in
one case: on a template that ends in `{fill(` or `{fill` the parser steps over
the terminator, and the call, here on `ab{fill(` and on `{fill`, goes on to
read the characters behind the template, where nothing bounds the loop. -/
theorem C39_fill_at_the_end_leaves_the_template :
    (∀ (cvt : SafePrintDoubleConversion) (handle : SafePrintFileType) (fmt : List Char)
        (args : List SafePrintFormatArg),
      safe_print_implementation cvt handle fmt args ≠ .out_of_fuel) ∧
    (∀ (cvt : SafePrintDoubleConversion) (fuel : Nat) (context : SafePrintContext),
      safe_print_implementation_loop cvt (fuel + 1) context =
        match safe_print_implementation_step cvt context with
        | .done (.inl result) => .done result
        | .done (.inr context1) => safe_print_implementation_loop cvt fuel context1
        | .past_terminator => .past_terminator
        | .union_member => .union_member
        | .out_of_fuel => .out_of_fuel) ∧
    (∀ (cvt : SafePrintDoubleConversion) (context : SafePrintContext),
      safe_print_implementation_step cvt context ≠ .out_of_fuel ∧
        ∀ context1, safe_print_implementation_step cvt context = .done (.inr context1) →
          context1.fmt <:+ context.fmt ∧ context1.fmt.length < context.fmt.length) ∧
    (∀ context : SafePrintContext,
      (safe_print_next_token context).2.fmt.length ≤ context.fmt.length ∧
        ∀ status context1,
          safe_print_parse_format_specifier context = .done (status, context1) →
          context1.fmt.length ≤ context.fmt.length) ∧
    safe_print_implementation safe_print_convert_double_unused SafePrintStdOut
        ['a', 'b', '{', 'f', 'i', 'l', 'l', '('] [.SAFE_PRINT_STR ['a']] =
      .past_terminator ∧
    safe_print_implementation_step safe_print_convert_double_unused
        ⟨['{', 'f', 'i', 'l', 'l'], ['{', 'f', 'i', 'l', 'l'], SafePrintStdOut, 0, 0, 0, []⟩ =
      .past_terminator := by
  refine ⟨fun cvt handle fmt args => ?_, safe_print_implementation_loop_step,
    safe_print_implementation_step_cursor, fun context => ⟨?_, fun status context1 h => ?_⟩,
    by decide, by decide⟩
  · unfold safe_print_implementation
    exact safe_print_implementation_loop_fuel cvt _ _ (Nat.lt_succ_self _)
  · exact (safe_print_next_token_suffix context).length_le
  · exact ((safe_print_parse_format_specifier_cursor context).2 status context1 h).1.length_le

end SafePrint
